import Mathlib

/-!
# Arcade Slopes: the sloped-tile collision core

A shallow embedding of the collision core of `phaser-arcade-slopes.js`
(the bundled SAT.js kernel, the tile slope factory's edge pass and its
rectangular builders, the SAT restrainer with its default restraint table, and
the SAT solver: gating, separation, velocity and flags), followed by theorems
about it.

Numbers are exact rationals.  `Number.MAX_VALUE`, which SAT.js uses as its
"no value yet" sentinel, is the largest finite double written as a rational.
A JavaScript `TypeError` (reading a property of `undefined`) is `none`.
The code that keeps the derived arrays of a polygon, which takes square
roots, is also given over any ordered field of numbers with a square root
(`SAT.InPlace`), the real numbers among them.
-/

namespace SAT

/-- The largest finite double, `Number.MAX_VALUE` = (2^53 - 1) * 2^971. -/
def MAX_VALUE : ℚ := (2 ^ 53 - 1) * 2 ^ 971

/-- A 2D vector, `SAT.Vector`. -/
structure Vector where
  x : ℚ
  y : ℚ
  deriving DecidableEq

namespace Vector

/-- The vector `new Vector()`: both components default to `0`. -/
def zero : Vector := { x := 0, y := 0 }

/-- `Vector.prototype.perp`: `x' = y`, `y' = -x`. -/
def perp (v : Vector) : Vector := { x := v.y, y := -v.x }

/-- `Vector.prototype.reverse`. -/
def reverse (v : Vector) : Vector := { x := -v.x, y := -v.y }

/-- `Vector.prototype.add`. -/
def add (v other : Vector) : Vector := { x := v.x + other.x, y := v.y + other.y }

/-- `Vector.prototype.sub`. -/
def sub (v other : Vector) : Vector := { x := v.x - other.x, y := v.y - other.y }

/-- `Vector.prototype.scale` called with one argument: `y || x` is `x`. -/
def scale (v : Vector) (s : ℚ) : Vector := { x := v.x * s, y := v.y * s }

/-- `Vector.prototype.dot`. -/
def dot (v other : Vector) : ℚ := v.x * other.x + v.y * other.y

/-- `Vector.prototype.len2`. -/
def len2 (v : Vector) : ℚ := v.dot v

end Vector

/-- A `SAT.Polygon` as the collision tests see it: the position, the source
points with their offset, and the derived arrays kept by `_recalc`. -/
structure Polygon where
  pos : Vector
  points : List Vector
  offset : Vector := Vector.zero
  calcPoints : List Vector
  edges : List Vector
  normals : List Vector

/-- A `SAT.Response`. -/
structure Response where
  a : Option Polygon := none
  b : Option Polygon := none
  overlapN : Vector := Vector.zero
  overlapV : Vector := Vector.zero
  aInB : Bool := true
  bInA : Bool := true
  overlap : ℚ := MAX_VALUE

/-- `Response.prototype.clear`: resets the two flags and the overlap, and
leaves `a`, `b`, `overlapN` and `overlapV` as they are. -/
def Response.clear (r : Response) : Response :=
  { r with aInB := true, bInA := true, overlap := MAX_VALUE }

/-- `flattenPointsOn`: the pair `(result[0], result[1])`, the least and the
greatest projection of the points on `normal`, started from the sentinels
`Number.MAX_VALUE` and `-Number.MAX_VALUE`. -/
def flattenPointsOn (points : List Vector) (normal : Vector) : ℚ × ℚ :=
  points.foldl
    (fun (acc : ℚ × ℚ) (p : Vector) =>
      let dot := p.dot normal
      let min := if dot < acc.1 then dot else acc.1
      let max := if dot > acc.2 then dot else acc.2
      (min, max))
    (MAX_VALUE, -MAX_VALUE)

/-- The two ranges `isSeparatingAxis` compares: `rangeA`, and `rangeB` moved
by the projected offset between the two positions. -/
def axisRanges (aPos bPos : Vector) (aPoints bPoints : List Vector) (axis : Vector) :
    (ℚ × ℚ) × (ℚ × ℚ) :=
  let offsetV := bPos.sub aPos
  let projectedOffset := offsetV.dot axis
  let rangeA := flattenPointsOn aPoints axis
  let rangeB := flattenPointsOn bPoints axis
  (rangeA, (rangeB.1 + projectedOffset, rangeB.2 + projectedOffset))

/-- The first part of the `if (response)` block of `isSeparatingAxis`: the
signed `overlap` of the two ranges, and the response with its `aInB` and
`bInA` flags lowered. -/
def overlapOfRanges (rangeA rangeB : ℚ × ℚ) (r : Response) : ℚ × Response :=
  if rangeA.1 < rangeB.1 then
    let r1 := { r with aInB := false }
    if rangeA.2 < rangeB.2 then
      (rangeA.2 - rangeB.1, { r1 with bInA := false })
    else
      let option1 := rangeA.2 - rangeB.1
      let option2 := rangeB.2 - rangeA.1
      (if option1 < option2 then option1 else -option2, r1)
  else
    let r1 := { r with bInA := false }
    if rangeA.2 > rangeB.2 then
      (rangeA.1 - rangeB.2, { r1 with aInB := false })
    else
      let option1 := rangeA.2 - rangeB.1
      let option2 := rangeB.2 - rangeA.1
      (if option1 < option2 then option1 else -option2, r1)

/-- The last part of the `if (response)` block of `isSeparatingAxis`: the
overlap is recorded when it is the smallest seen so far. -/
def recordOverlap (overlap : ℚ) (axis : Vector) (r : Response) : Response :=
  let absOverlap := |overlap|
  if absOverlap < r.overlap then
    { r with
      overlap := absOverlap
      overlapN := if overlap < 0 then axis.reverse else axis }
  else r

/-- `isSeparatingAxis`: the returned boolean and the response after the call
(`none` when the optional `response` argument was not passed). -/
def isSeparatingAxis (aPos bPos : Vector) (aPoints bPoints : List Vector)
    (axis : Vector) (response : Option Response) : Bool × Option Response :=
  let ranges := axisRanges aPos bPos aPoints bPoints axis
  let rangeA := ranges.1
  let rangeB := ranges.2
  if rangeA.1 > rangeB.2 ∨ rangeB.1 > rangeA.2 then
    (true, response)
  else
    match response with
    | none => (false, none)
    | some r =>
      let step := overlapOfRanges rangeA rangeB r
      (false, some (recordOverlap step.1 axis step.2))

/-- One `for` loop of `testPolygonPolygon`: `isSeparatingAxis` on
`normals[i]` for each index `i` in turn, threading the response.  The boolean
is `true` when the loop left early on a separating axis.  Reading a normal
that is not there is a `TypeError`. -/
def testAxes (aPos bPos : Vector) (aPoints bPoints : List Vector) (normals : List Vector) :
    List Nat → Option Response → Option (Bool × Option Response)
  | [], response => some (false, response)
  | i :: rest, response =>
    match normals[i]? with
    | none => none
    | some axis =>
      match isSeparatingAxis aPos bPos aPoints bPoints axis response with
      | (true, response1) => some (true, response1)
      | (false, response1) => testAxes aPos bPos aPoints bPoints normals rest response1

/-- `testPolygonPolygon`: the returned boolean and the response after the call. -/
def testPolygonPolygon (a b : Polygon) (response : Option Response) :
    Option (Bool × Option Response) :=
  let aPoints := a.calcPoints
  let aLen := aPoints.length
  let bPoints := b.calcPoints
  let bLen := bPoints.length
  match testAxes a.pos b.pos aPoints bPoints a.normals (List.range aLen) response with
  | none => none
  | some (true, response1) => some (false, response1)
  | some (false, response1) =>
    match testAxes a.pos b.pos aPoints bPoints b.normals (List.range bLen) response1 with
    | none => none
    | some (true, response2) => some (false, response2)
    | some (false, response2) =>
      some (true, response2.map fun r =>
        { r with a := some a, b := some b, overlapV := r.overlapN.scale r.overlap })

end SAT

namespace ArcadeSlopes

open SAT

/-- `TileSlope.EMPTY`. -/
def EMPTY : Int := 0

/-- `TileSlope.SOLID`. -/
def SOLID : Int := 1

/-- `TileSlope.INTERESTING`. -/
def INTERESTING : Int := 2

/-- The `edges` record of a tile slope. -/
structure Edges where
  top : Int := SOLID
  bottom : Int := SOLID
  left : Int := SOLID
  right : Int := SOLID
  deriving DecidableEq

/-- A slope type as the plugin holds it: an integer constant or a string (a
type name, or any other text), as the `string|integer` arguments are
documented.  `resolveType` can also return what another own property of
`TileSlope` holds: `null`, or an object or a function, which is kept by the
name of the property that holds it, with the text `String` gives for it
(`none` for a function, whose text depends on the engine). -/
inductive TypeValue where
  | number (n : Int)
  | string (s : String)
  | null
  | object (name : String) (text : Option String)
  deriving DecidableEq

/-- An integer constant, read as the value of a slope type. -/
instance TypeValue.instCoeInt : Coe Int TypeValue := ⟨TypeValue.number⟩

/-- A numeral, read as the value of a slope type. -/
instance TypeValue.instOfNat (n : Nat) : OfNat TypeValue n := ⟨TypeValue.number (n : Int)⟩

/-- A `TileSlope`: type, polygon, edge flags, preferred axis, solver name and
friction.  The type is the value the constructor was handed: the factory
hands it what `resolveType` returned, a number or a numeric string. -/
structure TileSlope where
  type : TypeValue
  polygon : Option Polygon := none
  edges : Edges := {}
  axis : Option Vector := none
  solver : Option String := none
  friction : Vector := Vector.zero

/-- A neighbouring tile as the restrainer reads it through
`tile.neighbours[key]`: only whether it has a slope, and that slope. -/
structure Neighbour where
  slope : Option TileSlope

/-- The `neighbours` record of a tile: eight references, each possibly null. -/
structure Neighbours where
  above : Option Neighbour := none
  below : Option Neighbour := none
  left : Option Neighbour := none
  right : Option Neighbour := none
  topLeft : Option Neighbour := none
  topRight : Option Neighbour := none
  bottomLeft : Option Neighbour := none
  bottomRight : Option Neighbour := none

/-- A `Phaser.Tile` with the two properties the plugin adds. -/
structure Tile where
  index : Int := 0
  x : Int := 0
  y : Int := 0
  worldX : ℚ := 0
  worldY : ℚ := 0
  width : ℚ := 0
  height : ℚ := 0
  slope : Option TileSlope := none
  neighbours : Option Neighbours := none

/-- The four direction flags of `body.touching` and `body.blocked`. -/
structure Flags where
  up : Bool := false
  down : Bool := false
  left : Bool := false
  right : Bool := false
  deriving DecidableEq

/-- The `sat` record of `body.slopes`: the response of the last collision. -/
structure SatCache where
  response : Option Response := none

/-- The `body.slopes` record attached by `enableBody`. -/
structure BodySlopes where
  friction : Vector := Vector.zero
  preferY : Bool := false
  pullUp : ℚ := 0
  pullDown : ℚ := 0
  pullLeft : ℚ := 0
  pullRight : ℚ := 0
  sat : SatCache := {}
  velocity : Vector := Vector.zero

/-- A `Phaser.Physics.Arcade.Body`, as far as the solver reads and writes it. -/
structure Body where
  enable : Bool := true
  position : Vector := Vector.zero
  velocity : Vector := Vector.zero
  bounce : Vector := Vector.zero
  width : ℚ := 0
  height : ℚ := 0
  polygon : Option Polygon := none
  slopes : Option BodySlopes := none
  touching : Flags := {}
  blocked : Flags := {}
  overlapX : ℚ := 0
  overlapY : ℚ := 0

/-- `TileSlopeFactory.prototype.compareEdges`. -/
def compareEdges (firstEdge secondEdge : Int) : Int :=
  if firstEdge = SOLID ∧ secondEdge = SOLID then EMPTY
  else if firstEdge = SOLID ∧ secondEdge = EMPTY then EMPTY
  else firstEdge

/-- An `overlapX` or `overlapY` entry of a restraint rule: a number, or a
pair `[lo, hi]`. -/
inductive Constraint where
  | number (value : ℚ)
  | pair (lo hi : ℚ)

/-- The `separate` entry of a restraint rule: a boolean, or a function of the
body, the tile and the response (its result taken as a truth value). -/
inductive Separate where
  | flag (value : Bool)
  | fn (f : Body → Tile → Response → Bool)

/-- A prepared restraint rule.  `overlapX`, `overlapY` and `types` are `none`
when the rule does not have the property. -/
structure Rule where
  neighbour : String
  overlapX : Option Constraint := none
  overlapY : Option Constraint := none
  types : Option (List TypeValue) := none
  separate : Separate := Separate.flag true

/-- The lookup `tile.neighbours[key]`; a key that is not one of the eight
names reads `undefined`. -/
def Neighbours.get (n : Neighbours) (key : String) : Option Neighbour :=
  if key = "above" then n.above
  else if key = "below" then n.below
  else if key = "left" then n.left
  else if key = "right" then n.right
  else if key = "topLeft" then n.topLeft
  else if key = "topRight" then n.topRight
  else if key = "bottomLeft" then n.bottomLeft
  else if key = "bottomRight" then n.bottomRight
  else none

/-- The test of one constraint against a component of `overlapN`: `===` for
a number, `>= lo && <= hi` for a pair. -/
def Constraint.test (c : Constraint) (v : ℚ) : Bool :=
  match c with
  | Constraint.number value => decide (v = value)
  | Constraint.pair lo hi => decide (v ≥ lo) && decide (v ≤ hi)

/-- The value of `condition` in the body of the loop of `restrain`, for a
rule whose neighbour has the slope `neighbourSlope`.  Both `indexOf` and `===`
compare without conversion: a number is equal to the same number only, a
string to the same string only. -/
def ruleCondition (rule : Rule) (neighbourSlope slope : TileSlope) (response : Response) : Bool :=
  let condition : Bool :=
    match rule.types with
    | some types => types.contains neighbourSlope.type
    | none => decide (neighbourSlope.type = slope.type)
  let condition : Bool :=
    match rule.overlapX with
    | some c => condition && c.test response.overlapN.x
    | none => condition
  let condition : Bool :=
    match rule.overlapY with
    | some c => condition && c.test response.overlapN.y
    | none => condition
  condition

/-- The value `separate` holds in `restrain` once a function has been called. -/
def Separate.resolve (sep : Separate) (body : Body) (tile : Tile) (response : Response) : Bool :=
  match sep with
  | Separate.flag value => value
  | Separate.fn f => f body tile response

/-- The `for` loop of `SatRestrainer.prototype.restrain` over the rules of the
tile's type.  `collideOnAxis` is the solver's method, acting on a state `σ`. -/
def restrainRules {σ : Type} (collideOnAxis : Body → Tile → Vector → σ → σ)
    (body : Body) (tile : Tile) (slope : TileSlope) (neighbours : Neighbours)
    (response : Response) : List Rule → σ → Bool × σ
  | [], s => (true, s)
  | rule :: rest, s =>
    match neighbours.get rule.neighbour with
    | none => restrainRules collideOnAxis body tile slope neighbours response rest s
    | some neighbour =>
      match neighbour.slope with
      | none => restrainRules collideOnAxis body tile slope neighbours response rest s
      | some neighbourSlope =>
        if ruleCondition rule neighbourSlope slope response then
          let separate := rule.separate.resolve body tile response
          match separate, slope.axis with
          | true, some axis => (false, collideOnAxis body tile axis s)
          | _, _ => (false, s)
        else
          restrainRules collideOnAxis body tile slope neighbours response rest s

/-- `SatRestrainer.prototype.restrain`, for a restrainer whose `restraints`
object is given by its read `restraints[type]`, `none` when
`restraints.hasOwnProperty(type)` is false.  The result is the returned
boolean with the state the calls of `solver.collideOnAxis` left. -/
def restrain {σ : Type} (restraints : TypeValue → Option (List Rule))
    (collideOnAxis : Body → Tile → Vector → σ → σ)
    (body : Body) (tile : Tile) (response : Response) (s : σ) : Option (Bool × σ) :=
  if response.overlap = 0 then some (true, s)
  else
    match tile.neighbours with
    | none => some (true, s)
    | some neighbours =>
      match tile.slope with
      | none => none
      | some slope =>
        match restraints slope.type with
        | none => some (true, s)
        | some rules =>
          some (restrainRules collideOnAxis body tile slope neighbours response rules s)

/-- The options of a `SatSolver`. -/
structure SolverOptions where
  preferY : Bool := false
  restrain : Bool := true

/-- An entry of `solver.restrainers`: its `restrain` function, or `none` when
the object has no such function. -/
structure Restrainer (σ : Type) where
  restrain : Option ((Body → Tile → Vector → σ → σ) → Body → Tile → Response → σ →
    Option (Bool × σ))

/-- The `for` loop of `shouldSeparate` over `this.restrainers`. -/
def runRestrainers {σ : Type} (collideOnAxis : Body → Tile → Vector → σ → σ)
    (body : Body) (tile : Tile) (response : Response) :
    List (Restrainer σ) → σ → Option (Bool × σ)
  | [], s => some (true, s)
  | restrainer :: rest, s =>
    match restrainer.restrain with
    | none => runRestrainers collideOnAxis body tile response rest s
    | some f =>
      match f collideOnAxis body tile response s with
      | none => none
      | some (false, s1) => some (false, s1)
      | some (true, s1) => runRestrainers collideOnAxis body tile response rest s1

/-- `SatSolver.prototype.shouldSeparate`. -/
def shouldSeparate {σ : Type} (options : SolverOptions) (restrainers : List (Restrainer σ))
    (collideOnAxis : Body → Tile → Vector → σ → σ)
    (_i : Int) (body : Body) (tile : Tile) (response : Response) (s : σ) :
    Option (Bool × σ) :=
  if ¬ (body.enable = true ∧ response.overlap ≠ 0) then some (false, s)
  else
    match tile.slope with
    | none => none
    | some slope =>
      if slope.edges.top = EMPTY ∧ response.overlapN.y < 0 ∧ response.overlapN.x = 0 then
        some (false, s)
      else if slope.edges.bottom = EMPTY ∧ response.overlapN.y > 0 ∧ response.overlapN.x = 0 then
        some (false, s)
      else if slope.edges.left = EMPTY ∧ response.overlapN.x < 0 ∧ response.overlapN.y = 0 then
        some (false, s)
      else if slope.edges.right = EMPTY ∧ response.overlapN.x > 0 ∧ response.overlapN.y = 0 then
        some (false, s)
      else if options.restrain = false then some (true, s)
      else runRestrainers collideOnAxis body tile response restrainers s

/-- The `layer.layer` object of a tilemap layer: its size in tiles and the
rows of tiles (`null` where a cell holds no tile). -/
structure LayerData where
  width : Nat
  height : Nat
  data : List (List (Option Tile))

/-- The read `data[y][x]`; outside the arrays there is no tile. -/
def LayerData.tileAt (layer : LayerData) (x y : Nat) : Option Tile :=
  match layer.data[y]? with
  | none => none
  | some row =>
    match row[x]? with
    | none => none
    | some tile => tile

/-- The layer with the tile object at `data[y][x]` replaced. -/
def LayerData.setTile (layer : LayerData) (x y : Nat) (tile : Tile) : LayerData :=
  match layer.data[y]? with
  | none => layer
  | some row => { layer with data := layer.data.set y (row.set x (some tile)) }

/-- Modelled from the spec: `Tilemap.getTileAbove` of the host engine, the
directional lookup the tilemap provider supplies, on the pattern of the
plugin's own `getTileTopLeft`: the tile one row up, `null` in the first row. -/
def getTileAbove (layer : LayerData) (x y : Nat) : Option Tile :=
  if y > 0 then layer.tileAt x (y - 1) else none

/-- Modelled from the spec: `Tilemap.getTileBelow` of the host engine: the
tile one row down, `null` in the last row. -/
def getTileBelow (layer : LayerData) (x y : Nat) : Option Tile :=
  if (y : Int) < (layer.height : Int) - 1 then layer.tileAt x (y + 1) else none

/-- Modelled from the spec: `Tilemap.getTileLeft` of the host engine: the
tile one column left, `null` in the first column. -/
def getTileLeft (layer : LayerData) (x y : Nat) : Option Tile :=
  if x > 0 then layer.tileAt (x - 1) y else none

/-- Modelled from the spec: `Tilemap.getTileRight` of the host engine: the
tile one column right, `null` in the last column. -/
def getTileRight (layer : LayerData) (x y : Nat) : Option Tile :=
  if (x : Int) < (layer.width : Int) - 1 then layer.tileAt (x + 1) y else none

/-- The slope of a looked-up neighbour, when the neighbour is there and has
the `slope` property. -/
def slopeOf (tile : Option Tile) : Option TileSlope :=
  match tile with
  | none => none
  | some t => t.slope

/-- The body of the inner loop of `calculateEdges` at the cell `(x, y)`. -/
def calculateEdgesAt (layer : LayerData) (y x : Nat) : LayerData :=
  match layer.tileAt x y with
  | none => layer
  | some tile =>
    match tile.slope with
    | none => layer
    | some slope =>
      let above := getTileAbove layer x y
      let below := getTileBelow layer x y
      let left := getTileLeft layer x y
      let right := getTileRight layer x y
      let edges := slope.edges
      let edges : Edges :=
        match slopeOf above with
        | some other => { edges with top := compareEdges edges.top other.edges.bottom }
        | none => edges
      let edges : Edges :=
        match slopeOf below with
        | some other => { edges with bottom := compareEdges edges.bottom other.edges.top }
        | none => edges
      let edges : Edges :=
        match slopeOf left with
        | some other => { edges with left := compareEdges edges.left other.edges.right }
        | none => edges
      let edges : Edges :=
        match slopeOf right with
        | some other => { edges with right := compareEdges edges.right other.edges.left }
        | none => edges
      layer.setTile x y { tile with slope := some { slope with edges := edges } }

/-- The inner `for` loop of `calculateEdges` over the columns of row `y`. -/
def calculateEdgesRow (layer : LayerData) (y : Nat) : LayerData :=
  (List.range layer.width).foldl (fun l x => calculateEdgesAt l y x) layer

/-- `TileSlopeFactory.prototype.calculateEdges`. -/
def calculateEdges (layer : LayerData) : LayerData :=
  (List.range layer.height).foldl (fun l y => calculateEdgesRow l y) layer

/-- What it means for a component `v` of the overlap normal to satisfy a
constraint: equality with a number, inclusive bounds for a pair. -/
def Constraint.Holds (c : Constraint) (v : ℚ) : Prop :=
  match c with
  | Constraint.number value => v = value
  | Constraint.pair lo hi => lo ≤ v ∧ v ≤ hi

/-- What it means for a rule to match: the neighbour it names exists and has a
slope, whose type is in the rule's accepted set (or is the tile's own type
when the rule has no set), and both components of the overlap normal satisfy
the rule's constraints, where it has them. -/
def RuleMatches (rule : Rule) (slope : TileSlope) (neighbours : Neighbours)
    (response : Response) : Prop :=
  ∃ neighbour neighbourSlope,
    neighbours.get rule.neighbour = some neighbour ∧
    neighbour.slope = some neighbourSlope ∧
    (match rule.types with
      | some types => neighbourSlope.type ∈ types
      | none => neighbourSlope.type = slope.type) ∧
    (∀ c, rule.overlapX = some c → c.Holds response.overlapN.x) ∧
    (∀ c, rule.overlapY = some c → c.Holds response.overlapN.y)

/-- The edge flags of the slope at `(x, y)` once the pass is over, written
from the flags of the layer before the pass: a neighbour above or to the left
has been resolved against this tile by the time this tile reads it, a
neighbour below or to the right has not. -/
def settledEdges (layer : LayerData) (x y : Nat) (slope : TileSlope) : Edges :=
  { top :=
      match slopeOf (getTileAbove layer x y) with
      | some other =>
        compareEdges slope.edges.top (compareEdges other.edges.bottom slope.edges.top)
      | none => slope.edges.top
    bottom :=
      match slopeOf (getTileBelow layer x y) with
      | some other => compareEdges slope.edges.bottom other.edges.top
      | none => slope.edges.bottom
    left :=
      match slopeOf (getTileLeft layer x y) with
      | some other =>
        compareEdges slope.edges.left (compareEdges other.edges.right slope.edges.left)
      | none => slope.edges.left
    right :=
      match slopeOf (getTileRight layer x y) with
      | some other => compareEdges slope.edges.right other.edges.left
      | none => slope.edges.right }

/-- The tile at `(x, y)` once the pass is over, from the layer before it. -/
def settledTile (layer : LayerData) (x y : Nat) : Option Tile :=
  match layer.tileAt x y with
  | none => none
  | some tile =>
    match tile.slope with
    | none => some tile
    | some slope =>
      some { tile with slope := some { slope with edges := settledEdges layer x y slope } }

/-- A layer whose `data` has `height` rows of `width` cells each. -/
def LayerData.WellFormed (layer : LayerData) : Prop :=
  layer.data.length = layer.height ∧ ∀ row ∈ layer.data, row.length = layer.width

/-- The two flags that face each other across the border between a tile and
its neighbour: the first tile's right and the second's left when the second
is to the right, the first's bottom and the second's top when it is below. -/
def facingEdges (horizontal : Bool) (first second : TileSlope) : Int × Int :=
  if horizontal then (first.edges.right, second.edges.left)
  else (first.edges.bottom, second.edges.top)

/-- What the pass may do to one edge flag, given the slope of the neighbour on
that side: leave it, or turn `SOLID` into `EMPTY`; never touch `INTERESTING`
or `EMPTY`; and leave it when there is no sloped neighbour on that side. -/
def FlagFrame (before after : Int) (neighbour : Option TileSlope) : Prop :=
  (after = before ∨ (before = SOLID ∧ after = EMPTY)) ∧
  (before = INTERESTING → after = INTERESTING) ∧
  (before = EMPTY → after = EMPTY) ∧
  (neighbour = none → after = before)

/-- The state of the layer in the middle of the pass, just before the cell
`(x0, y0)` is visited: the cells visited so far are settled, the others are as
they were. -/
def PassInv (layer cur : LayerData) (x0 y0 : Nat) : Prop :=
  cur.width = layer.width ∧ cur.height = layer.height ∧
  ∀ x y, cur.tileAt x y =
    if x < layer.width ∧ y < layer.height ∧ (y < y0 ∨ (y = y0 ∧ x < x0)) then
      settledTile layer x y
    else layer.tileAt x y

/-! ### Sample inputs -/

/-- A full tile whose top edge has been flagged `EMPTY`. -/
def sampleEmptyTopTile : Tile :=
  { slope := some { type := 0, edges := { top := EMPTY } } }

/-- A response pushing straight up by three units. -/
def sampleUpResponse : Response :=
  { overlap := 3, overlapN := { x := 0, y := -1 }, overlapV := { x := 0, y := -3 } }

/-- A restrainer that always lets the separation go ahead. -/
def samplePermissiveRestrainer : Restrainer Unit :=
  { restrain := some (fun _ _ _ _ s => some (true, s)) }

/-- A rule in the shape of the first `HALF_BOTTOM` rule: the left neighbour,
an overlap pointing left, no forced separation. -/
def sampleLeftRule : Rule :=
  { neighbour := "left"
    overlapX := some (Constraint.pair (-1) 0)
    overlapY := some (Constraint.number 0)
    types := some [TypeValue.number 21, TypeValue.number 6, TypeValue.number 7]
    separate := Separate.flag false }

/-- A rule that asks for a forced separation when the neighbour above has the
tile's own type. -/
def sampleAboveRule : Rule :=
  { neighbour := "above"
    overlapX := some (Constraint.number 0)
    overlapY := some (Constraint.pair (-1) 0) }

/-- A table with rules for type 21 only: the object `{21: [...]}`, whose one
property the number 21 and the text `21` both name. -/
def sampleRestraints : TypeValue → Option (List Rule) :=
  fun type =>
    if type = TypeValue.number 21 ∨ type = TypeValue.string "21" then
      some [sampleLeftRule, sampleAboveRule]
    else none

/-- A tile of type 21 whose left neighbour has the same type. -/
def sampleLeftTile : Tile :=
  { slope := some { type := 21 }
    neighbours := some { left := some { slope := some { type := 21 } } } }

/-- A tile of type 21 with a preferred axis, whose upper neighbour has the same
type. -/
def sampleAxisTile : Tile :=
  { slope := some { type := 21, axis := some { x := 0, y := -1 } }
    neighbours := some { above := some { slope := some { type := 21 } } } }

/-- A response pushing straight left by two units. -/
def sampleLeftResponse : Response :=
  { overlap := 2, overlapN := { x := -1, y := 0 }, overlapV := { x := -2, y := 0 } }

/-- A solver method that only logs the axis it was called with. -/
def sampleLog : Body → Tile → Vector → List Vector → List Vector :=
  fun _ _ axis log => log ++ [axis]

/-- A full tile with the default flags: every edge `SOLID`. -/
def sampleFullTile : Tile :=
  { slope := some { type := 0 } }

/-- A two by two layer of full tiles with one empty cell. -/
def sampleLayer : LayerData :=
  { width := 2
    height := 2
    data := [[some sampleFullTile, some sampleFullTile], [some sampleFullTile, none]] }

end ArcadeSlopes

namespace SAT

/-- The position of a vertex in the plane: the polygon's position plus the
vertex, as a point of `ℝ × ℝ`. -/
def worldPoint (pos p : Vector) : ℝ × ℝ :=
  (((pos.x + p.x : ℚ) : ℝ), ((pos.y + p.y : ℚ) : ℝ))

/-- A point of the plane lies in the polygon: it is in the convex hull of the
polygon's vertices, placed at the polygon's position. -/
def Polygon.Contains (P : Polygon) (q : ℝ × ℝ) : Prop :=
  q ∈ convexHull ℝ {w | ∃ p ∈ P.calcPoints, w = worldPoint P.pos p}

/-- The projections of the two polygons on `axis` are disjoint: every vertex of
one projects strictly below every vertex of the other, positions included. -/
def ProjectionsDisjoint (A B : Polygon) (axis : Vector) : Prop :=
  (∀ p ∈ A.calcPoints, ∀ q ∈ B.calcPoints,
    (A.pos.add p).dot axis < (B.pos.add q).dot axis) ∨
  (∀ p ∈ A.calcPoints, ∀ q ∈ B.calcPoints,
    (B.pos.add q).dot axis < (A.pos.add p).dot axis)

/-- The signed overlap `isSeparatingAxis` computes for the two polygons on
`axis` when the axis does not separate them. -/
def axisOverlap (A B : Polygon) (axis : Vector) : ℚ :=
  (overlapOfRanges (axisRanges A.pos B.pos A.calcPoints B.calcPoints axis).1
    (axisRanges A.pos B.pos A.calcPoints B.calcPoints axis).2 {}).1

/-- The response after `isSeparatingAxis` has run on `axis` without finding a
gap. -/
def recordAxis (A B : Polygon) (r : Response) (axis : Vector) : Response :=
  let ranges := axisRanges A.pos B.pos A.calcPoints B.calcPoints axis
  let step := overlapOfRanges ranges.1 ranges.2 r
  recordOverlap step.1 axis step.2

/-- The overlap magnitude `isSeparatingAxis` reports for `axis` on its own:
the `overlap` it leaves in a cleared response. -/
def axisMagnitude (A B : Polygon) (axis : Vector) : ℚ :=
  match (isSeparatingAxis A.pos B.pos A.calcPoints B.calcPoints axis (some {})).2 with
  | some r => r.overlap
  | none => MAX_VALUE

/-- The axis is a separating axis for the two polygons: the gap test of
`isSeparatingAxis` succeeds. -/
def Separates (A B : Polygon) (axis : Vector) : Prop :=
  (isSeparatingAxis A.pos B.pos A.calcPoints B.calcPoints axis none).1 = true

/-- The polygon `new Polygon()`: no points at all. -/
def emptyPolygon : Polygon :=
  { pos := Vector.zero, points := [], calcPoints := [], edges := [], normals := [] }

/-- The number `s` lies in the projection of the polygon on `axis`: between
the projections of two of its vertices, the polygon placed at its position. -/
def InProjection (P : Polygon) (axis : Vector) (s : ℚ) : Prop :=
  ∃ p ∈ P.calcPoints, ∃ q ∈ P.calcPoints,
    (P.pos.add p).dot axis ≤ s ∧ s ≤ (P.pos.add q).dot axis

/-- The unit square `new Box(pos, 1, 1).toPolygon()`, with the arrays
`_recalc` derives for it. -/
def unitSquareAt (pos : Vector) : Polygon :=
  { pos := pos
    points := [{ x := 0, y := 0 }, { x := 1, y := 0 }, { x := 1, y := 1 }, { x := 0, y := 1 }]
    calcPoints := [{ x := 0, y := 0 }, { x := 1, y := 0 }, { x := 1, y := 1 }, { x := 0, y := 1 }]
    edges := [{ x := 1, y := 0 }, { x := 0, y := 1 }, { x := -1, y := 0 }, { x := 0, y := -1 }]
    normals := [{ x := 0, y := -1 }, { x := 1, y := 0 }, { x := 0, y := 1 }, { x := -1, y := 0 }] }

/-- The response `testPolygonPolygon` leaves for the unit square at the origin
against the unit square at `(1/2, 0)`. -/
def sampleHalfOverlap : Response :=
  { a := some (unitSquareAt { x := 0, y := 0 })
    b := some (unitSquareAt { x := 1 / 2, y := 0 })
    overlapN := { x := 1, y := 0 }
    overlapV := { x := 1 / 2, y := 0 }
    aInB := false
    bInA := false
    overlap := 1 / 2 }

/-- The cross product `a.x * b.y - a.y * b.x` of two vectors. -/
def cross (a b : Vector) : ℚ := a.x * b.y - a.y * b.x

/-- The vertex `calcPoints[i]`. -/
def Polygon.vertex (P : Polygon) (i : Nat) : Vector := P.calcPoints.getD i Vector.zero

/-- The edge `_recalc` computes for index `i`: from `calcPoints[i]` to the next
point, which for the last index is `calcPoints[0]`. -/
def Polygon.edgeAt (P : Polygon) (i : Nat) : Vector :=
  (if i + 1 < P.calcPoints.length then P.vertex (i + 1) else P.vertex 0).sub (P.vertex i)

/-- A convex polygon as `Polygon` keeps it: at least three vertices, no edge of
length zero, `normals[i]` the perpendicular of edge `i` scaled by a positive
factor (to unit length, where the length is rational), every vertex on the
same side (left for all edges, or right for all edges) of every edge line,
and the vertices not all on one line. -/
structure Polygon.IsConvex (P : Polygon) : Prop where
  three : 3 ≤ P.calcPoints.length
  normals_length : P.normals.length = P.calcPoints.length
  edge_ne : ∀ i < P.calcPoints.length, P.edgeAt i ≠ Vector.zero
  normal_eq : ∀ i < P.calcPoints.length,
    ∃ c : ℚ, 0 < c ∧ P.normals.getD i Vector.zero = (P.edgeAt i).perp.scale c
  convex :
    (∀ i < P.calcPoints.length, ∀ j < P.calcPoints.length,
      0 ≤ cross (P.edgeAt i) ((P.vertex j).sub (P.vertex i))) ∨
    (∀ i < P.calcPoints.length, ∀ j < P.calcPoints.length,
      cross (P.edgeAt i) ((P.vertex j).sub (P.vertex i)) ≤ 0)
  nondegenerate : ∃ i < P.calcPoints.length, ∃ j < P.calcPoints.length,
    ∃ k < P.calcPoints.length,
      cross ((P.vertex j).sub (P.vertex i)) ((P.vertex k).sub (P.vertex i)) ≠ 0

/-- The value at `p` of the linear functional with coefficients `ux`, `uy`. -/
def proj (ux uy : ℝ) (p : Vector) : ℝ := ux * (p.x : ℝ) + uy * (p.y : ℝ)

end SAT

namespace SAT

/-- `Vector.prototype.len`, with `Math.sqrt` read on the rationals as
`Rat.sqrt`: the exact root where the squared length is the square of a
rational (every axis-parallel vector); for any other vector, whose length is
irrational, a rational in its place, the quotient of the integer roots of the
numerator and the denominator.  The same code over numbers that have a square
root is `InPlace.Vector.len`. -/
def Vector.len (v : Vector) : ℚ := Rat.sqrt v.len2

/-- `Vector.prototype.normalize`, with the length `Vector.len` gives: a vector
of length one where that length is exact, and another positive multiple of
the vector where it is not. -/
def Vector.normalize (v : Vector) : Vector :=
  let d := v.len
  if d > 0 then { x := v.x / d, y := v.y / d } else v

/-- `Vector.prototype.projectN`: the projection on a vector taken to have unit
length. -/
def Vector.projectN (v other : Vector) : Vector :=
  let amt := v.dot other
  { x := amt * other.x, y := amt * other.y }

/-- `Polygon.prototype._recalc` at angle `0`, on arrays that have the length of
`points` (as `setPoints` leaves them). -/
def Polygon._recalc (P : Polygon) : Polygon :=
  let calcPoints := P.points.map fun p => ({ x := p.x + P.offset.x, y := p.y + P.offset.y } : Vector)
  let len := P.points.length
  let edges := (List.range len).map fun i =>
    let p1 := calcPoints.getD i Vector.zero
    let p2 := if (i : Int) < (len : Int) - 1 then calcPoints.getD (i + 1) Vector.zero
      else calcPoints.getD 0 Vector.zero
    p2.sub p1
  let normals := edges.map fun e => e.perp.normalize
  { P with calcPoints := calcPoints, edges := edges, normals := normals }

/-- `Polygon.prototype.setPoints`. -/
def Polygon.setPoints (P : Polygon) (points : List Vector) : Polygon :=
  Polygon._recalc { P with points := points }

/-- The constructor `new Polygon(pos, points)`. -/
def newPolygon (pos : Vector) (points : List Vector) : Polygon :=
  Polygon.setPoints
    { pos := pos, points := [], offset := Vector.zero, calcPoints := [], edges := [],
      normals := [] } points

/-- A `SAT.Box`. -/
structure Box where
  pos : Vector := Vector.zero
  w : ℚ := 0
  h : ℚ := 0

/-- `Box.prototype.toPolygon`. -/
def Box.toPolygon (box : Box) : Polygon :=
  newPolygon { x := box.pos.x, y := box.pos.y }
    [Vector.zero, { x := box.w, y := 0 }, { x := box.w, y := box.h }, { x := 0, y := box.h }]

/-- The constructor `new SAT.Response()`: empty participants, zero vectors, and
the state `clear` sets. -/
def newResponse : Response := Response.clear {}

end SAT

namespace ArcadeSlopes

open SAT

/-- Modelled from the spec: the accessor `x` of the host engine's body, which
reads the horizontal position of the body. -/
def Body.x (body : Body) : ℚ := body.position.x

/-- Modelled from the spec: the accessor `y` of the host engine's body, which
reads the vertical position of the body. -/
def Body.y (body : Body) : ℚ := body.position.y

/-- Modelled from the spec: the accessor `left` of the host engine's body, a
rectangular bounding box: the horizontal position. -/
def Body.left (body : Body) : ℚ := body.position.x

/-- Modelled from the spec: the accessor `right` of the host engine's body, a
rectangular bounding box: the horizontal position plus the width. -/
def Body.right (body : Body) : ℚ := body.position.x + body.width

/-- Modelled from the spec: the accessor `top` of the host engine's body, a
rectangular bounding box: the vertical position. -/
def Body.top (body : Body) : ℚ := body.position.y

/-- Modelled from the spec: the accessor `bottom` of the host engine's body, a
rectangular bounding box: the vertical position plus the height. -/
def Body.bottom (body : Body) : ℚ := body.position.y + body.height

/-- Modelled from the spec: the accessor `left` of the host engine's tile, a grid
cell with world coordinates and a size: `worldX`. -/
def Tile.left (tile : Tile) : ℚ := tile.worldX

/-- Modelled from the spec: the accessor `right` of the host engine's tile, a grid
cell with world coordinates and a size: `worldX` plus the width. -/
def Tile.right (tile : Tile) : ℚ := tile.worldX + tile.width

/-- Modelled from the spec: the accessor `top` of the host engine's tile, a grid
cell with world coordinates and a size: `worldY`. -/
def Tile.top (tile : Tile) : ℚ := tile.worldY

/-- Modelled from the spec: the accessor `bottom` of the host engine's tile, a grid
cell with world coordinates and a size: `worldY` plus the height. -/
def Tile.bottom (tile : Tile) : ℚ := tile.worldY + tile.height

/-- The collision callbacks `separate` finds for a tile: `tile.collisionCallback`
and the `callback` of `tile.layer.callbacks[tile.index]`, each `none` when it is
not set.  A callback stands for the truth value of what its call returns, given
the body of the sprite and the tile it is passed. -/
structure Callbacks where
  collisionCallback : Option (Body → Tile → Bool) := none
  layerCallback : Option (Body → Tile → Bool) := none

/-- `SatSolver.prepareResponse`: both overlap vectors scaled by `-1`. -/
def prepareResponse (response : Response) : Response :=
  { response with
    overlapV := response.overlapV.scale (-1)
    overlapN := response.overlapN.scale (-1) }

/-- `SatSolver.minimumOffsetX`. -/
def minimumOffsetX (vector : Vector) : ℚ := vector.y * vector.y / vector.x + vector.x

/-- `SatSolver.minimumOffsetY`. -/
def minimumOffsetY (vector : Vector) : ℚ := vector.x * vector.x / vector.y + vector.y

/-- `SatSolver.movingAgainstY`. -/
def movingAgainstY (body : Body) (response : Response) : Bool :=
  (decide (response.overlapV.y < 0) && decide (body.velocity.y > 0)) ||
    (decide (response.overlapV.y > 0) && decide (body.velocity.y < 0))

/-- `SatSolver.prototype.shouldPreferY`; reading `preferY` of a missing
`body.slopes` is a `TypeError`. -/
def shouldPreferY (options : SolverOptions) (body : Body) (response : Response) : Option Bool :=
  let enabled : Option Bool :=
    if options.preferY then some true
    else
      match body.slopes with
      | none => none
      | some slopes => some slopes.preferY
  match enabled with
  | none => none
  | some enabled =>
    some (enabled && decide (response.overlapV.y ≠ 0) && decide (response.overlapV.x ≠ 0) &&
      movingAgainstY body response)

/-- `SatSolver.isSeparatingAxis`: the test of SAT.js on the polygons' `points`,
with the response, when there is one, completed by the two polygons and the
overlap vector. -/
def SatSolver.isSeparatingAxis (a b : Polygon) (axis : Vector) (response : Option Response) :
    Bool × Option Response :=
  let result := SAT.isSeparatingAxis a.pos b.pos a.points b.points axis response
  (result.1, result.2.map fun r =>
    { r with a := some a, b := some b, overlapV := r.overlapN.scale r.overlap })

/-- `SatSolver.prototype.pull`: the returned boolean and the body after the
call. -/
def pull (body : Body) (response : Response) : Option (Bool × Body) :=
  match body.slopes with
  | none => none
  | some slopes =>
    if slopes.pullUp = 0 ∧ slopes.pullDown = 0 ∧ slopes.pullLeft = 0 ∧ slopes.pullRight = 0 then
      some (false, body)
    else
      let overlapN := response.overlapN.scale (-1)
      if slopes.pullUp ≠ 0 ∧ overlapN.y < 0 then
        let pullUp := overlapN.scale slopes.pullUp
        some (true, { body with velocity := body.velocity.add pullUp })
      else if slopes.pullDown ≠ 0 ∧ overlapN.y > 0 then
        let pullDown := overlapN.scale slopes.pullDown
        some (true, { body with velocity := body.velocity.add pullDown })
      else if slopes.pullLeft ≠ 0 ∧ overlapN.x < 0 then
        let pullLeft := overlapN.scale slopes.pullLeft
        some (true, { body with velocity := body.velocity.add pullLeft })
      else if slopes.pullRight ≠ 0 ∧ overlapN.x > 0 then
        let pullRight := overlapN.scale slopes.pullRight
        some (true, { body with velocity := body.velocity.add pullRight })
      else some (false, body)

/-- `SatSolver.prototype.applyVelocity`: the body after the call. -/
def applyVelocity (body : Body) (tile : Tile) (response : Response) : Option Body :=
  match body.slopes, tile.slope with
  | some slopes, some slope =>
    let slopes := { slopes with velocity := { x := body.velocity.x, y := body.velocity.y } }
    let bounce := slopes.velocity.projectN response.overlapN
    let friction := slopes.velocity.sub bounce
    let bounce : Vector :=
      { x := bounce.x * (-body.bounce.x), y := bounce.y * (-body.bounce.y) }
    let friction : Vector :=
      { x := friction.x * (1 - slopes.friction.x - slope.friction.x)
        y := friction.y * (1 - slopes.friction.y - slope.friction.y) }
    let body :=
      { body with
        slopes := some slopes
        velocity := { x := bounce.x + friction.x, y := bounce.y + friction.y } }
    (pull body response).map Prod.snd
  | _, _ => none

/-- `SatSolver.prototype.updateFlags`: the body after the call. -/
def updateFlags (body : Body) (response : Response) : Body :=
  { body with
    touching :=
      { up := body.touching.up || decide (response.overlapV.y > 0)
        down := body.touching.down || decide (response.overlapV.y < 0)
        left := body.touching.left || decide (response.overlapV.x > 0)
        right := body.touching.right || decide (response.overlapV.x < 0) }
    blocked :=
      { up := body.blocked.up ||
          (decide (response.overlapV.x = 0) && decide (response.overlapV.y > 0))
        down := body.blocked.down ||
          (decide (response.overlapV.x = 0) && decide (response.overlapV.y < 0))
        left := body.blocked.left ||
          (decide (response.overlapV.y = 0) && decide (response.overlapV.x > 0))
        right := body.blocked.right ||
          (decide (response.overlapV.y = 0) && decide (response.overlapV.x < 0)) } }

/-- The part of `SatSolver.prototype.separate` below the gate: the two
callbacks, the tile's own first, then the move of the body.  This is all of
`separate` when `force` is true. -/
def separateUngated (options : SolverOptions) (callbacks : Callbacks)
    (body : Body) (tile : Tile) (response : Response) : Option (Bool × Body) :=
  let tileVeto : Bool :=
    match callbacks.collisionCallback with
    | some callback => !callback body tile
    | none => false
  let layerVeto : Bool :=
    match callbacks.layerCallback with
    | some callback => !callback body tile
    | none => false
  if tileVeto then some (false, body)
  else if layerVeto then some (false, body)
  else
    match shouldPreferY options body response with
    | none => none
    | some true =>
      some (true, { body with
        position :=
          { x := body.position.x
            y := body.position.y + minimumOffsetY response.overlapV } })
    | some false =>
      some (true, { body with
        position :=
          { x := body.position.x + response.overlapV.x
            y := body.position.y + response.overlapV.y } })

/-- `SatSolver.prototype.collideOnAxis`: the returned boolean and the body
after the call.  `response` is the optional fourth argument. -/
def collideOnAxis (options : SolverOptions) (callbacks : Callbacks)
    (body : Body) (tile : Tile) (axis : Vector) (response : Option Response) :
    Option (Bool × Body) :=
  if body.enable = false then some (false, body)
  else
    match body.polygon, body.slopes, tile.slope with
    | some polygon, some _, some slope =>
      match slope.polygon with
      | none => some (false, body)
      | some tilePolygon =>
        let response := response.getD newResponse
        match SatSolver.isSeparatingAxis polygon tilePolygon axis (some response) with
        | (true, _) => some (false, body)
        | (false, none) => none
        | (false, some response) =>
          let response := prepareResponse response
          match separateUngated options callbacks body tile response with
          | none => none
          | some (false, body) => some (false, body)
          | some (true, body) =>
            match applyVelocity body tile response with
            | none => none
            | some body => some (true, updateFlags body response)
    | _, _, _ => some (false, body)

/-- The call `solver.collideOnAxis(body, tile, axis)` as the restrainers make
it, on the body held as the state: only its effect on the body is kept. -/
def forcedCollision (options : SolverOptions) (callbacks : Callbacks) :
    Body → Tile → Vector → Body → Body :=
  fun _ tile axis body =>
    match collideOnAxis options callbacks body tile axis none with
    | some (_, body) => body
    | none => body

/-- `SatSolver.prototype.separate`: the returned boolean and the body after
the call.  The restrainers act on the body as their state. -/
def separate (options : SolverOptions) (restrainers : List (Restrainer Body))
    (callbacks : Callbacks) (body : Body) (tile : Tile) (response : Response) (force : Bool) :
    Option (Bool × Body) :=
  let gate : Option (Bool × Body) :=
    if force then some (true, body)
    else shouldSeparate options restrainers (forcedCollision options callbacks) tile.index
      body tile response body
  match gate with
  | none => none
  | some (false, body) => some (false, body)
  | some (true, body) => separateUngated options callbacks body tile response

/-- `SatSolver.prototype.collide`: the returned boolean, and the body and the
tile after the call. -/
def collide (options : SolverOptions) (restrainers : List (Restrainer Body))
    (callbacks : Callbacks) (_i : Int) (body : Body) (tile : Tile) (overlapOnly : Bool) :
    Option (Bool × Body × Tile) :=
  if body.enable = false then some (false, body, tile)
  else
    match body.polygon, body.slopes, tile.slope with
    | some polygon, some slopes, some slope =>
      match slope.polygon with
      | none => some (false, body, tile)
      | some tilePolygon =>
        let polygon := { polygon with pos := { x := body.x, y := body.y } }
        let tilePolygon := { tilePolygon with pos := { x := tile.worldX, y := tile.worldY } }
        let body := { body with polygon := some polygon }
        let tile := { tile with slope := some { slope with polygon := some tilePolygon } }
        match testPolygonPolygon polygon tilePolygon (some newResponse) with
        | none => none
        | some (false, _) => some (false, body, tile)
        | some (true, none) => none
        | some (true, some response) =>
          if overlapOnly then some (true, body, tile)
          else
            let prepared := prepareResponse response
            let body :=
              { body with
                overlapX := response.overlapV.x
                overlapY := response.overlapV.y
                slopes := some { slopes with sat := { response := some prepared } } }
            match separate options restrainers callbacks body tile prepared false with
            | none => none
            | some (false, body) => some (false, body, tile)
            | some (true, body) =>
              match applyVelocity body tile prepared with
              | none => none
              | some body => some (true, updateFlags body prepared, tile)
    | _, _, _ => some (false, body, tile)

end ArcadeSlopes

namespace ArcadeSlopes

open SAT

/-- The white space `parseInt` skips at the start of its argument. -/
def isStrWhiteSpace (c : Char) : Bool :=
  [9, 10, 11, 12, 13, 32, 160, 5760, 8232, 8233, 8239, 8287, 12288, 65279].contains c.toNat ||
    (decide (8192 ≤ c.toNat) && decide (c.toNat ≤ 8202))

/-- The value of a character as a digit, for radices up to 36. -/
def digitValue (c : Char) : Option Nat :=
  if 48 ≤ c.toNat ∧ c.toNat ≤ 57 then some (c.toNat - 48)
  else if 97 ≤ c.toNat ∧ c.toNat ≤ 122 then some (c.toNat - 87)
  else if 65 ≤ c.toNat ∧ c.toNat ≤ 90 then some (c.toNat - 55)
  else none

/-- The digits of the longest prefix of `chars` that is written in `radix`. -/
def radixDigits (radix : Nat) : List Char → List Nat
  | [] => []
  | c :: rest =>
    match digitValue c with
    | none => []
    | some d => if d < radix then d :: radixDigits radix rest else []

/-- The built-in `parseInt` with no radix argument, on a string: leading white
space, a sign, a `0x` prefix for radix 16, then the longest run of digits.
`none` is `NaN`. -/
def parseInt (string : String) : Option Int :=
  let S := string.toList.dropWhile isStrWhiteSpace
  let signed : Int × List Char :=
    match S with
    | '-' :: rest => (-1, rest)
    | '+' :: rest => (1, rest)
    | _ => (1, S)
  let prefixed : Nat × List Char :=
    match signed.2 with
    | '0' :: 'x' :: rest => (16, rest)
    | '0' :: 'X' :: rest => (16, rest)
    | _ => (10, signed.2)
  let Z := radixDigits prefixed.1 prefixed.2
  if Z = [] then none
  else some (signed.1 * ((Z.foldl (fun acc d => acc * prefixed.1 + d) 0 : Nat) : Int))

/-- `TileSlope.UNKNOWN`. -/
def UNKNOWN : Int := -1

/-- The own properties of `TileSlope` with the values they hold: those of a
function object (`length`, the number of its parameters; `name`, empty for a
function expression assigned to a property; `prototype`; and `arguments` and
`caller`, which hold `null` outside a call in the engines that keep them on a
function that is not strict), the two functions and the object `typeNames`
assigned to it, and the constants declared on it. -/
def typeConstants : List (String × TypeValue) :=
  [("length", 6), ("name", TypeValue.string ""), ("arguments", TypeValue.null),
    ("caller", TypeValue.null),
    ("prototype", TypeValue.object "prototype" (some "[object Object]")),
    ("resolveType", TypeValue.object "resolveType" none),
    ("resolveTypeName", TypeValue.object "resolveTypeName" none),
    ("typeNames", TypeValue.object "typeNames" (some "[object Object]")),
    ("EMPTY", 0), ("SOLID", 1), ("INTERESTING", 2), ("UNKNOWN", TypeValue.number (-1)), ("FULL", 0),
    ("HALF_BOTTOM", 21), ("HALF_TOP", 22), ("HALF_LEFT", 23), ("HALF_RIGHT", 24),
    ("HALF_BOTTOM_LEFT", 1), ("HALF_BOTTOM_RIGHT", 2), ("HALF_TOP_LEFT", 3),
    ("HALF_TOP_RIGHT", 4), ("QUARTER_BOTTOM_LEFT_LOW", 5), ("QUARTER_BOTTOM_LEFT_HIGH", 6),
    ("QUARTER_BOTTOM_RIGHT_LOW", 7), ("QUARTER_BOTTOM_RIGHT_HIGH", 8),
    ("QUARTER_LEFT_BOTTOM_LOW", 9), ("QUARTER_LEFT_BOTTOM_HIGH", 10),
    ("QUARTER_RIGHT_BOTTOM_LOW", 11), ("QUARTER_RIGHT_BOTTOM_HIGH", 12),
    ("QUARTER_LEFT_TOP_LOW", 13), ("QUARTER_LEFT_TOP_HIGH", 14), ("QUARTER_RIGHT_TOP_LOW", 15),
    ("QUARTER_RIGHT_TOP_HIGH", 16), ("QUARTER_TOP_LEFT_LOW", 17), ("QUARTER_TOP_LEFT_HIGH", 18),
    ("QUARTER_TOP_RIGHT_LOW", 19), ("QUARTER_TOP_RIGHT_HIGH", 20)]

/-- `TileSlope.resolveType`: the argument itself when `parseInt` reads a number
above `-1` from it, else what `TileSlope` holds under that name, else
`UNKNOWN`.  `parseInt` reads the text of its argument, and `hasOwnProperty`
the property that text names: no property of `TileSlope` is named by a number
that is not above `-1`, by `null`, or by the text of a function. -/
def resolveType (type : TypeValue) : TypeValue :=
  let parsed : Option Int :=
    match type with
    | TypeValue.number n => some n
    | TypeValue.string s => parseInt s
    | TypeValue.null => none
    | TypeValue.object _ text => text.bind parseInt
  let numeric : Bool :=
    match parsed with
    | some n => decide (n > -1)
    | none => false
  if numeric then type
  else
    match type with
    | TypeValue.number _ => TypeValue.number UNKNOWN
    | TypeValue.string s =>
      match typeConstants.lookup s with
      | some c => c
      | none => TypeValue.number UNKNOWN
    | TypeValue.null => TypeValue.number UNKNOWN
    | TypeValue.object _ text =>
      match text.bind fun name => typeConstants.lookup name with
      | some c => c
      | none => TypeValue.number UNKNOWN

/-- `SatRestrainer.topVertices`. -/
def topVertices : List String :=
  ["HALF_LEFT", "HALF_RIGHT", "QUARTER_LEFT_TOP_LOW", "QUARTER_RIGHT_TOP_LOW",
    "QUARTER_LEFT_BOTTOM_LOW", "QUARTER_RIGHT_BOTTOM_LOW"]

/-- `SatRestrainer.bottomVertices`. -/
def bottomVertices : List String :=
  ["HALF_LEFT", "HALF_RIGHT", "QUARTER_LEFT_TOP_HIGH", "QUARTER_LEFT_BOTTOM_HIGH",
    "QUARTER_RIGHT_TOP_HIGH", "QUARTER_RIGHT_BOTTOM_HIGH"]

/-- `SatRestrainer.leftVertices`. -/
def leftVertices : List String :=
  ["HALF_TOP", "HALF_BOTTOM", "QUARTER_TOP_LEFT_LOW", "QUARTER_TOP_RIGHT_HIGH",
    "QUARTER_BOTTOM_LEFT_LOW", "QUARTER_BOTTOM_RIGHT_HIGH"]

/-- `SatRestrainer.rightVertices`. -/
def rightVertices : List String :=
  ["HALF_TOP", "HALF_BOTTOM", "QUARTER_TOP_LEFT_HIGH", "QUARTER_TOP_RIGHT_LOW",
    "QUARTER_BOTTOM_LEFT_HIGH", "QUARTER_BOTTOM_RIGHT_LOW"]

/-- `SatRestrainer.topLeftVertices`. -/
def topLeftVertices : List String :=
  ["FULL", "HALF_TOP", "HALF_LEFT", "HALF_TOP_LEFT", "HALF_TOP_RIGHT", "HALF_BOTTOM_LEFT",
    "QUARTER_TOP_LEFT_LOW", "QUARTER_TOP_LEFT_HIGH", "QUARTER_TOP_RIGHT_HIGH",
    "QUARTER_BOTTOM_LEFT_HIGH", "QUARTER_LEFT_TOP_LOW", "QUARTER_LEFT_TOP_HIGH",
    "QUARTER_LEFT_BOTTOM_LOW", "QUARTER_LEFT_BOTTOM_HIGH", "QUARTER_RIGHT_TOP_HIGH"]

/-- `SatRestrainer.topRightVertices`. -/
def topRightVertices : List String :=
  ["FULL", "HALF_TOP", "HALF_RIGHT", "HALF_TOP_LEFT", "HALF_TOP_RIGHT", "HALF_BOTTOM_RIGHT",
    "QUARTER_TOP_LEFT_LOW", "QUARTER_TOP_LEFT_HIGH", "QUARTER_TOP_RIGHT_LOW",
    "QUARTER_TOP_RIGHT_HIGH", "QUARTER_BOTTOM_RIGHT_HIGH", "QUARTER_LEFT_TOP_HIGH",
    "QUARTER_RIGHT_TOP_LOW", "QUARTER_RIGHT_TOP_HIGH", "QUARTER_RIGHT_BOTTOM_LOW",
    "QUARTER_RIGHT_BOTTOM_HIGH"]

/-- `SatRestrainer.bottomLeftVertices`. -/
def bottomLeftVertices : List String :=
  ["FULL", "HALF_LEFT", "HALF_BOTTOM", "HALF_TOP_LEFT", "HALF_BOTTOM_LEFT", "HALF_BOTTOM_RIGHT",
    "QUARTER_TOP_LEFT_HIGH", "QUARTER_BOTTOM_LEFT_LOW", "QUARTER_BOTTOM_LEFT_HIGH",
    "QUARTER_BOTTOM_RIGHT_LOW", "QUARTER_BOTTOM_RIGHT_HIGH", "QUARTER_LEFT_TOP_HIGH",
    "QUARTER_LEFT_BOTTOM_LOW", "QUARTER_LEFT_BOTTOM_HIGH", "QUARTER_RIGHT_BOTTOM_LOW"]

/-- `SatRestrainer.bottomRightVertices`. -/
def bottomRightVertices : List String :=
  ["FULL", "HALF_RIGHT", "HALF_BOTTOM", "HALF_TOP_RIGHT", "HALF_BOTTOM_LEFT",
    "HALF_BOTTOM_RIGHT", "QUARTER_TOP_RIGHT_HIGH", "QUARTER_BOTTOM_LEFT_LOW",
    "QUARTER_BOTTOM_LEFT_HIGH", "QUARTER_BOTTOM_RIGHT_LOW", "QUARTER_BOTTOM_RIGHT_HIGH",
    "QUARTER_LEFT_BOTTOM_LOW", "QUARTER_RIGHT_TOP_HIGH", "QUARTER_RIGHT_BOTTOM_LOW",
    "QUARTER_RIGHT_BOTTOM_HIGH"]

/-- The lookup `SatRestrainer[location + 'Vertices']`, `none` when the
restrainer has no such property. -/
def vertexMap (location : String) : Option (List String) :=
  if location = "top" then some topVertices
  else if location = "bottom" then some bottomVertices
  else if location = "left" then some leftVertices
  else if location = "right" then some rightVertices
  else if location = "topLeft" then some topLeftVertices
  else if location = "topRight" then some topRightVertices
  else if location = "bottomLeft" then some bottomLeftVertices
  else if location = "bottomRight" then some bottomRightVertices
  else none

/-- `SatRestrainer.intersectArrays`: the values of `a` that are in `b`, each
kept where it first occurs. -/
def intersectArrays (a b : List String) : List String :=
  let shared := a.filter fun value => decide (b.indexOf value ≠ b.length)
  (shared.enum.filter fun entry => decide (shared.indexOf entry.2 = entry.1)).map Prod.snd

/-- The loop of `SatRestrainer.prototype.resolve` over its arguments: `count`
is `arguments.length` and `types` is the array built so far. -/
def resolveLoop (count : Nat) : List String → List String → List String
  | [], types => types
  | location :: rest, types =>
    match vertexMap location with
    | none => resolveLoop count rest types
    | some vertexMap =>
      if count = 1 then vertexMap
      else if types.length = 0 then resolveLoop count rest vertexMap
      else resolveLoop count rest (intersectArrays types vertexMap)

/-- `SatRestrainer.prototype.resolve`, called with the given arguments. -/
def resolve (locations : List String) : List String :=
  if locations.length = 0 then [] else resolveLoop locations.length locations []

/-- `SatRestrainer.resolveOverlaps`: the `overlapX` and `overlapY` of a
direction; `none` is the empty object returned for an unknown direction. -/
def resolveOverlaps (direction : String) : Option (Constraint × Constraint) :=
  if direction = "up" then some (Constraint.number 0, Constraint.pair (-1) 0)
  else if direction = "down" then some (Constraint.number 0, Constraint.pair 0 1)
  else if direction = "left" then some (Constraint.pair (-1) 0, Constraint.number 0)
  else if direction = "right" then some (Constraint.pair 0 1, Constraint.number 0)
  else none

/-- A restraint rule as `setDefaultRestraints` writes it, before
`prepareRestraints`: every property but `neighbour` may be missing. -/
structure InformalRule where
  neighbour : String
  direction : Option String := none
  overlapX : Option Constraint := none
  overlapY : Option Constraint := none
  types : Option (List TypeValue) := none
  separate : Option Separate := none

/-- The body of the inner loop of `prepareRestraints` on one rule.  A
non-empty direction that `resolveOverlaps` does not know would leave both
overlap entries `undefined`, which `restrain` cannot read: such a rule has no
prepared form (`none`). -/
def prepareRule (rule : InformalRule) : Option Rule :=
  let overlaps : Option (Option Constraint × Option Constraint) :=
    match rule.direction with
    | none => some (rule.overlapX, rule.overlapY)
    | some direction =>
      if direction = "" then some (rule.overlapX, rule.overlapY)
      else
        match resolveOverlaps direction with
        | none => none
        | some resolved => some (some resolved.1, some resolved.2)
  match overlaps with
  | none => none
  | some overlaps =>
    some
      { neighbour := rule.neighbour
        overlapX := overlaps.1
        overlapY := overlaps.2
        types := rule.types.map fun types => types.map resolveType
        separate :=
          match rule.separate with
          | some (Separate.flag false) => Separate.flag false
          | some (Separate.fn f) => Separate.fn f
          | _ => Separate.flag true }

/-- `SatRestrainer.prepareRestraints`: the entries of the prepared object in
the order they are written, each under its resolved type. -/
def prepareRestraints (restraints : List (String × List InformalRule)) :
    Option (List (TypeValue × List Rule)) :=
  restraints.mapM fun entry =>
    match entry.2.mapM prepareRule with
    | none => none
    | some restraint => some (resolveType (TypeValue.string entry.1), restraint)

/-- The object `restraints` that `setDefaultRestraints` builds before it is
prepared. -/
def informalRestraints : List (String × List InformalRule) :=
  [ ("HALF_TOP",
    [ { direction := some "left"
        neighbour := "left"
        types := some ((resolve ["topRight", "right"]).map TypeValue.string)
        separate := some (Separate.flag false) },
      { direction := some "right"
        neighbour := "right"
        types := some ((resolve ["topLeft", "left"]).map TypeValue.string)
        separate := some (Separate.flag false) } ]),
    ("HALF_BOTTOM",
    [ { direction := some "left"
        neighbour := "left"
        types := some ((resolve ["right", "bottomRight"]).map TypeValue.string)
        separate := some (Separate.flag false) },
      { direction := some "right"
        neighbour := "right"
        types := some ((resolve ["left", "bottomLeft"]).map TypeValue.string)
        separate := some (Separate.flag false) } ]),
    ("HALF_LEFT",
    [ { direction := some "up"
        neighbour := "above"
        types := some ((resolve ["bottomLeft", "bottom"]).map TypeValue.string)
        separate := some (Separate.flag false) },
      { direction := some "down"
        neighbour := "below"
        types := some ((resolve ["topLeft", "top"]).map TypeValue.string)
        separate := some (Separate.flag false) } ]),
    ("HALF_RIGHT",
    [ { direction := some "up"
        neighbour := "above"
        types := some ((resolve ["bottom", "bottomRight"]).map TypeValue.string)
        separate := some (Separate.flag false) },
      { direction := some "down"
        neighbour := "below"
        types := some ((resolve ["top", "topRight"]).map TypeValue.string)
        separate := some (Separate.flag false) } ]),
    ("HALF_BOTTOM_LEFT",
    [ { direction := some "right"
        neighbour := "bottomRight"
        types := some ((resolve ["topLeft"]).map TypeValue.string) },
      { direction := some "up"
        neighbour := "topLeft"
        types := some ((resolve ["bottomRight"]).map TypeValue.string) } ]),
    ("HALF_BOTTOM_RIGHT",
    [ { direction := some "left"
        neighbour := "bottomLeft"
        types := some ((resolve ["topRight"]).map TypeValue.string) },
      { direction := some "up"
        neighbour := "topRight"
        types := some ((resolve ["bottomLeft"]).map TypeValue.string) } ]),
    ("HALF_TOP_LEFT",
    [ { direction := some "right"
        neighbour := "topRight"
        types := some ((resolve ["bottomLeft"]).map TypeValue.string) },
      { direction := some "down"
        neighbour := "bottomLeft"
        types := some ((resolve ["topRight"]).map TypeValue.string) } ]),
    ("HALF_TOP_RIGHT",
    [ { direction := some "left"
        neighbour := "topLeft"
        types := some ((resolve ["bottomRight"]).map TypeValue.string) },
      { direction := some "down"
        neighbour := "bottomRight"
        types := some ((resolve ["topLeft"]).map TypeValue.string) } ]),
    ("QUARTER_BOTTOM_LEFT_LOW",
    [ { direction := some "right"
        neighbour := "bottomRight"
        types := some ((resolve ["topLeft"]).map TypeValue.string) },
      { direction := some "up"
        neighbour := "left"
        types := some ((resolve ["topLeft", "right", "bottomRight"]).map TypeValue.string) },
      { direction := some "left"
        neighbour := "left"
        types := some ((resolve ["right", "bottomRight"]).map TypeValue.string)
        separate := some (Separate.flag false) } ]),
    ("QUARTER_BOTTOM_LEFT_HIGH",
    [ { direction := some "right"
        neighbour := "right"
        types := some ((resolve ["left", "bottomLeft"]).map TypeValue.string)
        separate := some (Separate.fn fun body tile _ => decide (body.bottom < tile.bottom)) },
      { direction := some "up"
        neighbour := "topLeft"
        types := some ((resolve ["bottomRight"]).map TypeValue.string) } ]),
    ("QUARTER_BOTTOM_RIGHT_LOW",
    [ { direction := some "left"
        neighbour := "bottomLeft"
        types := some ((resolve ["topRight"]).map TypeValue.string) },
      { direction := some "up"
        neighbour := "right"
        types := some ((resolve ["topRight", "left", "bottomLeft"]).map TypeValue.string) },
      { direction := some "right"
        neighbour := "right"
        types := some ((resolve ["left", "bottomLeft"]).map TypeValue.string)
        separate := some (Separate.flag false) } ]),
    ("QUARTER_BOTTOM_RIGHT_HIGH",
    [ { direction := some "left"
        neighbour := "left"
        types := some ((resolve ["right", "bottomRight"]).map TypeValue.string)
        separate := some (Separate.fn fun body tile _ => decide (body.bottom < tile.bottom)) },
      { direction := some "up"
        neighbour := "topRight"
        types := some ((resolve ["bottomLeft"]).map TypeValue.string) } ]),
    ("QUARTER_LEFT_BOTTOM_LOW",
    [ { direction := some "up"
        neighbour := "above"
        types := some ((resolve ["topLeft", "left"]).map TypeValue.string)
        separate := some (Separate.fn fun body tile _ => decide (body.left > tile.left)) },
      { direction := some "right"
        neighbour := "bottomRight"
        types := some ((resolve ["topLeft"]).map TypeValue.string) } ]),
    ("QUARTER_LEFT_BOTTOM_HIGH",
    [ { direction := some "up"
        neighbour := "topLeft"
        types := some ((resolve ["bottomRight"]).map TypeValue.string) },
      { direction := some "down"
        neighbour := "below"
        types := some ((resolve ["topLeft", "top"]).map TypeValue.string)
        separate := some (Separate.flag false) },
      { direction := some "right"
        neighbour := "below"
        types := some ((resolve ["topLeft", "top", "bottomRight"]).map TypeValue.string) } ]),
    ("QUARTER_RIGHT_BOTTOM_LOW",
    [ { direction := some "up"
        neighbour := "above"
        types := some ((resolve ["bottom", "bottomRight"]).map TypeValue.string)
        separate := some (Separate.fn fun body tile _ => decide (body.right < tile.right)) },
      { direction := some "left"
        neighbour := "bottomLeft"
        types := some ((resolve ["topRight"]).map TypeValue.string) } ]),
    ("QUARTER_RIGHT_BOTTOM_HIGH",
    [ { direction := some "up"
        neighbour := "topRight"
        types := some ((resolve ["bottomLeft"]).map TypeValue.string) },
      { direction := some "down"
        neighbour := "below"
        types := some ((resolve ["top", "topRight"]).map TypeValue.string)
        separate := some (Separate.flag false) },
      { direction := some "left"
        neighbour := "below"
        types := some ((resolve ["top", "topRight", "bottomLeft"]).map TypeValue.string) } ]),
    ("QUARTER_LEFT_TOP_LOW",
    [ { direction := some "up"
        neighbour := "above"
        types := some ((resolve ["bottomLeft", "bottom"]).map TypeValue.string) },
      { direction := some "right"
        neighbour := "above"
        types := some ((resolve ["bottomLeft", "bottom"]).map TypeValue.string)
        separate := some (Separate.flag false) },
      { direction := some "down"
        neighbour := "bottomLeft"
        types := some ((resolve ["topRight"]).map TypeValue.string) } ]),
    ("QUARTER_LEFT_TOP_HIGH",
    [ { direction := some "right"
        neighbour := "topRight"
        types := some ((resolve ["bottomLeft"]).map TypeValue.string) },
      { direction := some "down"
        neighbour := "below"
        types := some ((resolve ["topLeft", "top"]).map TypeValue.string)
        separate := some (Separate.fn fun body tile _ => decide (body.left > tile.left)) } ]),
    ("QUARTER_RIGHT_TOP_LOW",
    [ { direction := some "up"
        neighbour := "above"
        types := some ((resolve ["bottom", "bottomRight"]).map TypeValue.string) },
      { direction := some "left"
        neighbour := "above"
        types := some ((resolve ["bottom", "bottomRight"]).map TypeValue.string)
        separate := some (Separate.flag false) },
      { direction := some "down"
        neighbour := "bottomRight"
        types := some ((resolve ["topLeft"]).map TypeValue.string) } ]),
    ("QUARTER_RIGHT_TOP_HIGH",
    [ { direction := some "left"
        neighbour := "topLeft"
        types := some ((resolve ["bottomRight"]).map TypeValue.string) },
      { direction := some "down"
        neighbour := "below"
        types := some ((resolve ["top", "topRight"]).map TypeValue.string)
        separate := some (Separate.fn fun body tile _ => decide (body.right < tile.right)) } ]),
    ("QUARTER_TOP_LEFT_LOW",
    [ { direction := some "right"
        neighbour := "topRight"
        types := some ((resolve ["bottomLeft"]).map TypeValue.string) },
      { direction := some "left"
        neighbour := "left"
        types := some ((resolve ["topRight", "right"]).map TypeValue.string)
        separate := some (Separate.flag false) },
      { direction := some "down"
        neighbour := "left"
        types := some ((resolve ["bottomLeft", "topRight", "right"]).map TypeValue.string) } ]),
    ("QUARTER_TOP_LEFT_HIGH",
    [ { direction := some "right"
        neighbour := "right"
        types := some ((resolve ["topLeft", "left"]).map TypeValue.string)
        separate := some (Separate.fn fun body tile _ => decide (body.top > tile.top)) },
      { direction := some "down"
        neighbour := "bottomLeft"
        types := some ((resolve ["topRight"]).map TypeValue.string) } ]),
    ("QUARTER_TOP_RIGHT_LOW",
    [ { direction := some "left"
        neighbour := "topLeft"
        types := some ((resolve ["bottomRight"]).map TypeValue.string) },
      { direction := some "right"
        neighbour := "right"
        types := some ((resolve ["topLeft", "left"]).map TypeValue.string)
        separate := some (Separate.flag false) },
      { direction := some "down"
        neighbour := "right"
        types := some ((resolve ["bottomRight", "topLeft", "left"]).map TypeValue.string) } ]),
    ("QUARTER_TOP_RIGHT_HIGH",
    [ { direction := some "left"
        neighbour := "left"
        types := some ((resolve ["topRight", "right"]).map TypeValue.string)
        separate := some (Separate.fn fun body tile _ => decide (body.top > tile.top)) },
      { direction := some "down"
        neighbour := "bottomRight"
        types := some ((resolve ["topLeft"]).map TypeValue.string) } ]) ]

/-- Whether a value names the property that an integer names: the same
number, or a text that is its decimal text. -/
def TypeValue.isKeyOf (key : TypeValue) (type : Int) : Bool :=
  match key with
  | TypeValue.number n => decide (n = type)
  | TypeValue.string s => decide (s = toString type)
  | TypeValue.null => false
  | TypeValue.object _ text => decide (text = some (toString type))

/-- The property a value names: the text `String` gives for it; `none` for a
function, whose text the model does not follow. -/
def TypeValue.key : TypeValue → Option String
  | TypeValue.number n => some (toString n)
  | TypeValue.string s => some s
  | TypeValue.null => some "null"
  | TypeValue.object _ text => text

/-- Whether two values name the same property: their texts are the same.  For
a number that is `isKeyOf`; a function names the same property as itself, and
the model takes its text to be that of no other value. -/
def TypeValue.sameKey (key type : TypeValue) : Bool :=
  match type with
  | TypeValue.number n => key.isKeyOf n
  | _ =>
    match key.key, type.key with
    | some a, some b => decide (a = b)
    | none, none => decide (key = type)
    | _, _ => false

/-- The read `restraints[type]` of a prepared object, `none` when
`restraints.hasOwnProperty(type)` is false.  A later entry under the same key
has replaced an earlier one. -/
def lookupRestraints (prepared : List (TypeValue × List Rule)) (type : TypeValue) :
    Option (List Rule) :=
  (prepared.reverse.find? fun entry => entry.1.sameKey type).map Prod.snd

/-- The `restraints` of a new `SatRestrainer`: what `setDefaultRestraints`
leaves. -/
def defaultRestraints (type : TypeValue) : Option (List Rule) :=
  match prepareRestraints informalRestraints with
  | none => none
  | some prepared => lookupRestraints prepared type

/-- A `SatRestrainer` with the given `restraints`, as an entry of
`solver.restrainers`. -/
def satRestrainer {σ : Type} (restraints : TypeValue → Option (List Rule)) : Restrainer σ :=
  { restrain := some fun collideOnAxis body tile response s =>
      restrain restraints collideOnAxis body tile response s }

/-- The `restrainers` of a new `SatSolver`: one new `SatRestrainer`. -/
def defaultRestrainers {σ : Type} : List (Restrainer σ) := [satRestrainer defaultRestraints]

/-- `TileSlope.FULL`. -/
def FULL : Int := 0

/-- `TileSlope.HALF_BOTTOM`. -/
def HALF_BOTTOM : Int := 21

/-- `TileSlope.HALF_BOTTOM_LEFT`. -/
def HALF_BOTTOM_LEFT : Int := 1

/-- `TileSlope.QUARTER_BOTTOM_LEFT_HIGH`. -/
def QUARTER_BOTTOM_LEFT_HIGH : Int := 6

/-- `TileSlope.QUARTER_BOTTOM_RIGHT_LOW`. -/
def QUARTER_BOTTOM_RIGHT_LOW : Int := 7

/-- `TileSlopeFactory.createFull`. -/
def createFull (type : TypeValue) (tile : Tile) : TileSlope :=
  let polygon :=
    Box.toPolygon
      { pos := { x := tile.worldX, y := tile.worldY }, w := tile.width, h := tile.height }
  { type := type, polygon := some polygon }

/-- `TileSlopeFactory.createHalfBottom`. -/
def createHalfBottom (type : TypeValue) (tile : Tile) : TileSlope :=
  let halfHeight := tile.height / 2
  let polygon :=
    newPolygon { x := tile.worldX, y := tile.worldY }
      [{ x := 0, y := halfHeight }, { x := tile.width, y := halfHeight },
        { x := tile.width, y := tile.height }, { x := 0, y := tile.height }]
  let edges : Edges := { top := INTERESTING, left := INTERESTING, right := INTERESTING }
  { type := type, polygon := some polygon, edges := edges }

/-- `TileSlopeFactory.createHalfBottomLeft`. -/
def createHalfBottomLeft (type : TypeValue) (tile : Tile) : TileSlope :=
  let polygon :=
    newPolygon { x := tile.worldX, y := tile.worldY }
      [{ x := 0, y := 0 }, { x := tile.width, y := tile.height }, { x := 0, y := tile.height }]
  let edges : Edges := { top := INTERESTING, right := INTERESTING }
  let axis : Vector := { x := 0.7071067811865475, y := -0.7071067811865475 }
  { type := type, polygon := some polygon, edges := edges, axis := some axis }

/-- `ArcadeSlopes.prototype.enableBody`. -/
def enableBody (body : Body) : Body :=
  { body with
    polygon :=
      some (Box.toPolygon { pos := { x := body.x, y := body.y }, w := body.width, h := body.height })
    slopes := some {} }

end ArcadeSlopes

namespace ArcadeSlopes

open SAT

/-- The condition under which the claim of `separate` has the body pushed out on
the Y axis only: `preferY` is set in the solver options or on the body, both
components of `overlapV` are non-zero, and `overlapV.y` and `velocity.y` have
strictly opposite signs. -/
def PrefersY (options : SolverOptions) (slopes : BodySlopes) (body : Body)
    (response : Response) : Prop :=
  (options.preferY = true ∨ slopes.preferY = true) ∧
    response.overlapV.x ≠ 0 ∧ response.overlapV.y ≠ 0 ∧
    ((response.overlapV.y < 0 ∧ body.velocity.y > 0) ∨
      (response.overlapV.y > 0 ∧ body.velocity.y < 0))

/-- The body polygon placed at the body position, as `collide` tests it. -/
def syncedPolygon (body : Body) (polygon : Polygon) : Polygon :=
  { polygon with pos := { x := body.x, y := body.y } }

/-- The tile polygon placed at the tile's world position, as `collide` tests
it. -/
def syncedTilePolygon (tile : Tile) (tilePolygon : Polygon) : Polygon :=
  { tilePolygon with pos := { x := tile.worldX, y := tile.worldY } }

/-- The body once `collide` has moved its polygon to the body position. -/
def syncedBody (body : Body) (polygon : Polygon) : Body :=
  { body with polygon := some (syncedPolygon body polygon) }

/-- The tile once `collide` has moved its polygon to the tile's world position. -/
def syncedTile (tile : Tile) (slope : TileSlope) (tilePolygon : Polygon) : Tile :=
  { tile with slope := some { slope with polygon := some (syncedTilePolygon tile tilePolygon) } }

/-- The body at the moment `collide` calls `separate`: the polygon moved, the
overlap of the response recorded, and the response, turned outwards, kept in
`slopes.sat`. -/
def recordedBody (body : Body) (polygon : Polygon) (slopes : BodySlopes)
    (response : Response) : Body :=
  { syncedBody body polygon with
    overlapX := response.overlapV.x
    overlapY := response.overlapV.y
    slopes := some { slopes with sat := { response := some (prepareResponse response) } } }

/-- No edge flag of the slope stops the separation: the overlap normal does not
point straight out of a side whose flag is `EMPTY`. -/
def EdgesAllow (slope : TileSlope) (response : Response) : Prop :=
  ¬ (slope.edges.top = EMPTY ∧ response.overlapN.y < 0 ∧ response.overlapN.x = 0) ∧
  ¬ (slope.edges.bottom = EMPTY ∧ response.overlapN.y > 0 ∧ response.overlapN.x = 0) ∧
  ¬ (slope.edges.left = EMPTY ∧ response.overlapN.x < 0 ∧ response.overlapN.y = 0) ∧
  ¬ (slope.edges.right = EMPTY ∧ response.overlapN.x > 0 ∧ response.overlapN.y = 0)

/-- No restraint rule stops the separation: no rule of the tile's type
matches. -/
def RulesAllow (restraints : TypeValue → Option (List Rule)) (tile : Tile) (slope : TileSlope)
    (response : Response) : Prop :=
  ∀ neighbours rules, tile.neighbours = some neighbours → restraints slope.type = some rules →
    ∀ rule ∈ rules, ¬ RuleMatches rule slope neighbours response

end ArcadeSlopes

namespace SAT

/-- The points of an axis-parallel rectangle in the order `Box.toPolygon` and
the rectangular tile builders list them: from `(x0, y0)` along the side `y0`
to `(x1, y0)`, then `(x1, y1)`, then `(x0, y1)`. -/
def rectPoints (x0 y0 x1 y1 : ℚ) : List Vector :=
  [{ x := x0, y := y0 }, { x := x1, y := y0 }, { x := x1, y := y1 }, { x := x0, y := y1 }]

/-- The unit normals `_recalc` derives for the four sides of such a rectangle. -/
def rectNormals : List Vector :=
  [{ x := 0, y := -1 }, { x := 1, y := 0 }, { x := 0, y := 1 }, { x := -1, y := 0 }]

/-- The polygon of an axis-parallel rectangle: its points, and the edges and
normals `_recalc` derives from them. -/
def rectPolygon (pos : Vector) (x0 y0 x1 y1 : ℚ) : Polygon :=
  { pos := pos
    points := rectPoints x0 y0 x1 y1
    offset := Vector.zero
    calcPoints := rectPoints x0 y0 x1 y1
    edges := [{ x := x1 - x0, y := 0 }, { x := 0, y := y1 - y0 }, { x := x0 - x1, y := 0 },
      { x := 0, y := y0 - y1 }]
    normals := rectNormals }

end SAT

namespace ArcadeSlopes

open SAT

/-! ### Sample bodies and tiles for the solver -/

/-- A 16 by 16 tile at the world origin, before it is given a slope. -/
def sampleBase : Tile := { width := 16, height := 16 }

/-- The 16 by 16 tile with the slope `createFull` builds for it. -/
def sampleSolidTile : Tile :=
  { sampleBase with slope := some (createFull FULL sampleBase) }

/-- The 16 by 16 tile with the slope `createHalfBottom` builds for it, and no
neighbours record. -/
def sampleHalfBottomTile : Tile :=
  { sampleBase with slope := some (createHalfBottom HALF_BOTTOM sampleBase) }

/-- An enabled 10 by 10 body at `(-7, 3)`: three units into the sample tile
from its left. -/
def sampleSideBody : Body :=
  enableBody
    { position := { x := -7, y := 3 }
      velocity := { x := 2, y := 1 }
      bounce := { x := 1 / 2, y := 1 / 2 }
      width := 10
      height := 10 }

/-- An enabled 10 by 10 body at `(3, 0)`: its bottom two units below the
mid-height of the sample tile. -/
def sampleTopBody : Body :=
  enableBody
    { position := { x := 3, y := 0 }
      velocity := { x := 2, y := 1 }
      bounce := { x := 1 / 2, y := 1 / 2 }
      width := 10
      height := 10 }

/-- A body at the origin whose polygon is the unit square. -/
def sampleUnitBody : Body :=
  { polygon := some (unitSquareAt { x := 0, y := 0 }), slopes := some {} }

/-- A full tile at `(1/2, 0)` whose polygon is the unit square. -/
def sampleUnitTile : Tile :=
  { worldX := 1 / 2
    slope := some { type := FULL, polygon := some (unitSquareAt { x := 1 / 2, y := 0 }) } }

/-- The same tile with its left edge flagged `EMPTY`. -/
def sampleOpenTile : Tile :=
  { worldX := 1 / 2
    slope := some
      { type := FULL
        polygon := some (unitSquareAt { x := 1 / 2, y := 0 })
        edges := { left := EMPTY } } }

/-- Callbacks of which the tile's own always vetoes. -/
def sampleVeto : Callbacks := { collisionCallback := some fun _ _ => false }

/-- A body moving at `(3, 4)` that bounces fully. -/
def sampleBouncingBody : Body :=
  { velocity := { x := 3, y := 4 }, bounce := { x := 1, y := 1 }, slopes := some {} }

end ArcadeSlopes

namespace ArcadeSlopes

open SAT

/-- A tile 12 wide and 16 high at the world origin, before it is given a
slope. -/
def slideBase : Tile := { index := 1, width := 12, height := 16 }

/-- That tile with the slope `createHalfBottomLeft` builds for it, and a full
tile as its bottom right neighbour. -/
def slideTile : Tile :=
  { slideBase with
    slope := some (createHalfBottomLeft HALF_BOTTOM_LEFT slideBase)
    neighbours := some { bottomRight := some { slope := some { type := FULL } } } }

/-- An enabled 10 by 10 body at rest at `(10, 10)`: two units into the slide
tile from the right of its lower tip. -/
def slideBody : Body :=
  enableBody { position := { x := 10, y := 10 }, width := 10, height := 10 }

/-- The polygon `createHalfBottomLeft` builds for the slide tile, with the
arrays `_recalc` derives: the sloped edge has length 20. -/
def slidePolygon : Polygon :=
  { pos := { x := 0, y := 0 }
    points := [{ x := 0, y := 0 }, { x := 12, y := 16 }, { x := 0, y := 16 }]
    offset := Vector.zero
    calcPoints := [{ x := 0, y := 0 }, { x := 12, y := 16 }, { x := 0, y := 16 }]
    edges := [{ x := 12, y := 16 }, { x := -12, y := 0 }, { x := 0, y := -16 }]
    normals := [{ x := 4 / 5, y := -3 / 5 }, { x := 0, y := 1 }, { x := -1, y := 0 }] }

/-- The response `testPolygonPolygon` leaves for the slide body against the
slide tile: the least overlap is two units, along the X axis. -/
def slideResponse : Response :=
  { a := some (rectPolygon { x := 10, y := 10 } 0 0 10 10)
    b := some slidePolygon
    overlapN := { x := -1, y := 0 }
    overlapV := { x := -2, y := 0 }
    aInB := false
    bInA := false
    overlap := 2 }

end ArcadeSlopes

namespace ArcadeSlopes

open SAT

/-- The four directions of a pull or of a restraint rule, in the order `pull`
tries them. -/
inductive Direction where
  | up
  | down
  | left
  | right
  deriving DecidableEq

/-- The place of a direction in the order `pull` tries them. -/
def Direction.rank : Direction → Nat
  | Direction.up => 0
  | Direction.down => 1
  | Direction.left => 2
  | Direction.right => 3

/-- The name of a direction, as a restraint rule writes it. -/
def Direction.name : Direction → String
  | Direction.up => "up"
  | Direction.down => "down"
  | Direction.left => "left"
  | Direction.right => "right"

/-- The axis unit vector of a direction; the Y axis points down the screen. -/
def Direction.unit : Direction → Vector
  | Direction.up => { x := 0, y := -1 }
  | Direction.down => { x := 0, y := 1 }
  | Direction.left => { x := -1, y := 0 }
  | Direction.right => { x := 1, y := 0 }

/-- The pull coefficient `body.slopes` holds for a direction. -/
def BodySlopes.pullOf (slopes : BodySlopes) : Direction → ℚ
  | Direction.up => slopes.pullUp
  | Direction.down => slopes.pullDown
  | Direction.left => slopes.pullLeft
  | Direction.right => slopes.pullRight

/-- The flipped normal `m` indicates contact on the side of a direction. -/
def Direction.Contact (d : Direction) (m : Vector) : Prop :=
  match d with
  | Direction.up => m.y < 0
  | Direction.down => m.y > 0
  | Direction.left => m.x < 0
  | Direction.right => m.x > 0

/-- A direction qualifies for a pull: its coefficient is non-zero and the
flipped normal indicates contact on its side. -/
def PullApplies (slopes : BodySlopes) (m : Vector) (d : Direction) : Prop :=
  slopes.pullOf d ≠ 0 ∧ d.Contact m

/-- A tile that differs from `tile` only in what the gate of `separate` reads:
the edge flags of its slope, and its neighbours. -/
def regated (tile : Tile) (edges : Edges) (neighbours : Option Neighbours) : Tile :=
  { tile with
    neighbours := neighbours
    slope := tile.slope.map fun slope => { slope with edges := edges } }

/-- Neither callback vetoes the collision of the body with the tile. -/
def NoVeto (callbacks : Callbacks) (body : Body) (tile : Tile) : Prop :=
  (∀ callback, callbacks.collisionCallback = some callback → callback body tile = true) ∧
  (∀ callback, callbacks.layerCallback = some callback → callback body tile = true)

/-- A body with non-zero pulls up and to the left, at rest. -/
def samplePulledBody : Body := { slopes := some { pullUp := 1, pullLeft := 2 } }

/-- A response whose normal points down and to the right, so that the flipped
normal points up and to the left. -/
def sampleDiagonalResponse : Response :=
  { overlap := 1, overlapN := { x := 3 / 5, y := 4 / 5 }, overlapV := { x := 3 / 5, y := 4 / 5 } }

/-- Callbacks of which the tile's own always lets the collision go ahead. -/
def samplePermit : Callbacks := { collisionCallback := some fun _ _ => true }

end ArcadeSlopes

namespace ArcadeSlopes

open SAT

/-- Whether the `overlapX` and `overlapY` that `resolveOverlaps` gives for a
direction both accept the normal `n`, by the tests `restrain` makes on
`response.overlapN`. -/
def directionAccepts (d : Direction) (n : Vector) : Bool :=
  match resolveOverlaps d.name with
  | some overlaps => overlaps.1.test n.x && overlaps.2.test n.y
  | none => false

/-- `TileSlope.typeNames`: the map of slope types to their names. -/
def typeNames : List (Int × String) :=
  [(-1, "UNKNOWN"), (0, "FULL"), (21, "HALF_BOTTOM"), (22, "HALF_TOP"), (23, "HALF_LEFT"),
    (24, "HALF_RIGHT"), (1, "HALF_BOTTOM_LEFT"), (2, "HALF_BOTTOM_RIGHT"), (3, "HALF_TOP_LEFT"),
    (4, "HALF_TOP_RIGHT"), (5, "QUARTER_BOTTOM_LEFT_LOW"), (6, "QUARTER_BOTTOM_LEFT_HIGH"),
    (7, "QUARTER_BOTTOM_RIGHT_LOW"), (8, "QUARTER_BOTTOM_RIGHT_HIGH"),
    (9, "QUARTER_LEFT_BOTTOM_LOW"), (10, "QUARTER_LEFT_BOTTOM_HIGH"),
    (11, "QUARTER_RIGHT_BOTTOM_LOW"), (12, "QUARTER_RIGHT_BOTTOM_HIGH"),
    (13, "QUARTER_LEFT_TOP_LOW"), (14, "QUARTER_LEFT_TOP_HIGH"), (15, "QUARTER_RIGHT_TOP_LOW"),
    (16, "QUARTER_RIGHT_TOP_HIGH"), (17, "QUARTER_TOP_LEFT_LOW"), (18, "QUARTER_TOP_LEFT_HIGH"),
    (19, "QUARTER_TOP_RIGHT_LOW"), (20, "QUARTER_TOP_RIGHT_HIGH")]

/-- A string is the symbolic name of a slope type: one of the names in
`typeNames`. -/
def IsTypeName (name : String) : Prop := name ∈ typeNames.map Prod.snd

end ArcadeSlopes

namespace SAT

namespace InPlace

/-- A `SAT.Vector` with coordinates in a field of numbers `K`. -/
structure Vector (K : Type) where
  x : K
  y : K

/-- The vector `new Vector()`: both components default to `0`. -/
def Vector.zero {K : Type} [LinearOrderedField K] : Vector K := { x := 0, y := 0 }

/-- `Vector.prototype.perp`: `x' = y`, `y' = -x`. -/
def Vector.perp {K : Type} [LinearOrderedField K] (v : Vector K) : Vector K :=
  { x := v.y, y := -v.x }

/-- `Vector.prototype.add`. -/
def Vector.add {K : Type} [LinearOrderedField K] (v other : Vector K) : Vector K :=
  { x := v.x + other.x, y := v.y + other.y }

/-- `Vector.prototype.sub`. -/
def Vector.sub {K : Type} [LinearOrderedField K] (v other : Vector K) : Vector K :=
  { x := v.x - other.x, y := v.y - other.y }

/-- `Vector.prototype.scale` called with one argument. -/
def Vector.scale {K : Type} [LinearOrderedField K] (v : Vector K) (s : K) : Vector K :=
  { x := v.x * s, y := v.y * s }

/-- `Vector.prototype.dot`. -/
def Vector.dot {K : Type} [LinearOrderedField K] (v other : Vector K) : K :=
  v.x * other.x + v.y * other.y

/-- `Vector.prototype.len2`. -/
def Vector.len2 {K : Type} [LinearOrderedField K] (v : Vector K) : K := v.dot v

/-- `Vector.prototype.len`, with `Math.sqrt` given as `sqrt`. -/
def Vector.len {K : Type} [LinearOrderedField K] (sqrt : K → K) (v : Vector K) : K :=
  sqrt v.len2

/-- `Vector.prototype.normalize`, with `Math.sqrt` given as `sqrt`. -/
def Vector.normalize {K : Type} [LinearOrderedField K] (sqrt : K → K) (v : Vector K) :
    Vector K :=
  let d := v.len sqrt
  if d > 0 then { x := v.x / d, y := v.y / d } else v

/-- A `SAT.Polygon` over the numbers `K`, at angle `0`: the position, the
points with their offset, and the three derived arrays. -/
structure Polygon (K : Type) where
  pos : Vector K
  points : List (Vector K)
  offset : Vector K
  calcPoints : List (Vector K)
  edges : List (Vector K)
  normals : List (Vector K)

/-- The first loop of `Polygon.prototype._recalc` at angle `0`, index by index
on the array `calcPoints` as it stands: `calcPoints[i]` takes the coordinates
of `points[i]`, moved by the offset.  Calling `copy` on an entry that is not
there is a `TypeError`. -/
def recalcPoints {K : Type} [LinearOrderedField K] (points : List (Vector K))
    (offset : Vector K) : List Nat → List (Vector K) → Option (List (Vector K))
  | [], calcPoints => some calcPoints
  | i :: rest, calcPoints =>
    match calcPoints[i]?, points[i]? with
    | some _, some point =>
      recalcPoints points offset rest
        (calcPoints.set i { x := point.x + offset.x, y := point.y + offset.y })
    | _, _ => none

/-- The second loop of `Polygon.prototype._recalc`, index by index on the
arrays `edges` and `normals` as they stand: `edges[i]` takes the difference of
the next calculated point (the first one after the last) and `calcPoints[i]`,
and `normals[i]` its normalized perpendicular. -/
def recalcEdges {K : Type} [LinearOrderedField K] (sqrt : K → K)
    (calcPoints : List (Vector K)) (len : Nat) :
    List Nat → List (Vector K) × List (Vector K) →
      Option (List (Vector K) × List (Vector K))
  | [], arrays => some arrays
  | i :: rest, arrays =>
    let next := if (i : Int) < (len : Int) - 1 then calcPoints[i + 1]? else calcPoints[0]?
    match calcPoints[i]?, next, arrays.1[i]?, arrays.2[i]? with
    | some p1, some p2, some _, some _ =>
      let e := p2.sub p1
      recalcEdges sqrt calcPoints len rest
        (arrays.1.set i e, arrays.2.set i (e.perp.normalize sqrt))
    | _, _, _, _ => none

/-- `Polygon.prototype._recalc` at angle `0`, statement by statement on the
three derived arrays as they stand; `none` is a `TypeError`. -/
def _recalc {K : Type} [LinearOrderedField K] (sqrt : K → K) (P : Polygon K) :
    Option (Polygon K) :=
  let len := P.points.length
  match recalcPoints P.points P.offset (List.range len) P.calcPoints with
  | none => none
  | some calcPoints =>
    match recalcEdges sqrt calcPoints len (List.range len) (P.edges, P.normals) with
    | none => none
    | some arrays => some { P with calcPoints := calcPoints, edges := arrays.1, normals := arrays.2 }

/-- `Polygon.prototype.setPoints`, with its allocation step: the three arrays
are replaced by arrays of new zero vectors when the number of points changes.
A polygon under construction, whose `points` are not set yet, is one with no
points and empty arrays. -/
def setPoints {K : Type} [LinearOrderedField K] (sqrt : K → K) (P : Polygon K)
    (points : List (Vector K)) : Option (Polygon K) :=
  let lengthChanged := decide (P.points.length ≠ points.length)
  let P : Polygon K :=
    if lengthChanged then
      { P with
        calcPoints := List.replicate points.length Vector.zero
        edges := List.replicate points.length Vector.zero
        normals := List.replicate points.length Vector.zero }
    else P
  _recalc sqrt { P with points := points }

/-- `Polygon.prototype.setOffset`. -/
def setOffset {K : Type} [LinearOrderedField K] (sqrt : K → K) (P : Polygon K)
    (offset : Vector K) : Option (Polygon K) :=
  _recalc sqrt { P with offset := offset }

/-- `Polygon.prototype.translate`. -/
def translate {K : Type} [LinearOrderedField K] (sqrt : K → K) (P : Polygon K) (x y : K) :
    Option (Polygon K) :=
  _recalc sqrt
    { P with points := P.points.map fun point => { x := point.x + x, y := point.y + y } }

/-- The constructor `new Polygon(pos, points)`: angle `0`, a zero offset, then
`setPoints`. -/
def newPolygon {K : Type} [LinearOrderedField K] (sqrt : K → K) (pos : Vector K)
    (points : List (Vector K)) : Option (Polygon K) :=
  setPoints sqrt
    { pos := pos, points := [], offset := Vector.zero, calcPoints := [], edges := [],
      normals := [] } points

/-- The edge `_recalc` derives at index `i` from the calculated points. -/
def edgeFrom {K : Type} [LinearOrderedField K] (calcPoints : List (Vector K)) (len i : Nat) :
    Vector K :=
  (if (i : Int) < (len : Int) - 1 then calcPoints.getD (i + 1) Vector.zero
    else calcPoints.getD 0 Vector.zero).sub (calcPoints.getD i Vector.zero)

/-- The function `sqrt` is the square root on the numbers `K`: the root of a
number that is not negative is not negative, and its square is that number. -/
def IsSqrt {K : Type} [LinearOrderedField K] (sqrt : K → K) : Prop :=
  ∀ x : K, 0 ≤ x → 0 ≤ sqrt x ∧ sqrt x * sqrt x = x

/-- The derived arrays of a polygon are consistent with its points: they have
the length of `points`, and at every index the calculated point is the point
moved by the offset, the edge leads from the calculated point to the next one
(from the last to the first), and the normal is the perpendicular of the edge
scaled to unit length: the zero vector for a zero edge, and otherwise a
positive multiple of the perpendicular whose squared length is one. -/
def Polygon.Consistent {K : Type} [LinearOrderedField K] (P : Polygon K) : Prop :=
  P.calcPoints.length = P.points.length ∧ P.edges.length = P.points.length ∧
  P.normals.length = P.points.length ∧
  ∀ i, i < P.points.length →
    P.calcPoints.getD i Vector.zero = (P.points.getD i Vector.zero).add P.offset ∧
    P.edges.getD i Vector.zero =
      (P.calcPoints.getD ((i + 1) % P.points.length) Vector.zero).sub
        (P.calcPoints.getD i Vector.zero) ∧
    (P.edges.getD i Vector.zero = Vector.zero → P.normals.getD i Vector.zero = Vector.zero) ∧
    (P.edges.getD i Vector.zero ≠ Vector.zero →
      ∃ c : K, 0 < c ∧
        P.normals.getD i Vector.zero = (P.edges.getD i Vector.zero).perp.scale c ∧
        (P.normals.getD i Vector.zero).len2 = 1)

/-- A vector of the rational model, read over the numbers `ℚ`. -/
def ofVector (v : SAT.Vector) : Vector ℚ := { x := v.x, y := v.y }

/-- A polygon of the rational model, read over the numbers `ℚ`. -/
def ofPolygon (P : SAT.Polygon) : Polygon ℚ :=
  { pos := ofVector P.pos
    points := P.points.map ofVector
    offset := ofVector P.offset
    calcPoints := P.calcPoints.map ofVector
    edges := P.edges.map ofVector
    normals := P.normals.map ofVector }

/-- The unit square with its derived arrays, over any numbers. -/
def sampleSquare (K : Type) [LinearOrderedField K] : Polygon K :=
  { pos := Vector.zero
    points := [{ x := 0, y := 0 }, { x := 1, y := 0 }, { x := 1, y := 1 }, { x := 0, y := 1 }]
    offset := Vector.zero
    calcPoints := [{ x := 0, y := 0 }, { x := 1, y := 0 }, { x := 1, y := 1 }, { x := 0, y := 1 }]
    edges := [{ x := 1, y := 0 }, { x := 0, y := 1 }, { x := -1, y := 0 }, { x := 0, y := -1 }]
    normals := [{ x := 0, y := -1 }, { x := 1, y := 0 }, { x := 0, y := 1 }, { x := -1, y := 0 }] }

/-- A right triangle with legs of length one, whose third side has the
length `√2`. -/
def sampleTriangle (K : Type) [LinearOrderedField K] : List (Vector K) :=
  [{ x := 0, y := 0 }, { x := 1, y := 0 }, { x := 0, y := 1 }]

end InPlace

end SAT

namespace ArcadeSlopes

open SAT

/-! ### The slope types and their builders

Each builder is the function of the same name in the source.  The `line` of a
slope, a drawing aid that neither the factory nor the solver reads, is left
out.  A decimal literal stands for the rational it writes. -/

/-- `TileSlope.HALF_TOP`. -/
def HALF_TOP : Int := 22

/-- `TileSlope.HALF_LEFT`. -/
def HALF_LEFT : Int := 23

/-- `TileSlope.HALF_RIGHT`. -/
def HALF_RIGHT : Int := 24

/-- `TileSlope.HALF_BOTTOM_RIGHT`. -/
def HALF_BOTTOM_RIGHT : Int := 2

/-- `TileSlope.HALF_TOP_LEFT`. -/
def HALF_TOP_LEFT : Int := 3

/-- `TileSlope.HALF_TOP_RIGHT`. -/
def HALF_TOP_RIGHT : Int := 4

/-- `TileSlope.QUARTER_BOTTOM_LEFT_LOW`. -/
def QUARTER_BOTTOM_LEFT_LOW : Int := 5

/-- `TileSlope.QUARTER_BOTTOM_RIGHT_HIGH`. -/
def QUARTER_BOTTOM_RIGHT_HIGH : Int := 8

/-- `TileSlope.QUARTER_LEFT_BOTTOM_LOW`. -/
def QUARTER_LEFT_BOTTOM_LOW : Int := 9

/-- `TileSlope.QUARTER_LEFT_BOTTOM_HIGH`. -/
def QUARTER_LEFT_BOTTOM_HIGH : Int := 10

/-- `TileSlope.QUARTER_RIGHT_BOTTOM_LOW`. -/
def QUARTER_RIGHT_BOTTOM_LOW : Int := 11

/-- `TileSlope.QUARTER_RIGHT_BOTTOM_HIGH`. -/
def QUARTER_RIGHT_BOTTOM_HIGH : Int := 12

/-- `TileSlope.QUARTER_LEFT_TOP_LOW`. -/
def QUARTER_LEFT_TOP_LOW : Int := 13

/-- `TileSlope.QUARTER_LEFT_TOP_HIGH`. -/
def QUARTER_LEFT_TOP_HIGH : Int := 14

/-- `TileSlope.QUARTER_RIGHT_TOP_LOW`. -/
def QUARTER_RIGHT_TOP_LOW : Int := 15

/-- `TileSlope.QUARTER_RIGHT_TOP_HIGH`. -/
def QUARTER_RIGHT_TOP_HIGH : Int := 16

/-- `TileSlope.QUARTER_TOP_LEFT_LOW`. -/
def QUARTER_TOP_LEFT_LOW : Int := 17

/-- `TileSlope.QUARTER_TOP_LEFT_HIGH`. -/
def QUARTER_TOP_LEFT_HIGH : Int := 18

/-- `TileSlope.QUARTER_TOP_RIGHT_LOW`. -/
def QUARTER_TOP_RIGHT_LOW : Int := 19

/-- `TileSlope.QUARTER_TOP_RIGHT_HIGH`. -/
def QUARTER_TOP_RIGHT_HIGH : Int := 20

/-- `TileSlopeFactory.createHalfTop`. -/
def createHalfTop (type : TypeValue) (tile : Tile) : TileSlope :=
  let halfHeight := tile.height / 2
  let polygon :=
    newPolygon { x := tile.worldX, y := tile.worldY }
      [{ x := 0, y := 0 }, { x := tile.width, y := 0 }, { x := tile.width, y := halfHeight },
        { x := 0, y := halfHeight }]
  let edges : Edges := { bottom := INTERESTING, left := INTERESTING, right := INTERESTING }
  { type := type, polygon := some polygon, edges := edges }

/-- `TileSlopeFactory.createHalfLeft`. -/
def createHalfLeft (type : TypeValue) (tile : Tile) : TileSlope :=
  let halfWidth := tile.width / 2
  let polygon :=
    newPolygon { x := tile.worldX, y := tile.worldY }
      [{ x := 0, y := 0 }, { x := halfWidth, y := 0 }, { x := halfWidth, y := tile.height },
        { x := 0, y := tile.height }]
  let edges : Edges := { top := INTERESTING, bottom := INTERESTING, right := INTERESTING }
  { type := type, polygon := some polygon, edges := edges }

/-- `TileSlopeFactory.createHalfRight`. -/
def createHalfRight (type : TypeValue) (tile : Tile) : TileSlope :=
  let halfWidth := tile.width / 2
  let polygon :=
    newPolygon { x := tile.worldX, y := tile.worldY }
      [{ x := halfWidth, y := 0 }, { x := tile.width, y := 0 },
        { x := tile.width, y := tile.height }, { x := halfWidth, y := tile.height }]
  let edges : Edges := { top := INTERESTING, bottom := INTERESTING, left := INTERESTING }
  { type := type, polygon := some polygon, edges := edges }

/-- `TileSlopeFactory.createHalfBottomRight`. -/
def createHalfBottomRight (type : TypeValue) (tile : Tile) : TileSlope :=
  let polygon :=
    newPolygon { x := tile.worldX, y := tile.worldY }
      [{ x := tile.width, y := 0 }, { x := tile.width, y := tile.height },
        { x := 0, y := tile.height }]
  let edges : Edges := { top := INTERESTING, left := INTERESTING }
  let axis : Vector := { x := -0.707106781186548, y := -0.707106781186548 }
  { type := type, polygon := some polygon, edges := edges, axis := some axis }

/-- `TileSlopeFactory.createHalfTopLeft`. -/
def createHalfTopLeft (type : TypeValue) (tile : Tile) : TileSlope :=
  let polygon :=
    newPolygon { x := tile.worldX, y := tile.worldY }
      [{ x := 0, y := 0 }, { x := tile.width, y := 0 }, { x := 0, y := tile.height }]
  let edges : Edges := { bottom := INTERESTING, right := INTERESTING }
  let axis : Vector := { x := 0.7071067811865475, y := 0.7071067811865475 }
  { type := type, polygon := some polygon, edges := edges, axis := some axis }

/-- `TileSlopeFactory.createHalfTopRight`. -/
def createHalfTopRight (type : TypeValue) (tile : Tile) : TileSlope :=
  let polygon :=
    newPolygon { x := tile.worldX, y := tile.worldY }
      [{ x := 0, y := 0 }, { x := tile.width, y := 0 }, { x := tile.width, y := tile.height }]
  let edges : Edges := { bottom := INTERESTING, left := INTERESTING }
  let axis : Vector := { x := -0.7071067811865475, y := 0.7071067811865475 }
  { type := type, polygon := some polygon, edges := edges, axis := some axis }

/-- `TileSlopeFactory.createQuarterBottomLeftLow`. -/
def createQuarterBottomLeftLow (type : TypeValue) (tile : Tile) : TileSlope :=
  let polygon :=
    newPolygon { x := tile.worldX, y := tile.worldY }
      [{ x := 0, y := tile.height / 2 }, { x := tile.width, y := tile.height },
        { x := 0, y := tile.height }]
  let edges : Edges := { top := INTERESTING, left := INTERESTING, right := INTERESTING }
  let axis : Vector := { x := 0.4472135954999579, y := -0.8944271909999159 }
  { type := type, polygon := some polygon, edges := edges, axis := some axis }

/-- `TileSlopeFactory.createQuarterBottomLeftHigh`. -/
def createQuarterBottomLeftHigh (type : TypeValue) (tile : Tile) : TileSlope :=
  let polygon :=
    newPolygon { x := tile.worldX, y := tile.worldY }
      [{ x := 0, y := 0 }, { x := tile.width, y := tile.height / 2 },
        { x := tile.width, y := tile.height }, { x := 0, y := tile.height }]
  let edges : Edges := { top := INTERESTING, right := INTERESTING }
  let axis : Vector := { x := 0.4472135954999579, y := -0.8944271909999159 }
  { type := type, polygon := some polygon, edges := edges, axis := some axis }

/-- `TileSlopeFactory.createQuarterBottomRightLow`. -/
def createQuarterBottomRightLow (type : TypeValue) (tile : Tile) : TileSlope :=
  let polygon :=
    newPolygon { x := tile.worldX, y := tile.worldY }
      [{ x := tile.width, y := tile.height / 2 }, { x := tile.width, y := tile.height },
        { x := 0, y := tile.height }]
  let edges : Edges := { top := INTERESTING, left := INTERESTING, right := INTERESTING }
  let axis : Vector := { x := -0.4472135954999579, y := -0.8944271909999159 }
  { type := type, polygon := some polygon, edges := edges, axis := some axis }

/-- `TileSlopeFactory.createQuarterBottomRightHigh`. -/
def createQuarterBottomRightHigh (type : TypeValue) (tile : Tile) : TileSlope :=
  let polygon :=
    newPolygon { x := tile.worldX, y := tile.worldY }
      [{ x := tile.width, y := 0 }, { x := 0, y := tile.height / 2 }, { x := 0, y := tile.height },
        { x := tile.width, y := tile.height }]
  let edges : Edges := { top := INTERESTING, left := INTERESTING }
  let axis : Vector := { x := -0.4472135954999579, y := -0.8944271909999159 }
  { type := type, polygon := some polygon, edges := edges, axis := some axis }

/-- `TileSlopeFactory.createQuarterLeftBottomLow`. -/
def createQuarterLeftBottomLow (type : TypeValue) (tile : Tile) : TileSlope :=
  let polygon :=
    newPolygon { x := tile.worldX, y := tile.worldY }
      [{ x := 0, y := 0 }, { x := tile.width / 2, y := 0 }, { x := tile.width, y := tile.height },
        { x := 0, y := tile.height }]
  let edges : Edges := { top := INTERESTING, right := INTERESTING }
  let axis : Vector := { x := 0.8944271909999159, y := -0.4472135954999579 }
  { type := type, polygon := some polygon, edges := edges, axis := some axis }

/-- `TileSlopeFactory.createQuarterLeftBottomHigh`. -/
def createQuarterLeftBottomHigh (type : TypeValue) (tile : Tile) : TileSlope :=
  let polygon :=
    newPolygon { x := tile.worldX, y := tile.worldY }
      [{ x := 0, y := 0 }, { x := tile.width / 2, y := tile.height }, { x := 0, y := tile.height }]
  let edges : Edges := { top := INTERESTING, bottom := INTERESTING, right := INTERESTING }
  let axis : Vector := { x := 0.8944271909999159, y := -0.4472135954999579 }
  { type := type, polygon := some polygon, edges := edges, axis := some axis }

/-- `TileSlopeFactory.createQuarterRightBottomLow`. -/
def createQuarterRightBottomLow (type : TypeValue) (tile : Tile) : TileSlope :=
  let polygon :=
    newPolygon { x := tile.worldX, y := tile.worldY }
      [{ x := tile.width / 2, y := 0 }, { x := tile.width, y := 0 },
        { x := tile.width, y := tile.height }, { x := 0, y := tile.height }]
  let edges : Edges := { top := INTERESTING, left := INTERESTING }
  let axis : Vector := { x := -0.8944271909999159, y := -0.4472135954999579 }
  { type := type, polygon := some polygon, edges := edges, axis := some axis }

/-- `TileSlopeFactory.createQuarterRightBottomHigh`. -/
def createQuarterRightBottomHigh (type : TypeValue) (tile : Tile) : TileSlope :=
  let polygon :=
    newPolygon { x := tile.worldX, y := tile.worldY }
      [{ x := tile.width, y := 0 }, { x := tile.width, y := tile.height },
        { x := tile.width / 2, y := tile.height }]
  let edges : Edges := { top := INTERESTING, bottom := INTERESTING, left := INTERESTING }
  let axis : Vector := { x := -0.8944271909999159, y := -0.4472135954999579 }
  { type := type, polygon := some polygon, edges := edges, axis := some axis }

/-- `TileSlopeFactory.createQuarterLeftTopLow`. -/
def createQuarterLeftTopLow (type : TypeValue) (tile : Tile) : TileSlope :=
  let polygon :=
    newPolygon { x := tile.worldX, y := tile.worldY }
      [{ x := 0, y := 0 }, { x := tile.width / 2, y := 0 }, { x := 0, y := tile.height }]
  let edges : Edges := { top := INTERESTING, bottom := INTERESTING, right := INTERESTING }
  let axis : Vector := { x := 0.8944271909999159, y := 0.4472135954999579 }
  { type := type, polygon := some polygon, edges := edges, axis := some axis }

/-- `TileSlopeFactory.createQuarterLeftTopHigh`. -/
def createQuarterLeftTopHigh (type : TypeValue) (tile : Tile) : TileSlope :=
  let polygon :=
    newPolygon { x := tile.worldX, y := tile.worldY }
      [{ x := 0, y := 0 }, { x := tile.width, y := 0 }, { x := tile.width / 2, y := tile.height },
        { x := 0, y := tile.height }]
  let edges : Edges := { bottom := INTERESTING, right := INTERESTING }
  let axis : Vector := { x := 0.8944271909999159, y := 0.4472135954999579 }
  { type := type, polygon := some polygon, edges := edges, axis := some axis }

/-- `TileSlopeFactory.createQuarterRightTopLow`. -/
def createQuarterRightTopLow (type : TypeValue) (tile : Tile) : TileSlope :=
  let polygon :=
    newPolygon { x := tile.worldX, y := tile.worldY }
      [{ x := tile.width / 2, y := 0 }, { x := tile.width, y := 0 },
        { x := tile.width, y := tile.height }]
  let edges : Edges := { top := INTERESTING, bottom := INTERESTING, right := INTERESTING }
  let axis : Vector := { x := -0.8944271909999159, y := 0.4472135954999579 }
  { type := type, polygon := some polygon, edges := edges, axis := some axis }

/-- `TileSlopeFactory.createQuarterRightTopHigh`. -/
def createQuarterRightTopHigh (type : TypeValue) (tile : Tile) : TileSlope :=
  let polygon :=
    newPolygon { x := tile.worldX, y := tile.worldY }
      [{ x := 0, y := 0 }, { x := tile.width, y := 0 }, { x := tile.width, y := tile.height },
        { x := tile.width / 2, y := tile.height }]
  let edges : Edges := { bottom := INTERESTING, right := INTERESTING }
  let axis : Vector := { x := -0.8944271909999159, y := 0.4472135954999579 }
  { type := type, polygon := some polygon, edges := edges, axis := some axis }

/-- `TileSlopeFactory.createQuarterTopLeftLow`. -/
def createQuarterTopLeftLow (type : TypeValue) (tile : Tile) : TileSlope :=
  let polygon :=
    newPolygon { x := tile.worldX, y := tile.worldY }
      [{ x := 0, y := 0 }, { x := tile.width, y := 0 }, { x := 0, y := tile.height / 2 }]
  let edges : Edges := { bottom := INTERESTING, left := INTERESTING, right := INTERESTING }
  let axis : Vector := { x := 0.4472135954999579, y := 0.8944271909999159 }
  { type := type, polygon := some polygon, edges := edges, axis := some axis }

/-- `TileSlopeFactory.createQuarterTopLeftHigh`. -/
def createQuarterTopLeftHigh (type : TypeValue) (tile : Tile) : TileSlope :=
  let polygon :=
    newPolygon { x := tile.worldX, y := tile.worldY }
      [{ x := 0, y := 0 }, { x := tile.width, y := 0 }, { x := tile.width, y := tile.height / 2 },
        { x := 0, y := tile.height }]
  let edges : Edges := { bottom := INTERESTING, right := INTERESTING }
  let axis : Vector := { x := 0.4472135954999579, y := 0.8944271909999159 }
  { type := type, polygon := some polygon, edges := edges, axis := some axis }

/-- `TileSlopeFactory.createQuarterTopRightLow`. -/
def createQuarterTopRightLow (type : TypeValue) (tile : Tile) : TileSlope :=
  let polygon :=
    newPolygon { x := tile.worldX, y := tile.worldY }
      [{ x := 0, y := 0 }, { x := tile.width, y := 0 }, { x := tile.width, y := tile.height / 2 }]
  let edges : Edges := { bottom := INTERESTING, left := INTERESTING, right := INTERESTING }
  let axis : Vector := { x := -0.4472135954999579, y := 0.8944271909999159 }
  { type := type, polygon := some polygon, edges := edges, axis := some axis }

/-- `TileSlopeFactory.createQuarterTopRightHigh`. -/
def createQuarterTopRightHigh (type : TypeValue) (tile : Tile) : TileSlope :=
  let polygon :=
    newPolygon { x := tile.worldX, y := tile.worldY }
      [{ x := 0, y := 0 }, { x := tile.width, y := 0 }, { x := tile.width, y := tile.height },
        { x := 0, y := tile.height / 2 }]
  let edges : Edges := { bottom := INTERESTING, left := INTERESTING }
  let axis : Vector := { x := -0.4472135954999579, y := 0.8944271909999159 }
  { type := type, polygon := some polygon, edges := edges, axis := some axis }

/-- A `TileSlopeFactory`: its `definitions`, the builder registered under each
slope type, in the order they were registered. -/
structure TileSlopeFactory where
  definitions : List (Int × (TypeValue → Tile → TileSlope))

/-- The constructor `new TileSlopeFactory()`. -/
def newTileSlopeFactory : TileSlopeFactory :=
  { definitions :=
      [(FULL, createFull), (HALF_BOTTOM, createHalfBottom), (HALF_TOP, createHalfTop),
        (HALF_LEFT, createHalfLeft), (HALF_RIGHT, createHalfRight),
        (HALF_BOTTOM_LEFT, createHalfBottomLeft), (HALF_BOTTOM_RIGHT, createHalfBottomRight),
        (HALF_TOP_LEFT, createHalfTopLeft), (HALF_TOP_RIGHT, createHalfTopRight),
        (QUARTER_BOTTOM_LEFT_LOW, createQuarterBottomLeftLow),
        (QUARTER_BOTTOM_LEFT_HIGH, createQuarterBottomLeftHigh),
        (QUARTER_BOTTOM_RIGHT_LOW, createQuarterBottomRightLow),
        (QUARTER_BOTTOM_RIGHT_HIGH, createQuarterBottomRightHigh),
        (QUARTER_LEFT_BOTTOM_LOW, createQuarterLeftBottomLow),
        (QUARTER_LEFT_BOTTOM_HIGH, createQuarterLeftBottomHigh),
        (QUARTER_RIGHT_BOTTOM_LOW, createQuarterRightBottomLow),
        (QUARTER_RIGHT_BOTTOM_HIGH, createQuarterRightBottomHigh),
        (QUARTER_LEFT_TOP_LOW, createQuarterLeftTopLow),
        (QUARTER_LEFT_TOP_HIGH, createQuarterLeftTopHigh),
        (QUARTER_RIGHT_TOP_LOW, createQuarterRightTopLow),
        (QUARTER_RIGHT_TOP_HIGH, createQuarterRightTopHigh),
        (QUARTER_TOP_LEFT_LOW, createQuarterTopLeftLow),
        (QUARTER_TOP_LEFT_HIGH, createQuarterTopLeftHigh),
        (QUARTER_TOP_RIGHT_LOW, createQuarterTopRightLow),
        (QUARTER_TOP_RIGHT_HIGH, createQuarterTopRightHigh)] }

/-- The read `this.definitions[type]` with the key it was found under, `none`
when `this.definitions.hasOwnProperty(type)` is false: a number finds the
builder registered under it, a string the builder registered under the number
it is the decimal text of.  (Every registered value is a function.) -/
def TileSlopeFactory.definition (factory : TileSlopeFactory) (type : TypeValue) :
    Option (Int × (TypeValue → Tile → TileSlope)) :=
  factory.definitions.reverse.find? fun entry => type.isKeyOf entry.1

/-- `TileSlopeFactory.prototype.create`; `none` is the `null` it returns for a
type with no definition.  The builder is called with the resolved value
itself: for the text `"21"`, that text. -/
def TileSlopeFactory.create (factory : TileSlopeFactory) (type : TypeValue) (tile : Tile) :
    Option TileSlope :=
  let original := type
  let type := resolveType original
  match factory.definition type with
  | none => none
  | some entry => some (entry.2 type tile)

/-- `Overrides.getTileTopLeft`. -/
def getTileTopLeft (layer : LayerData) (x y : Nat) : Option Tile :=
  if x > 0 ∧ y > 0 then layer.tileAt (x - 1) (y - 1) else none

/-- `Overrides.getTileTopRight`. -/
def getTileTopRight (layer : LayerData) (x y : Nat) : Option Tile :=
  if (x : Int) < (layer.width : Int) - 1 ∧ y > 0 then layer.tileAt (x + 1) (y - 1) else none

/-- `Overrides.getTileBottomLeft`. -/
def getTileBottomLeft (layer : LayerData) (x y : Nat) : Option Tile :=
  if x > 0 ∧ (y : Int) < (layer.height : Int) - 1 then layer.tileAt (x - 1) (y + 1) else none

/-- `Overrides.getTileBottomRight`. -/
def getTileBottomRight (layer : LayerData) (x y : Nat) : Option Tile :=
  if (x : Int) < (layer.width : Int) - 1 ∧ (y : Int) < (layer.height : Int) - 1 then
    layer.tileAt (x + 1) (y + 1)
  else none

/-- What a reference to a neighbouring tile shows to the restrainer. -/
def neighbourOf (tile : Option Tile) : Option Neighbour :=
  tile.map fun t => { slope := t.slope }

/-- The eight neighbour references `convertTilemapLayer` gives the tile at
`(x, y)`, read in the given layer. -/
def neighboursAt (layer : LayerData) (x y : Nat) : Neighbours :=
  { above := neighbourOf (getTileAbove layer x y)
    below := neighbourOf (getTileBelow layer x y)
    left := neighbourOf (getTileLeft layer x y)
    right := neighbourOf (getTileRight layer x y)
    topLeft := neighbourOf (getTileTopLeft layer x y)
    topRight := neighbourOf (getTileTopRight layer x y)
    bottomLeft := neighbourOf (getTileBottomLeft layer x y)
    bottomRight := neighbourOf (getTileBottomRight layer x y) }

/-- The first statement of the loop body of `convertTilemapLayer` on one tile:
when the slope map has the tile's index, the slope `create` builds for the
mapped value is attached, unless `create` returns `null`.  The slope map is
given by its read `slopeMap[index]`, `none` when it has no such key. -/
def attachSlope (factory : TileSlopeFactory) (slopeMap : Int → Option TypeValue)
    (tile : Tile) : Tile :=
  match slopeMap tile.index with
  | none => tile
  | some type =>
    match factory.create type tile with
    | none => tile
    | some slope => { tile with slope := some slope }

/-- `TileSlopeFactory.prototype.convertTilemapLayer`: the layer data after the
call.  A cell that holds no tile is a `TypeError` (`none`).  The neighbours of
a tile are references to tile objects: the record kept here is what they show
once the call is over, after `calculateEdges`.  The coordinates `tile.x` and
`tile.y` of a tile in a tilemap are not negative. -/
def TileSlopeFactory.convertTilemapLayer (factory : TileSlopeFactory) (layer : LayerData)
    (slopeMap : Int → Option TypeValue) : Option LayerData :=
  if layer.data.all fun row => row.all Option.isSome then
    let attached : LayerData :=
      { layer with
        data := layer.data.map fun row =>
          row.map fun cell => cell.map (attachSlope factory slopeMap) }
    let edged := calculateEdges attached
    some
      { edged with
        data := edged.data.map fun row =>
          row.map fun cell => cell.map fun tile =>
            { tile with neighbours := some (neighboursAt edged tile.x.toNat tile.y.toNat) } }
  else none

/-- The four sides of a tile. -/
inductive Side where
  | top
  | bottom
  | left
  | right
  deriving DecidableEq

/-- The flag the `edges` record holds for a side. -/
def Edges.flag (edges : Edges) : Side → Int
  | Side.top => edges.top
  | Side.bottom => edges.bottom
  | Side.left => edges.left
  | Side.right => edges.right

/-- The two corners of the tile that end a side, relative to the tile's
position; the Y axis points down. -/
def Side.corners (side : Side) (tile : Tile) : Vector × Vector :=
  match side with
  | Side.top => ({ x := 0, y := 0 }, { x := tile.width, y := 0 })
  | Side.bottom => ({ x := 0, y := tile.height }, { x := tile.width, y := tile.height })
  | Side.left => ({ x := 0, y := 0 }, { x := 0, y := tile.height })
  | Side.right => ({ x := tile.width, y := 0 }, { x := tile.width, y := tile.height })

/-- The polygon covers a whole side of the tile: both corners that end the side
are points of the polygon. -/
def CoversSide (polygon : Polygon) (tile : Tile) (side : Side) : Prop :=
  (side.corners tile).1 ∈ polygon.points ∧ (side.corners tile).2 ∈ polygon.points

/-- The flags of a slope follow what its polygon covers: the flag of a side is
`INTERESTING` exactly when the polygon does not cover the whole side, and
`SOLID` exactly when it does. -/
def FlagsFollowCover (slope : TileSlope) (tile : Tile) : Prop :=
  ∃ polygon, slope.polygon = some polygon ∧
    ∀ side : Side,
      (slope.edges.flag side = INTERESTING ↔ ¬ CoversSide polygon tile side) ∧
      (slope.edges.flag side = SOLID ↔ CoversSide polygon tile side)

/-- The shoelace sum of a sequence of points, twice the signed area it goes
round: the sum over `i` of `x_i * y_(i+1) - x_(i+1) * y_i`, the last point
followed by the first. -/
def shoelace (points : List Vector) : ℚ :=
  ((List.range points.length).map fun i =>
    let p := points.getD i Vector.zero
    let q := points.getD ((i + 1) % points.length) Vector.zero
    p.x * q.y - q.x * p.y).sum

/-- The real vector `n` is the unit normal of the edge `i` of the polygon that
points out of the polygon: it has length one, it is perpendicular to the edge,
and no point of the polygon lies beyond the edge in its direction. -/
def IsOutwardUnitNormal (polygon : Polygon) (i : Nat) (n : ℝ × ℝ) : Prop :=
  n.1 * n.1 + n.2 * n.2 = 1 ∧
  n.1 * ((polygon.edges.getD i Vector.zero).x : ℝ) +
    n.2 * ((polygon.edges.getD i Vector.zero).y : ℝ) = 0 ∧
  ∀ p ∈ polygon.points,
    n.1 * ((p.x - (polygon.points.getD i Vector.zero).x : ℚ) : ℝ) +
      n.2 * ((p.y - (polygon.points.getD i Vector.zero).y : ℚ) : ℝ) ≤ 0

/-- The edge `i` is the sloped edge of the polygon: it is parallel to neither
axis, and every other edge is parallel to one. -/
def IsSlopedEdge (polygon : Polygon) (i : Nat) : Prop :=
  i < polygon.edges.length ∧
  (polygon.edges.getD i Vector.zero).x ≠ 0 ∧ (polygon.edges.getD i Vector.zero).y ≠ 0 ∧
  ∀ j, j < polygon.edges.length → j ≠ i →
    (polygon.edges.getD j Vector.zero).x = 0 ∨ (polygon.edges.getD j Vector.zero).y = 0

/-- Every flag of the record is `SOLID` or `INTERESTING`. -/
def Edges.AllSet (edges : Edges) : Prop :=
  ∀ side : Side, edges.flag side = SOLID ∨ edges.flag side = INTERESTING

end ArcadeSlopes

namespace ArcadeSlopes

open SAT

/-- A certificate, in rational arithmetic, that the number `c` is within
`10^-9` of `p / sqrt s`. -/
def NearRatio (c p s : ℚ) : Prop :=
  (0 ≤ p ∧ 1 / 1000000000 ≤ c ∧ (c - 1 / 1000000000) ^ 2 * s ≤ p ^ 2 ∧ p ^ 2 ≤ (c + 1 / 1000000000) ^ 2 * s) ∨
  (p ≤ 0 ∧ c ≤ -(1 / 1000000000) ∧ (c + 1 / 1000000000) ^ 2 * s ≤ p ^ 2 ∧
    p ^ 2 ≤ (c - 1 / 1000000000) ^ 2 * s)

end ArcadeSlopes

namespace ArcadeSlopes

open SAT

/-- Callbacks of which the tile's own lets the collision go ahead and the one of
the layer vetoes it. -/
def sampleLayerVeto : Callbacks :=
  { collisionCallback := some fun _ _ => true, layerCallback := some fun _ _ => false }

/-- `TileSlope.resolveTypeName`: the name `typeNames` holds under the key the
value names, or else the name it holds under `-1`. -/
def resolveTypeName (type : TypeValue) : String :=
  match typeNames.find? fun entry => type.isKeyOf entry.1 with
  | some entry => entry.2
  | none => (typeNames.lookup (-1)).getD ""

end ArcadeSlopes

namespace ArcadeSlopes

open SAT

/-- The eight vertex locations of a tile's bounding box that `resolve` takes. -/
inductive Location where
  | topLeft
  | top
  | topRight
  | left
  | right
  | bottomLeft
  | bottom
  | bottomRight
  deriving DecidableEq

/-- The string that names a location in the arguments of `resolve`. -/
def Location.name : Location → String
  | Location.topLeft => "topLeft"
  | Location.top => "top"
  | Location.topRight => "topRight"
  | Location.left => "left"
  | Location.right => "right"
  | Location.bottomLeft => "bottomLeft"
  | Location.bottom => "bottom"
  | Location.bottomRight => "bottomRight"

/-- The point of a location on a tile, relative to the tile's position; the Y
axis points down. -/
def Location.point (location : Location) (tile : Tile) : Vector :=
  match location with
  | Location.topLeft => { x := 0, y := 0 }
  | Location.top => { x := tile.width / 2, y := 0 }
  | Location.topRight => { x := tile.width, y := 0 }
  | Location.left => { x := 0, y := tile.height / 2 }
  | Location.right => { x := tile.width, y := tile.height / 2 }
  | Location.bottomLeft => { x := 0, y := tile.height }
  | Location.bottom => { x := tile.width / 2, y := tile.height }
  | Location.bottomRight => { x := tile.width, y := tile.height }

/-- Whether the vertex map of a location lists the name of a slope type. -/
def listedAt (type : Int) (location : Location) : Bool :=
  match typeNames.lookup type, vertexMap location.name with
  | some name, some map => decide (name ∈ map)
  | _, _ => false

/-- The polygon of a slope has a vertex at a location of the tile. -/
def HasVertexAt (slope : TileSlope) (tile : Tile) (location : Location) : Prop :=
  ∃ polygon, slope.polygon = some polygon ∧ location.point tile ∈ polygon.points

end ArcadeSlopes

namespace ArcadeSlopes

open SAT

/-- The cross products of the pairs of consecutive edges of a polygon: that of
edge `i` with the edge after it, the last edge followed by the first. -/
def edgeTurns (edges : List Vector) : List ℚ :=
  (List.range edges.length).map fun i =>
    cross (edges.getD i Vector.zero) (edges.getD ((i + 1) % edges.length) Vector.zero)

/-- A polygon is strictly convex and not degenerate: it has at least three
edges, and the cross products of its pairs of consecutive edges are all
positive or all negative. -/
def StrictlyConvex (polygon : Polygon) : Prop :=
  3 ≤ polygon.edges.length ∧
    ((∀ turn ∈ edgeTurns polygon.edges, 0 < turn) ∨
      (∀ turn ∈ edgeTurns polygon.edges, turn < 0))

/-- Every point of the polygon lies within the rectangle of the tile,
`[0, width] × [0, height]` relative to the tile's position. -/
def WithinTile (polygon : Polygon) (tile : Tile) : Prop :=
  ∀ p ∈ polygon.points, 0 ≤ p.x ∧ p.x ≤ tile.width ∧ 0 ≤ p.y ∧ p.y ≤ tile.height

end ArcadeSlopes

namespace ArcadeSlopes

open SAT

/-- The eight property names of `tile.neighbours`. -/
def neighbourNames : List String :=
  ["above", "below", "left", "right", "topLeft", "topRight", "bottomLeft", "bottomRight"]

/-- An overlap entry `restrain` can test: a number, or a pair `[lo, hi]` with
`lo ≤ hi`. -/
def Constraint.WellFormed : Constraint → Prop
  | Constraint.number _ => True
  | Constraint.pair lo hi => lo ≤ hi

/-- A value is the constant of a slope type the factory builds: one of the
integers 0 to 24. -/
def isCatalogType (type : TypeValue) : Bool :=
  match type with
  | TypeValue.number n => decide (0 ≤ n) && decide (n ≤ 24)
  | TypeValue.string _ => false
  | TypeValue.null => false
  | TypeValue.object _ _ => false

/-- A prepared rule is well formed: its neighbour key is one of the eight
names, it has both overlap entries, each well formed, and it has a non-empty
list of accepted types, each the constant of a slope type.  (Its `separate` is
a boolean or a function by its type.) -/
def Rule.WellFormed (rule : Rule) : Prop :=
  rule.neighbour ∈ neighbourNames ∧
  (∃ overlapX, rule.overlapX = some overlapX ∧ overlapX.WellFormed) ∧
  (∃ overlapY, rule.overlapY = some overlapY ∧ overlapY.WellFormed) ∧
  ∃ types, rule.types = some types ∧ types ≠ [] ∧ ∀ type ∈ types, isCatalogType type = true

/-- What is checked of a rule as `setDefaultRestraints` writes it: a direction
among `up`, `down`, `left`, `right`, a neighbour key among the eight names, and
a non-empty list of types each of which `resolveType` takes to the constant of
a slope type. -/
def InformalRule.check (rule : InformalRule) : Bool :=
  decide (rule.direction ∈ [some "up", some "down", some "left", some "right"]) &&
  decide (rule.neighbour ∈ neighbourNames) &&
  match rule.types with
  | some types => !types.isEmpty && types.all fun type => isCatalogType (resolveType type)
  | none => false

end ArcadeSlopes

namespace ArcadeSlopes

/-- The mirror of a name, character by character: `LEFT` and `RIGHT` change
places, every other character stays. -/
def mirrorChars : List Char → List Char
  | 'L' :: 'E' :: 'F' :: 'T' :: rest => 'R' :: 'I' :: 'G' :: 'H' :: 'T' :: mirrorChars rest
  | 'R' :: 'I' :: 'G' :: 'H' :: 'T' :: rest => 'L' :: 'E' :: 'F' :: 'T' :: mirrorChars rest
  | c :: rest => c :: mirrorChars rest
  | [] => []

/-- The mirror of the name of a slope type: `LEFT` and `RIGHT` change
places. -/
def mirrorName (name : String) : String := String.mk (mirrorChars name.toList)

/-- The mirror of a neighbour key or of a direction: `left` and `right`,
`topLeft` and `topRight`, `bottomLeft` and `bottomRight` change places; every
other key is its own mirror. -/
def mirrorKey (key : String) : String :=
  if key = "left" then "right"
  else if key = "right" then "left"
  else if key = "topLeft" then "topRight"
  else if key = "topRight" then "topLeft"
  else if key = "bottomLeft" then "bottomRight"
  else if key = "bottomRight" then "bottomLeft"
  else key

/-- The rule at a position of the list `setDefaultRestraints` writes for a
slope type, `none` when there is no such list or position. -/
def informalRuleAt (name : String) (i : Nat) : Option InformalRule :=
  match informalRestraints.lookup name with
  | none => none
  | some rules => rules[i]?

/-- The type list of a written rule, empty when it has none. -/
def InformalRule.typeList (rule : InformalRule) : List TypeValue := rule.types.getD []

/-- The neighbour key and the direction of `mirrored` are the mirrors of those
of `rule`. -/
def MirrorsKeys (rule mirrored : InformalRule) : Prop :=
  mirrored.neighbour = mirrorKey rule.neighbour ∧
  mirrored.direction = rule.direction.map mirrorKey

/-- The types of `mirrored` are the mirrors of the types of `rule`: a type name
is among the types of `rule` exactly when its mirror is among those of
`mirrored`, for every type name outside `except`. -/
def MirrorsTypes (except : List String) (rule mirrored : InformalRule) : Prop :=
  ∀ entry ∈ typeNames, entry.2 ∉ except →
    (TypeValue.string entry.2 ∈ rule.typeList ↔
      TypeValue.string (mirrorName entry.2) ∈ mirrored.typeList)

/-- The position of the mirror of rule `i` in the list of the mirrored type: the
same position, but for a type that is its own mirror, whose list is read from
the other end. -/
def mirrorIndex (name : String) (length i : Nat) : Nat :=
  if mirrorName name = name then length - 1 - i else i

/-- The rules whose type list is written from other locations than the mirrors
of those its mirror is written from: the first rules of
`QUARTER_LEFT_BOTTOM_LOW` and `QUARTER_RIGHT_BOTTOM_LOW`. -/
def unmirroredRules : List (String × Nat) :=
  [("QUARTER_LEFT_BOTTOM_LOW", 0), ("QUARTER_RIGHT_BOTTOM_LOW", 0)]

/-- The type names the vertex maps of the top corners do not list in mirror:
`topRightVertices` has `QUARTER_TOP_LEFT_LOW`, and `topLeftVertices` lacks
`QUARTER_TOP_RIGHT_LOW`. -/
def unmirroredNames : List String := ["QUARTER_TOP_LEFT_LOW", "QUARTER_TOP_RIGHT_LOW"]

end ArcadeSlopes

namespace ArcadeSlopes

/-- Whether the keys of two written rules mirror each other can be computed. -/
instance MirrorsKeys.instDecidable (rule mirrored : InformalRule) :
    Decidable (MirrorsKeys rule mirrored) := by
  unfold MirrorsKeys
  exact inferInstance

/-- Whether the types of two written rules mirror each other can be
computed. -/
instance MirrorsTypes.instDecidable (except : List String) (rule mirrored : InformalRule) :
    Decidable (MirrorsTypes except rule mirrored) := by
  unfold MirrorsTypes
  exact inferInstance

end ArcadeSlopes

namespace ArcadeSlopes

/-- The edge flags of the simultaneous version of the pass for the slope at
`(x, y)`: each flag compared once with the facing flag of the neighbour on that
side as the layer holds it before the pass. -/
def simultaneousEdges (layer : LayerData) (x y : Nat) (slope : TileSlope) : Edges :=
  { top :=
      match slopeOf (getTileAbove layer x y) with
      | some other => compareEdges slope.edges.top other.edges.bottom
      | none => slope.edges.top
    bottom :=
      match slopeOf (getTileBelow layer x y) with
      | some other => compareEdges slope.edges.bottom other.edges.top
      | none => slope.edges.bottom
    left :=
      match slopeOf (getTileLeft layer x y) with
      | some other => compareEdges slope.edges.left other.edges.right
      | none => slope.edges.left
    right :=
      match slopeOf (getTileRight layer x y) with
      | some other => compareEdges slope.edges.right other.edges.left
      | none => slope.edges.right }

/-- The tile of the cell `(x, y)` in the simultaneous version of the pass: a
tile with a slope gets the flags of `simultaneousEdges`, any other stays. -/
def simultaneousCell (layer : LayerData) (x y : Nat) (tile : Tile) : Tile :=
  match tile.slope with
  | none => tile
  | some slope =>
    { tile with slope := some { slope with edges := simultaneousEdges layer x y slope } }

/-- The simultaneous version of `calculateEdges`: every cell within the size of
the layer is rewritten from the layer as it is before the pass, in no
order. -/
def calculateEdgesSimultaneous (layer : LayerData) : LayerData :=
  { layer with
    data := layer.data.mapIdx fun y row => row.mapIdx fun x cell =>
      if x < layer.width ∧ y < layer.height then cell.map (simultaneousCell layer x y)
      else cell }

end ArcadeSlopes

namespace ArcadeSlopes

/-- The shape of a layer: its declared size and the lengths of its rows. -/
def LayerData.shape (layer : LayerData) : Nat × Nat × List Nat :=
  (layer.width, layer.height, layer.data.map List.length)

end ArcadeSlopes

namespace ArcadeSlopes

/-- A three by one layer of tiles without a slope, with the tile indices 7,
9 and 3. -/
def sampleBareLayer : LayerData :=
  { width := 3, height := 1
    data := [[some { index := 7, width := 16, height := 16 },
      some { index := 9, x := 1, width := 16, height := 16 },
      some { index := 3, x := 2, width := 16, height := 16 }]] }

/-- The slope map `{7: 'HALF_TOP', 3: '21'}`: the key 7 mapped to a type name,
the key 3 to a numeric string. -/
def sampleSlopeMap (index : Int) : Option TypeValue :=
  if index = 7 then some (TypeValue.string "HALF_TOP")
  else if index = 3 then some (TypeValue.string "21")
  else none

end ArcadeSlopes

namespace SAT

/-- The polygon that has the position of `A` and the one point `p`. -/
def pointPolygon (A : Polygon) (p : Vector) : Polygon :=
  { pos := A.pos, points := [p], calcPoints := [p], edges := [], normals := [] }

/-- The response `testPolygonPolygon` leaves for the unit square at the origin
against itself. -/
def sampleCoincident : Response :=
  { a := some (unitSquareAt { x := 0, y := 0 })
    b := some (unitSquareAt { x := 0, y := 0 })
    overlapN := { x := 0, y := 1 }
    overlapV := { x := 0, y := 1 }
    aInB := true
    bInA := false
    overlap := 1 }

end SAT

/-! ## Theorems -/

namespace SAT

theorem flatten_fold_bounds (normal : Vector) (points : List Vector) :
    ∀ acc : ℚ × ℚ,
      let res := points.foldl
        (fun (acc : ℚ × ℚ) (p : Vector) =>
          let dot := p.dot normal
          let min := if dot < acc.1 then dot else acc.1
          let max := if dot > acc.2 then dot else acc.2
          (min, max)) acc
      res.1 ≤ acc.1 ∧ acc.2 ≤ res.2 ∧
      (∀ p ∈ points, res.1 ≤ p.dot normal ∧ p.dot normal ≤ res.2) ∧
      (res.1 = acc.1 ∨ ∃ p ∈ points, p.dot normal = res.1) ∧
      (res.2 = acc.2 ∨ ∃ p ∈ points, p.dot normal = res.2) := by
  induction points with
  | nil => intro acc; simp
  | cons p rest ih =>
    intro acc
    simp only [List.foldl_cons]
    have h := ih (if p.dot normal < acc.1 then p.dot normal else acc.1,
      if p.dot normal > acc.2 then p.dot normal else acc.2)
    simp only at h
    obtain ⟨h1, h2, h3, h4, h5⟩ := h
    refine ⟨?_, ?_, ?_, ?_, ?_⟩
    · refine le_trans h1 ?_
      split_ifs with hc
      · exact le_of_lt hc
      · exact le_refl _
    · refine le_trans ?_ h2
      split_ifs with hc
      · exact le_of_lt hc
      · exact le_refl _
    · intro q hq
      rcases List.mem_cons.1 hq with rfl | hq
      · constructor
        · refine le_trans h1 ?_
          split_ifs with hc
          · exact le_refl _
          · exact not_lt.1 hc
        · refine le_trans ?_ h2
          split_ifs with hc
          · exact le_refl _
          · exact not_lt.1 hc
      · exact h3 q hq
    · rcases h4 with h4 | ⟨q, hq, hq'⟩
      · by_cases hc : p.dot normal < acc.1
        · right
          exact ⟨p, List.mem_cons_self _ _, by rw [h4, if_pos hc]⟩
        · left
          rw [h4, if_neg hc]
      · right
        exact ⟨q, List.mem_cons_of_mem _ hq, hq'⟩
    · rcases h5 with h5 | ⟨q, hq, hq'⟩
      · by_cases hc : p.dot normal > acc.2
        · right
          exact ⟨p, List.mem_cons_self _ _, by rw [h5, if_pos hc]⟩
        · left
          rw [h5, if_neg hc]
      · right
        exact ⟨q, List.mem_cons_of_mem _ hq, hq'⟩

theorem flattenPointsOn_spec (points : List Vector) (normal : Vector) :
    (flattenPointsOn points normal).1 ≤ MAX_VALUE ∧
    -MAX_VALUE ≤ (flattenPointsOn points normal).2 ∧
    (∀ p ∈ points, (flattenPointsOn points normal).1 ≤ p.dot normal ∧
      p.dot normal ≤ (flattenPointsOn points normal).2) ∧
    ((flattenPointsOn points normal).1 = MAX_VALUE ∨
      ∃ p ∈ points, p.dot normal = (flattenPointsOn points normal).1) ∧
    ((flattenPointsOn points normal).2 = -MAX_VALUE ∨
      ∃ p ∈ points, p.dot normal = (flattenPointsOn points normal).2) :=
  flatten_fold_bounds normal points (MAX_VALUE, -MAX_VALUE)

/-- The range `flattenPointsOn` returns contains the projection of every point. -/
theorem flattenPointsOn_bounds (points : List Vector) (normal : Vector) :
    ∀ p ∈ points, (flattenPointsOn points normal).1 ≤ p.dot normal ∧
      p.dot normal ≤ (flattenPointsOn points normal).2 :=
  (flattenPointsOn_spec points normal).2.2.1

/-- On a non-empty list of points whose projections are finite doubles, the
range `flattenPointsOn` returns is attained at both ends. -/
theorem flattenPointsOn_attained (points : List Vector) (normal : Vector)
    (hne : points ≠ []) (hfin : ∀ p ∈ points, |p.dot normal| ≤ MAX_VALUE) :
    (∃ p ∈ points, p.dot normal = (flattenPointsOn points normal).1) ∧
    (∃ p ∈ points, p.dot normal = (flattenPointsOn points normal).2) := by
  obtain ⟨_, _, h3, h4, h5⟩ := flattenPointsOn_spec points normal
  obtain ⟨p0, hp0⟩ := List.exists_mem_of_ne_nil points hne
  have hp := h3 p0 hp0
  have hf := abs_le.1 (hfin p0 hp0)
  constructor
  · rcases h4 with h4 | h4
    · exact ⟨p0, hp0, by linarith [hp.1, hf.2]⟩
    · exact h4
  · rcases h5 with h5 | h5
    · exact ⟨p0, hp0, by linarith [hp.2, hf.1]⟩
    · exact h5

/-- The boolean `isSeparatingAxis` returns is the gap test on the two ranges. -/
theorem isSeparatingAxis_fst (aPos bPos : Vector) (aPoints bPoints : List Vector)
    (axis : Vector) (response : Option Response) :
    (isSeparatingAxis aPos bPos aPoints bPoints axis response).1 = true ↔
      ((flattenPointsOn aPoints axis).1 >
          (flattenPointsOn bPoints axis).2 + (bPos.sub aPos).dot axis ∨
        (flattenPointsOn bPoints axis).1 + (bPos.sub aPos).dot axis >
          (flattenPointsOn aPoints axis).2) := by
  unfold isSeparatingAxis axisRanges
  simp only
  split_ifs with h
  · simp [h]
  · cases response <;> simp [h]

theorem dot_add_eq (pos p axis : Vector) :
    (pos.add p).dot axis = pos.dot axis + p.dot axis := by
  simp only [Vector.add, Vector.dot]; ring

theorem dot_sub_eq (a b axis : Vector) :
    (a.sub b).dot axis = a.dot axis - b.dot axis := by
  simp only [Vector.sub, Vector.dot]; ring

/-- A gap between the two ranges means the projections are disjoint. -/
theorem projectionsDisjoint_of_separating (A B : Polygon) (axis : Vector)
    (response : Option Response)
    (h : (isSeparatingAxis A.pos B.pos A.calcPoints B.calcPoints axis response).1 = true) :
    ProjectionsDisjoint A B axis := by
  rw [isSeparatingAxis_fst] at h
  rcases h with h | h
  · right
    intro p hp q hq
    have h1 := (flattenPointsOn_bounds A.calcPoints axis p hp).1
    have h2 := (flattenPointsOn_bounds B.calcPoints axis q hq).2
    rw [dot_add_eq, dot_add_eq]
    rw [dot_sub_eq] at h
    linarith
  · left
    intro p hp q hq
    have h1 := (flattenPointsOn_bounds A.calcPoints axis p hp).2
    have h2 := (flattenPointsOn_bounds B.calcPoints axis q hq).1
    rw [dot_add_eq, dot_add_eq]
    rw [dot_sub_eq] at h
    linarith

/-- A loop of `testPolygonPolygon` that leaves early has found a normal on
which `isSeparatingAxis` returned true. -/
theorem testAxes_true (aPos bPos : Vector) (aPoints bPoints normals : List Vector)
    (idxs : List Nat) :
    ∀ (response response' : Option Response),
      testAxes aPos bPos aPoints bPoints normals idxs response = some (true, response') →
      ∃ axis ∈ normals, ∃ r0,
        (isSeparatingAxis aPos bPos aPoints bPoints axis r0).1 = true := by
  induction idxs with
  | nil => intro r r' h; simp [testAxes] at h
  | cons i rest ih =>
    intro r r' h
    simp only [testAxes] at h
    cases hn : normals[i]? with
    | none => simp [hn] at h
    | some axis =>
      simp only [hn] at h
      cases hsep : isSeparatingAxis aPos bPos aPoints bPoints axis r with
      | mk b r1 =>
        cases b with
        | true => exact ⟨axis, List.getElem?_mem hn, r, by rw [hsep]⟩
        | false =>
          simp only [hsep] at h
          exact ih r1 r' h

/-- The linear functional "projection on `axis`" on the plane. -/
theorem isLinearMap_proj (nx ny : ℝ) :
    IsLinearMap ℝ (fun w : ℝ × ℝ => w.1 * nx + w.2 * ny) := by
  constructor
  · intro a b; simp only [Prod.fst_add, Prod.snd_add]; ring
  · intro c a; simp only [Prod.smul_fst, Prod.smul_snd, smul_eq_mul]; ring

/-- Two sets of points that a linear functional separates strictly have
disjoint convex hulls. -/
theorem hull_disjoint_of_proj (S T : Set (ℝ × ℝ)) (nx ny : ℝ)
    (h : ∀ s ∈ S, ∀ t ∈ T, s.1 * nx + s.2 * ny < t.1 * nx + t.2 * ny) :
    ∀ q, ¬ (q ∈ convexHull ℝ S ∧ q ∈ convexHull ℝ T) := by
  have hlin := isLinearMap_proj nx ny
  have h1 : ∀ t ∈ T, convexHull ℝ S ⊆ {w | w.1 * nx + w.2 * ny < t.1 * nx + t.2 * ny} := by
    intro t ht
    exact convexHull_min (fun s hs => h s hs t ht) (convex_halfSpace_lt hlin _)
  have h2 : ∀ x ∈ convexHull ℝ S,
      convexHull ℝ T ⊆ {w | x.1 * nx + x.2 * ny < w.1 * nx + w.2 * ny} := by
    intro x hx
    exact convexHull_min (fun t ht => h1 t ht hx) (convex_halfSpace_gt hlin _)
  rintro q ⟨hqS, hqT⟩
  have := h2 q hqS hqT
  exact absurd this (lt_irrefl (q.1 * nx + q.2 * ny))

theorem worldPoint_proj (pos p axis : Vector) :
    (worldPoint pos p).1 * (axis.x : ℝ) + (worldPoint pos p).2 * (axis.y : ℝ) =
      (((pos.add p).dot axis : ℚ) : ℝ) := by
  simp only [worldPoint, Vector.add, Vector.dot]
  push_cast
  ring

/-- Polygons whose projections on some axis are disjoint have no point in
common. -/
theorem no_common_point_of_projectionsDisjoint (A B : Polygon) (axis : Vector)
    (h : ProjectionsDisjoint A B axis) : ∀ q, ¬ (A.Contains q ∧ B.Contains q) := by
  rcases h with h | h
  · apply hull_disjoint_of_proj _ _ (axis.x : ℝ) (axis.y : ℝ)
    rintro s ⟨p, hp, rfl⟩ t ⟨q, hq, rfl⟩
    rw [worldPoint_proj, worldPoint_proj]
    exact_mod_cast h p hp q hq
  · intro q hq
    refine hull_disjoint_of_proj _ _ (axis.x : ℝ) (axis.y : ℝ) ?_ q ⟨hq.2, hq.1⟩
    rintro s ⟨q', hq', rfl⟩ t ⟨p, hp, rfl⟩
    rw [worldPoint_proj, worldPoint_proj]
    exact_mod_cast h p hp q' hq'

/-- C2: when `testPolygonPolygon` returns false, some edge normal of `A` or of
`B` is an axis on which the projections of the two polygons (positions
included) are disjoint, and so no point of the plane lies in both polygons. -/
theorem testPolygonPolygon_false_separated (A B : Polygon)
    (response response' : Option Response)
    (h : testPolygonPolygon A B response = some (false, response')) :
    (∃ axis, (axis ∈ A.normals ∨ axis ∈ B.normals) ∧ ProjectionsDisjoint A B axis) ∧
    ∀ q, ¬ (A.Contains q ∧ B.Contains q) := by
  have key : ∃ axis, (axis ∈ A.normals ∨ axis ∈ B.normals) ∧ ProjectionsDisjoint A B axis := by
    unfold testPolygonPolygon at h
    simp only at h
    cases h1 : testAxes A.pos B.pos A.calcPoints B.calcPoints A.normals
        (List.range A.calcPoints.length) response with
    | none => simp [h1] at h
    | some res1 =>
      obtain ⟨b1, r1⟩ := res1
      cases b1 with
      | true =>
        obtain ⟨axis, hax, r0, hsep⟩ := testAxes_true _ _ _ _ _ _ _ _ h1
        exact ⟨axis, Or.inl hax, projectionsDisjoint_of_separating A B axis r0 hsep⟩
      | false =>
        simp only [h1] at h
        cases h2 : testAxes A.pos B.pos A.calcPoints B.calcPoints B.normals
            (List.range B.calcPoints.length) r1 with
        | none => simp [h2] at h
        | some res2 =>
          obtain ⟨b2, r2⟩ := res2
          cases b2 with
          | true =>
            obtain ⟨axis, hax, r0, hsep⟩ := testAxes_true _ _ _ _ _ _ _ _ h2
            exact ⟨axis, Or.inr hax, projectionsDisjoint_of_separating A B axis r0 hsep⟩
          | false => simp [h2] at h
  obtain ⟨axis, hax, hd⟩ := key
  exact ⟨⟨axis, hax, hd⟩, no_common_point_of_projectionsDisjoint A B axis hd⟩

theorem overlapOfRanges_fst (rangeA rangeB : ℚ × ℚ) (r r' : Response) :
    (overlapOfRanges rangeA rangeB r).1 = (overlapOfRanges rangeA rangeB r').1 := by
  unfold overlapOfRanges
  split_ifs <;> rfl

theorem overlapOfRanges_snd (rangeA rangeB : ℚ × ℚ) (r : Response) :
    (overlapOfRanges rangeA rangeB r).2.overlap = r.overlap ∧
    (overlapOfRanges rangeA rangeB r).2.overlapN = r.overlapN ∧
    (overlapOfRanges rangeA rangeB r).2.overlapV = r.overlapV := by
  unfold overlapOfRanges
  split_ifs <;> exact ⟨rfl, rfl, rfl⟩

theorem recordOverlap_overlap (o : ℚ) (axis : Vector) (r : Response) :
    (recordOverlap o axis r).overlap = if |o| < r.overlap then |o| else r.overlap := by
  unfold recordOverlap
  simp only
  split_ifs <;> rfl

theorem recordOverlap_overlapN (o : ℚ) (axis : Vector) (r : Response) :
    (recordOverlap o axis r).overlapN =
      if |o| < r.overlap then (if o < 0 then axis.reverse else axis) else r.overlapN := by
  unfold recordOverlap
  simp only
  split_ifs <;> rfl

theorem recordOverlap_overlapV (o : ℚ) (axis : Vector) (r : Response) :
    (recordOverlap o axis r).overlapV = r.overlapV := by
  unfold recordOverlap
  simp only
  split_ifs <;> rfl

theorem recordAxis_overlap (A B : Polygon) (r : Response) (axis : Vector) :
    (recordAxis A B r axis).overlap =
      if |axisOverlap A B axis| < r.overlap then |axisOverlap A B axis| else r.overlap := by
  unfold recordAxis axisOverlap
  simp only
  rw [recordOverlap_overlap, (overlapOfRanges_snd _ _ r).1, overlapOfRanges_fst _ _ r {}]

theorem recordAxis_overlapN (A B : Polygon) (r : Response) (axis : Vector) :
    (recordAxis A B r axis).overlapN =
      if |axisOverlap A B axis| < r.overlap then
        (if axisOverlap A B axis < 0 then axis.reverse else axis)
      else r.overlapN := by
  unfold recordAxis axisOverlap
  simp only
  rw [recordOverlap_overlapN, (overlapOfRanges_snd _ _ r).1, (overlapOfRanges_snd _ _ r).2.1,
    overlapOfRanges_fst _ _ r {}]

theorem recordAxis_overlapV (A B : Polygon) (r : Response) (axis : Vector) :
    (recordAxis A B r axis).overlapV = r.overlapV := by
  unfold recordAxis
  simp only
  rw [recordOverlap_overlapV, (overlapOfRanges_snd _ _ r).2.2]

theorem separates_iff (A B : Polygon) (axis : Vector) (response : Option Response) :
    (isSeparatingAxis A.pos B.pos A.calcPoints B.calcPoints axis response).1 = true ↔
      Separates A B axis := by
  unfold Separates
  rw [isSeparatingAxis_fst, isSeparatingAxis_fst]

theorem isSeparatingAxis_of_not (A B : Polygon) (axis : Vector) (r : Response)
    (h : ¬ Separates A B axis) :
    isSeparatingAxis A.pos B.pos A.calcPoints B.calcPoints axis (some r) =
      (false, some (recordAxis A B r axis)) := by
  have h' := h
  unfold Separates at h'
  rw [isSeparatingAxis_fst] at h'
  unfold isSeparatingAxis recordAxis axisRanges
  simp only
  rw [if_neg h']

theorem isSeparatingAxis_of_sep (A B : Polygon) (axis : Vector) (response : Option Response)
    (h : Separates A B axis) :
    isSeparatingAxis A.pos B.pos A.calcPoints B.calcPoints axis response = (true, response) := by
  have h' := h
  unfold Separates at h'
  rw [isSeparatingAxis_fst] at h'
  unfold isSeparatingAxis axisRanges
  simp only
  rw [if_pos h']

theorem axisMagnitude_of_not (A B : Polygon) (axis : Vector) (h : ¬ Separates A B axis) :
    axisMagnitude A B axis =
      if |axisOverlap A B axis| < MAX_VALUE then |axisOverlap A B axis| else MAX_VALUE := by
  unfold axisMagnitude
  rw [isSeparatingAxis_of_not A B axis {} h]
  simp only
  rw [recordAxis_overlap]

/-- A loop of `testPolygonPolygon` that runs to its end has found every normal
it asked for, none of them a separating axis, and has recorded each in turn. -/
theorem testAxes_false (A B : Polygon) (normals : List Vector) (n : Nat) :
    ∀ (s : Nat) (r : Response) (res : Option Response),
      testAxes A.pos B.pos A.calcPoints B.calcPoints normals (List.range' s n) (some r) =
        some (false, res) →
      ((normals.drop s).take n).length = n ∧
      (∀ axis ∈ (normals.drop s).take n, ¬ Separates A B axis) ∧
      res = some (((normals.drop s).take n).foldl (recordAxis A B) r) := by
  induction n with
  | zero =>
    intro s r res h
    simp only [List.range', testAxes, Option.some.injEq, Prod.mk.injEq, true_and] at h
    simp [h]
  | succ n ih =>
    intro s r res h
    simp only [List.range', testAxes] at h
    cases hn : normals[s]? with
    | none => simp [hn] at h
    | some axis =>
      simp only [hn] at h
      have hs : s < normals.length := by
        by_contra hc
        rw [List.getElem?_eq_none (by omega)] at hn
        exact Option.noConfusion hn
      have haxis : normals[s] = axis := by
        rw [List.getElem?_eq_getElem hs] at hn
        exact Option.some.inj hn
      have hdrop : (normals.drop s).take (n + 1) = axis :: (normals.drop (s + 1)).take n := by
        rw [List.drop_eq_getElem_cons hs, List.take_succ_cons, haxis]
      by_cases hsep : Separates A B axis
      · rw [isSeparatingAxis_of_sep A B axis _ hsep] at h
        simp at h
      · rw [isSeparatingAxis_of_not A B axis r hsep] at h
        simp only at h
        obtain ⟨h1, h2, h3⟩ := ih (s + 1) _ res h
        rw [hdrop]
        refine ⟨by simp [h1], ?_, by simpa using h3⟩
        intro ax hax
        rcases List.mem_cons.1 hax with rfl | hax
        · exact hsep
        · exact h2 ax hax

/-- Recording a list of axes in turn: the overlap only goes down, it is at most
the overlap of every axis, and either nothing was recorded or the response now
holds the first axis of least overlap with the direction its sign gives. -/
theorem foldl_recordAxis (A B : Polygon) (axes : List Vector) :
    ∀ r : Response,
      let r' := axes.foldl (recordAxis A B) r
      r'.overlap ≤ r.overlap ∧
      (∀ axis ∈ axes, r'.overlap ≤ |axisOverlap A B axis|) ∧
      r'.overlapV = r.overlapV ∧
      ((r'.overlap = r.overlap ∧ r'.overlapN = r.overlapN) ∨
        (r'.overlap < r.overlap ∧
          ∃ (i : Nat) (axis : Vector), axes[i]? = some axis ∧
            |axisOverlap A B axis| = r'.overlap ∧
            (∀ (j : Nat) (other : Vector), j < i → axes[j]? = some other →
              r'.overlap < |axisOverlap A B other|) ∧
            r'.overlapN = if axisOverlap A B axis < 0 then axis.reverse else axis)) := by
  induction axes with
  | nil =>
    intro r
    simp
  | cons ax rest ih =>
    intro r
    simp only [List.foldl_cons]
    have h := ih (recordAxis A B r ax)
    simp only at h
    obtain ⟨h1, h2, h3, h4⟩ := h
    have ho := recordAxis_overlap A B r ax
    have hN := recordAxis_overlapN A B r ax
    have hle : (recordAxis A B r ax).overlap ≤ r.overlap ∧
        (recordAxis A B r ax).overlap ≤ |axisOverlap A B ax| := by
      rw [ho]
      split_ifs with hc
      · exact ⟨le_of_lt hc, le_refl _⟩
      · exact ⟨le_refl _, not_lt.1 hc⟩
    refine ⟨le_trans h1 hle.1, ?_, by rw [h3, recordAxis_overlapV], ?_⟩
    · intro axis hax
      rcases List.mem_cons.1 hax with rfl | hax
      · exact le_trans h1 hle.2
      · exact h2 axis hax
    · rcases h4 with ⟨h4, h5⟩ | ⟨h4, i, axis, hi, hm, hfirst, hn⟩
      · by_cases hc : |axisOverlap A B ax| < r.overlap
        · right
          rw [if_pos hc] at ho hN
          refine ⟨by rw [h4, ho]; exact hc, 0, ax, by simp, by rw [h4, ho], ?_, by rw [h5, hN]⟩
          intro j other hj
          exact absurd hj (Nat.not_lt_zero _)
        · left
          rw [if_neg hc] at ho hN
          exact ⟨by rw [h4, ho], by rw [h5, hN]⟩
      · right
        refine ⟨lt_of_lt_of_le h4 hle.1, i + 1, axis, by simpa using hi, hm, ?_, hn⟩
        intro j other hj hjo
        cases j with
        | zero =>
          simp only [List.getElem?_cons_zero, Option.some.injEq] at hjo
          subst hjo
          exact lt_of_lt_of_le h4 hle.2
        | succ j =>
          simp only [List.getElem?_cons_succ] at hjo
          exact hfirst j other (by omega) hjo

/-- When `testPolygonPolygon` returns true on polygons whose `normals` array is
as long as `calcPoints`, no normal of either polygon is a separating axis, and
the response is the one in which every normal of `A`, then every normal of `B`,
has been recorded, with `overlapV` set from it. -/
theorem testPolygonPolygon_true (A B : Polygon)
    (hA : A.normals.length = A.calcPoints.length)
    (hB : B.normals.length = B.calcPoints.length)
    (r0 r : Response) (h : testPolygonPolygon A B (some r0) = some (true, some r)) :
    (∀ axis ∈ A.normals ++ B.normals, ¬ Separates A B axis) ∧
    r.overlap = ((A.normals ++ B.normals).foldl (recordAxis A B) r0).overlap ∧
    r.overlapN = ((A.normals ++ B.normals).foldl (recordAxis A B) r0).overlapN ∧
    r.overlapV = r.overlapN.scale r.overlap := by
  unfold testPolygonPolygon at h
  simp only [List.range_eq_range'] at h
  cases h1 : testAxes A.pos B.pos A.calcPoints B.calcPoints A.normals
      (List.range' 0 A.calcPoints.length) (some r0) with
  | none => simp [h1] at h
  | some res1 =>
    obtain ⟨b1, r1⟩ := res1
    cases b1 with
    | true => simp [h1] at h
    | false =>
      simp only [h1] at h
      obtain ⟨_, hsepA, hr1⟩ := testAxes_false A B A.normals _ 0 r0 r1 h1
      rw [List.drop_zero, ← hA, List.take_length] at hsepA hr1
      subst hr1
      cases h2 : testAxes A.pos B.pos A.calcPoints B.calcPoints B.normals
          (List.range' 0 B.calcPoints.length)
          (some (List.foldl (recordAxis A B) r0 A.normals)) with
      | none => simp [h2] at h
      | some res2 =>
        obtain ⟨b2, r2⟩ := res2
        cases b2 with
        | true => simp [h2] at h
        | false =>
          simp only [h2] at h
          obtain ⟨_, hsepB, hr2⟩ := testAxes_false A B B.normals _ 0 _ r2 h2
          rw [List.drop_zero, ← hB, List.take_length] at hsepB hr2
          subst hr2
          simp only [Option.map_some', Option.some.injEq, Prod.mk.injEq, true_and] at h
          subst h
          rw [List.foldl_append]
          refine ⟨?_, rfl, rfl, rfl⟩
          intro axis hax
          rcases List.mem_append.1 hax with hax | hax
          · exact hsepA axis hax
          · exact hsepB axis hax

/-- C3, amended: for polygons with at least one edge normal between them and a
cleared response, when `testPolygonPolygon` returns true the response's
`overlap` is the least, over all edge normals of `A` and of `B`, of the overlap
magnitude `isSeparatingAxis` reports for the normal; when that is below
`Number.MAX_VALUE`, `overlapN` is the first normal attaining it or its reverse,
and otherwise `overlapN` is what the response held before; and `overlapV` is
`overlapN` scaled by `overlap`. -/
theorem testPolygonPolygon_min_overlap (A B : Polygon)
    (hA : A.normals.length = A.calcPoints.length)
    (hB : B.normals.length = B.calcPoints.length)
    (hne : A.normals ++ B.normals ≠ [])
    (r0 r : Response)
    (h : testPolygonPolygon A B (some r0.clear) = some (true, some r)) :
    (∀ axis ∈ A.normals ++ B.normals, r.overlap ≤ axisMagnitude A B axis) ∧
    (∃ axis ∈ A.normals ++ B.normals, r.overlap = axisMagnitude A B axis) ∧
    (r.overlap < MAX_VALUE →
      ∃ (i : Nat) (axis : Vector), (A.normals ++ B.normals)[i]? = some axis ∧
        axisMagnitude A B axis = r.overlap ∧
        (∀ (j : Nat) (other : Vector), j < i → (A.normals ++ B.normals)[j]? = some other →
          r.overlap < axisMagnitude A B other) ∧
        (r.overlapN = axis ∨ r.overlapN = axis.reverse)) ∧
    (r.overlap = MAX_VALUE → r.overlapN = r0.overlapN) ∧
    r.overlapV = r.overlapN.scale r.overlap := by
  obtain ⟨hsep, hov, hN, hV⟩ := testPolygonPolygon_true A B hA hB _ r h
  obtain ⟨h1, h2, _, h4⟩ := foldl_recordAxis A B (A.normals ++ B.normals) r0.clear
  rw [← hov] at h1 h2 h4
  rw [← hN] at h4
  have hclear : r0.clear.overlap = MAX_VALUE := rfl
  rw [hclear] at h1 h4
  have hmag : ∀ axis ∈ A.normals ++ B.normals, r.overlap ≤ axisMagnitude A B axis := by
    intro axis hax
    rw [axisMagnitude_of_not A B axis (hsep axis hax)]
    split_ifs
    · exact h2 axis hax
    · exact h1
  have hmag_eq : ∀ axis ∈ A.normals ++ B.normals, |axisOverlap A B axis| < MAX_VALUE →
      axisMagnitude A B axis = |axisOverlap A B axis| := by
    intro axis hax hlt
    rw [axisMagnitude_of_not A B axis (hsep axis hax), if_pos hlt]
  have hmag_le : ∀ axis ∈ A.normals ++ B.normals, axisMagnitude A B axis ≤ MAX_VALUE := by
    intro axis hax
    rw [axisMagnitude_of_not A B axis (hsep axis hax)]
    split_ifs with hc
    · exact le_of_lt hc
    · exact le_refl _
  refine ⟨hmag, ?_, ?_, ?_, hV⟩
  rotate_left 2
  · intro heq
    rcases h4 with ⟨_, h5⟩ | ⟨h4, _⟩
    · exact h5
    · exact absurd heq (ne_of_lt h4)
  · rcases h4 with ⟨h4, _⟩ | ⟨h4, i, axis, hi, hm, _, _⟩
    · obtain ⟨axis, hax⟩ := List.exists_mem_of_ne_nil _ hne
      exact ⟨axis, hax, le_antisymm (hmag axis hax) (by rw [h4]; exact hmag_le axis hax)⟩
    · have hax := List.getElem?_mem hi
      exact ⟨axis, hax, by rw [hmag_eq axis hax (by rw [hm]; exact h4), hm]⟩
  · intro hlt
    rcases h4 with ⟨h4, _⟩ | ⟨h4, i, axis, hi, hm, hfirst, hn⟩
    · exact absurd h4 (ne_of_lt hlt)
    · have hax := List.getElem?_mem hi
      refine ⟨i, axis, hi, by rw [hmag_eq axis hax (by rw [hm]; exact h4), hm], ?_, ?_⟩
      · intro j other hj hjo
        have ho := List.getElem?_mem hjo
        rw [axisMagnitude_of_not A B other (hsep other ho)]
        split_ifs
        · exact hfirst j other hj hjo
        · exact h4
      · rw [hn]
        split_ifs
        · exact Or.inr rfl
        · exact Or.inl rfl

/-- C3 fails for two polygons without points: `testPolygonPolygon` returns
true on a cleared response, yet there is no edge normal whose overlap the
response could hold, nor one that `overlapN` could be. -/
theorem testPolygonPolygon_min_overlap_counterexample :
    testPolygonPolygon emptyPolygon emptyPolygon (some ({} : Response).clear) =
      some (true, some { a := some emptyPolygon, b := some emptyPolygon }) ∧
    (¬ ∃ axis ∈ emptyPolygon.normals ++ emptyPolygon.normals,
      ({ a := some emptyPolygon, b := some emptyPolygon } : Response).overlap =
        axisMagnitude emptyPolygon emptyPolygon axis) ∧
    (¬ ∃ axis ∈ emptyPolygon.normals ++ emptyPolygon.normals,
      ({ a := some emptyPolygon, b := some emptyPolygon } : Response).overlapN = axis ∨
      ({ a := some emptyPolygon, b := some emptyPolygon } : Response).overlapN =
        axis.reverse) := by
  refine ⟨?_, ?_, ?_⟩
  · simp [testPolygonPolygon, testAxes, emptyPolygon, Response.clear, Vector.scale, Vector.zero]
  · simp [emptyPolygon]
  · simp [emptyPolygon]

theorem inProjection_iff (P : Polygon) (axis : Vector) (lo hi : ℚ)
    (hlo : ∃ p ∈ P.calcPoints, (P.pos.add p).dot axis = lo)
    (hhi : ∃ p ∈ P.calcPoints, (P.pos.add p).dot axis = hi)
    (hall : ∀ p ∈ P.calcPoints, lo ≤ (P.pos.add p).dot axis ∧ (P.pos.add p).dot axis ≤ hi)
    (s : ℚ) : InProjection P axis s ↔ lo ≤ s ∧ s ≤ hi := by
  constructor
  · rintro ⟨p, hp, q, hq, h1, h2⟩
    exact ⟨le_trans (hall p hp).1 h1, le_trans h2 (hall q hq).2⟩
  · rintro ⟨h1, h2⟩
    obtain ⟨p, hp, hp'⟩ := hlo
    obtain ⟨q, hq, hq'⟩ := hhi
    exact ⟨p, hp, q, hq, by rw [hp']; exact h1, by rw [hq']; exact h2⟩

theorem touch_unique (lo hi lo' hi' : ℚ) (h1 : lo ≤ hi) (h2 : lo' ≤ hi')
    (h : hi = lo' ∨ lo = hi') :
    ∃! s : ℚ, (lo ≤ s ∧ s ≤ hi) ∧ (lo' ≤ s ∧ s ≤ hi') := by
  rcases h with h | h
  · refine ⟨hi, ⟨⟨h1, le_refl _⟩, ⟨by rw [h], by rw [h]; exact h2⟩⟩, ?_⟩
    rintro s ⟨⟨_, hs1⟩, ⟨hs2, _⟩⟩
    rw [← h] at hs2
    exact le_antisymm hs1 hs2
  · refine ⟨lo, ⟨⟨le_refl _, h1⟩, ⟨by rw [h]; exact h2, by rw [h]⟩⟩, ?_⟩
    rintro s ⟨⟨hs1, _⟩, ⟨_, hs2⟩⟩
    rw [← h] at hs2
    exact le_antisymm hs2 hs1

theorem overlapOfRanges_cases (rangeA rangeB : ℚ × ℚ) (r : Response) :
    (overlapOfRanges rangeA rangeB r).1 = rangeA.2 - rangeB.1 ∨
    (overlapOfRanges rangeA rangeB r).1 = rangeA.1 - rangeB.2 := by
  simp only [overlapOfRanges]
  split_ifs <;> simp

theorem dot_reverse (p axis : Vector) : p.dot axis.reverse = -(p.dot axis) := by
  simp only [Vector.dot, Vector.reverse]; ring

theorem dot_sub_scale (pos p axis : Vector) (o : ℚ) (hunit : axis.len2 = 1) :
    ((pos.sub (axis.scale o)).add p).dot axis = (pos.add p).dot axis - o := by
  have h : axis.x * axis.x + axis.y * axis.y = 1 := hunit
  simp only [Vector.dot, Vector.sub, Vector.scale, Vector.add]
  linear_combination (-o) * h

theorem overlapN_scale (axis : Vector) (o : ℚ) :
    (if o < 0 then axis.reverse else axis).scale |o| = axis.scale o := by
  split_ifs with h
  · rw [abs_of_neg h]
    simp only [Vector.scale, Vector.reverse, Vector.mk.injEq]
    constructor <;> ring
  · rw [abs_of_nonneg (not_lt.1 h)]

/-- On a unit axis that does not separate the polygons, moving `A` back by the
overlap the axis records makes the two projections on the recorded direction
meet in exactly one point. -/
theorem axis_touch (A B : Polygon) (axis : Vector)
    (hAne : A.calcPoints ≠ []) (hBne : B.calcPoints ≠ [])
    (hunit : axis.len2 = 1)
    (hfinA : ∀ p ∈ A.calcPoints, |p.dot axis| ≤ MAX_VALUE)
    (hfinB : ∀ p ∈ B.calcPoints, |p.dot axis| ≤ MAX_VALUE) :
    ∃! s : ℚ,
      InProjection { A with pos := A.pos.sub (axis.scale (axisOverlap A B axis)) }
        (if axisOverlap A B axis < 0 then axis.reverse else axis) s ∧
      InProjection B (if axisOverlap A B axis < 0 then axis.reverse else axis) s := by
  obtain ⟨⟨pa0, hpa0, ha0⟩, ⟨pa1, hpa1, ha1⟩⟩ :=
    flattenPointsOn_attained A.calcPoints axis hAne hfinA
  obtain ⟨⟨pb0, hpb0, hb0⟩, ⟨pb1, hpb1, hb1⟩⟩ :=
    flattenPointsOn_attained B.calcPoints axis hBne hfinB
  have hA := flattenPointsOn_bounds A.calcPoints axis
  have hB := flattenPointsOn_bounds B.calcPoints axis
  have hAle : (flattenPointsOn A.calcPoints axis).1 ≤ (flattenPointsOn A.calcPoints axis).2 :=
    le_trans (hA pa0 hpa0).1 (hA pa0 hpa0).2
  have hBle : (flattenPointsOn B.calcPoints axis).1 ≤ (flattenPointsOn B.calcPoints axis).2 :=
    le_trans (hB pb0 hpb0).1 (hB pb0 hpb0).2
  have hcases := overlapOfRanges_cases
    (axisRanges A.pos B.pos A.calcPoints B.calcPoints axis).1
    (axisRanges A.pos B.pos A.calcPoints B.calcPoints axis).2 {}
  have hov : axisOverlap A B axis =
      (flattenPointsOn A.calcPoints axis).2 -
        ((flattenPointsOn B.calcPoints axis).1 + (B.pos.sub A.pos).dot axis) ∨
      axisOverlap A B axis =
      (flattenPointsOn A.calcPoints axis).1 -
        ((flattenPointsOn B.calcPoints axis).2 + (B.pos.sub A.pos).dot axis) := hcases
  generalize axisOverlap A B axis = o at hov ⊢
  rw [dot_sub_eq] at hov
  set c := A.pos.dot axis with hc
  set d := B.pos.dot axis with hd
  set a0 := (flattenPointsOn A.calcPoints axis).1 with ha0'
  set a1 := (flattenPointsOn A.calcPoints axis).2 with ha1'
  set b0 := (flattenPointsOn B.calcPoints axis).1 with hb0'
  set b1 := (flattenPointsOn B.calcPoints axis).2 with hb1'
  -- the projections on `axis` itself
  have hAproj : ∀ s, InProjection { A with pos := A.pos.sub (axis.scale o) } axis s ↔
      c + a0 - o ≤ s ∧ s ≤ c + a1 - o := by
    intro s
    apply inProjection_iff
    · exact ⟨pa0, hpa0, by
        show ((A.pos.sub (axis.scale o)).add pa0).dot axis = _
        rw [dot_sub_scale _ _ _ _ hunit, dot_add_eq, ha0]⟩
    · exact ⟨pa1, hpa1, by
        show ((A.pos.sub (axis.scale o)).add pa1).dot axis = _
        rw [dot_sub_scale _ _ _ _ hunit, dot_add_eq, ha1]⟩
    · intro p hp
      show _ ≤ ((A.pos.sub (axis.scale o)).add p).dot axis ∧
        ((A.pos.sub (axis.scale o)).add p).dot axis ≤ _
      rw [dot_sub_scale _ _ _ _ hunit, dot_add_eq]
      have := hA p hp
      constructor <;> linarith [this.1, this.2]
  have hBproj : ∀ s, InProjection B axis s ↔ d + b0 ≤ s ∧ s ≤ d + b1 := by
    intro s
    apply inProjection_iff
    · exact ⟨pb0, hpb0, by rw [dot_add_eq, hb0]⟩
    · exact ⟨pb1, hpb1, by rw [dot_add_eq, hb1]⟩
    · intro p hp
      rw [dot_add_eq]
      have := hB p hp
      constructor <;> linarith [this.1, this.2]
  have hArev : ∀ s, InProjection { A with pos := A.pos.sub (axis.scale o) } axis.reverse s ↔
      -(c + a1 - o) ≤ s ∧ s ≤ -(c + a0 - o) := by
    intro s
    apply inProjection_iff
    · exact ⟨pa1, hpa1, by
        show ((A.pos.sub (axis.scale o)).add pa1).dot axis.reverse = _
        rw [dot_reverse, dot_sub_scale _ _ _ _ hunit, dot_add_eq, ha1]⟩
    · exact ⟨pa0, hpa0, by
        show ((A.pos.sub (axis.scale o)).add pa0).dot axis.reverse = _
        rw [dot_reverse, dot_sub_scale _ _ _ _ hunit, dot_add_eq, ha0]⟩
    · intro p hp
      show _ ≤ ((A.pos.sub (axis.scale o)).add p).dot axis.reverse ∧
        ((A.pos.sub (axis.scale o)).add p).dot axis.reverse ≤ _
      rw [dot_reverse, dot_sub_scale _ _ _ _ hunit, dot_add_eq]
      have := hA p hp
      constructor <;> linarith [this.1, this.2]
  have hBrev : ∀ s, InProjection B axis.reverse s ↔ -(d + b1) ≤ s ∧ s ≤ -(d + b0) := by
    intro s
    apply inProjection_iff
    · exact ⟨pb1, hpb1, by rw [dot_reverse, dot_add_eq, hb1]⟩
    · exact ⟨pb0, hpb0, by rw [dot_reverse, dot_add_eq, hb0]⟩
    · intro p hp
      rw [dot_reverse, dot_add_eq]
      have := hB p hp
      constructor <;> linarith [this.1, this.2]
  split_ifs with hneg
  · simp only [hArev, hBrev]
    apply touch_unique
    · linarith
    · linarith
    · rcases hov with h | h
      · right; rw [h]; ring
      · left; rw [h]; ring
  · simp only [hAproj, hBproj]
    apply touch_unique
    · linarith
    · linarith
    · rcases hov with h | h
      · left; rw [h]; ring
      · right; rw [h]; ring

theorem MAX_VALUE_large : (1000000 : ℚ) < MAX_VALUE := by
  unfold MAX_VALUE
  have h1 : (2 : ℚ) ^ 53 - 1 ≥ 1 := by norm_num
  have h2 : (2 : ℚ) ^ 971 ≥ 2 ^ 20 := pow_le_pow_right₀ (by norm_num) (by norm_num)
  have h3 : (2 : ℚ) ^ 20 > 1000000 := by norm_num
  nlinarith

theorem sample_separated :
    testPolygonPolygon (unitSquareAt { x := 0, y := 0 }) (unitSquareAt { x := 3, y := 0 }) none =
      some (false, none) := by
  have hM := MAX_VALUE_large
  have e1 : List.range 4 = [0, 1, 2, 3] := rfl
  simp only [testPolygonPolygon, unitSquareAt, List.length_cons, List.length_nil, e1, testAxes]
  have h0 : (0 : ℚ) < MAX_VALUE := by linarith
  have h1 : (1 : ℚ) < MAX_VALUE := by linarith
  have h2 : -MAX_VALUE < (0 : ℚ) := by linarith
  have h3 : -MAX_VALUE < (1 : ℚ) := by linarith
  have h4 : -MAX_VALUE < (-1 : ℚ) := by linarith
  have h5 : (-1 : ℚ) < MAX_VALUE := by linarith
  norm_num [isSeparatingAxis, axisRanges, flattenPointsOn, Vector.dot, Vector.sub,
    h0, h1, h2, h3, h4, h5]

theorem sample_overlapping :
    testPolygonPolygon (unitSquareAt { x := 0, y := 0 }) (unitSquareAt { x := 1 / 2, y := 0 })
      (some ({} : Response).clear) = some (true, some sampleHalfOverlap) := by
  have hM := MAX_VALUE_large
  have e1 : List.range 4 = [0, 1, 2, 3] := rfl
  simp only [testPolygonPolygon, unitSquareAt, List.length_cons, List.length_nil, e1, testAxes]
  have h0 : (0 : ℚ) < MAX_VALUE := by linarith
  have h1 : (1 : ℚ) < MAX_VALUE := by linarith
  have h2 : -MAX_VALUE < (0 : ℚ) := by linarith
  have h3 : -MAX_VALUE < (1 : ℚ) := by linarith
  have h4 : -MAX_VALUE < (-1 : ℚ) := by linarith
  have h5 : (-1 : ℚ) < MAX_VALUE := by linarith
  have h6 : (1 / 2 : ℚ) < MAX_VALUE := by linarith
  norm_num [isSeparatingAxis, axisRanges, flattenPointsOn, Vector.dot, Vector.sub,
    overlapOfRanges, recordOverlap, Response.clear, sampleHalfOverlap, unitSquareAt,
    Vector.scale, Vector.reverse, Vector.zero, abs_div, abs_neg,
    h0, h1, h2, h3, h4, h5, h6]

/-- C4, amended: for polygons with at least one vertex each, unit edge normals
and projections that are finite doubles, when `testPolygonPolygon` returns true
on a cleared response and has recorded an overlap (below `Number.MAX_VALUE`),
then after moving `A` by `-overlapV` the projections of `A` and of `B` on
`overlapN` have exactly one point in common. -/
theorem overlapV_touches (A B : Polygon)
    (hA : A.normals.length = A.calcPoints.length)
    (hB : B.normals.length = B.calcPoints.length)
    (hAne : A.calcPoints ≠ []) (hBne : B.calcPoints ≠ [])
    (hunit : ∀ axis ∈ A.normals ++ B.normals, axis.len2 = 1)
    (hfin : ∀ axis ∈ A.normals ++ B.normals, ∀ p ∈ A.calcPoints ++ B.calcPoints,
      |p.dot axis| ≤ MAX_VALUE)
    (r0 r : Response)
    (h : testPolygonPolygon A B (some r0.clear) = some (true, some r))
    (hrec : r.overlap < MAX_VALUE) :
    ∃! s : ℚ,
      InProjection { A with pos := A.pos.sub r.overlapV } r.overlapN s ∧
      InProjection B r.overlapN s := by
  obtain ⟨_, hov, hN, hV⟩ := testPolygonPolygon_true A B hA hB _ r h
  obtain ⟨_, _, _, h4⟩ := foldl_recordAxis A B (A.normals ++ B.normals) r0.clear
  rw [← hov, ← hN] at h4
  have hclear : r0.clear.overlap = MAX_VALUE := rfl
  rw [hclear] at h4
  rcases h4 with ⟨h4, _⟩ | ⟨_, i, axis, hi, hm, _, hn⟩
  · exact absurd h4 (ne_of_lt hrec)
  · have hax := List.getElem?_mem hi
    have hVeq : r.overlapV = axis.scale (axisOverlap A B axis) := by
      rw [hV, hn, ← hm, overlapN_scale]
    rw [hVeq, hn]
    exact axis_touch A B axis hAne hBne (hunit axis hax)
      (fun p hp => hfin axis hax p (List.mem_append_left _ hp))
      (fun p hp => hfin axis hax p (List.mem_append_right _ hp))

/-- C4 fails for two polygons without points (whose normals are vacuously
unit): `testPolygonPolygon` returns true, and the projections of the moved `A`
and of `B` on `overlapN` have no point in common. -/
theorem overlapV_touches_counterexample :
    testPolygonPolygon emptyPolygon emptyPolygon (some ({} : Response).clear) =
      some (true, some { a := some emptyPolygon, b := some emptyPolygon }) ∧
    (∀ axis ∈ emptyPolygon.normals ++ emptyPolygon.normals, axis.len2 = 1) ∧
    ¬ ∃ s : ℚ,
      InProjection
        { emptyPolygon with
          pos := emptyPolygon.pos.sub
            ({ a := some emptyPolygon, b := some emptyPolygon } : Response).overlapV }
        ({ a := some emptyPolygon, b := some emptyPolygon } : Response).overlapN s ∧
      InProjection emptyPolygon
        ({ a := some emptyPolygon, b := some emptyPolygon } : Response).overlapN s := by
  refine ⟨?_, ?_, ?_⟩
  · simp [testPolygonPolygon, testAxes, emptyPolygon, Response.clear, Vector.scale, Vector.zero]
  · simp [emptyPolygon]
  · simp [InProjection, emptyPolygon]

theorem sample_finite :
    ∀ axis ∈ (unitSquareAt { x := 0, y := 0 }).normals ++
        (unitSquareAt { x := 1 / 2, y := 0 }).normals,
      ∀ p ∈ (unitSquareAt { x := 0, y := 0 }).calcPoints ++
          (unitSquareAt { x := 1 / 2, y := 0 }).calcPoints,
        |p.dot axis| ≤ MAX_VALUE := by
  have hM := MAX_VALUE_large
  have h0 : (0 : ℚ) ≤ MAX_VALUE := by linarith
  have h1 : (1 : ℚ) ≤ MAX_VALUE := by linarith
  intro axis hax p hp
  simp only [unitSquareAt, List.mem_append, List.mem_cons, List.mem_singleton,
    List.not_mem_nil, or_false, or_self] at hax hp
  rcases hax with rfl | rfl | rfl | rfl <;> rcases hp with rfl | rfl | rfl | rfl <;>
    simp [Vector.dot, h0, h1]

/-- C2, at two unit squares three units apart. -/
theorem testPolygonPolygon_false_separated_witness :
    testPolygonPolygon (unitSquareAt { x := 0, y := 0 }) (unitSquareAt { x := 3, y := 0 }) none =
      some (false, none) ∧
    (∃ axis, (axis ∈ (unitSquareAt { x := 0, y := 0 }).normals ∨
        axis ∈ (unitSquareAt { x := 3, y := 0 }).normals) ∧
      ProjectionsDisjoint (unitSquareAt { x := 0, y := 0 }) (unitSquareAt { x := 3, y := 0 })
        axis) ∧
    ∀ q, ¬ ((unitSquareAt { x := 0, y := 0 }).Contains q ∧
      (unitSquareAt { x := 3, y := 0 }).Contains q) :=
  ⟨sample_separated,
    testPolygonPolygon_false_separated (unitSquareAt { x := 0, y := 0 })
      (unitSquareAt { x := 3, y := 0 }) none none sample_separated⟩

/-- C3, amended, at the unit square against the unit square half a unit to
its right. -/
theorem testPolygonPolygon_min_overlap_witness :
    testPolygonPolygon (unitSquareAt { x := 0, y := 0 }) (unitSquareAt { x := 1 / 2, y := 0 })
      (some ({} : Response).clear) = some (true, some sampleHalfOverlap) ∧
    (unitSquareAt { x := 0, y := 0 }).normals ++ (unitSquareAt { x := 1 / 2, y := 0 }).normals ≠
      [] ∧
    ((∀ axis ∈ (unitSquareAt { x := 0, y := 0 }).normals ++
        (unitSquareAt { x := 1 / 2, y := 0 }).normals,
      sampleHalfOverlap.overlap ≤
        axisMagnitude (unitSquareAt { x := 0, y := 0 }) (unitSquareAt { x := 1 / 2, y := 0 })
          axis) ∧
    (∃ axis ∈ (unitSquareAt { x := 0, y := 0 }).normals ++
        (unitSquareAt { x := 1 / 2, y := 0 }).normals,
      sampleHalfOverlap.overlap =
        axisMagnitude (unitSquareAt { x := 0, y := 0 }) (unitSquareAt { x := 1 / 2, y := 0 })
          axis) ∧
    (sampleHalfOverlap.overlap < MAX_VALUE →
      ∃ (i : Nat) (axis : Vector),
        ((unitSquareAt { x := 0, y := 0 }).normals ++
          (unitSquareAt { x := 1 / 2, y := 0 }).normals)[i]? = some axis ∧
        axisMagnitude (unitSquareAt { x := 0, y := 0 }) (unitSquareAt { x := 1 / 2, y := 0 })
          axis = sampleHalfOverlap.overlap ∧
        (∀ (j : Nat) (other : Vector), j < i →
          ((unitSquareAt { x := 0, y := 0 }).normals ++
            (unitSquareAt { x := 1 / 2, y := 0 }).normals)[j]? = some other →
          sampleHalfOverlap.overlap <
            axisMagnitude (unitSquareAt { x := 0, y := 0 })
              (unitSquareAt { x := 1 / 2, y := 0 }) other) ∧
        (sampleHalfOverlap.overlapN = axis ∨ sampleHalfOverlap.overlapN = axis.reverse)) ∧
    (sampleHalfOverlap.overlap = MAX_VALUE →
      sampleHalfOverlap.overlapN = ({} : Response).overlapN) ∧
    sampleHalfOverlap.overlapV = sampleHalfOverlap.overlapN.scale sampleHalfOverlap.overlap) :=
  ⟨sample_overlapping, by simp [unitSquareAt],
    testPolygonPolygon_min_overlap (unitSquareAt { x := 0, y := 0 })
      (unitSquareAt { x := 1 / 2, y := 0 }) rfl rfl (by simp [unitSquareAt]) {}
      sampleHalfOverlap sample_overlapping⟩

/-- C4, amended, at the unit square against the unit square half a unit to
its right. -/
theorem overlapV_touches_witness :
    testPolygonPolygon (unitSquareAt { x := 0, y := 0 }) (unitSquareAt { x := 1 / 2, y := 0 })
      (some ({} : Response).clear) = some (true, some sampleHalfOverlap) ∧
    sampleHalfOverlap.overlap < MAX_VALUE ∧
    ∃! s : ℚ,
      InProjection
        { unitSquareAt { x := 0, y := 0 } with
          pos := (unitSquareAt { x := 0, y := 0 }).pos.sub sampleHalfOverlap.overlapV }
        sampleHalfOverlap.overlapN s ∧
      InProjection (unitSquareAt { x := 1 / 2, y := 0 }) sampleHalfOverlap.overlapN s :=
  have hlt : sampleHalfOverlap.overlap < MAX_VALUE := by
    have hM := MAX_VALUE_large
    show (1 / 2 : ℚ) < MAX_VALUE
    linarith
  ⟨sample_overlapping, hlt,
    overlapV_touches (unitSquareAt { x := 0, y := 0 }) (unitSquareAt { x := 1 / 2, y := 0 })
      rfl rfl (by simp [unitSquareAt]) (by simp [unitSquareAt])
      (by
        intro axis hax
        simp only [unitSquareAt, List.mem_append, List.mem_cons, List.mem_singleton,
          List.not_mem_nil, or_false, or_self] at hax
        rcases hax with rfl | rfl | rfl | rfl <;> simp [Vector.len2, Vector.dot])
      sample_finite {} sampleHalfOverlap sample_overlapping hlt⟩

theorem proj_sub (ux uy : ℝ) (a b : Vector) :
    proj ux uy (a.sub b) = proj ux uy a - proj ux uy b := by
  simp only [proj, Vector.sub]; push_cast; ring

theorem proj_scale (ux uy : ℝ) (a : Vector) (s : ℚ) :
    proj ux uy (a.scale s) = (s : ℝ) * proj ux uy a := by
  simp only [proj, Vector.scale]; push_cast; ring

theorem cross_scale_left (a b : Vector) (s : ℚ) : cross (a.scale s) b = s * cross a b := by
  simp only [cross, Vector.scale]; ring

theorem cross_sub_right (a b c : Vector) : cross a (b.sub c) = cross a b - cross a c := by
  simp only [cross, Vector.sub]; ring

/-- The three-vector identity of the plane, applied to a linear functional. -/
theorem proj_pluecker (ux uy : ℝ) (a b c : Vector) :
    (cross a b : ℝ) * proj ux uy c + (cross b c : ℝ) * proj ux uy a +
      (cross c a : ℝ) * proj ux uy b = 0 := by
  simp only [cross, proj]; push_cast; ring

/-- A maximiser of a linear functional among the vertices. -/
theorem exists_max_vertex (P : Polygon) (hn : 0 < P.calcPoints.length) (ux uy : ℝ) :
    ∃ k < P.calcPoints.length, ∀ j < P.calcPoints.length,
      proj ux uy (P.vertex j) ≤ proj ux uy (P.vertex k) := by
  obtain ⟨k, hk, hmax⟩ := Finset.exists_max_image (Finset.range P.calcPoints.length)
    (fun i => proj ux uy (P.vertex i)) ⟨0, Finset.mem_range.2 hn⟩
  exact ⟨k, Finset.mem_range.1 hk, fun j hj => hmax j (Finset.mem_range.2 hj)⟩

/-- The edge that ends at vertex `k`. -/
theorem exists_edge_into (P : Polygon) (k : Nat) (hk : k < P.calcPoints.length) :
    ∃ i < P.calcPoints.length, P.edgeAt i = (P.vertex k).sub (P.vertex i) := by
  by_cases h0 : k = 0
  · subst h0
    refine ⟨P.calcPoints.length - 1, by omega, ?_⟩
    unfold Polygon.edgeAt
    rw [if_neg (by omega)]
  · refine ⟨k - 1, by omega, ?_⟩
    unfold Polygon.edgeAt
    rw [if_pos (by omega)]
    have : k - 1 + 1 = k := by omega
    rw [this]

/-- The edge that starts at vertex `k` ends at a vertex. -/
theorem exists_edge_out (P : Polygon) (k : Nat) (hk : k < P.calcPoints.length) :
    ∃ i < P.calcPoints.length, P.edgeAt k = (P.vertex i).sub (P.vertex k) := by
  unfold Polygon.edgeAt
  by_cases h : k + 1 < P.calcPoints.length
  · exact ⟨k + 1, h, by rw [if_pos h]⟩
  · exact ⟨0, by omega, by rw [if_neg h]⟩

theorem cross_anticomm (a b : Vector) : cross a b = -cross b a := by
  simp only [cross]; ring

/-- At a vertex where a functional rises along the edge coming in and falls
along the edge going out, the two edges make a strict turn, unless all the
vertices are on one line. -/
theorem cross_pos_of_nondegenerate (P : Polygon) (hc : P.IsConvex) (ux uy : ℝ)
    (v E1 E2 : Vector) (h1 : 0 < proj ux uy E1) (h2 : proj ux uy E2 < 0)
    (hside : ∀ j < P.calcPoints.length,
      0 ≤ cross E1 ((P.vertex j).sub v) ∧ 0 ≤ cross E2 ((P.vertex j).sub v))
    (h0 : 0 ≤ cross E1 E2) : 0 < cross E1 E2 := by
  rcases lt_or_eq_of_le h0 with h | h
  · exact h
  · exfalso
    have hline : ∀ j < P.calcPoints.length, cross E1 ((P.vertex j).sub v) = 0 := by
      intro j hj
      have hp := proj_pluecker ux uy E1 E2 ((P.vertex j).sub v)
      rw [← h] at hp
      have ha : (0 : ℝ) ≤ (cross E1 ((P.vertex j).sub v) : ℚ) := by
        exact_mod_cast (hside j hj).1
      have hb : (0 : ℝ) ≤ (cross E2 ((P.vertex j).sub v) : ℚ) := by
        exact_mod_cast (hside j hj).2
      have hanti : (cross ((P.vertex j).sub v) E1 : ℝ) = -(cross E1 ((P.vertex j).sub v) : ℝ) := by
        rw [cross_anticomm]; push_cast; ring
      rw [hanti] at hp
      simp only [Rat.cast_zero, zero_mul, zero_add] at hp
      have hzero : (cross E1 ((P.vertex j).sub v) : ℝ) = 0 := by
        by_contra hne
        have hpos : (0 : ℝ) < (cross E1 ((P.vertex j).sub v) : ℚ) := lt_of_le_of_ne ha (Ne.symm hne)
        nlinarith [mul_nonneg hb (le_of_lt h1), mul_pos hpos (neg_pos.2 h2)]
      exact_mod_cast hzero
    obtain ⟨i, hi, j, hj, k, hk, hne⟩ := hc.nondegenerate
    apply hne
    have hy : cross E1 ((P.vertex j).sub (P.vertex i)) = 0 := by
      have := hline j hj
      have := hline i hi
      simp only [cross, Vector.sub] at *
      linarith
    have hz : cross E1 ((P.vertex k).sub (P.vertex i)) = 0 := by
      have := hline k hk
      have := hline i hi
      simp only [cross, Vector.sub] at *
      linarith
    have hp := proj_pluecker ux uy E1 ((P.vertex j).sub (P.vertex i))
      ((P.vertex k).sub (P.vertex i))
    rw [hy] at hp
    have hz' : cross ((P.vertex k).sub (P.vertex i)) E1 = 0 := by
      rw [cross_anticomm, hz, neg_zero]
    rw [hz'] at hp
    simp only [Rat.cast_zero, zero_mul, zero_add, add_zero] at hp
    have := (mul_eq_zero.1 hp).resolve_right (ne_of_gt h1)
    exact_mod_cast this

/-- At a vertex where a functional is greatest, and which no edge meets at a
right angle to the functional, the two edges through the vertex, taken in
counter-clockwise order, span a cone that holds the whole polygon. -/
theorem vertex_cone (P : Polygon) (hc : P.IsConvex) (ux uy : ℝ)
    (hgen : ∀ i < P.calcPoints.length, proj ux uy (P.edgeAt i) ≠ 0) :
    ∃ k < P.calcPoints.length, ∃ i1 < P.calcPoints.length, ∃ i2 < P.calcPoints.length,
    ∃ s : ℚ, (s = 1 ∨ s = -1) ∧
      (∀ j < P.calcPoints.length, proj ux uy (P.vertex j) ≤ proj ux uy (P.vertex k)) ∧
      0 < proj ux uy ((P.edgeAt i1).scale s) ∧
      proj ux uy ((P.edgeAt i2).scale s) < 0 ∧
      0 < cross ((P.edgeAt i1).scale s) ((P.edgeAt i2).scale s) ∧
      ∀ j < P.calcPoints.length,
        0 ≤ cross ((P.edgeAt i1).scale s) ((P.vertex j).sub (P.vertex k)) ∧
        0 ≤ cross ((P.edgeAt i2).scale s) ((P.vertex j).sub (P.vertex k)) := by
  have hn : 0 < P.calcPoints.length := by have := hc.three; omega
  obtain ⟨k, hk, hmax⟩ := exists_max_vertex P hn ux uy
  obtain ⟨ip, hip, hg1⟩ := exists_edge_into P k hk
  obtain ⟨iq, hiq, hg2⟩ := exists_edge_out P k hk
  have hu1 : 0 < proj ux uy (P.edgeAt ip) := by
    have h := hgen ip hip
    have hle : 0 ≤ proj ux uy (P.edgeAt ip) := by
      rw [hg1, proj_sub]; linarith [hmax ip hip]
    exact lt_of_le_of_ne hle (Ne.symm h)
  have hu2 : proj ux uy (P.edgeAt k) < 0 := by
    have h := hgen k hk
    have hle : proj ux uy (P.edgeAt k) ≤ 0 := by
      rw [hg2, proj_sub]; linarith [hmax iq hiq]
    exact lt_of_le_of_ne hle h
  -- the side conditions, moved to the vertex `k`
  have hmove : ∀ j, cross (P.edgeAt ip) ((P.vertex j).sub (P.vertex ip)) =
      cross (P.edgeAt ip) ((P.vertex j).sub (P.vertex k)) := by
    intro j
    rw [hg1]
    simp only [cross, Vector.sub]; ring
  have hturn : cross (P.edgeAt ip) ((P.vertex iq).sub (P.vertex k)) =
      cross (P.edgeAt ip) (P.edgeAt k) := by rw [hg2]
  rcases hc.convex with hccw | hcw
  · have hside : ∀ j < P.calcPoints.length,
        0 ≤ cross ((P.edgeAt ip).scale 1) ((P.vertex j).sub (P.vertex k)) ∧
        0 ≤ cross ((P.edgeAt k).scale 1) ((P.vertex j).sub (P.vertex k)) := by
      intro j hj
      rw [cross_scale_left, cross_scale_left, one_mul, one_mul, ← hmove]
      exact ⟨hccw ip hip j hj, hccw k hk j hj⟩
    have hp1 : 0 < proj ux uy ((P.edgeAt ip).scale 1) := by
      rw [proj_scale]; push_cast; linarith
    have hp2 : proj ux uy ((P.edgeAt k).scale 1) < 0 := by
      rw [proj_scale]; push_cast; linarith
    have h0 : 0 ≤ cross ((P.edgeAt ip).scale 1) ((P.edgeAt k).scale 1) := by
      have := (hside iq hiq).1
      rw [cross_scale_left, one_mul, hturn] at this
      rw [cross_scale_left, one_mul]
      simp only [cross, Vector.scale] at this ⊢
      linarith
    exact ⟨k, hk, ip, hip, k, hk, 1, Or.inl rfl, hmax, hp1, hp2,
      cross_pos_of_nondegenerate P hc ux uy _ _ _ hp1 hp2 hside h0, hside⟩
  · have hside : ∀ j < P.calcPoints.length,
        0 ≤ cross ((P.edgeAt k).scale (-1)) ((P.vertex j).sub (P.vertex k)) ∧
        0 ≤ cross ((P.edgeAt ip).scale (-1)) ((P.vertex j).sub (P.vertex k)) := by
      intro j hj
      rw [cross_scale_left, cross_scale_left, ← hmove]
      have := hcw ip hip j hj
      have := hcw k hk j hj
      constructor <;> linarith
    have hp1 : 0 < proj ux uy ((P.edgeAt k).scale (-1)) := by
      rw [proj_scale]; push_cast; linarith
    have hp2 : proj ux uy ((P.edgeAt ip).scale (-1)) < 0 := by
      rw [proj_scale]; push_cast; linarith
    have h0 : 0 ≤ cross ((P.edgeAt k).scale (-1)) ((P.edgeAt ip).scale (-1)) := by
      have := (hside iq hiq).2
      rw [cross_scale_left, hturn] at this
      simp only [cross, Vector.scale] at this ⊢
      linarith
    exact ⟨k, hk, k, hk, ip, hip, -1, Or.inr rfl, hmax, hp1, hp2,
      cross_pos_of_nondegenerate P hc ux uy _ _ _ hp1 hp2 hside h0, hside⟩

/-- Sign analysis behind the separating axis theorem, at a vertex of each
polygon: `e1`, `e2` are the edges into and out of the top vertex of the lower
polygon, `f1`, `f2` those of the bottom vertex of the upper one, `u` separates
and `d` joins the two vertices. One of the four edges then has `d` strictly on
its outer side while its reverse lies between the two edges of the other
polygon. -/
theorem sat_core (e1x e1y e2x e2y f1x f1y f2x f2y ux uy dx dy : ℝ)
    (h1 : 0 < ux * e1x + uy * e1y) (h2 : ux * e2x + uy * e2y < 0)
    (h3 : ux * f1x + uy * f1y < 0) (h4 : 0 < ux * f2x + uy * f2y)
    (h5 : 0 < e1x * e2y - e1y * e2x) (h6 : 0 < f1x * f2y - f1y * f2x)
    (h7 : 0 < ux * dx + uy * dy) :
    (e1x * dy - e1y * dx < 0 ∧ 0 ≤ e1x * f1y - e1y * f1x ∧ 0 < f2x * e1y - f2y * e1x) ∨
    (0 < f1x * dy - f1y * dx ∧ e1x * f1y - e1y * f1x < 0 ∧ 0 < e2x * f1y - e2y * f1x) ∨
    (e2x * dy - e2y * dx < 0 ∧ e2x * f2y - e2y * f2x ≤ 0 ∧ 0 < e2x * f1y - e2y * f1x) ∨
    (0 < f2x * dy - f2y * dx ∧ 0 < e2x * f2y - e2y * f2x ∧ 0 < f2x * e1y - f2y * e1x) := by
  -- the lower end of the common sector
  have hfe1 : 0 ≤ e1x * f1y - e1y * f1x → 0 < f2x * e1y - f2y * e1x := by
    intro hL
    by_contra hc
    push_neg at hc
    have id1 : (f1x * f2y - f1y * f2x) * (ux * e1x + uy * e1y) +
        (f2x * e1y - f2y * e1x) * (ux * f1x + uy * f1y) +
        (e1x * f1y - e1y * f1x) * (ux * f2x + uy * f2y) = 0 := by ring
    nlinarith [mul_pos h6 h1, mul_nonneg hL (le_of_lt h4),
      mul_nonneg (neg_nonneg.2 hc) (le_of_lt (neg_pos.2 h3))]
  have hef1 : e1x * f1y - e1y * f1x < 0 → 0 < e2x * f1y - e2y * f1x := by
    intro hL
    by_contra hc
    push_neg at hc
    have id1 : (e1x * e2y - e1y * e2x) * (ux * f1x + uy * f1y) +
        (e2x * f1y - e2y * f1x) * (ux * e1x + uy * e1y) +
        (f1x * e1y - f1y * e1x) * (ux * e2x + uy * e2y) = 0 := by ring
    nlinarith [mul_pos h5 (neg_pos.2 h3), mul_pos (neg_pos.2 hL) (neg_pos.2 h2),
      mul_nonneg (neg_nonneg.2 hc) (le_of_lt h1)]
  -- the upper end of the common sector
  have hfe2 : e2x * f2y - e2y * f2x ≤ 0 → 0 < e2x * f1y - e2y * f1x := by
    intro hU
    by_contra hc
    push_neg at hc
    have id1 : (f1x * f2y - f1y * f2x) * (ux * e2x + uy * e2y) +
        (f2x * e2y - f2y * e2x) * (ux * f1x + uy * f1y) +
        (e2x * f1y - e2y * f1x) * (ux * f2x + uy * f2y) = 0 := by ring
    nlinarith [mul_pos h6 (neg_pos.2 h2), mul_nonneg (neg_nonneg.2 hU) (le_of_lt (neg_pos.2 h3)),
      mul_nonneg (neg_nonneg.2 hc) (le_of_lt h4)]
  have hef2 : 0 < e2x * f2y - e2y * f2x → 0 < f2x * e1y - f2y * e1x := by
    intro hU
    by_contra hc
    push_neg at hc
    have id1 : (e1x * e2y - e1y * e2x) * (ux * f2x + uy * f2y) +
        (e2x * f2y - e2y * f2x) * (ux * e1x + uy * e1y) +
        (f2x * e1y - f2y * e1x) * (ux * e2x + uy * e2y) = 0 := by ring
    nlinarith [mul_pos h5 h4, mul_pos hU h1,
      mul_nonneg (neg_nonneg.2 hc) (le_of_lt (neg_pos.2 h2))]
  -- the closing identity, for a lower end `l` and an upper end `t`
  have close : ∀ lx ly tx ty : ℝ, 0 < ux * lx + uy * ly → ux * tx + uy * ty < 0 →
      0 < lx * ty - ly * tx → lx * dy - ly * dx < 0 ∨ tx * dy - ty * dx < 0 := by
    intro lx ly tx ty hl ht hlt
    by_contra hc
    push_neg at hc
    have id2 : (lx * ty - ly * tx) * (ux * dx + uy * dy) =
        (ux * tx + uy * ty) * (lx * dy - ly * dx) - (ux * lx + uy * ly) * (tx * dy - ty * dx) := by
      ring
    nlinarith [mul_pos hlt h7, mul_nonneg hc.1 (le_of_lt (neg_pos.2 ht)),
      mul_nonneg hc.2 (le_of_lt hl)]
  by_cases hL : 0 ≤ e1x * f1y - e1y * f1x
  · have hL' := hfe1 hL
    by_cases hU : e2x * f2y - e2y * f2x ≤ 0
    · have hU' := hfe2 hU
      rcases close e1x e1y e2x e2y h1 h2 h5 with h | h
      · exact Or.inl ⟨h, hL, hL'⟩
      · exact Or.inr (Or.inr (Or.inl ⟨h, hU, hU'⟩))
    · push_neg at hU
      have hU' := hef2 hU
      rcases close e1x e1y (-f2x) (-f2y) h1 (by linarith) (by linarith) with h | h
      · exact Or.inl ⟨h, hL, hL'⟩
      · exact Or.inr (Or.inr (Or.inr ⟨by linarith, hU, hU'⟩))
  · push_neg at hL
    have hL' := hef1 hL
    by_cases hU : e2x * f2y - e2y * f2x ≤ 0
    · have hU' := hfe2 hU
      rcases close (-f1x) (-f1y) e2x e2y (by linarith) h2 (by linarith) with h | h
      · exact Or.inr (Or.inl ⟨by linarith, hL, hL'⟩)
      · exact Or.inr (Or.inr (Or.inl ⟨h, hU, hU'⟩))
    · push_neg at hU
      have hU' := hef2 hU
      rcases close (-f1x) (-f1y) (-f2x) (-f2y) (by linarith) (by linarith) (by linarith)
        with h | h
      · exact Or.inr (Or.inl ⟨by linarith, hL, hL'⟩)
      · exact Or.inr (Or.inr (Or.inr ⟨by linarith, hU, hU'⟩))

theorem mem_calcPoints_iff (P : Polygon) (p : Vector) :
    p ∈ P.calcPoints ↔ ∃ i < P.calcPoints.length, P.vertex i = p := by
  unfold Polygon.vertex
  constructor
  · intro h
    obtain ⟨i, hi, rfl⟩ := List.getElem_of_mem h
    exact ⟨i, hi, by simp [List.getD_eq_getElem?_getD, List.getElem?_eq_getElem hi]⟩
  · rintro ⟨i, hi, rfl⟩
    simp [List.getD_eq_getElem?_getD, List.getElem?_eq_getElem hi]

theorem dot_perp_scale (p e : Vector) (c : ℚ) :
    p.dot (e.perp.scale c) = -(c * cross e p) := by
  simp only [Vector.dot, Vector.perp, Vector.scale, cross]; ring

/-- Points of `B` strictly on one side of a line along an edge direction and
points of `A` on the other: the edge's normal has disjoint projections. -/
theorem projectionsDisjoint_of_cross (A B : Polygon) (e axis : Vector) (c s : ℚ)
    (hc : 0 < c) (hs : s = 1 ∨ s = -1) (haxis : axis = e.perp.scale c)
    (h : (∀ i < A.calcPoints.length, ∀ j < B.calcPoints.length,
          cross (e.scale s) (B.pos.add (B.vertex j)) < cross (e.scale s) (A.pos.add (A.vertex i))) ∨
        (∀ i < A.calcPoints.length, ∀ j < B.calcPoints.length,
          cross (e.scale s) (A.pos.add (A.vertex i)) < cross (e.scale s) (B.pos.add (B.vertex j)))) :
    ProjectionsDisjoint A B axis := by
  subst haxis
  have key : ∀ p q : Vector, cross e q < cross e p →
      p.dot (e.perp.scale c) < q.dot (e.perp.scale c) := by
    intro p q hpq
    rw [dot_perp_scale, dot_perp_scale]
    nlinarith
  unfold ProjectionsDisjoint
  rcases hs with rfl | rfl
  · simp only [cross_scale_left, one_mul] at h
    rcases h with h | h
    · left
      intro p hp q hq
      obtain ⟨i, hi, rfl⟩ := (mem_calcPoints_iff A p).1 hp
      obtain ⟨j, hj, rfl⟩ := (mem_calcPoints_iff B q).1 hq
      exact key _ _ (h i hi j hj)
    · right
      intro p hp q hq
      obtain ⟨i, hi, rfl⟩ := (mem_calcPoints_iff A p).1 hp
      obtain ⟨j, hj, rfl⟩ := (mem_calcPoints_iff B q).1 hq
      exact key _ _ (h i hi j hj)
  · simp only [cross_scale_left, neg_mul, one_mul, neg_lt_neg_iff] at h
    rcases h with h | h
    · right
      intro p hp q hq
      obtain ⟨i, hi, rfl⟩ := (mem_calcPoints_iff A p).1 hp
      obtain ⟨j, hj, rfl⟩ := (mem_calcPoints_iff B q).1 hq
      exact key _ _ (h i hi j hj)
    · left
      intro p hp q hq
      obtain ⟨i, hi, rfl⟩ := (mem_calcPoints_iff A p).1 hp
      obtain ⟨j, hj, rfl⟩ := (mem_calcPoints_iff B q).1 hq
      exact key _ _ (h i hi j hj)

/-- A vector between two others, all on the inner side of which `x` lies, has
`x` on its outer side when reversed. -/
theorem cone_side (G H E x : Vector) (hGH : 0 < cross G H)
    (h1 : 0 ≤ cross H E) (h2 : 0 ≤ cross E G) (hG : 0 ≤ cross G x) (hH : 0 ≤ cross H x) :
    cross E x ≤ 0 := by
  have id1 : cross G H * cross E x = -(cross H E * cross G x + cross E G * cross H x) := by
    simp only [cross]; ring
  by_contra hc
  push_neg at hc
  nlinarith [mul_pos hGH hc, mul_nonneg h1 hG, mul_nonneg h2 hH]

/-- A functional at a right angle to an edge that separates the vertices:
the edge's normal separates them too. -/
theorem projectionsDisjoint_of_perp (A B : Polygon) (e axis : Vector) (c : ℚ) (ux uy : ℝ)
    (hc : 0 < c) (haxis : axis = e.perp.scale c) (he : e ≠ Vector.zero)
    (hA : 0 < A.calcPoints.length) (hB : 0 < B.calcPoints.length)
    (hperp : proj ux uy e = 0)
    (hu : ∀ i < A.calcPoints.length, ∀ j < B.calcPoints.length,
      proj ux uy (A.pos.add (A.vertex i)) < proj ux uy (B.pos.add (B.vertex j))) :
    ProjectionsDisjoint A B axis := by
  -- `|e|² (u·x) = (u·perp e)(perp e·x) + (u·e)(e·x)`
  have id1 : ∀ x : Vector, ((e.x : ℝ) * e.x + (e.y : ℝ) * e.y) * proj ux uy x =
      (ux * (e.y : ℝ) - uy * (e.x : ℝ)) * (-(cross e x : ℝ)) +
        proj ux uy e * ((e.x : ℝ) * x.x + (e.y : ℝ) * x.y) := by
    intro x
    simp only [proj, cross]; push_cast; ring
  have hsq : 0 < (e.x : ℝ) * e.x + (e.y : ℝ) * e.y := by
    have hq : 0 < e.x * e.x + e.y * e.y := by
      by_contra hcon
      have hx : e.x = 0 := by nlinarith [mul_self_nonneg e.x, mul_self_nonneg e.y]
      have hy : e.y = 0 := by nlinarith [mul_self_nonneg e.x, mul_self_nonneg e.y]
      apply he
      cases e
      simp only [Vector.zero, Vector.mk.injEq]
      exact ⟨hx, hy⟩
    exact_mod_cast hq
  have hdiff : ∀ i < A.calcPoints.length, ∀ j < B.calcPoints.length,
      0 < (ux * (e.y : ℝ) - uy * (e.x : ℝ)) *
        ((cross e (A.pos.add (A.vertex i)) : ℝ) - (cross e (B.pos.add (B.vertex j)) : ℝ)) := by
    intro i hi j hj
    have h1 := id1 (A.pos.add (A.vertex i))
    have h2 := id1 (B.pos.add (B.vertex j))
    rw [hperp, zero_mul, add_zero] at h1 h2
    have h3 := hu i hi j hj
    nlinarith [mul_pos hsq (sub_pos.2 h3)]
  apply projectionsDisjoint_of_cross A B e axis c 1 hc (Or.inl rfl) haxis
  simp only [cross_scale_left, one_mul]
  rcases lt_trichotomy (ux * (e.y : ℝ) - uy * (e.x : ℝ)) 0 with ht | ht | ht
  · right
    intro i hi j hj
    have := hdiff i hi j hj
    have h' : (cross e (A.pos.add (A.vertex i)) : ℝ) < (cross e (B.pos.add (B.vertex j)) : ℝ) := by
      nlinarith
    exact_mod_cast h'
  · exfalso
    have := hdiff 0 hA 0 hB
    rw [ht, zero_mul] at this
    exact lt_irrefl _ this
  · left
    intro i hi j hj
    have := hdiff i hi j hj
    have h' : (cross e (B.pos.add (B.vertex j)) : ℝ) < (cross e (A.pos.add (A.vertex i)) : ℝ) := by
      nlinarith
    exact_mod_cast h'

theorem cross_add_right (a b c : Vector) : cross a (b.add c) = cross a b + cross a c := by
  simp only [cross, Vector.add]; ring

theorem proj_add (ux uy : ℝ) (a b : Vector) :
    proj ux uy (a.add b) = proj ux uy a + proj ux uy b := by
  simp only [proj, Vector.add]; push_cast; ring

/-- The separating axis theorem for two convex polygons: when some linear
functional separates the vertices of `A` from those of `B`, the normal of some
edge of `A` or of `B` has disjoint projections. -/
theorem exists_separating_normal (A B : Polygon) (hA : A.IsConvex) (hB : B.IsConvex)
    (ux uy : ℝ)
    (hu : ∀ i < A.calcPoints.length, ∀ j < B.calcPoints.length,
      proj ux uy (A.pos.add (A.vertex i)) < proj ux uy (B.pos.add (B.vertex j))) :
    (∃ i < A.calcPoints.length, ProjectionsDisjoint A B (A.normals.getD i Vector.zero)) ∨
    (∃ i < B.calcPoints.length, ProjectionsDisjoint A B (B.normals.getD i Vector.zero)) := by
  have hnA : 0 < A.calcPoints.length := by have := hA.three; omega
  have hnB : 0 < B.calcPoints.length := by have := hB.three; omega
  by_cases hgA : ∀ i < A.calcPoints.length, proj ux uy (A.edgeAt i) ≠ 0
  swap
  · push_neg at hgA
    obtain ⟨i, hi, hperp⟩ := hgA
    obtain ⟨c, hc, hax⟩ := hA.normal_eq i hi
    exact Or.inl ⟨i, hi, projectionsDisjoint_of_perp A B _ _ c ux uy hc hax (hA.edge_ne i hi)
      hnA hnB hperp hu⟩
  by_cases hgB : ∀ i < B.calcPoints.length, proj ux uy (B.edgeAt i) ≠ 0
  swap
  · push_neg at hgB
    obtain ⟨i, hi, hperp⟩ := hgB
    obtain ⟨c, hc, hax⟩ := hB.normal_eq i hi
    exact Or.inr ⟨i, hi, projectionsDisjoint_of_perp A B _ _ c ux uy hc hax (hB.edge_ne i hi)
      hnA hnB hperp hu⟩
  obtain ⟨k, hk, i1, hi1, i2, hi2, s, hs, hmaxA, hE1, hE2, hE12, hsideA⟩ :=
    vertex_cone A hA ux uy hgA
  have hgB' : ∀ i < B.calcPoints.length, proj (-ux) (-uy) (B.edgeAt i) ≠ 0 := by
    intro i hi h
    apply hgB i hi
    simp only [proj] at h ⊢
    linarith
  obtain ⟨l, hl, j1, hj1, j2, hj2, t, ht, hmaxB, hF1, hF2, hF12, hsideB⟩ :=
    vertex_cone B hB (-ux) (-uy) hgB'
  set E1 := (A.edgeAt i1).scale s with hE1def
  set E2 := (A.edgeAt i2).scale s with hE2def
  set F1 := (B.edgeAt j1).scale t with hF1def
  set F2 := (B.edgeAt j2).scale t with hF2def
  set v := A.vertex k with hv
  set w := B.vertex l with hw
  set d := (B.pos.add w).sub (A.pos.add v) with hd
  have hF1' : proj ux uy F1 < 0 := by
    simp only [proj] at hF1 ⊢; linarith
  have hF2' : 0 < proj ux uy F2 := by
    simp only [proj] at hF2 ⊢; linarith
  have hdpos : 0 < proj ux uy d := by
    rw [hd, proj_sub]
    linarith [hu k hk l hl]
  have hcore := sat_core (E1.x : ℝ) E1.y E2.x E2.y F1.x F1.y F2.x F2.y ux uy d.x d.y
    hE1 hE2 hF1' hF2' (by have := hE12; simp only [cross] at this; exact_mod_cast this)
    (by have := hF12; simp only [cross] at this; exact_mod_cast this) hdpos
  -- world positions relative to the two vertices
  have hrelA : ∀ (E : Vector) (i : Nat),
      cross E (A.pos.add (A.vertex i)) = cross E (A.pos.add v) + cross E ((A.vertex i).sub v) := by
    intro E i; simp only [cross, Vector.add, Vector.sub]; ring
  have hrelB : ∀ (E : Vector) (j : Nat),
      cross E (B.pos.add (B.vertex j)) = cross E (B.pos.add w) + cross E ((B.vertex j).sub w) := by
    intro E j; simp only [cross, Vector.add, Vector.sub]; ring
  have hrelD : ∀ E : Vector, cross E (B.pos.add w) = cross E (A.pos.add v) + cross E d := by
    intro E; simp only [hd, cross, Vector.add, Vector.sub]; ring
  have anti : ∀ a b : Vector, cross a b = -cross b a := cross_anticomm
  rcases hcore with ⟨h1, h2, h3⟩ | ⟨h1, h2, h3⟩ | ⟨h1, h2, h3⟩ | ⟨h1, h2, h3⟩
  · -- the edge into the vertex of `A`
    have c1 : cross E1 d < 0 := by simp only [cross]; exact_mod_cast h1
    have c2 : 0 ≤ cross E1 F1 := by simp only [cross]; exact_mod_cast h2
    have c3 : 0 < cross F2 E1 := by simp only [cross]; exact_mod_cast h3
    obtain ⟨c, hc, hax⟩ := hA.normal_eq i1 hi1
    refine Or.inl ⟨i1, hi1, projectionsDisjoint_of_cross A B _ _ c s hc hs hax (Or.inl ?_)⟩
    intro i hi j hj
    have hb := cone_side F1 F2 E1 ((B.vertex j).sub w) hF12 (le_of_lt c3) c2
      (hsideB j hj).1 (hsideB j hj).2
    have ha := (hsideA i hi).1
    rw [hrelA, hrelB, hrelD]
    linarith
  · -- the edge into the vertex of `B`
    have c1 : 0 < cross F1 d := by simp only [cross]; exact_mod_cast h1
    have c2 : cross E1 F1 < 0 := by simp only [cross]; exact_mod_cast h2
    have c3 : 0 < cross E2 F1 := by simp only [cross]; exact_mod_cast h3
    obtain ⟨c, hc, hax⟩ := hB.normal_eq j1 hj1
    refine Or.inr ⟨j1, hj1, projectionsDisjoint_of_cross A B _ _ c t hc ht hax (Or.inr ?_)⟩
    intro i hi j hj
    have ha := cone_side E1 E2 F1 ((A.vertex i).sub v) hE12 (le_of_lt c3)
      (by rw [anti]; linarith) (hsideA i hi).1 (hsideA i hi).2
    have hb := (hsideB j hj).1
    rw [hrelA, hrelB, hrelD]
    linarith
  · -- the edge out of the vertex of `A`
    have c1 : cross E2 d < 0 := by simp only [cross]; exact_mod_cast h1
    have c2 : cross E2 F2 ≤ 0 := by simp only [cross]; exact_mod_cast h2
    have c3 : 0 < cross E2 F1 := by simp only [cross]; exact_mod_cast h3
    obtain ⟨c, hc, hax⟩ := hA.normal_eq i2 hi2
    refine Or.inl ⟨i2, hi2, projectionsDisjoint_of_cross A B _ _ c s hc hs hax (Or.inl ?_)⟩
    intro i hi j hj
    have hb := cone_side F1 F2 E2 ((B.vertex j).sub w) hF12 (by rw [anti]; linarith)
      (le_of_lt c3) (hsideB j hj).1 (hsideB j hj).2
    have ha := (hsideA i hi).2
    rw [hrelA, hrelB, hrelD]
    linarith
  · -- the edge out of the vertex of `B`
    have c1 : 0 < cross F2 d := by simp only [cross]; exact_mod_cast h1
    have c2 : 0 < cross E2 F2 := by simp only [cross]; exact_mod_cast h2
    have c3 : 0 < cross F2 E1 := by simp only [cross]; exact_mod_cast h3
    obtain ⟨c, hc, hax⟩ := hB.normal_eq j2 hj2
    refine Or.inr ⟨j2, hj2, projectionsDisjoint_of_cross A B _ _ c t hc ht hax (Or.inr ?_)⟩
    intro i hi j hj
    have ha := cone_side E1 E2 F2 ((A.vertex i).sub v) hE12 (le_of_lt c2)
      (le_of_lt c3) (hsideA i hi).1 (hsideA i hi).2
    have hb := (hsideB j hj).2
    rw [hrelA, hrelB, hrelD]
    linarith

/-- Polygons with no common point have their vertices strictly separated by
some linear functional on the plane. -/
theorem exists_separating_functional (A B : Polygon)
    (hdisj : ∀ q, ¬ (A.Contains q ∧ B.Contains q)) :
    ∃ ux uy : ℝ, ∀ p ∈ A.calcPoints, ∀ q ∈ B.calcPoints,
      proj ux uy (A.pos.add p) < proj ux uy (B.pos.add q) := by
  have hfinite : ∀ P : Polygon, {w | ∃ p ∈ P.calcPoints, w = worldPoint P.pos p}.Finite := by
    intro P
    have h := (List.finite_toSet P.calcPoints).image (fun p => worldPoint P.pos p)
    refine h.subset ?_
    rintro w ⟨p, hp, rfl⟩
    exact ⟨p, hp, rfl⟩
  have hd : Disjoint (convexHull ℝ {w | ∃ p ∈ A.calcPoints, w = worldPoint A.pos p})
      (convexHull ℝ {w | ∃ p ∈ B.calcPoints, w = worldPoint B.pos p}) :=
    Set.disjoint_left.2 (fun q hqA hqB => hdisj q ⟨hqA, hqB⟩)
  obtain ⟨f, s, t, hfa, hst, hfb⟩ := geometric_hahn_banach_compact_closed
    (convex_convexHull ℝ _) (hfinite A).isCompact_convexHull
    (convex_convexHull ℝ _) (hfinite B).isCompact_convexHull.isClosed hd
  have hf : ∀ (pos p : Vector), f (worldPoint pos p) = proj (f (1, 0)) (f (0, 1)) (pos.add p) := by
    intro pos p
    have hw : worldPoint pos p =
        (((pos.x + p.x : ℚ) : ℝ)) • ((1 : ℝ), (0 : ℝ)) +
          (((pos.y + p.y : ℚ) : ℝ)) • ((0 : ℝ), (1 : ℝ)) := by
      simp [worldPoint]
    rw [hw, map_add, map_smul, map_smul]
    simp only [proj, Vector.add, smul_eq_mul]
    ring
  refine ⟨f (1, 0), f (0, 1), ?_⟩
  intro p hp q hq
  rw [← hf, ← hf]
  have h1 := hfa _ (subset_convexHull ℝ _ ⟨p, hp, rfl⟩)
  have h2 := hfb _ (subset_convexHull ℝ _ ⟨q, hq, rfl⟩)
  linarith

/-- Disjoint projections of finite, non-empty point lists pass the gap test of
`isSeparatingAxis`. -/
theorem separates_of_projectionsDisjoint (A B : Polygon) (axis : Vector)
    (hAne : A.calcPoints ≠ []) (hBne : B.calcPoints ≠ [])
    (hfinA : ∀ p ∈ A.calcPoints, |p.dot axis| ≤ MAX_VALUE)
    (hfinB : ∀ p ∈ B.calcPoints, |p.dot axis| ≤ MAX_VALUE)
    (h : ProjectionsDisjoint A B axis) : Separates A B axis := by
  obtain ⟨⟨pa0, hpa0, ha0⟩, ⟨pa1, hpa1, ha1⟩⟩ :=
    flattenPointsOn_attained A.calcPoints axis hAne hfinA
  obtain ⟨⟨pb0, hpb0, hb0⟩, ⟨pb1, hpb1, hb1⟩⟩ :=
    flattenPointsOn_attained B.calcPoints axis hBne hfinB
  unfold Separates
  rw [isSeparatingAxis_fst, dot_sub_eq]
  rcases h with h | h
  · right
    have := h pa1 hpa1 pb0 hpb0
    rw [dot_add_eq, dot_add_eq, ha1, hb0] at this
    linarith
  · left
    have := h pa0 hpa0 pb1 hpb1
    rw [dot_add_eq, dot_add_eq, ha0, hb1] at this
    linarith

theorem isSeparatingAxis_of_not' (A B : Polygon) (axis : Vector) (response : Option Response)
    (h : ¬ Separates A B axis) :
    ∃ r1, isSeparatingAxis A.pos B.pos A.calcPoints B.calcPoints axis response = (false, r1) := by
  cases response with
  | some r => exact ⟨_, isSeparatingAxis_of_not A B axis r h⟩
  | none =>
    have h' := h
    unfold Separates at h'
    cases hres : isSeparatingAxis A.pos B.pos A.calcPoints B.calcPoints axis none with
    | mk b r1 =>
      cases b with
      | true => rw [hres] at h'; exact absurd rfl h'
      | false => exact ⟨r1, rfl⟩

/-- A loop of `testPolygonPolygon` over normals that are all there returns, and
leaves early exactly when one of them is a separating axis. -/
theorem testAxes_total (A B : Polygon) (normals : List Vector) (n : Nat) :
    ∀ (s : Nat) (response : Option Response), s + n ≤ normals.length →
      ∃ b r', testAxes A.pos B.pos A.calcPoints B.calcPoints normals (List.range' s n) response =
          some (b, r') ∧
        (b = true ↔ ∃ axis ∈ (normals.drop s).take n, Separates A B axis) := by
  induction n with
  | zero =>
    intro s response _
    exact ⟨false, response, by simp [List.range', testAxes], by simp⟩
  | succ n ih =>
    intro s response hlen
    have hs : s < normals.length := by omega
    have hdrop : (normals.drop s).take (n + 1) = normals[s] :: (normals.drop (s + 1)).take n := by
      rw [List.drop_eq_getElem_cons hs, List.take_succ_cons]
    simp only [List.range', testAxes, List.getElem?_eq_getElem hs]
    by_cases hsep : Separates A B normals[s]
    · rw [isSeparatingAxis_of_sep A B _ _ hsep]
      exact ⟨true, response, rfl, by
        simp only [true_iff]
        exact ⟨normals[s], by rw [hdrop]; exact List.mem_cons_self _ _, hsep⟩⟩
    · obtain ⟨r1, hr1⟩ := isSeparatingAxis_of_not' A B normals[s] response hsep
      rw [hr1]
      simp only
      obtain ⟨b, r', h1, h2⟩ := ih (s + 1) r1 (by omega)
      refine ⟨b, r', h1, ?_⟩
      rw [h2, hdrop]
      constructor
      · rintro ⟨axis, hax, hs'⟩
        exact ⟨axis, List.mem_cons_of_mem _ hax, hs'⟩
      · rintro ⟨axis, hax, hs'⟩
        rcases List.mem_cons.1 hax with rfl | hax
        · exact absurd hs' hsep
        · exact ⟨axis, hax, hs'⟩

/-- On polygons whose `normals` are as long as their `calcPoints`,
`testPolygonPolygon` returns false as soon as some normal of either polygon is
a separating axis. -/
theorem testPolygonPolygon_of_separates (A B : Polygon)
    (hA : A.normals.length = A.calcPoints.length)
    (hB : B.normals.length = B.calcPoints.length)
    (response : Option Response)
    (h : ∃ axis ∈ A.normals ++ B.normals, Separates A B axis) :
    ∃ response', testPolygonPolygon A B response = some (false, response') := by
  unfold testPolygonPolygon
  simp only [List.range_eq_range']
  obtain ⟨b1, r1, h1, hb1⟩ := testAxes_total A B A.normals A.calcPoints.length 0 response
    (by omega)
  rw [h1]
  rw [List.drop_zero, ← hA, List.take_length] at hb1
  cases b1 with
  | true => exact ⟨r1, rfl⟩
  | false =>
    simp only
    obtain ⟨b2, r2, h2, hb2⟩ := testAxes_total A B B.normals B.calcPoints.length 0 r1
      (by omega)
    rw [h2]
    rw [List.drop_zero, ← hB, List.take_length] at hb2
    cases b2 with
    | true => exact ⟨r2, rfl⟩
    | false =>
      exfalso
      obtain ⟨axis, hax, hsep⟩ := h
      rcases List.mem_append.1 hax with hax | hax
      · have := hb1.2 ⟨axis, hax, hsep⟩
        exact Bool.noConfusion this
      · have := hb2.2 ⟨axis, hax, hsep⟩
        exact Bool.noConfusion this

theorem getD_mem (l : List Vector) (i : Nat) (hi : i < l.length) :
    l.getD i Vector.zero ∈ l := by
  rw [List.getD_eq_getElem?_getD, List.getElem?_eq_getElem hi]
  exact List.getElem_mem hi

/-- C1: for two convex polygons (at least three vertices, no edge of length
zero, vertices not all on one line, normals as `_recalc` derives them, all
projections finite doubles) that have no point of the plane in common,
`testPolygonPolygon` returns false, with or without a response. -/
theorem testPolygonPolygon_disjoint (A B : Polygon) (hA : A.IsConvex) (hB : B.IsConvex)
    (hfin : ∀ axis ∈ A.normals ++ B.normals, ∀ p ∈ A.calcPoints ++ B.calcPoints,
      |p.dot axis| ≤ MAX_VALUE)
    (hdisj : ∀ q, ¬ (A.Contains q ∧ B.Contains q))
    (response : Option Response) :
    ∃ response', testPolygonPolygon A B response = some (false, response') := by
  obtain ⟨ux, uy, hu⟩ := exists_separating_functional A B hdisj
  have hu' : ∀ i < A.calcPoints.length, ∀ j < B.calcPoints.length,
      proj ux uy (A.pos.add (A.vertex i)) < proj ux uy (B.pos.add (B.vertex j)) := by
    intro i hi j hj
    exact hu _ ((mem_calcPoints_iff A _).2 ⟨i, hi, rfl⟩) _ ((mem_calcPoints_iff B _).2 ⟨j, hj, rfl⟩)
  have hAne : A.calcPoints ≠ [] := by
    intro h; have := hA.three; rw [h] at this; simp at this
  have hBne : B.calcPoints ≠ [] := by
    intro h; have := hB.three; rw [h] at this; simp at this
  apply testPolygonPolygon_of_separates A B hA.normals_length hB.normals_length
  rcases exists_separating_normal A B hA hB ux uy hu' with ⟨i, hi, hd⟩ | ⟨i, hi, hd⟩
  · have hmem : A.normals.getD i Vector.zero ∈ A.normals ++ B.normals :=
      List.mem_append_left _ (getD_mem _ _ (by rw [hA.normals_length]; exact hi))
    exact ⟨_, hmem, separates_of_projectionsDisjoint A B _ hAne hBne
      (fun p hp => hfin _ hmem p (List.mem_append_left _ hp))
      (fun p hp => hfin _ hmem p (List.mem_append_right _ hp)) hd⟩
  · have hmem : B.normals.getD i Vector.zero ∈ A.normals ++ B.normals :=
      List.mem_append_right _ (getD_mem _ _ (by rw [hB.normals_length]; exact hi))
    exact ⟨_, hmem, separates_of_projectionsDisjoint A B _ hAne hBne
      (fun p hp => hfin _ hmem p (List.mem_append_left _ hp))
      (fun p hp => hfin _ hmem p (List.mem_append_right _ hp)) hd⟩

theorem unitSquareAt_isConvex (pos : Vector) : (unitSquareAt pos).IsConvex where
  three := by simp [unitSquareAt]
  normals_length := rfl
  edge_ne := by
    intro i hi
    have hi' : i < 4 := hi
    interval_cases i <;>
      simp [Polygon.edgeAt, Polygon.vertex, unitSquareAt, Vector.sub, Vector.zero]
  normal_eq := by
    intro i hi
    have hi' : i < 4 := hi
    refine ⟨1, by norm_num, ?_⟩
    interval_cases i <;>
      simp [Polygon.edgeAt, Polygon.vertex, unitSquareAt, Vector.sub, Vector.perp, Vector.scale]
  convex := by
    left
    intro i hi j hj
    have hi' : i < 4 := hi
    have hj' : j < 4 := hj
    interval_cases i <;> interval_cases j <;>
      simp [Polygon.edgeAt, Polygon.vertex, unitSquareAt, Vector.sub, cross]
  nondegenerate := by
    refine ⟨0, by simp [unitSquareAt], 1, by simp [unitSquareAt], 2, by simp [unitSquareAt], ?_⟩
    simp [Polygon.vertex, unitSquareAt, Vector.sub, cross]

theorem sample_far_finite :
    ∀ axis ∈ (unitSquareAt { x := 0, y := 0 }).normals ++
        (unitSquareAt { x := 3, y := 0 }).normals,
      ∀ p ∈ (unitSquareAt { x := 0, y := 0 }).calcPoints ++
          (unitSquareAt { x := 3, y := 0 }).calcPoints,
        |p.dot axis| ≤ MAX_VALUE := by
  have hM := MAX_VALUE_large
  have h0 : (0 : ℚ) ≤ MAX_VALUE := by linarith
  have h1 : (1 : ℚ) ≤ MAX_VALUE := by linarith
  intro axis hax p hp
  simp only [unitSquareAt, List.mem_append, List.mem_cons, List.mem_singleton,
    List.not_mem_nil, or_false, or_self] at hax hp
  rcases hax with rfl | rfl | rfl | rfl <;> rcases hp with rfl | rfl | rfl | rfl <;>
    simp [Vector.dot, h0, h1]

theorem sample_far_disjoint :
    ∀ q, ¬ ((unitSquareAt { x := 0, y := 0 }).Contains q ∧
      (unitSquareAt { x := 3, y := 0 }).Contains q) := by
  apply no_common_point_of_projectionsDisjoint _ _ { x := 1, y := 0 }
  left
  intro p hp q hq
  simp only [unitSquareAt, List.mem_cons, List.mem_singleton, List.not_mem_nil, or_false] at hp hq
  rcases hp with rfl | rfl | rfl | rfl <;> rcases hq with rfl | rfl | rfl | rfl <;>
    norm_num [Vector.dot, Vector.add, unitSquareAt]

/-- C1, at two unit squares three units apart. -/
theorem testPolygonPolygon_disjoint_witness :
    (unitSquareAt { x := 0, y := 0 }).IsConvex ∧ (unitSquareAt { x := 3, y := 0 }).IsConvex ∧
    (∀ q, ¬ ((unitSquareAt { x := 0, y := 0 }).Contains q ∧
      (unitSquareAt { x := 3, y := 0 }).Contains q)) ∧
    ∃ response', testPolygonPolygon (unitSquareAt { x := 0, y := 0 })
      (unitSquareAt { x := 3, y := 0 }) none = some (false, response') :=
  ⟨unitSquareAt_isConvex _, unitSquareAt_isConvex _, sample_far_disjoint,
    testPolygonPolygon_disjoint _ _ (unitSquareAt_isConvex _) (unitSquareAt_isConvex _)
      sample_far_finite sample_far_disjoint none⟩

end SAT

namespace ArcadeSlopes

open SAT

/-- C5: on the three edge flags, `compareEdges first second` is `EMPTY` when
`first` is `SOLID` and `second` is `SOLID` or `EMPTY`, and is `first` in every
other case; in particular `INTERESTING` is never changed, whatever the second
flag, and `SOLID` against `INTERESTING` stays `SOLID`. -/
theorem compareEdges_table (first second : Int)
    (hfirst : first = EMPTY ∨ first = SOLID ∨ first = INTERESTING)
    (hsecond : second = EMPTY ∨ second = SOLID ∨ second = INTERESTING) :
    (first = SOLID ∧ (second = SOLID ∨ second = EMPTY) → compareEdges first second = EMPTY) ∧
    (¬ (first = SOLID ∧ (second = SOLID ∨ second = EMPTY)) →
      compareEdges first second = first) ∧
    compareEdges INTERESTING second = INTERESTING ∧
    compareEdges SOLID INTERESTING = SOLID := by
  rcases hfirst with h | h | h <;> rcases hsecond with h' | h' | h' <;> subst h <;> subst h' <;>
    simp [compareEdges, EMPTY, SOLID, INTERESTING]

/-- C5, at `SOLID` against `EMPTY`. -/
theorem compareEdges_table_witness :
    (SOLID = EMPTY ∨ SOLID = SOLID ∨ SOLID = INTERESTING) ∧
    (EMPTY = EMPTY ∨ EMPTY = SOLID ∨ EMPTY = INTERESTING) ∧
    ((SOLID = SOLID ∧ (EMPTY = SOLID ∨ EMPTY = EMPTY) → compareEdges SOLID EMPTY = EMPTY) ∧
    (¬ (SOLID = SOLID ∧ (EMPTY = SOLID ∨ EMPTY = EMPTY)) →
      compareEdges SOLID EMPTY = SOLID) ∧
    compareEdges INTERESTING EMPTY = INTERESTING ∧
    compareEdges SOLID INTERESTING = SOLID) :=
  ⟨by decide, by decide, compareEdges_table SOLID EMPTY (by decide) (by decide)⟩

/-- C6: when the overlap normal points straight out of a side of the tile
whose edge flag is `EMPTY` (up through an `EMPTY` top, down through an `EMPTY`
bottom, left through an `EMPTY` left, right through an `EMPTY` right),
`shouldSeparate` returns false, for every body, every option set and every
list of restrainers, and no restrainer has acted on the state. -/
theorem shouldSeparate_empty_edge {σ : Type} (options : SolverOptions)
    (restrainers : List (Restrainer σ)) (collideOnAxis : Body → Tile → Vector → σ → σ)
    (i : Int) (body : Body) (tile : Tile) (slope : TileSlope) (response : Response) (s : σ)
    (hslope : tile.slope = some slope)
    (hedge :
      (slope.edges.top = EMPTY ∧ response.overlapN.x = 0 ∧ response.overlapN.y < 0) ∨
      (slope.edges.bottom = EMPTY ∧ response.overlapN.x = 0 ∧ response.overlapN.y > 0) ∨
      (slope.edges.left = EMPTY ∧ response.overlapN.y = 0 ∧ response.overlapN.x < 0) ∨
      (slope.edges.right = EMPTY ∧ response.overlapN.y = 0 ∧ response.overlapN.x > 0)) :
    shouldSeparate options restrainers collideOnAxis i body tile response s = some (false, s) := by
  unfold shouldSeparate
  split
  · rfl
  · simp only [hslope]
    rcases hedge with ⟨h1, h2, h3⟩ | ⟨h1, h2, h3⟩ | ⟨h1, h2, h3⟩ | ⟨h1, h2, h3⟩
    · simp [h1, h2, h3]
    · simp only [h1, h2, h3]
      split_ifs <;> first | rfl | simp_all
    · simp only [h1, h2, h3]
      split_ifs <;> first | rfl | simp_all
    · simp only [h1, h2, h3]
      split_ifs <;> first | rfl | simp_all

/-- C6, at a tile with an `EMPTY` top edge and a response pushing straight up. -/
theorem shouldSeparate_empty_edge_witness :
    sampleEmptyTopTile.slope = some { type := 0, edges := { top := EMPTY } } ∧
    shouldSeparate {} [samplePermissiveRestrainer] (fun _ _ _ s => s) 0 {}
      sampleEmptyTopTile sampleUpResponse () = some (false, ()) :=
  ⟨rfl, shouldSeparate_empty_edge {} [samplePermissiveRestrainer] (fun _ _ _ s => s) 0 {}
    sampleEmptyTopTile { type := 0, edges := { top := EMPTY } } sampleUpResponse () rfl
    (Or.inl ⟨rfl, rfl, by simp [sampleUpResponse]⟩)⟩

theorem Constraint.test_iff (c : Constraint) (v : ℚ) : c.test v = true ↔ c.Holds v := by
  cases c <;> simp [Constraint.test, Constraint.Holds]

theorem ruleCondition_iff (rule : Rule) (neighbourSlope slope : TileSlope) (response : Response) :
    ruleCondition rule neighbourSlope slope response = true ↔
      (match rule.types with
        | some types => neighbourSlope.type ∈ types
        | none => neighbourSlope.type = slope.type) ∧
      (∀ c, rule.overlapX = some c → c.Holds response.overlapN.x) ∧
      (∀ c, rule.overlapY = some c → c.Holds response.overlapN.y) := by
  unfold ruleCondition
  rcases rule with ⟨nb, ox, oy, ty, sep⟩
  cases ty <;> cases ox <;> cases oy <;>
    simp [Constraint.test_iff, and_assoc]

theorem ruleMatches_iff (rule : Rule) (slope : TileSlope) (neighbours : Neighbours)
    (response : Response) :
    RuleMatches rule slope neighbours response ↔
      ∃ neighbour neighbourSlope,
        neighbours.get rule.neighbour = some neighbour ∧
        neighbour.slope = some neighbourSlope ∧
        ruleCondition rule neighbourSlope slope response = true := by
  unfold RuleMatches
  constructor
  · rintro ⟨nb, ns, h1, h2, h3⟩
    exact ⟨nb, ns, h1, h2, (ruleCondition_iff _ _ _ _).2 h3⟩
  · rintro ⟨nb, ns, h1, h2, h3⟩
    exact ⟨nb, ns, h1, h2, (ruleCondition_iff _ _ _ _).1 h3⟩

/-- The loop of `restrain` on a rule that does not match moves on to the rest. -/
theorem restrainRules_cons_of_not {σ : Type} (collideOnAxis : Body → Tile → Vector → σ → σ)
    (body : Body) (tile : Tile) (slope : TileSlope) (neighbours : Neighbours)
    (response : Response) (rule : Rule) (rest : List Rule) (s : σ)
    (h : ¬ RuleMatches rule slope neighbours response) :
    restrainRules collideOnAxis body tile slope neighbours response (rule :: rest) s =
      restrainRules collideOnAxis body tile slope neighbours response rest s := by
  rw [ruleMatches_iff] at h
  simp only [restrainRules]
  split
  · rfl
  · rename_i nb hnb
    split
    · rfl
    · rename_i ns hns
      split
      · rename_i hc
        exact absurd ⟨nb, ns, hnb, hns, hc⟩ h
      · rfl

/-- The loop of `restrain` on a rule that matches stops there. -/
theorem restrainRules_cons_of_match {σ : Type} (collideOnAxis : Body → Tile → Vector → σ → σ)
    (body : Body) (tile : Tile) (slope : TileSlope) (neighbours : Neighbours)
    (response : Response) (rule : Rule) (rest : List Rule) (s : σ)
    (h : RuleMatches rule slope neighbours response) :
    restrainRules collideOnAxis body tile slope neighbours response (rule :: rest) s =
      (false,
        match rule.separate.resolve body tile response, slope.axis with
        | true, some axis => collideOnAxis body tile axis s
        | _, _ => s) := by
  rw [ruleMatches_iff] at h
  obtain ⟨nb, ns, hnb, hns, hc⟩ := h
  simp only [restrainRules, hnb, hns, hc, if_true]
  split <;> simp_all

theorem restrainRules_false_iff {σ : Type} (collideOnAxis : Body → Tile → Vector → σ → σ)
    (body : Body) (tile : Tile) (slope : TileSlope) (neighbours : Neighbours)
    (response : Response) (rules : List Rule) (s : σ) :
    (restrainRules collideOnAxis body tile slope neighbours response rules s).1 = false ↔
      ∃ rule ∈ rules, RuleMatches rule slope neighbours response := by
  induction rules with
  | nil => simp [restrainRules]
  | cons rule rest ih =>
    by_cases h : RuleMatches rule slope neighbours response
    · rw [restrainRules_cons_of_match _ _ _ _ _ _ _ _ _ h]
      simp only [List.mem_cons, true_iff]
      exact ⟨rule, Or.inl rfl, h⟩
    · rw [restrainRules_cons_of_not _ _ _ _ _ _ _ _ _ h, ih]
      constructor
      · rintro ⟨r, hr, hm⟩
        exact ⟨r, List.mem_cons_of_mem _ hr, hm⟩
      · rintro ⟨r, hr, hm⟩
        rcases List.mem_cons.1 hr with rfl | hr
        · exact absurd hm h
        · exact ⟨r, hr, hm⟩

/-- C9: for a tile that has a slope, `restrain` returns, and it returns false
exactly when the overlap is non-zero, the tile has a neighbours record, the
slope type has a rule list, and some rule of that list matches (its neighbour
exists and has a slope of an accepted type, and both components of the overlap
normal satisfy the rule's constraints); in every other case it returns true. -/
theorem restrain_false_iff {σ : Type} (restraints : TypeValue → Option (List Rule))
    (collideOnAxis : Body → Tile → Vector → σ → σ)
    (body : Body) (tile : Tile) (slope : TileSlope) (response : Response) (s : σ)
    (hslope : tile.slope = some slope) :
    ∃ result s', restrain restraints collideOnAxis body tile response s = some (result, s') ∧
      (result = false ↔
        response.overlap ≠ 0 ∧
        ∃ neighbours, tile.neighbours = some neighbours ∧
        ∃ rules, restraints slope.type = some rules ∧
        ∃ rule ∈ rules, RuleMatches rule slope neighbours response) := by
  unfold restrain
  by_cases h0 : response.overlap = 0
  · exact ⟨true, s, by simp [h0], by simp [h0]⟩
  · cases hn : tile.neighbours with
    | none => exact ⟨true, s, by simp [h0], by simp⟩
    | some neighbours =>
      cases hr : restraints slope.type with
      | none => exact ⟨true, s, by simp [h0, hslope, hr], by simp [hr]⟩
      | some rules =>
        refine ⟨(restrainRules collideOnAxis body tile slope neighbours response rules s).1,
          (restrainRules collideOnAxis body tile slope neighbours response rules s).2,
          by simp [h0, hslope, hr], ?_⟩
        rw [restrainRules_false_iff]
        simp [h0, hr]


/-- C9, at a type-21 tile with a type-21 left neighbour and a response
pushing left. -/
theorem restrain_false_iff_witness :
    sampleLeftTile.slope = some { type := 21 } ∧
    ∃ result s', restrain sampleRestraints sampleLog {} sampleLeftTile sampleLeftResponse [] =
        some (result, s') ∧
      (result = false ↔
        sampleLeftResponse.overlap ≠ 0 ∧
        ∃ neighbours, sampleLeftTile.neighbours = some neighbours ∧
        ∃ rules, sampleRestraints (21 : Int) = some rules ∧
        ∃ rule ∈ rules, RuleMatches rule { type := 21 } neighbours sampleLeftResponse) :=
  ⟨rfl, restrain_false_iff sampleRestraints sampleLog {} sampleLeftTile { type := 21 }
    sampleLeftResponse [] rfl⟩

theorem restrainRules_of_no_match {σ : Type} (collideOnAxis : Body → Tile → Vector → σ → σ)
    (body : Body) (tile : Tile) (slope : TileSlope) (neighbours : Neighbours)
    (response : Response) (rules : List Rule) (s : σ)
    (h : ∀ rule ∈ rules, ¬ RuleMatches rule slope neighbours response) :
    restrainRules collideOnAxis body tile slope neighbours response rules s = (true, s) := by
  induction rules with
  | nil => rfl
  | cons rule rest ih =>
    rw [restrainRules_cons_of_not _ _ _ _ _ _ _ _ _ (h rule (List.mem_cons_self _ _))]
    exact ih (fun r hr => h r (List.mem_cons_of_mem _ hr))

theorem restrainRules_first_match {σ : Type} (collideOnAxis : Body → Tile → Vector → σ → σ)
    (body : Body) (tile : Tile) (slope : TileSlope) (neighbours : Neighbours)
    (response : Response) (rules : List Rule) (s : σ) :
    (restrainRules collideOnAxis body tile slope neighbours response rules s = (true, s) ∧
      ∀ rule ∈ rules, ¬ RuleMatches rule slope neighbours response) ∨
    ∃ pre rule post, rules = pre ++ rule :: post ∧
      (∀ r ∈ pre, ¬ RuleMatches r slope neighbours response) ∧
      RuleMatches rule slope neighbours response ∧
      restrainRules collideOnAxis body tile slope neighbours response rules s =
        (false,
          match rule.separate.resolve body tile response, slope.axis with
          | true, some axis => collideOnAxis body tile axis s
          | _, _ => s) := by
  induction rules with
  | nil => exact Or.inl ⟨rfl, by simp⟩
  | cons rule rest ih =>
    by_cases h : RuleMatches rule slope neighbours response
    · exact Or.inr ⟨[], rule, rest, rfl, by simp, h,
        restrainRules_cons_of_match _ _ _ _ _ _ _ _ _ h⟩
    · rw [restrainRules_cons_of_not _ _ _ _ _ _ _ _ _ h]
      rcases ih with ⟨h1, h2⟩ | ⟨pre, r, post, h1, h2, h3, h4⟩
      · refine Or.inl ⟨h1, ?_⟩
        intro r hr
        rcases List.mem_cons.1 hr with rfl | hr
        · exact h
        · exact h2 r hr
      · refine Or.inr ⟨rule :: pre, r, post, by simp [h1], ?_, h3, h4⟩
        intro r' hr'
        rcases List.mem_cons.1 hr' with rfl | hr'
        · exact h
        · exact h2 r' hr'

/-- C10: for every state and every `collideOnAxis` method acting on it (a call
log, say): when `restrain` returns true the state is the one it started from
(no call); when it returns false the state is that of exactly one call
`collideOnAxis body tile axis` if the first matching rule's resolved `separate`
is true and the tile has a preferred axis, and the starting state (no call)
otherwise. -/
theorem restrain_collideOnAxis {σ : Type} (restraints : TypeValue → Option (List Rule))
    (collideOnAxis : Body → Tile → Vector → σ → σ)
    (body : Body) (tile : Tile) (slope : TileSlope) (response : Response) (s : σ)
    (hslope : tile.slope = some slope) :
    ∃ result s', restrain restraints collideOnAxis body tile response s = some (result, s') ∧
      (result = true → s' = s) ∧
      (result = false →
        ∃ neighbours rules pre rule post,
          tile.neighbours = some neighbours ∧ restraints slope.type = some rules ∧
          rules = pre ++ rule :: post ∧
          (∀ r ∈ pre, ¬ RuleMatches r slope neighbours response) ∧
          RuleMatches rule slope neighbours response ∧
          (∀ axis, rule.separate.resolve body tile response = true → slope.axis = some axis →
            s' = collideOnAxis body tile axis s) ∧
          (rule.separate.resolve body tile response = false ∨ slope.axis = none → s' = s)) := by
  unfold restrain
  by_cases h0 : response.overlap = 0
  · exact ⟨true, s, by simp [h0], fun _ => rfl, by simp⟩
  · cases hn : tile.neighbours with
    | none => exact ⟨true, s, by simp [h0], fun _ => rfl, by simp⟩
    | some neighbours =>
      cases hr : restraints slope.type with
      | none => exact ⟨true, s, by simp [h0, hslope, hr], fun _ => rfl, by simp⟩
      | some rules =>
        rcases restrainRules_first_match collideOnAxis body tile slope neighbours response rules s
          with ⟨h1, _⟩ | ⟨pre, rule, post, h1, h2, h3, h4⟩
        · exact ⟨true, s, by simp [h0, hslope, hr, h1], fun _ => rfl, by simp⟩
        · refine ⟨false,
            (match rule.separate.resolve body tile response, slope.axis with
              | true, some axis => collideOnAxis body tile axis s
              | _, _ => s),
            by simp only [h0, hslope, hr, h4, if_false], by simp, fun _ => ?_⟩
          refine ⟨neighbours, rules, pre, rule, post, rfl, rfl, h1, h2, h3, ?_, ?_⟩
          · intro axis hsep hax
            simp [hsep, hax]
          · rintro (hsep | hax)
            · simp [hsep]
            · simp [hax]

/-- C10, at a type-21 tile with a preferred axis, a type-21 neighbour above
and a response pushing up, with a solver that logs its calls. -/
theorem restrain_collideOnAxis_witness :
    sampleAxisTile.slope = some { type := 21, axis := some { x := 0, y := -1 } } ∧
    ∃ result s', restrain sampleRestraints sampleLog {} sampleAxisTile sampleUpResponse [] =
        some (result, s') ∧
      (result = true → s' = []) ∧
      (result = false →
        ∃ neighbours rules pre rule post,
          sampleAxisTile.neighbours = some neighbours ∧ sampleRestraints (21 : Int) = some rules ∧
          rules = pre ++ rule :: post ∧
          (∀ r ∈ pre, ¬ RuleMatches r { type := 21, axis := some { x := 0, y := -1 } }
            neighbours sampleUpResponse) ∧
          RuleMatches rule { type := 21, axis := some { x := 0, y := -1 } }
            neighbours sampleUpResponse ∧
          (∀ axis, rule.separate.resolve {} sampleAxisTile sampleUpResponse = true →
            (some { x := 0, y := -1 } : Option Vector) = some axis →
            s' = sampleLog {} sampleAxisTile axis []) ∧
          (rule.separate.resolve {} sampleAxisTile sampleUpResponse = false ∨
            (some { x := 0, y := -1 } : Option Vector) = none → s' = [])) :=
  ⟨rfl, restrain_collideOnAxis sampleRestraints sampleLog {} sampleAxisTile
    { type := 21, axis := some { x := 0, y := -1 } } sampleUpResponse [] rfl⟩


theorem tileAt_setTile (layer : LayerData) (x y : Nat) (old tile : Tile)
    (h : layer.tileAt x y = some old) (x' y' : Nat) :
    (layer.setTile x y tile).tileAt x' y' =
      if x' = x ∧ y' = y then some tile else layer.tileAt x' y' := by
  unfold LayerData.tileAt at h
  unfold LayerData.setTile
  cases hrow : layer.data[y]? with
  | none => simp [hrow] at h
  | some row =>
    simp only [hrow] at h
    cases hcell : row[x]? with
    | none => simp [hcell] at h
    | some cell =>
      have hy : y < layer.data.length := by
        by_contra hc
        rw [List.getElem?_eq_none (by omega)] at hrow
        exact Option.noConfusion hrow
      have hx : x < row.length := by
        by_contra hc
        rw [List.getElem?_eq_none (by omega)] at hcell
        exact Option.noConfusion hcell
      unfold LayerData.tileAt
      simp only
      by_cases hy' : y' = y
      · subst hy'
        rw [List.getElem?_set_self hy]
        simp only
        by_cases hx' : x' = x
        · subst hx'
          rw [List.getElem?_set_self hx]
          simp
        · rw [List.getElem?_set_ne (Ne.symm hx')]
          simp [hx', hrow]
      · rw [List.getElem?_set_ne (Ne.symm hy')]
        simp [hy']

theorem slopeOf_settledTile (layer : LayerData) (x y : Nat) :
    slopeOf (settledTile layer x y) =
      (slopeOf (layer.tileAt x y)).map
        (fun other => { other with edges := settledEdges layer x y other }) := by
  unfold settledTile
  cases h : layer.tileAt x y with
  | none => simp [slopeOf]
  | some tile =>
    cases hs : tile.slope with
    | none => simp [slopeOf, hs]
    | some slope => simp [slopeOf, hs]

theorem calculateEdgesAt_width (layer : LayerData) (y x : Nat) :
    (calculateEdgesAt layer y x).width = layer.width := by
  unfold calculateEdgesAt
  split
  · rfl
  · split
    · rfl
    · simp only [LayerData.setTile]
      split <;> rfl

theorem calculateEdgesAt_height (layer : LayerData) (y x : Nat) :
    (calculateEdgesAt layer y x).height = layer.height := by
  unfold calculateEdgesAt
  split
  · rfl
  · split
    · rfl
    · simp only [LayerData.setTile]
      split <;> rfl

theorem passInv_step (layer cur : LayerData) (x0 y0 : Nat)
    (hx0 : x0 < layer.width) (hy0 : y0 < layer.height) (h : PassInv layer cur x0 y0) :
    PassInv layer (calculateEdgesAt cur y0 x0) (x0 + 1) y0 := by
  obtain ⟨hw, hh, hcells⟩ := h
  refine ⟨by rw [calculateEdgesAt_width, hw], by rw [calculateEdgesAt_height, hh], ?_⟩
  have hself : cur.tileAt x0 y0 = layer.tileAt x0 y0 := by
    rw [hcells]; simp
  have habove : slopeOf (getTileAbove cur x0 y0) =
      (slopeOf (getTileAbove layer x0 y0)).map
        (fun other => { other with edges := settledEdges layer x0 (y0 - 1) other }) := by
    unfold getTileAbove
    by_cases hy : y0 > 0
    · simp only [hy, if_true]
      rw [hcells, if_pos ⟨hx0, by omega, Or.inl (by omega)⟩, slopeOf_settledTile]
    · simp [hy, slopeOf]
  have hleft : slopeOf (getTileLeft cur x0 y0) =
      (slopeOf (getTileLeft layer x0 y0)).map
        (fun other => { other with edges := settledEdges layer (x0 - 1) y0 other }) := by
    unfold getTileLeft
    by_cases hx : x0 > 0
    · simp only [hx, if_true]
      rw [hcells, if_pos ⟨by omega, hy0, Or.inr ⟨rfl, by omega⟩⟩, slopeOf_settledTile]
    · simp [hx, slopeOf]
  have hbelow : getTileBelow cur x0 y0 = getTileBelow layer x0 y0 := by
    unfold getTileBelow
    rw [hh, hcells]
    simp
  have hright : getTileRight cur x0 y0 = getTileRight layer x0 y0 := by
    unfold getTileRight
    rw [hw, hcells]
    simp
  intro x y
  cases htile : layer.tileAt x0 y0 with
  | none =>
    have : calculateEdgesAt cur y0 x0 = cur := by
      unfold calculateEdgesAt; rw [hself, htile]
    rw [this, hcells]
    by_cases hxy : x = x0 ∧ y = y0
    · obtain ⟨rfl, rfl⟩ := hxy
      simp [settledTile, htile, hx0, hy0]
    · have : (y = y0 ∧ x < x0 + 1) ↔ (y = y0 ∧ x < x0) := by
        constructor
        · rintro ⟨h1, h2⟩
          refine ⟨h1, ?_⟩
          by_contra hc
          exact hxy ⟨by omega, h1⟩
        · rintro ⟨h1, h2⟩
          exact ⟨h1, by omega⟩
      simp only [this]
  | some tile =>
    cases hslope : tile.slope with
    | none =>
      have : calculateEdgesAt cur y0 x0 = cur := by
        unfold calculateEdgesAt; rw [hself, htile]; simp only [hslope]
      rw [this, hcells]
      by_cases hxy : x = x0 ∧ y = y0
      · obtain ⟨rfl, rfl⟩ := hxy
        simp [settledTile, htile, hslope, hx0, hy0]
      · have : (y = y0 ∧ x < x0 + 1) ↔ (y = y0 ∧ x < x0) := by
          constructor
          · rintro ⟨h1, h2⟩
            refine ⟨h1, ?_⟩
            by_contra hc
            exact hxy ⟨by omega, h1⟩
          · rintro ⟨h1, h2⟩
            exact ⟨h1, by omega⟩
        simp only [this]
    | some slope =>
      have hcalc : calculateEdgesAt cur y0 x0 =
          cur.setTile x0 y0
            { tile with slope := some { slope with edges := settledEdges layer x0 y0 slope } } := by
        unfold calculateEdgesAt
        rw [hself, htile]
        simp only [hslope]
        rw [habove, hleft, hbelow, hright]
        congr 3
        unfold settledEdges
        have hA : ∀ other, slopeOf (getTileAbove layer x0 y0) = some other →
            slopeOf (getTileBelow layer x0 (y0 - 1)) = some slope := by
          intro other ho
          have hy : y0 > 0 := by
            by_contra hc
            simp [getTileAbove, hc, slopeOf] at ho
          have : getTileBelow layer x0 (y0 - 1) = some tile := by
            unfold getTileBelow
            rw [if_pos (by omega)]
            rw [← htile]
            congr 1
            omega
          simp [this, slopeOf, hslope]
        have hL : ∀ other, slopeOf (getTileLeft layer x0 y0) = some other →
            slopeOf (getTileRight layer (x0 - 1) y0) = some slope := by
          intro other ho
          have hx : x0 > 0 := by
            by_contra hc
            simp [getTileLeft, hc, slopeOf] at ho
          have : getTileRight layer (x0 - 1) y0 = some tile := by
            unfold getTileRight
            rw [if_pos (by omega)]
            rw [← htile]
            congr 1
            omega
          simp [this, slopeOf, hslope]
        cases h1 : slopeOf (getTileAbove layer x0 y0) <;>
          cases h2 : slopeOf (getTileBelow layer x0 y0) <;>
          cases h3 : slopeOf (getTileLeft layer x0 y0) <;>
          cases h4 : slopeOf (getTileRight layer x0 y0) <;>
          first
            | simp [hA _ h1, hL _ h3]
            | simp [hA _ h1]
            | simp [hL _ h3]
            | simp
      rw [hcalc, tileAt_setTile cur x0 y0 tile _ (hself.trans htile), hcells]
      by_cases hxy : x = x0 ∧ y = y0
      · obtain ⟨rfl, rfl⟩ := hxy
        simp [settledTile, htile, hslope, hx0, hy0]
      · have : (y = y0 ∧ x < x0 + 1) ↔ (y = y0 ∧ x < x0) := by
          constructor
          · rintro ⟨h1, h2⟩
            refine ⟨h1, ?_⟩
            by_contra hc
            exact hxy ⟨by omega, h1⟩
          · rintro ⟨h1, h2⟩
            exact ⟨h1, by omega⟩
        simp only [this, if_neg hxy]

theorem passInv_cols (layer : LayerData) (y0 : Nat) (hy0 : y0 < layer.height) (n : Nat) :
    ∀ cur, n ≤ layer.width → PassInv layer cur 0 y0 →
      PassInv layer ((List.range n).foldl (fun l x => calculateEdgesAt l y0 x) cur) n y0 := by
  induction n with
  | zero => intro cur _ h; simpa using h
  | succ n ih =>
    intro cur hn h
    rw [List.range_succ, List.foldl_append]
    exact passInv_step layer _ n y0 (by omega) hy0 (ih cur (by omega) h)

theorem passInv_row (layer cur : LayerData) (y0 : Nat) (hy0 : y0 < layer.height)
    (h : PassInv layer cur 0 y0) : PassInv layer (calculateEdgesRow cur y0) 0 (y0 + 1) := by
  have hw : cur.width = layer.width := h.1
  have h' := passInv_cols layer y0 hy0 layer.width cur (le_refl _) h
  unfold calculateEdgesRow
  rw [hw]
  refine ⟨h'.1, h'.2.1, ?_⟩
  intro x y
  rw [h'.2.2 x y]
  by_cases hx : x < layer.width
  · have : (y < y0 ∨ y = y0 ∧ x < layer.width) ↔ (y < y0 + 1 ∨ y = y0 + 1 ∧ x < 0) := by
      constructor
      · rintro (h1 | ⟨h1, _⟩)
        · exact Or.inl (by omega)
        · exact Or.inl (by omega)
      · rintro (h1 | ⟨_, h2⟩)
        · by_cases hy : y < y0
          · exact Or.inl hy
          · exact Or.inr ⟨by omega, hx⟩
        · omega
    simp only [this]
  · simp [hx]

theorem passInv_rows (layer : LayerData) (n : Nat) :
    n ≤ layer.height →
      PassInv layer ((List.range n).foldl (fun l y => calculateEdgesRow l y) layer) 0 n := by
  induction n with
  | zero =>
    intro _
    refine ⟨rfl, rfl, ?_⟩
    intro x y
    simp
  | succ n ih =>
    intro hn
    rw [List.range_succ, List.foldl_append]
    exact passInv_row layer _ n (by omega) (ih (by omega))

/-- Every cell inside the declared size of the layer holds its settled tile
after `calculateEdges`; a cell outside is as it was. -/
theorem calculateEdges_tileAt (layer : LayerData) (x y : Nat) :
    (calculateEdges layer).tileAt x y =
      if x < layer.width ∧ y < layer.height then settledTile layer x y
      else layer.tileAt x y := by
  have h := (passInv_rows layer layer.height (le_refl _)).2.2 x y
  unfold calculateEdges
  rw [h]
  by_cases hx : x < layer.width
  · by_cases hy : y < layer.height
    · simp [hx, hy]
    · simp [hx, hy]
  · simp [hx]

theorem compareEdges_cases (a b : Int) :
    compareEdges a b = a ∨ (a = SOLID ∧ compareEdges a b = EMPTY) := by
  unfold compareEdges
  split_ifs with h1 h2
  · exact Or.inr ⟨h1.1, rfl⟩
  · exact Or.inr ⟨h2.1, rfl⟩
  · exact Or.inl rfl

theorem flagFrame_compare (a b : Int) (other : TileSlope) :
    FlagFrame a (compareEdges a b) (some other) := by
  refine ⟨compareEdges_cases a b, ?_, ?_, ?_⟩
  · intro h; subst h; simp [compareEdges, SOLID, INTERESTING]
  · intro h; subst h; simp [compareEdges, SOLID, EMPTY]
  · intro h; exact Option.noConfusion h

theorem flagFrame_refl (a : Int) (neighbour : Option TileSlope) : FlagFrame a a neighbour :=
  ⟨Or.inl rfl, fun h => h, fun h => h, fun _ => rfl⟩

theorem tileAt_inRange (layer : LayerData) (hwf : layer.WellFormed) (x y : Nat) (tile : Tile)
    (h : layer.tileAt x y = some tile) : x < layer.width ∧ y < layer.height := by
  unfold LayerData.tileAt at h
  cases hrow : layer.data[y]? with
  | none => simp [hrow] at h
  | some row =>
    simp only [hrow] at h
    cases hcell : row[x]? with
    | none => simp [hcell] at h
    | some cell =>
      have hy : y < layer.data.length := by
        by_contra hc
        rw [List.getElem?_eq_none (by omega)] at hrow
        exact Option.noConfusion hrow
      have hx : x < row.length := by
        by_contra hc
        rw [List.getElem?_eq_none (by omega)] at hcell
        exact Option.noConfusion hcell
      have hmem : row ∈ layer.data := List.getElem?_mem hrow
      exact ⟨by rw [← hwf.2 row hmem]; exact hx, by rw [← hwf.1]; exact hy⟩

/-- C7: on a rectangular layer, when two orthogonally adjacent tiles (the
second to the right of the first, or below it) both have a slope and their two
facing edge flags are both `SOLID` before `calculateEdges`, both facing flags
are `EMPTY` after it. -/
theorem calculateEdges_solid_pair (layer : LayerData) (hwf : layer.WellFormed)
    (horizontal : Bool) (x y : Nat) (first second : Tile) (s1 s2 : TileSlope)
    (hfirst : layer.tileAt x y = some first) (hs1 : first.slope = some s1)
    (hsecond : layer.tileAt (if horizontal then x + 1 else x) (if horizontal then y else y + 1) =
      some second)
    (hs2 : second.slope = some s2)
    (hsolid : facingEdges horizontal s1 s2 = (SOLID, SOLID)) :
    ∃ first' second' s1' s2',
      (calculateEdges layer).tileAt x y = some first' ∧ first'.slope = some s1' ∧
      (calculateEdges layer).tileAt (if horizontal then x + 1 else x)
        (if horizontal then y else y + 1) = some second' ∧
      second'.slope = some s2' ∧
      facingEdges horizontal s1' s2' = (EMPTY, EMPTY) := by
  have hr1 := tileAt_inRange layer hwf _ _ _ hfirst
  have hr2 := tileAt_inRange layer hwf _ _ _ hsecond
  cases horizontal with
  | true =>
    simp only [if_true] at hsecond hr2 ⊢
    simp only [facingEdges, if_true, Prod.mk.injEq] at hsolid
    have hright : slopeOf (getTileRight layer x y) = some s2 := by
      unfold getTileRight
      rw [if_pos (by omega), hsecond]
      simp [slopeOf, hs2]
    have hleft : slopeOf (getTileLeft layer (x + 1) y) = some s1 := by
      unfold getTileLeft
      rw [if_pos (by omega)]
      simp [hfirst, slopeOf, hs1]
    refine ⟨{ first with slope := some { s1 with edges := settledEdges layer x y s1 } },
      { second with slope := some { s2 with edges := settledEdges layer (x + 1) y s2 } },
      { s1 with edges := settledEdges layer x y s1 },
      { s2 with edges := settledEdges layer (x + 1) y s2 }, ?_, rfl, ?_, rfl, ?_⟩
    · rw [calculateEdges_tileAt, if_pos hr1]
      simp only [settledTile, hfirst, hs1]
    · rw [calculateEdges_tileAt, if_pos hr2]
      simp only [settledTile, hsecond, hs2]
    · simp [facingEdges, settledEdges, hright, hleft, hsolid.1, hsolid.2, compareEdges,
        SOLID, EMPTY]
  | false =>
    simp only [Bool.false_eq_true, if_false] at hsecond hr2 ⊢
    simp only [facingEdges, Bool.false_eq_true, if_false, Prod.mk.injEq] at hsolid
    have hbelow : slopeOf (getTileBelow layer x y) = some s2 := by
      unfold getTileBelow
      rw [if_pos (by omega), hsecond]
      simp [slopeOf, hs2]
    have habove : slopeOf (getTileAbove layer x (y + 1)) = some s1 := by
      unfold getTileAbove
      rw [if_pos (by omega)]
      simp [hfirst, slopeOf, hs1]
    refine ⟨{ first with slope := some { s1 with edges := settledEdges layer x y s1 } },
      { second with slope := some { s2 with edges := settledEdges layer x (y + 1) s2 } },
      { s1 with edges := settledEdges layer x y s1 },
      { s2 with edges := settledEdges layer x (y + 1) s2 }, ?_, rfl, ?_, rfl, ?_⟩
    · rw [calculateEdges_tileAt, if_pos hr1]
      simp only [settledTile, hfirst, hs1]
    · rw [calculateEdges_tileAt, if_pos hr2]
      simp only [settledTile, hsecond, hs2]
    · simp [facingEdges, settledEdges, hbelow, habove, hsolid.1, hsolid.2, compareEdges,
        SOLID, EMPTY]

/-- C7, at the two full tiles of the first row of the sample layer. -/
theorem calculateEdges_solid_pair_witness :
    sampleLayer.WellFormed ∧
    facingEdges true { type := 0 } { type := 0 } = (SOLID, SOLID) ∧
    ∃ first' second' s1' s2',
      (calculateEdges sampleLayer).tileAt 0 0 = some first' ∧ first'.slope = some s1' ∧
      (calculateEdges sampleLayer).tileAt (if true = true then 0 + 1 else 0)
        (if true = true then 0 else 0 + 1) = some second' ∧
      second'.slope = some s2' ∧
      facingEdges true s1' s2' = (EMPTY, EMPTY) :=
  ⟨⟨rfl, by simp [sampleLayer]⟩, rfl,
    calculateEdges_solid_pair sampleLayer ⟨rfl, by simp [sampleLayer]⟩ true 0 0
      sampleFullTile sampleFullTile { type := 0 } { type := 0 } rfl rfl rfl rfl rfl⟩

/-- C8: on a rectangular layer, `calculateEdges` leaves a sloped tile as it
was except for its edge flags, and each flag is either unchanged or went from
`SOLID` to `EMPTY`: an `INTERESTING` flag stays `INTERESTING`, an `EMPTY` flag
stays `EMPTY`, and the flag of a side whose neighbour is missing or has no
slope is unchanged. -/
theorem calculateEdges_frame (layer : LayerData) (hwf : layer.WellFormed)
    (x y : Nat) (tile : Tile) (slope : TileSlope)
    (htile : layer.tileAt x y = some tile) (hslope : tile.slope = some slope) :
    ∃ edges' : Edges,
      (calculateEdges layer).tileAt x y =
        some { tile with slope := some { slope with edges := edges' } } ∧
      FlagFrame slope.edges.top edges'.top (slopeOf (getTileAbove layer x y)) ∧
      FlagFrame slope.edges.bottom edges'.bottom (slopeOf (getTileBelow layer x y)) ∧
      FlagFrame slope.edges.left edges'.left (slopeOf (getTileLeft layer x y)) ∧
      FlagFrame slope.edges.right edges'.right (slopeOf (getTileRight layer x y)) := by
  have hr := tileAt_inRange layer hwf _ _ _ htile
  refine ⟨settledEdges layer x y slope, ?_, ?_, ?_, ?_, ?_⟩
  · rw [calculateEdges_tileAt, if_pos hr]
    simp only [settledTile, htile, hslope]
  · unfold settledEdges
    cases h : slopeOf (getTileAbove layer x y) with
    | none => exact flagFrame_refl _ _
    | some other => exact flagFrame_compare _ _ _
  · unfold settledEdges
    cases h : slopeOf (getTileBelow layer x y) with
    | none => exact flagFrame_refl _ _
    | some other => exact flagFrame_compare _ _ _
  · unfold settledEdges
    cases h : slopeOf (getTileLeft layer x y) with
    | none => exact flagFrame_refl _ _
    | some other => exact flagFrame_compare _ _ _
  · unfold settledEdges
    cases h : slopeOf (getTileRight layer x y) with
    | none => exact flagFrame_refl _ _
    | some other => exact flagFrame_compare _ _ _

/-- C8, at the top left tile of the sample layer. -/
theorem calculateEdges_frame_witness :
    sampleLayer.WellFormed ∧
    sampleLayer.tileAt 0 0 = some sampleFullTile ∧
    ∃ edges' : Edges,
      (calculateEdges sampleLayer).tileAt 0 0 =
        some { sampleFullTile with slope := some { type := 0, edges := edges' } } ∧
      FlagFrame SOLID edges'.top (slopeOf (getTileAbove sampleLayer 0 0)) ∧
      FlagFrame SOLID edges'.bottom (slopeOf (getTileBelow sampleLayer 0 0)) ∧
      FlagFrame SOLID edges'.left (slopeOf (getTileLeft sampleLayer 0 0)) ∧
      FlagFrame SOLID edges'.right (slopeOf (getTileRight sampleLayer 0 0)) :=
  ⟨⟨rfl, by simp [sampleLayer]⟩, rfl,
    calculateEdges_frame sampleLayer ⟨rfl, by simp [sampleLayer]⟩ 0 0
      sampleFullTile { type := 0 } rfl rfl⟩

end ArcadeSlopes
namespace ArcadeSlopes

open SAT

/-- The rules the prepared default table holds for `HALF_BOTTOM`. -/
theorem defaultRestraints_halfBottom :
    defaultRestraints HALF_BOTTOM = some
      [ { neighbour := "left"
          overlapX := some (Constraint.pair (-1) 0)
          overlapY := some (Constraint.number 0)
          types := some [TypeValue.number 21, TypeValue.number 6, TypeValue.number 7]
          separate := Separate.flag false },
        { neighbour := "right"
          overlapX := some (Constraint.pair 0 1)
          overlapY := some (Constraint.number 0)
          types := some [TypeValue.number 21, TypeValue.number 5, TypeValue.number 8]
          separate := Separate.flag false } ] := by
  rfl

/-- The prepared default table has no entry for `FULL`. -/
theorem defaultRestraints_full : defaultRestraints FULL = none := by
  rfl

/-- C11: with the default restraint table, for a `HALF_BOTTOM` tile whose left
neighbour has a slope of type `HALF_BOTTOM`, `QUARTER_BOTTOM_LEFT_HIGH` or
`QUARTER_BOTTOM_RIGHT_LOW` (the types `resolve('right', 'bottomRight')` yields,
which the rule accepts), and for every response with a non-zero overlap whose
normal is `(x, 0)` with `-1 ≤ x < 0`, `restrain` returns false and leaves the
state of the solver as it was: `collideOnAxis` is not called, whatever it is. -/
theorem restrain_halfBottom_left {σ : Type} (collideOnAxis : Body → Tile → Vector → σ → σ)
    (body : Body) (tile : Tile) (slope : TileSlope) (neighbours : Neighbours)
    (neighbour : Neighbour) (neighbourSlope : TileSlope) (response : Response) (s : σ)
    (hslope : tile.slope = some slope) (htype : slope.type = HALF_BOTTOM)
    (hneighbours : tile.neighbours = some neighbours)
    (hleft : neighbours.left = some neighbour)
    (hns : neighbour.slope = some neighbourSlope)
    (hnt : neighbourSlope.type = HALF_BOTTOM ∨ neighbourSlope.type = QUARTER_BOTTOM_LEFT_HIGH ∨
      neighbourSlope.type = QUARTER_BOTTOM_RIGHT_LOW)
    (hoverlap : response.overlap ≠ 0)
    (hx1 : -1 ≤ response.overlapN.x) (hx2 : response.overlapN.x < 0)
    (hy : response.overlapN.y = 0) :
    restrain defaultRestraints collideOnAxis body tile response s = some (false, s) ∧
    (resolve ["right", "bottomRight"]).map (fun name => resolveType (TypeValue.string name)) =
      [TypeValue.number HALF_BOTTOM, TypeValue.number QUARTER_BOTTOM_LEFT_HIGH,
        TypeValue.number QUARTER_BOTTOM_RIGHT_LOW] := by
  refine ⟨?_, by decide⟩
  have hget : neighbours.get "left" = some neighbour := by
    simp [Neighbours.get, hleft]
  have hcond : ruleCondition
      { neighbour := "left"
        overlapX := some (Constraint.pair (-1) 0)
        overlapY := some (Constraint.number 0)
        types := some [TypeValue.number 21, TypeValue.number 6, TypeValue.number 7]
        separate := Separate.flag false } neighbourSlope slope response = true := by
    have hx3 : response.overlapN.x ≤ 0 := le_of_lt hx2
    rcases hnt with h | h | h <;>
      simp [ruleCondition, Constraint.test, h, HALF_BOTTOM, QUARTER_BOTTOM_LEFT_HIGH,
        QUARTER_BOTTOM_RIGHT_LOW, hx1, hx3, hy]
  unfold restrain
  rw [if_neg hoverlap]
  simp only [hneighbours, hslope, htype, defaultRestraints_halfBottom]
  simp only [restrainRules, hget, hns, hcond, if_true, Separate.resolve]

/-- C11, at a `HALF_BOTTOM` tile with a `HALF_BOTTOM` left neighbour and a
response pushing straight left by two units, with a solver method that logs
its calls. -/
theorem restrain_halfBottom_left_witness :
    restrain defaultRestraints sampleLog {} sampleLeftTile sampleLeftResponse [] =
        some (false, []) ∧
      (resolve ["right", "bottomRight"]).map (fun name => resolveType (TypeValue.string name)) =
        [TypeValue.number HALF_BOTTOM, TypeValue.number QUARTER_BOTTOM_LEFT_HIGH,
          TypeValue.number QUARTER_BOTTOM_RIGHT_LOW] :=
  restrain_halfBottom_left sampleLog {} sampleLeftTile { type := 21 }
    { left := some { slope := some { type := 21 } } } { slope := some { type := 21 } }
    { type := 21 } sampleLeftResponse [] rfl rfl rfl rfl rfl (Or.inl rfl)
    (by norm_num [sampleLeftResponse]) (by norm_num [sampleLeftResponse])
    (by norm_num [sampleLeftResponse]) rfl

/-- C17: `collide` and `collideOnAxis` return false and leave the body (and
`collide` the tile) as they were when the body is disabled, the body has no
polygon, the body has no `slopes`, the tile has no slope, or the tile's slope
has no polygon. -/
theorem collide_malformed (options : SolverOptions) (restrainers : List (Restrainer Body))
    (callbacks : Callbacks) (i : Int) (body : Body) (tile : Tile) (overlapOnly : Bool)
    (axis : Vector) (response : Option Response)
    (h : body.enable = false ∨ body.polygon = none ∨ body.slopes = none ∨ tile.slope = none ∨
      ∃ slope, tile.slope = some slope ∧ slope.polygon = none) :
    collide options restrainers callbacks i body tile overlapOnly = some (false, body, tile) ∧
    collideOnAxis options callbacks body tile axis response = some (false, body) := by
  unfold collide collideOnAxis
  by_cases he : body.enable = false
  · simp [he]
  · simp only [he, if_false]
    rcases h with h | h | h | h | ⟨slope, h1, h2⟩
    · exact absurd h he
    · simp [h]
    · cases hp : body.polygon <;> simp [h]
    · cases hp : body.polygon <;> cases hs : body.slopes <;> simp [h]
    · cases hp : body.polygon <;> cases hs : body.slopes <;> simp [h1, h2]

/-- C17, at a disabled body and a tile without a slope. -/
theorem collide_malformed_witness :
    collide {} defaultRestrainers {} 0 { enable := false } {} false =
        some (false, { enable := false }, {}) ∧
      collideOnAxis {} {} { enable := false } {} { x := 1, y := 0 } none =
        some (false, { enable := false }) :=
  collide_malformed {} defaultRestrainers {} 0 { enable := false } {} false { x := 1, y := 0 }
    none (Or.inl rfl)

end ArcadeSlopes

namespace ArcadeSlopes

open SAT

/-- C20: `updateFlags` only sets flags.  Every `touching` or `blocked` flag
that is true before the call is true after it; `touching.up`, `down`, `left`,
`right` is true after the call when `overlapV.y > 0`, `overlapV.y < 0`,
`overlapV.x > 0`, `overlapV.x < 0` respectively; a `blocked` flag that was
false becomes true exactly when, in addition, the other component of
`overlapV` is zero; and if every `blocked` flag implied its `touching` flag
before the call, it still does after.  Nothing else of the body changes. -/
theorem updateFlags_sets (body : Body) (response : Response) :
    ((body.touching.up = true → (updateFlags body response).touching.up = true) ∧
      (body.touching.down = true → (updateFlags body response).touching.down = true) ∧
      (body.touching.left = true → (updateFlags body response).touching.left = true) ∧
      (body.touching.right = true → (updateFlags body response).touching.right = true) ∧
      (body.blocked.up = true → (updateFlags body response).blocked.up = true) ∧
      (body.blocked.down = true → (updateFlags body response).blocked.down = true) ∧
      (body.blocked.left = true → (updateFlags body response).blocked.left = true) ∧
      (body.blocked.right = true → (updateFlags body response).blocked.right = true)) ∧
    ((response.overlapV.y > 0 → (updateFlags body response).touching.up = true) ∧
      (response.overlapV.y < 0 → (updateFlags body response).touching.down = true) ∧
      (response.overlapV.x > 0 → (updateFlags body response).touching.left = true) ∧
      (response.overlapV.x < 0 → (updateFlags body response).touching.right = true)) ∧
    (((updateFlags body response).touching.up = true ↔
        body.touching.up = true ∨ response.overlapV.y > 0) ∧
      ((updateFlags body response).touching.down = true ↔
        body.touching.down = true ∨ response.overlapV.y < 0) ∧
      ((updateFlags body response).touching.left = true ↔
        body.touching.left = true ∨ response.overlapV.x > 0) ∧
      ((updateFlags body response).touching.right = true ↔
        body.touching.right = true ∨ response.overlapV.x < 0)) ∧
    (((updateFlags body response).blocked.up = true ↔
        body.blocked.up = true ∨ (response.overlapV.x = 0 ∧ response.overlapV.y > 0)) ∧
      ((updateFlags body response).blocked.down = true ↔
        body.blocked.down = true ∨ (response.overlapV.x = 0 ∧ response.overlapV.y < 0)) ∧
      ((updateFlags body response).blocked.left = true ↔
        body.blocked.left = true ∨ (response.overlapV.y = 0 ∧ response.overlapV.x > 0)) ∧
      ((updateFlags body response).blocked.right = true ↔
        body.blocked.right = true ∨ (response.overlapV.y = 0 ∧ response.overlapV.x < 0))) ∧
    (((body.blocked.up = true → body.touching.up = true) ∧
        (body.blocked.down = true → body.touching.down = true) ∧
        (body.blocked.left = true → body.touching.left = true) ∧
        (body.blocked.right = true → body.touching.right = true)) →
      ((updateFlags body response).blocked.up = true →
          (updateFlags body response).touching.up = true) ∧
        ((updateFlags body response).blocked.down = true →
          (updateFlags body response).touching.down = true) ∧
        ((updateFlags body response).blocked.left = true →
          (updateFlags body response).touching.left = true) ∧
        ((updateFlags body response).blocked.right = true →
          (updateFlags body response).touching.right = true)) ∧
    ((updateFlags body response).position = body.position ∧
      (updateFlags body response).velocity = body.velocity ∧
      (updateFlags body response).enable = body.enable ∧
      (updateFlags body response).overlapX = body.overlapX ∧
      (updateFlags body response).overlapY = body.overlapY) := by
  simp only [updateFlags, Bool.or_eq_true, Bool.and_eq_true, decide_eq_true_eq, gt_iff_lt]
  refine ⟨?_, ?_, ?_, ?_, ?_, ?_⟩
  · tauto
  · tauto
  · tauto
  · tauto
  · rintro ⟨h1, h2, h3, h4⟩
    refine ⟨?_, ?_, ?_, ?_⟩
    · rintro (h | h)
      · exact Or.inl (h1 h)
      · exact Or.inr h.2
    · rintro (h | h)
      · exact Or.inl (h2 h)
      · exact Or.inr h.2
    · rintro (h | h)
      · exact Or.inl (h3 h)
      · exact Or.inr h.2
    · rintro (h | h)
      · exact Or.inl (h4 h)
      · exact Or.inr h.2
  · simp

/-- C19: for a body with zero pull coefficients, `applyVelocity` sets the
velocity componentwise to `b * (-bodyBounce) + (v - b) * (1 - bodyFriction -
tileFriction)`, where `b = (v . n) n` is the projection of the velocity `v` on
the response normal `n`.  With bounce `(1, 1)` and no friction this is
`v - 2 (v . n) n`, the reflection when `n` is a unit vector; with bounce
`(0, 0)` and no friction it is `v - (v . n) n`. -/
theorem applyVelocity_formula (body : Body) (tile : Tile) (response : Response)
    (slopes : BodySlopes) (slope : TileSlope)
    (hslopes : body.slopes = some slopes) (hslope : tile.slope = some slope)
    (hpull : slopes.pullUp = 0 ∧ slopes.pullDown = 0 ∧ slopes.pullLeft = 0 ∧
      slopes.pullRight = 0) :
    ∃ body', applyVelocity body tile response = some body' ∧
      body'.velocity.x =
        (body.velocity.dot response.overlapN * response.overlapN.x) * (-body.bounce.x) +
          (body.velocity.x - body.velocity.dot response.overlapN * response.overlapN.x) *
            (1 - slopes.friction.x - slope.friction.x) ∧
      body'.velocity.y =
        (body.velocity.dot response.overlapN * response.overlapN.y) * (-body.bounce.y) +
          (body.velocity.y - body.velocity.dot response.overlapN * response.overlapN.y) *
            (1 - slopes.friction.y - slope.friction.y) ∧
      (body.bounce = { x := 1, y := 1 } → slopes.friction = Vector.zero →
        slope.friction = Vector.zero →
        body'.velocity = body.velocity.sub
          (response.overlapN.scale (2 * body.velocity.dot response.overlapN))) ∧
      (body.bounce = { x := 0, y := 0 } → slopes.friction = Vector.zero →
        slope.friction = Vector.zero →
        body'.velocity = body.velocity.sub
          (response.overlapN.scale (body.velocity.dot response.overlapN))) ∧
      body'.position = body.position ∧ body'.touching = body.touching ∧
      body'.blocked = body.blocked := by
  obtain ⟨h1, h2, h3, h4⟩ := hpull
  have h : ∃ body', applyVelocity body tile response = some body' ∧
      body'.velocity =
        { x := (body.velocity.projectN response.overlapN).x * (-body.bounce.x) +
            (body.velocity.sub (body.velocity.projectN response.overlapN)).x *
              (1 - slopes.friction.x - slope.friction.x)
          y := (body.velocity.projectN response.overlapN).y * (-body.bounce.y) +
            (body.velocity.sub (body.velocity.projectN response.overlapN)).y *
              (1 - slopes.friction.y - slope.friction.y) } ∧
      body'.position = body.position ∧ body'.touching = body.touching ∧
      body'.blocked = body.blocked := by
    simp [applyVelocity, hslopes, hslope, pull, h1, h2, h3, h4]
  obtain ⟨body', happly, hv, hp, ht, hb⟩ := h
  refine ⟨body', happly, ?_, ?_, ?_, ?_, hp, ht, hb⟩
  · rw [hv]
    simp only [Vector.projectN, Vector.sub]
  · rw [hv]
    simp only [Vector.projectN, Vector.sub]
  · intro hb1 hf hs
    rw [hv, hb1, hf, hs]
    simp only [Vector.projectN, Vector.sub, Vector.dot, Vector.scale, Vector.zero,
      Vector.mk.injEq]
    constructor <;> ring
  · intro hb1 hf hs
    rw [hv, hb1, hf, hs]
    simp only [Vector.projectN, Vector.sub, Vector.dot, Vector.scale, Vector.zero,
      Vector.mk.injEq]
    constructor <;> ring

end ArcadeSlopes

namespace ArcadeSlopes

open SAT

/-- Below the gate, `separate` moves the body when no callback vetoes. -/
theorem separateUngated_of_allow (options : SolverOptions) (callbacks : Callbacks)
    (body : Body) (tile : Tile) (response : Response) (b : Bool)
    (htile : ∀ callback, callbacks.collisionCallback = some callback →
      callback body tile = true)
    (hlayer : ∀ callback, callbacks.layerCallback = some callback →
      callback body tile = true)
    (hb : shouldPreferY options body response = some b) :
    separateUngated options callbacks body tile response =
      some (true, { body with
        position :=
          if b = true then
            { x := body.position.x
              y := body.position.y + minimumOffsetY response.overlapV }
          else
            { x := body.position.x + response.overlapV.x
              y := body.position.y + response.overlapV.y } }) := by
  unfold separateUngated
  cases hc : callbacks.collisionCallback with
  | none =>
    cases hd : callbacks.layerCallback with
    | none => cases b <;> simp [hb]
    | some callback2 => cases b <;> simp [hb, hlayer callback2 hd]
  | some callback =>
    cases hd : callbacks.layerCallback with
    | none => cases b <;> simp [hb, htile callback hc]
    | some callback2 => cases b <;> simp [hb, htile callback hc, hlayer callback2 hd]

/-- C18: when `separate` goes through (`force` is true, or `shouldSeparate`
returned true, and no callback vetoes), it returns true and moves the body as
`shouldSeparate` left it: if `preferY` is set in the solver options or on the
body, both components of `overlapV` are non-zero, and `overlapV.y` and
`velocity.y` have strictly opposite signs, then `position.y` grows by
`overlapV.x ^ 2 / overlapV.y + overlapV.y` and `position.x` stays; otherwise
`position.x` grows by `overlapV.x` and `position.y` by `overlapV.y`.  Nothing
else of the body changes. -/
theorem separate_moves (options : SolverOptions) (restrainers : List (Restrainer Body))
    (callbacks : Callbacks) (body gated : Body) (tile : Tile) (response : Response)
    (force : Bool) (slopes : BodySlopes)
    (hgate : (force = true ∧ gated = body) ∨
      (force = false ∧
        shouldSeparate options restrainers (forcedCollision options callbacks) tile.index body
          tile response body = some (true, gated)))
    (hslopes : gated.slopes = some slopes)
    (htile : ∀ callback, callbacks.collisionCallback = some callback →
      callback gated tile = true)
    (hlayer : ∀ callback, callbacks.layerCallback = some callback →
      callback gated tile = true) :
    ∃ body', separate options restrainers callbacks body tile response force =
        some (true, body') ∧
      (PrefersY options slopes gated response →
        body'.position.y = gated.position.y +
          (response.overlapV.x ^ 2 / response.overlapV.y + response.overlapV.y) ∧
        body'.position.x = gated.position.x) ∧
      (¬ PrefersY options slopes gated response →
        body'.position.x = gated.position.x + response.overlapV.x ∧
        body'.position.y = gated.position.y + response.overlapV.y) ∧
      body'.velocity = gated.velocity ∧ body'.touching = gated.touching ∧
      body'.blocked = gated.blocked := by
  have hg : (if force = true then some (true, body)
      else shouldSeparate options restrainers (forcedCollision options callbacks) tile.index
        body tile response body) = some (true, gated) := by
    rcases hgate with ⟨h1, h2⟩ | ⟨h1, h2⟩
    · simp [h1, h2]
    · simp [h1, h2]
  have hprefer : ∃ b, shouldPreferY options gated response = some b ∧
      (b = true ↔ PrefersY options slopes gated response) := by
    unfold shouldPreferY movingAgainstY PrefersY
    cases hp : options.preferY <;> cases hq : slopes.preferY <;>
      simp [hslopes, hq, and_comm, and_assoc]
  obtain ⟨b, hb, hiff⟩ := hprefer
  unfold separate
  simp only [hg, separateUngated_of_allow options callbacks gated tile response b htile hlayer hb]
  cases b with
  | true =>
    have hc : PrefersY options slopes gated response := hiff.1 rfl
    refine ⟨_, rfl, ?_, ?_, rfl, rfl, rfl⟩
    · intro _
      simp [minimumOffsetY, pow_two]
    · intro h
      exact absurd hc h
  | false =>
    have hc : ¬ PrefersY options slopes gated response := fun h => by
      have := hiff.2 h
      simp at this
    refine ⟨_, rfl, ?_, ?_, rfl, rfl, rfl⟩
    · intro h
      exact absurd h hc
    · intro _
      exact ⟨rfl, rfl⟩

end ArcadeSlopes

namespace SAT

/-- A loop of `testPolygonPolygon` that was given a response hands one back. -/
theorem testAxes_some (aPos bPos : Vector) (aPoints bPoints normals : List Vector)
    (indices : List Nat) :
    ∀ (r : Response) (b : Bool) (response' : Option Response),
      testAxes aPos bPos aPoints bPoints normals indices (some r) = some (b, response') →
      ∃ r', response' = some r' := by
  induction indices with
  | nil =>
    intro r b response' h
    simp only [testAxes, Option.some.injEq, Prod.mk.injEq] at h
    exact ⟨r, h.2.symm⟩
  | cons i rest ih =>
    intro r b response' h
    simp only [testAxes] at h
    cases hn : normals[i]? with
    | none => simp [hn] at h
    | some axis =>
      simp only [hn] at h
      by_cases hsep : aPos.x = aPos.x ∧
          ((axisRanges aPos bPos aPoints bPoints axis).1.1 >
              (axisRanges aPos bPos aPoints bPoints axis).2.2 ∨
            (axisRanges aPos bPos aPoints bPoints axis).2.1 >
              (axisRanges aPos bPos aPoints bPoints axis).1.2)
      · have e : isSeparatingAxis aPos bPos aPoints bPoints axis (some r) = (true, some r) := by
          simp only [isSeparatingAxis]
          rw [if_pos hsep.2]
        rw [e] at h
        simp only [Option.some.injEq, Prod.mk.injEq] at h
        exact ⟨r, h.2.symm⟩
      · have hsep' : ¬ ((axisRanges aPos bPos aPoints bPoints axis).1.1 >
              (axisRanges aPos bPos aPoints bPoints axis).2.2 ∨
            (axisRanges aPos bPos aPoints bPoints axis).2.1 >
              (axisRanges aPos bPos aPoints bPoints axis).1.2) := fun h' => hsep ⟨rfl, h'⟩
        have e : ∃ r1, isSeparatingAxis aPos bPos aPoints bPoints axis (some r) =
            (false, some r1) := by
          simp only [isSeparatingAxis]
          rw [if_neg hsep']
          exact ⟨_, rfl⟩
        obtain ⟨r1, e⟩ := e
        rw [e] at h
        exact ih r1 b response' h

/-- On polygons whose normals are all there, `testPolygonPolygon` returns, and
when it was given a response it hands one back. -/
theorem testPolygonPolygon_total (A B : Polygon)
    (hA : A.normals.length = A.calcPoints.length)
    (hB : B.normals.length = B.calcPoints.length) (r0 : Response) :
    ∃ b r, testPolygonPolygon A B (some r0) = some (b, some r) := by
  unfold testPolygonPolygon
  simp only [List.range_eq_range']
  obtain ⟨b1, r1, h1, _⟩ := testAxes_total A B A.normals A.calcPoints.length 0 (some r0)
    (by omega)
  obtain ⟨r1', hr1⟩ := testAxes_some _ _ _ _ _ _ _ _ _ h1
  subst hr1
  rw [h1]
  cases b1 with
  | true => exact ⟨false, r1', rfl⟩
  | false =>
    obtain ⟨b2, r2, h2, _⟩ := testAxes_total A B B.normals B.calcPoints.length 0 (some r1')
      (by omega)
    obtain ⟨r2', hr2⟩ := testAxes_some _ _ _ _ _ _ _ _ _ h2
    subst hr2
    simp only [h2]
    cases b2 with
    | true => exact ⟨false, r2', rfl⟩
    | false => exact ⟨true, _, rfl⟩

end SAT

namespace ArcadeSlopes

open SAT

/-- On a body and a tile that have all their parts, `collide` is the overlap
test on the two placed polygons followed, unless only the overlap is asked
for, by `separate`, `applyVelocity` and `updateFlags` on the recorded body. -/
theorem collide_eq (options : SolverOptions) (restrainers : List (Restrainer Body))
    (callbacks : Callbacks) (i : Int) (body : Body) (tile : Tile) (overlapOnly : Bool)
    (polygon : Polygon) (slopes : BodySlopes) (slope : TileSlope) (tilePolygon : Polygon)
    (henable : body.enable = true) (hpolygon : body.polygon = some polygon)
    (hslopes : body.slopes = some slopes) (hslope : tile.slope = some slope)
    (htile : slope.polygon = some tilePolygon) :
    collide options restrainers callbacks i body tile overlapOnly =
      match testPolygonPolygon (syncedPolygon body polygon) (syncedTilePolygon tile tilePolygon)
          (some newResponse) with
      | none => none
      | some (false, _) => some (false, syncedBody body polygon, syncedTile tile slope tilePolygon)
      | some (true, none) => none
      | some (true, some response) =>
        if overlapOnly then
          some (true, syncedBody body polygon, syncedTile tile slope tilePolygon)
        else
          match separate options restrainers callbacks (recordedBody body polygon slopes response)
              (syncedTile tile slope tilePolygon) (prepareResponse response) false with
          | none => none
          | some (false, body) => some (false, body, syncedTile tile slope tilePolygon)
          | some (true, body) =>
            match applyVelocity body (syncedTile tile slope tilePolygon)
                (prepareResponse response) with
            | none => none
            | some body =>
              some (true, updateFlags body (prepareResponse response),
                syncedTile tile slope tilePolygon) := by
  unfold collide
  rw [if_neg (by simp [henable])]
  cases body with
  | mk enable position velocity bounce width height polygon0 slopes0 touching blocked ox oy =>
    cases tile with
    | mk index x y worldX worldY width0 height0 slope0 neighbours =>
      simp only at hpolygon hslopes hslope
      subst hpolygon hslopes hslope
      simp only [htile]
      rfl

/-- C16: for an enabled body with a polygon and a `slopes` record and a tile
whose slope has a polygon (the polygons with as many normals as points),
`collide` called with `overlapOnly = true` returns exactly the result of
`testPolygonPolygon` on the body polygon placed at the body position and the
tile polygon placed at the tile's world position, on a new response; and it
leaves the body's position, velocity, touching flags, blocked flags,
`overlapX`, `overlapY` and `slopes` record (the cached response with it) as
they were: only the positions of the two polygons are written. -/
theorem collide_overlapOnly (options : SolverOptions) (restrainers : List (Restrainer Body))
    (callbacks : Callbacks) (i : Int) (body : Body) (tile : Tile)
    (polygon : Polygon) (slopes : BodySlopes) (slope : TileSlope) (tilePolygon : Polygon)
    (henable : body.enable = true) (hpolygon : body.polygon = some polygon)
    (hslopes : body.slopes = some slopes) (hslope : tile.slope = some slope)
    (htile : slope.polygon = some tilePolygon)
    (hA : polygon.normals.length = polygon.calcPoints.length)
    (hB : tilePolygon.normals.length = tilePolygon.calcPoints.length) :
    ∃ result response body' tile',
      testPolygonPolygon { polygon with pos := body.position }
        { tilePolygon with pos := { x := tile.worldX, y := tile.worldY } }
        (some newResponse) = some (result, some response) ∧
      collide options restrainers callbacks i body tile true = some (result, body', tile') ∧
      body'.position = body.position ∧ body'.velocity = body.velocity ∧
      body'.touching = body.touching ∧ body'.blocked = body.blocked ∧
      body'.overlapX = body.overlapX ∧ body'.overlapY = body.overlapY ∧
      body'.slopes = body.slopes ∧
      body' = { body with polygon := some { polygon with pos := body.position } } ∧
      tile' = { tile with
        slope := some { slope with
          polygon := some { tilePolygon with pos := { x := tile.worldX, y := tile.worldY } } } } := by
  obtain ⟨b, r, h⟩ := testPolygonPolygon_total (syncedPolygon body polygon)
    (syncedTilePolygon tile tilePolygon) hA hB newResponse
  have hc := collide_eq options restrainers callbacks i body tile true polygon slopes slope
    tilePolygon henable hpolygon hslopes hslope htile
  rw [h] at hc
  refine ⟨b, r, syncedBody body polygon, syncedTile tile slope tilePolygon, h, ?_,
    rfl, rfl, rfl, rfl, rfl, rfl, rfl, rfl, rfl⟩
  cases b with
  | true => simpa using hc
  | false => simpa using hc

end ArcadeSlopes

namespace ArcadeSlopes

open SAT

/-- What `restrain` returns and does to the state, by cases on the first rule
that matches. -/
theorem restrain_cases {σ : Type} (restraints : TypeValue → Option (List Rule))
    (collideOnAxis : Body → Tile → Vector → σ → σ)
    (body : Body) (tile : Tile) (slope : TileSlope) (response : Response) (s : σ)
    (hslope : tile.slope = some slope) :
    ∃ g s', restrain restraints collideOnAxis body tile response s = some (g, s') ∧
      (g = true → s' = s) ∧
      (g = false → s' = s ∨
        ∃ axis neighbours rules rule, slope.axis = some axis ∧
          tile.neighbours = some neighbours ∧ restraints slope.type = some rules ∧
          rule ∈ rules ∧ RuleMatches rule slope neighbours response ∧
          rule.separate.resolve body tile response = true ∧
          s' = collideOnAxis body tile axis s) ∧
      (RulesAllow restraints tile slope response → g = true) := by
  unfold restrain
  by_cases h0 : response.overlap = 0
  · exact ⟨true, s, by simp [h0], fun _ => rfl, by simp, fun _ => rfl⟩
  · cases hn : tile.neighbours with
    | none => exact ⟨true, s, by simp [h0], fun _ => rfl, by simp, fun _ => rfl⟩
    | some neighbours =>
      cases hr : restraints slope.type with
      | none =>
        exact ⟨true, s, by simp [h0, hslope, hr], fun _ => rfl, by simp, fun _ => rfl⟩
      | some rules =>
        rcases restrainRules_first_match collideOnAxis body tile slope neighbours response rules s
          with ⟨h1, _⟩ | ⟨pre, rule, post, h1, _, h3, h4⟩
        · exact ⟨true, s, by simp [h0, hslope, hr, h1], fun _ => rfl, by simp, fun _ => rfl⟩
        · have hmem : rule ∈ rules := by simp [h1]
          have hallow : ¬ RulesAllow restraints tile slope response :=
            fun hallow => absurd h3 (hallow neighbours rules hn hr rule hmem)
          cases hsep : rule.separate.resolve body tile response with
          | false =>
            rw [hsep] at h4
            exact ⟨false, s, by simp only [h0, hslope, hr, h4, if_false], by simp,
              fun _ => Or.inl rfl, fun h => absurd h hallow⟩
          | true =>
            cases hax : slope.axis with
            | none =>
              rw [hsep, hax] at h4
              exact ⟨false, s, by simp only [h0, hslope, hr, h4, if_false], by simp,
                fun _ => Or.inl rfl, fun h => absurd h hallow⟩
            | some axis =>
              rw [hsep, hax] at h4
              exact ⟨false, collideOnAxis body tile axis s,
                by simp only [h0, hslope, hr, h4, if_false], by simp,
                fun _ => Or.inr ⟨axis, neighbours, rules, rule, rfl, rfl, rfl, hmem, h3, hsep,
                  rfl⟩,
                fun h => absurd h hallow⟩

/-- What `shouldSeparate` returns and does to the state when the solver's one
restrainer is a `SatRestrainer`. -/
theorem shouldSeparate_sat {σ : Type} (options : SolverOptions)
    (restraints : TypeValue → Option (List Rule)) (collideOnAxis : Body → Tile → Vector → σ → σ)
    (i : Int) (body : Body) (tile : Tile) (slope : TileSlope) (response : Response) (s : σ)
    (hslope : tile.slope = some slope) :
    ∃ g s', shouldSeparate options [satRestrainer restraints] collideOnAxis i body tile
        response s = some (g, s') ∧
      (g = true → s' = s) ∧
      (g = false → s' = s ∨
        ∃ axis neighbours rules rule, slope.axis = some axis ∧
          tile.neighbours = some neighbours ∧ restraints slope.type = some rules ∧
          rule ∈ rules ∧ RuleMatches rule slope neighbours response ∧
          rule.separate.resolve body tile response = true ∧
          s' = collideOnAxis body tile axis s) ∧
      (body.enable = true → response.overlap ≠ 0 → EdgesAllow slope response →
        (options.restrain = true → RulesAllow restraints tile slope response) → g = true) := by
  unfold shouldSeparate
  by_cases h0 : body.enable = true ∧ response.overlap ≠ 0
  · rw [if_neg (not_not.2 h0)]
    simp only [hslope]
    by_cases h1 : slope.edges.top = EMPTY ∧ response.overlapN.y < 0 ∧ response.overlapN.x = 0
    · rw [if_pos h1]
      exact ⟨false, s, rfl, fun _ => rfl, fun _ => Or.inl rfl, fun _ _ he _ => absurd h1 he.1⟩
    rw [if_neg h1]
    by_cases h2 : slope.edges.bottom = EMPTY ∧ response.overlapN.y > 0 ∧ response.overlapN.x = 0
    · rw [if_pos h2]
      exact ⟨false, s, rfl, fun _ => rfl, fun _ => Or.inl rfl, fun _ _ he _ => absurd h2 he.2.1⟩
    rw [if_neg h2]
    by_cases h3 : slope.edges.left = EMPTY ∧ response.overlapN.x < 0 ∧ response.overlapN.y = 0
    · rw [if_pos h3]
      exact ⟨false, s, rfl, fun _ => rfl, fun _ => Or.inl rfl,
        fun _ _ he _ => absurd h3 he.2.2.1⟩
    rw [if_neg h3]
    by_cases h4 : slope.edges.right = EMPTY ∧ response.overlapN.x > 0 ∧ response.overlapN.y = 0
    · rw [if_pos h4]
      exact ⟨false, s, rfl, fun _ => rfl, fun _ => Or.inl rfl,
        fun _ _ he _ => absurd h4 he.2.2.2⟩
    rw [if_neg h4]
    by_cases h5 : options.restrain = false
    · rw [if_pos h5]
      exact ⟨true, s, rfl, fun _ => rfl, by simp, fun _ _ _ _ => rfl⟩
    rw [if_neg h5]
    obtain ⟨g, s', hr, hg1, hg2, hg3⟩ :=
      restrain_cases restraints collideOnAxis body tile slope response s hslope
    have hrun : runRestrainers collideOnAxis body tile response [satRestrainer restraints] s =
        some (g, s') := by
      simp only [runRestrainers, satRestrainer, hr]
      cases g with
      | true => rfl
      | false => rfl
    rw [hrun]
    refine ⟨g, s', rfl, hg1, hg2, fun _ _ _ hallow => hg3 (hallow ?_)⟩
    cases hb : options.restrain with
    | true => rfl
    | false => exact absurd hb h5
  · rw [if_pos h0]
    refine ⟨false, s, rfl, fun _ => rfl, fun _ => Or.inl rfl, fun he ho _ _ => ?_⟩
    exact absurd ⟨he, ho⟩ h0

/-- C13: for an enabled body with a polygon and a `slopes` record, and a tile
whose slope has a polygon, on which `testPolygonPolygon` finds an overlap, and
for a solver whose restrainer is a `SatRestrainer`: when the tile's
`collisionCallback`, called with the body and the tile as `collide` holds
them, returns a falsy value and no restraint rule matches (the restraint rules
would allow the separation; what the edge flags say makes no difference),
`collide` returns false and leaves the body's position, velocity, touching
flags and blocked flags as they were. -/
theorem collide_callback_veto (options : SolverOptions)
    (restraints : TypeValue → Option (List Rule)) (callbacks : Callbacks) (i : Int)
    (body : Body) (tile : Tile) (polygon : Polygon) (slopes : BodySlopes) (slope : TileSlope)
    (tilePolygon : Polygon) (response : Response) (callback : Body → Tile → Bool)
    (henable : body.enable = true) (hpolygon : body.polygon = some polygon)
    (hslopes : body.slopes = some slopes) (hslope : tile.slope = some slope)
    (htile : slope.polygon = some tilePolygon)
    (hoverlap : testPolygonPolygon (syncedPolygon body polygon)
      (syncedTilePolygon tile tilePolygon) (some newResponse) = some (true, some response))
    (hcallback : callbacks.collisionCallback = some callback)
    (hfalsy : callback (recordedBody body polygon slopes response)
      (syncedTile tile slope tilePolygon) = false)
    (hrules : RulesAllow restraints tile slope (prepareResponse response)) :
    ∃ body' tile', collide options [satRestrainer restraints] callbacks i body tile false =
        some (false, body', tile') ∧
      body'.position = body.position ∧ body'.velocity = body.velocity ∧
      body'.touching = body.touching ∧ body'.blocked = body.blocked := by
  rw [collide_eq options _ callbacks i body tile false polygon slopes slope tilePolygon henable
    hpolygon hslopes hslope htile, hoverlap]
  obtain ⟨g, s', hg, hg1, hg2, _⟩ := shouldSeparate_sat options restraints
    (forcedCollision options callbacks) tile.index (recordedBody body polygon slopes response)
    (syncedTile tile slope tilePolygon) { slope with
      polygon := some (syncedTilePolygon tile tilePolygon) } (prepareResponse response)
    (recordedBody body polygon slopes response) rfl
  have hveto : separateUngated options callbacks (recordedBody body polygon slopes response)
      (syncedTile tile slope tilePolygon) (prepareResponse response) =
      some (false, recordedBody body polygon slopes response) := by
    simp [separateUngated, hcallback, hfalsy]
  have hidx : (syncedTile tile slope tilePolygon).index = tile.index := rfl
  cases g with
  | true =>
    have hs := hg1 rfl
    subst hs
    have hsep : separate options [satRestrainer restraints] callbacks
        (recordedBody body polygon slopes response) (syncedTile tile slope tilePolygon)
        (prepareResponse response) false =
        some (false, recordedBody body polygon slopes response) := by
      unfold separate
      simp only [hidx, hg, Bool.false_eq_true, if_false]
      exact hveto
    simp only [hsep]
    exact ⟨_, _, rfl, rfl, rfl, rfl, rfl⟩
  | false =>
    rcases hg2 rfl with hs | ⟨axis, neighbours, rules, rule, _, hn, hr, hmem, hm, _, _⟩
    · subst hs
      have hsep : separate options [satRestrainer restraints] callbacks
          (recordedBody body polygon slopes response) (syncedTile tile slope tilePolygon)
          (prepareResponse response) false =
          some (false, recordedBody body polygon slopes response) := by
        unfold separate
        simp only [hidx, hg]
        rfl
      simp only [hsep]
      exact ⟨_, _, rfl, rfl, rfl, rfl, rfl⟩
    · exact absurd hm (hrules neighbours rules hn hr rule hmem)

end ArcadeSlopes

namespace ArcadeSlopes

open SAT

/-- `SatSolver.isSeparatingAxis` hands back a response when it is given one. -/
theorem SatSolver.isSeparatingAxis_some (a b : Polygon) (axis : Vector) (r : Response) :
    ∃ result r', SatSolver.isSeparatingAxis a b axis (some r) = (result, some r') := by
  unfold SatSolver.isSeparatingAxis SAT.isSeparatingAxis
  simp only
  split_ifs
  · exact ⟨_, _, rfl⟩
  · exact ⟨_, _, rfl⟩

/-- `applyVelocity` returns on a body with a `slopes` record and a tile with a
slope, and keeps the `slopes` record there. -/
theorem applyVelocity_total (body : Body) (tile : Tile) (response : Response)
    (slopes : BodySlopes) (slope : TileSlope)
    (hslopes : body.slopes = some slopes) (hslope : tile.slope = some slope) :
    ∃ body', applyVelocity body tile response = some body' := by
  unfold applyVelocity pull
  simp only [hslopes, hslope]
  split_ifs <;> exact ⟨_, rfl⟩

/-- Below the gate, `separate` returns when `shouldPreferY` does; it keeps the
`slopes` record, and the whole body when it returns false. -/
theorem separateUngated_total (options : SolverOptions) (callbacks : Callbacks)
    (body : Body) (tile : Tile) (response : Response) (p : Bool)
    (hp : shouldPreferY options body response = some p) :
    ∃ g body', separateUngated options callbacks body tile response = some (g, body') ∧
      body'.slopes = body.slopes ∧ (g = false → body' = body) := by
  unfold separateUngated
  simp only [hp]
  split_ifs
  · exact ⟨false, body, rfl, rfl, fun _ => rfl⟩
  · exact ⟨false, body, rfl, rfl, fun _ => rfl⟩
  · cases p with
    | true => exact ⟨true, _, rfl, rfl, by simp⟩
    | false => exact ⟨true, _, rfl, rfl, by simp⟩

/-- `collideOnAxis` always returns. -/
theorem collideOnAxis_total (options : SolverOptions) (callbacks : Callbacks)
    (body : Body) (tile : Tile) (axis : Vector) (response : Option Response) :
    ∃ result body', collideOnAxis options callbacks body tile axis response =
      some (result, body') := by
  unfold collideOnAxis
  by_cases he : body.enable = false
  · exact ⟨false, body, by simp [he]⟩
  · rw [if_neg he]
    cases hp : body.polygon with
    | none => exact ⟨false, body, rfl⟩
    | some polygon =>
      cases hs : body.slopes with
      | none => exact ⟨false, body, rfl⟩
      | some slopes =>
        cases ht : tile.slope with
        | none => exact ⟨false, body, rfl⟩
        | some slope =>
          cases htp : slope.polygon with
          | none => exact ⟨false, body, by simp [htp]⟩
          | some tilePolygon =>
            simp only [htp]
            obtain ⟨b, r', hr⟩ := SatSolver.isSeparatingAxis_some polygon tilePolygon axis
              (response.getD newResponse)
            rw [hr]
            cases b with
            | true => exact ⟨false, body, rfl⟩
            | false =>
              simp only
              have hpref : ∃ p, shouldPreferY options body (prepareResponse r') = some p := by
                unfold shouldPreferY
                cases options.preferY <;> simp [hs]
              obtain ⟨p, hp'⟩ := hpref
              obtain ⟨g, body1, hsep, hs1, _⟩ := separateUngated_total options callbacks body
                tile (prepareResponse r') p hp'
              rw [hsep]
              cases g with
              | false => exact ⟨false, body1, rfl⟩
              | true =>
                obtain ⟨body2, h2⟩ := applyVelocity_total body1 tile (prepareResponse r')
                  slopes slope (hs1.trans hs) ht
                simp only [h2]
                exact ⟨true, _, rfl⟩

/-- When `shouldSeparate` returns false during `collide`, `collide` returns
false with the body as `shouldSeparate` left it. -/
theorem collide_of_gate_closed (options : SolverOptions) (restrainers : List (Restrainer Body))
    (callbacks : Callbacks) (i : Int) (body gated : Body) (tile : Tile) (polygon : Polygon)
    (slopes : BodySlopes) (slope : TileSlope) (tilePolygon : Polygon) (response : Response)
    (henable : body.enable = true) (hpolygon : body.polygon = some polygon)
    (hslopes : body.slopes = some slopes) (hslope : tile.slope = some slope)
    (htile : slope.polygon = some tilePolygon)
    (hoverlap : testPolygonPolygon (syncedPolygon body polygon)
      (syncedTilePolygon tile tilePolygon) (some newResponse) = some (true, some response))
    (hgate : shouldSeparate options restrainers
      (forcedCollision options callbacks) tile.index (recordedBody body polygon slopes response)
      (syncedTile tile slope tilePolygon) (prepareResponse response)
      (recordedBody body polygon slopes response) = some (false, gated)) :
    collide options restrainers callbacks i body tile false =
      some (false, gated, syncedTile tile slope tilePolygon) := by
  rw [collide_eq options _ callbacks i body tile false polygon slopes slope tilePolygon
    henable hpolygon hslopes hslope htile, hoverlap]
  have hidx : (syncedTile tile slope tilePolygon).index = tile.index := rfl
  have hsep : separate options restrainers callbacks
      (recordedBody body polygon slopes response) (syncedTile tile slope tilePolygon)
      (prepareResponse response) false = some (false, gated) := by
    unfold separate
    simp only [hidx, hgate]
    rfl
  simp only [hsep]
  rfl

/-- C12, amended: for an enabled body with a polygon and a `slopes` record, a
tile whose slope has a polygon, and a solver whose restrainer is a
`SatRestrainer`: if `shouldSeparate` returns false during `collide`, then
`collide` returns false, and the body's position, velocity, touching flags and
blocked flags are as they were, unless a matching restraint rule, whose
`separate` setting resolves to true, made the restrainer call `collideOnAxis`
on the preferred axis of the tile's slope: then the body is as that call left
it.  In particular they are as they were whenever the slope has no preferred
axis. -/
theorem collide_gated (options : SolverOptions) (restraints : TypeValue → Option (List Rule))
    (callbacks : Callbacks) (i : Int) (body gated : Body) (tile : Tile) (polygon : Polygon)
    (slopes : BodySlopes) (slope : TileSlope) (tilePolygon : Polygon) (response : Response)
    (henable : body.enable = true) (hpolygon : body.polygon = some polygon)
    (hslopes : body.slopes = some slopes) (hslope : tile.slope = some slope)
    (htile : slope.polygon = some tilePolygon)
    (hoverlap : testPolygonPolygon (syncedPolygon body polygon)
      (syncedTilePolygon tile tilePolygon) (some newResponse) = some (true, some response))
    (hgate : shouldSeparate options [satRestrainer restraints]
      (forcedCollision options callbacks) tile.index (recordedBody body polygon slopes response)
      (syncedTile tile slope tilePolygon) (prepareResponse response)
      (recordedBody body polygon slopes response) = some (false, gated)) :
    collide options [satRestrainer restraints] callbacks i body tile false =
      some (false, gated, syncedTile tile slope tilePolygon) ∧
    ((gated.position = body.position ∧ gated.velocity = body.velocity ∧
        gated.touching = body.touching ∧ gated.blocked = body.blocked) ∨
      ∃ axis neighbours rules rule result, slope.axis = some axis ∧
        tile.neighbours = some neighbours ∧ restraints slope.type = some rules ∧
        rule ∈ rules ∧ RuleMatches rule slope neighbours (prepareResponse response) ∧
        rule.separate.resolve (recordedBody body polygon slopes response)
          (syncedTile tile slope tilePolygon) (prepareResponse response) = true ∧
        collideOnAxis options callbacks (recordedBody body polygon slopes response)
          (syncedTile tile slope tilePolygon) axis none = some (result, gated)) ∧
    (slope.axis = none →
      gated.position = body.position ∧ gated.velocity = body.velocity ∧
        gated.touching = body.touching ∧ gated.blocked = body.blocked) := by
  have hcollide := collide_of_gate_closed options [satRestrainer restraints] callbacks i body
    gated tile polygon slopes slope tilePolygon response henable hpolygon hslopes hslope htile
    hoverlap hgate
  obtain ⟨g, s', hg, _, hg2, _⟩ := shouldSeparate_sat options restraints
    (forcedCollision options callbacks) tile.index (recordedBody body polygon slopes response)
    (syncedTile tile slope tilePolygon) { slope with
      polygon := some (syncedTilePolygon tile tilePolygon) } (prepareResponse response)
    (recordedBody body polygon slopes response) rfl
  rw [hgate] at hg
  simp only [Option.some.injEq, Prod.mk.injEq] at hg
  obtain ⟨hg', hs'⟩ := hg
  subst hg' hs'
  refine ⟨hcollide, ?_, ?_⟩
  · rcases hg2 rfl with hs | ⟨axis, neighbours, rules, rule, hax, hn, hr, hmem, hm, hsep, hs⟩
    · exact Or.inl (by rw [hs]; exact ⟨rfl, rfl, rfl, rfl⟩)
    · obtain ⟨result, body', hc⟩ := collideOnAxis_total options callbacks
        (recordedBody body polygon slopes response) (syncedTile tile slope tilePolygon) axis none
      refine Or.inr ⟨axis, neighbours, rules, rule, result, hax, hn, hr, hmem, hm, hsep, ?_⟩
      rw [hs]
      simp only [forcedCollision, hc]
  · intro hnone
    rcases hg2 rfl with hs | ⟨axis, _, _, _, hax, _⟩
    · rw [hs]
      exact ⟨rfl, rfl, rfl, rfl⟩
    · simp only at hax
      rw [hnone] at hax
      exact absurd hax (by simp)

end ArcadeSlopes

namespace SAT

theorem Vector.len_horizontal (a : ℚ) : Vector.len { x := a, y := 0 } = |a| := by
  unfold Vector.len Vector.len2 Vector.dot
  simp only [mul_zero, add_zero]
  exact Rat.sqrt_eq a

theorem Vector.len_vertical (a : ℚ) : Vector.len { x := 0, y := a } = |a| := by
  unfold Vector.len Vector.len2 Vector.dot
  simp only [mul_zero, zero_add]
  exact Rat.sqrt_eq a

/-- The constructor gives an axis-parallel rectangle the four unit normals. -/
theorem newPolygon_rect (pos : Vector) (x0 y0 x1 y1 : ℚ) (hx : x0 < x1) (hy : y0 < y1) :
    newPolygon pos (rectPoints x0 y0 x1 y1) = rectPolygon pos x0 y0 x1 y1 := by
  have e4 : List.range 4 = [0, 1, 2, 3] := rfl
  have hx' : 0 < x1 - x0 := by linarith
  have hy' : 0 < y1 - y0 := by linarith
  have h1 : |x0 - x1| = x1 - x0 := by rw [abs_of_neg (by linarith)]; ring
  have h2 : |y1 - y0| = y1 - y0 := abs_of_pos hy'
  have h3 : |x1 - x0| = x1 - x0 := abs_of_pos hx'
  have h4 : |y0 - y1| = y1 - y0 := by rw [abs_of_neg (by linarith)]; ring
  have h5 : (x0 - x1) / (x1 - x0) = -1 := by
    rw [div_eq_iff (ne_of_gt hx')]; ring
  have h6 : (y0 - y1) / (y1 - y0) = -1 := by
    rw [div_eq_iff (ne_of_gt hy')]; ring
  simp only [newPolygon, Polygon.setPoints, Polygon._recalc, rectPoints, rectPolygon, rectNormals,
    Vector.zero, add_zero, List.map_cons, List.map_nil, List.length_cons, List.length_nil, e4,
    List.getD_cons_zero, List.getD_cons_succ, Vector.sub, Vector.perp, Vector.normalize, sub_self,
    neg_zero, neg_sub, Vector.len_horizontal, Vector.len_vertical, h1, h2, h3, h4]
  norm_num
  simp only [Vector.len_horizontal, Vector.len_vertical, h1, h2, h3, h4, hx', hy', if_true, h5,
    h6, div_self (ne_of_gt hx'), div_self (ne_of_gt hy'), and_self]

end SAT

namespace SAT

/-- The ranges `flattenPointsOn` finds for an axis-parallel rectangle, whose
coordinates are finite doubles, on the four unit normals. -/
theorem flattenPointsOn_rect (x0 y0 x1 y1 : ℚ) (hx : x0 ≤ x1) (hy : y0 ≤ y1)
    (hx0 : -MAX_VALUE ≤ x0) (hx1 : x1 ≤ MAX_VALUE) (hy0 : -MAX_VALUE ≤ y0)
    (hy1 : y1 ≤ MAX_VALUE) :
    flattenPointsOn (rectPoints x0 y0 x1 y1) { x := 0, y := -1 } = (-y1, -y0) ∧
    flattenPointsOn (rectPoints x0 y0 x1 y1) { x := 1, y := 0 } = (x0, x1) ∧
    flattenPointsOn (rectPoints x0 y0 x1 y1) { x := 0, y := 1 } = (y0, y1) ∧
    flattenPointsOn (rectPoints x0 y0 x1 y1) { x := -1, y := 0 } = (-x1, -x0) := by
  have hM : (0 : ℚ) < MAX_VALUE := by linarith [MAX_VALUE_large]
  simp only [flattenPointsOn, rectPoints, List.foldl_cons, List.foldl_nil, Vector.dot, mul_zero,
    zero_add, add_zero, mul_one, mul_neg, gt_iff_lt]
  refine ⟨?_, ?_, ?_, ?_⟩
  all_goals
    simp only [Prod.mk.injEq]
    constructor
    all_goals
      split_ifs <;> linarith

end SAT

namespace SAT

/-- When no normal of either polygon is a separating axis, `testPolygonPolygon`
returns true. -/
theorem testPolygonPolygon_of_not_separates (A B : Polygon)
    (hA : A.normals.length = A.calcPoints.length)
    (hB : B.normals.length = B.calcPoints.length) (r0 : Response)
    (h : ∀ axis ∈ A.normals ++ B.normals, ¬ Separates A B axis) :
    ∃ r, testPolygonPolygon A B (some r0) = some (true, some r) := by
  unfold testPolygonPolygon
  simp only [List.range_eq_range']
  obtain ⟨b1, r1, h1, hb1⟩ := testAxes_total A B A.normals A.calcPoints.length 0 (some r0)
    (by omega)
  obtain ⟨r1', hr1⟩ := testAxes_some _ _ _ _ _ _ _ _ _ h1
  subst hr1
  rw [h1]
  cases b1 with
  | true =>
    obtain ⟨axis, hmem, hsep⟩ := hb1.1 rfl
    rw [List.drop_zero, ← hA, List.take_length] at hmem
    exact absurd hsep (h axis (List.mem_append_left _ hmem))
  | false =>
    obtain ⟨b2, r2, h2, hb2⟩ := testAxes_total A B B.normals B.calcPoints.length 0 (some r1')
      (by omega)
    obtain ⟨r2', hr2⟩ := testAxes_some _ _ _ _ _ _ _ _ _ h2
    subst hr2
    simp only [h2]
    cases b2 with
    | true =>
      obtain ⟨axis, hmem, hsep⟩ := hb2.1 rfl
      rw [List.drop_zero, ← hB, List.take_length] at hmem
      exact absurd hsep (h axis (List.mem_append_right _ hmem))
    | false => exact ⟨_, rfl⟩

/-- The response `testPolygonPolygon` leaves when no normal separates the
polygons and the normal at index `i` is the first of least overlap: the
magnitude of that overlap, and the normal turned by its sign. -/
theorem testPolygonPolygon_first_min (A B : Polygon)
    (hA : A.normals.length = A.calcPoints.length)
    (hB : B.normals.length = B.calcPoints.length)
    (i : Nat) (axis : Vector) (hi : (A.normals ++ B.normals)[i]? = some axis)
    (hsep : ∀ other ∈ A.normals ++ B.normals, ¬ Separates A B other)
    (hlt : |axisOverlap A B axis| < MAX_VALUE)
    (hbefore : ∀ (j : Nat) (other : Vector), j < i → (A.normals ++ B.normals)[j]? = some other →
      |axisOverlap A B axis| < |axisOverlap A B other|)
    (hall : ∀ other ∈ A.normals ++ B.normals,
      |axisOverlap A B axis| ≤ |axisOverlap A B other|) :
    ∃ r, testPolygonPolygon A B (some newResponse) = some (true, some r) ∧
      r.overlap = |axisOverlap A B axis| ∧
      r.overlapN = (if axisOverlap A B axis < 0 then axis.reverse else axis) ∧
      r.overlapV = r.overlapN.scale r.overlap := by
  obtain ⟨r, hr⟩ := testPolygonPolygon_of_not_separates A B hA hB newResponse hsep
  obtain ⟨_, ho, hn, hv⟩ := testPolygonPolygon_true A B hA hB newResponse r hr
  refine ⟨r, hr, ?_, ?_, hv⟩
  all_goals
    have hf := foldl_recordAxis A B (A.normals ++ B.normals) newResponse
    simp only at hf
    obtain ⟨_, h2, _, h4⟩ := hf
    have hmem : axis ∈ A.normals ++ B.normals := List.getElem?_mem hi
    have hle := h2 axis hmem
    have h0 : newResponse.overlap = MAX_VALUE := rfl
    rcases h4 with ⟨h5, _⟩ | ⟨_, k, ax, hk, hk1, hk2, hk3⟩
    · rw [h5, h0] at hle
      exact absurd hlt (not_lt.2 hle)
    · have hax : ax ∈ A.normals ++ B.normals := List.getElem?_mem hk
      have e1 : |axisOverlap A B ax| = |axisOverlap A B axis| :=
        le_antisymm (hk1 ▸ hle) (hall ax hax)
      have hki : k = i := by
        rcases Nat.lt_trichotomy k i with hlt' | heq | hgt
        · have := hbefore k ax hlt' hk
          rw [e1] at this
          exact absurd this (lt_irrefl _)
        · exact heq
        · have := hk2 i axis hgt hi
          rw [← hk1, e1] at this
          exact absurd this (lt_irrefl _)
      subst hki
      rw [hi] at hk
      have hax' : axis = ax := Option.some.inj hk
      subst hax'
      first
        | (rw [ho, ← hk1])
        | (rw [hn, hk3])

end SAT

namespace SAT

/-- The two ranges `isSeparatingAxis` compares for two axis-parallel
rectangles, whose coordinates are finite doubles, on the four unit normals. -/
theorem axisRanges_rect (aPos bPos : Vector) (ax0 ay0 ax1 ay1 bx0 by0 bx1 by1 : ℚ)
    (hax : ax0 ≤ ax1) (hay : ay0 ≤ ay1) (hbx : bx0 ≤ bx1) (hby : by0 ≤ by1)
    (hax0 : -MAX_VALUE ≤ ax0) (hax1 : ax1 ≤ MAX_VALUE) (hay0 : -MAX_VALUE ≤ ay0)
    (hay1 : ay1 ≤ MAX_VALUE) (hbx0 : -MAX_VALUE ≤ bx0) (hbx1 : bx1 ≤ MAX_VALUE)
    (hby0 : -MAX_VALUE ≤ by0) (hby1 : by1 ≤ MAX_VALUE) :
    axisRanges aPos bPos (rectPoints ax0 ay0 ax1 ay1) (rectPoints bx0 by0 bx1 by1)
        { x := 0, y := -1 } =
      ((-ay1, -ay0), (-by1 - (bPos.y - aPos.y), -by0 - (bPos.y - aPos.y))) ∧
    axisRanges aPos bPos (rectPoints ax0 ay0 ax1 ay1) (rectPoints bx0 by0 bx1 by1)
        { x := 1, y := 0 } =
      ((ax0, ax1), (bx0 + (bPos.x - aPos.x), bx1 + (bPos.x - aPos.x))) ∧
    axisRanges aPos bPos (rectPoints ax0 ay0 ax1 ay1) (rectPoints bx0 by0 bx1 by1)
        { x := 0, y := 1 } =
      ((ay0, ay1), (by0 + (bPos.y - aPos.y), by1 + (bPos.y - aPos.y))) ∧
    axisRanges aPos bPos (rectPoints ax0 ay0 ax1 ay1) (rectPoints bx0 by0 bx1 by1)
        { x := -1, y := 0 } =
      ((-ax1, -ax0), (-bx1 - (bPos.x - aPos.x), -bx0 - (bPos.x - aPos.x))) := by
  obtain ⟨a1, a2, a3, a4⟩ := flattenPointsOn_rect ax0 ay0 ax1 ay1 hax hay hax0 hax1 hay0 hay1
  obtain ⟨b1, b2, b3, b4⟩ := flattenPointsOn_rect bx0 by0 bx1 by1 hbx hby hbx0 hbx1 hby0 hby1
  simp only [axisRanges, a1, a2, a3, a4, b1, b2, b3, b4, Vector.sub, Vector.dot, mul_zero,
    zero_add, add_zero, mul_one, mul_neg, Prod.mk.injEq, true_and, and_true]
  refine ⟨⟨?_, ?_⟩, ⟨?_, ?_⟩⟩ <;> ring

end SAT

namespace ArcadeSlopes

open SAT

/-- With zero pull coefficients, `applyVelocity` returns, writes the new
velocity and keeps the position and the flags. -/
theorem applyVelocity_of_zero_pull (body : Body) (tile : Tile) (response : Response)
    (slopes : BodySlopes) (slope : TileSlope)
    (hslopes : body.slopes = some slopes) (hslope : tile.slope = some slope)
    (hpull : slopes.pullUp = 0 ∧ slopes.pullDown = 0 ∧ slopes.pullLeft = 0 ∧
      slopes.pullRight = 0) :
    ∃ body', applyVelocity body tile response = some body' ∧
      body'.velocity =
        { x := (body.velocity.projectN response.overlapN).x * (-body.bounce.x) +
            (body.velocity.sub (body.velocity.projectN response.overlapN)).x *
              (1 - slopes.friction.x - slope.friction.x)
          y := (body.velocity.projectN response.overlapN).y * (-body.bounce.y) +
            (body.velocity.sub (body.velocity.projectN response.overlapN)).y *
              (1 - slopes.friction.y - slope.friction.y) } ∧
      body'.position = body.position ∧ body'.touching = body.touching ∧
      body'.blocked = body.blocked := by
  obtain ⟨h1, h2, h3, h4⟩ := hpull
  simp [applyVelocity, hslopes, hslope, pull, h1, h2, h3, h4]

/-- `shouldPreferY` is false when the overlap vector lies on one axis. -/
theorem shouldPreferY_of_axis (options : SolverOptions) (body : Body) (response : Response)
    (slopes : BodySlopes) (hslopes : body.slopes = some slopes)
    (h : response.overlapV.x = 0 ∨ response.overlapV.y = 0) :
    shouldPreferY options body response = some false := by
  unfold shouldPreferY
  rcases h with h | h <;> cases options.preferY <;> simp [hslopes, h]

/-- The whole of `collide` when it separates: on an overlap that the edge
flags and the restraint rules let through, with no callbacks, an overlap
vector on one axis and zero pull coefficients, the body is moved by the
overlap vector turned outwards, its velocity is rewritten and its flags are
updated. -/
theorem collide_of_allowed (options : SolverOptions) (restraints : TypeValue → Option (List Rule))
    (i : Int) (body : Body) (tile : Tile) (polygon : Polygon) (slopes : BodySlopes)
    (slope : TileSlope) (tilePolygon : Polygon) (response : Response)
    (henable : body.enable = true) (hpolygon : body.polygon = some polygon)
    (hslopes : body.slopes = some slopes) (hslope : tile.slope = some slope)
    (htile : slope.polygon = some tilePolygon)
    (hoverlap : testPolygonPolygon (syncedPolygon body polygon)
      (syncedTilePolygon tile tilePolygon) (some newResponse) = some (true, some response))
    (hov : response.overlap ≠ 0)
    (hedges : EdgesAllow slope (prepareResponse response))
    (hrules : options.restrain = true →
      RulesAllow restraints tile slope (prepareResponse response))
    (haxis : response.overlapV.x = 0 ∨ response.overlapV.y = 0)
    (hpull : slopes.pullUp = 0 ∧ slopes.pullDown = 0 ∧ slopes.pullLeft = 0 ∧
      slopes.pullRight = 0) :
    ∃ body' tile', collide options [satRestrainer restraints] {} i body tile false =
        some (true, body', tile') ∧
      body'.position =
        { x := body.position.x + response.overlapV.x * -1
          y := body.position.y + response.overlapV.y * -1 } ∧
      body'.velocity =
        { x := (body.velocity.projectN (response.overlapN.scale (-1))).x * (-body.bounce.x) +
            (body.velocity.sub (body.velocity.projectN (response.overlapN.scale (-1)))).x *
              (1 - slopes.friction.x - slope.friction.x)
          y := (body.velocity.projectN (response.overlapN.scale (-1))).y * (-body.bounce.y) +
            (body.velocity.sub (body.velocity.projectN (response.overlapN.scale (-1)))).y *
              (1 - slopes.friction.y - slope.friction.y) } ∧
      body'.touching = (updateFlags body (prepareResponse response)).touching ∧
      body'.blocked = (updateFlags body (prepareResponse response)).blocked := by
  rw [collide_eq options _ {} i body tile false polygon slopes slope tilePolygon henable
    hpolygon hslopes hslope htile, hoverlap]
  obtain ⟨g, s', hg, hg1, _, hg3⟩ := shouldSeparate_sat options restraints
    (forcedCollision options {}) tile.index (recordedBody body polygon slopes response)
    (syncedTile tile slope tilePolygon) { slope with
      polygon := some (syncedTilePolygon tile tilePolygon) } (prepareResponse response)
    (recordedBody body polygon slopes response) rfl
  have hgt : g = true := hg3 henable hov hedges hrules
  subst hgt
  have hs := hg1 rfl
  subst hs
  have hidx : (syncedTile tile slope tilePolygon).index = tile.index := rfl
  have hv' : (prepareResponse response).overlapV.x = 0 ∨
      (prepareResponse response).overlapV.y = 0 := by
    rcases haxis with h | h
    · exact Or.inl (by simp [prepareResponse, Vector.scale, h])
    · exact Or.inr (by simp [prepareResponse, Vector.scale, h])
  have hpref := shouldPreferY_of_axis options (recordedBody body polygon slopes response)
    (prepareResponse response)
    { slopes with sat := { response := some (prepareResponse response) } } rfl hv'
  have hsep : separate options [satRestrainer restraints] {}
      (recordedBody body polygon slopes response) (syncedTile tile slope tilePolygon)
      (prepareResponse response) false =
      some (true, { recordedBody body polygon slopes response with
        position :=
          if false = true then
            { x := (recordedBody body polygon slopes response).position.x
              y := (recordedBody body polygon slopes response).position.y +
                minimumOffsetY (prepareResponse response).overlapV }
          else
            { x := (recordedBody body polygon slopes response).position.x +
                (prepareResponse response).overlapV.x
              y := (recordedBody body polygon slopes response).position.y +
                (prepareResponse response).overlapV.y } }) := by
    unfold separate
    simp only [hidx, hg]
    exact separateUngated_of_allow options {} _ _ _ false (by simp) (by simp) hpref
  simp only [hsep]
  obtain ⟨body2, h2, hvel, hpos, htouch, hblock⟩ := applyVelocity_of_zero_pull
    { recordedBody body polygon slopes response with
      position :=
        { x := (recordedBody body polygon slopes response).position.x +
            (prepareResponse response).overlapV.x
          y := (recordedBody body polygon slopes response).position.y +
            (prepareResponse response).overlapV.y } }
    (syncedTile tile slope tilePolygon) (prepareResponse response)
    { slopes with sat := { response := some (prepareResponse response) } }
    { slope with polygon := some (syncedTilePolygon tile tilePolygon) } rfl rfl hpull
  simp only [Bool.false_eq_true, if_false] 
  rw [h2]
  refine ⟨_, _, rfl, ?_, ?_, ?_, ?_⟩
  · show body2.position = _
    rw [hpos]
    rfl
  · show body2.velocity = _
    rw [hvel]
    rfl
  · show ({ body2.touching with
      up := body2.touching.up || decide ((prepareResponse response).overlapV.y > 0)
      down := body2.touching.down || decide ((prepareResponse response).overlapV.y < 0)
      left := body2.touching.left || decide ((prepareResponse response).overlapV.x > 0)
      right := body2.touching.right || decide ((prepareResponse response).overlapV.x < 0) }
      : Flags) = _
    rw [htouch]
    rfl
  · show ({ body2.blocked with
      up := body2.blocked.up ||
        (decide ((prepareResponse response).overlapV.x = 0) &&
          decide ((prepareResponse response).overlapV.y > 0))
      down := body2.blocked.down ||
        (decide ((prepareResponse response).overlapV.x = 0) &&
          decide ((prepareResponse response).overlapV.y < 0))
      left := body2.blocked.left ||
        (decide ((prepareResponse response).overlapV.y = 0) &&
          decide ((prepareResponse response).overlapV.x > 0))
      right := body2.blocked.right ||
        (decide ((prepareResponse response).overlapV.y = 0) &&
          decide ((prepareResponse response).overlapV.x < 0)) } : Flags) = _
    rw [hblock]
    rfl

end ArcadeSlopes

namespace SAT

/-- An axis on which each polygon reaches at least `d ≥ 0` into the other is
not a separating axis, and the overlap on it has magnitude at least `d`. -/
theorem axisOverlap_ge (A B : Polygon) (axis : Vector) (rA rB : ℚ × ℚ) (d : ℚ)
    (hr : axisRanges A.pos B.pos A.calcPoints B.calcPoints axis = (rA, rB))
    (hd : 0 ≤ d) (h1 : d ≤ rA.2 - rB.1) (h2 : d ≤ rB.2 - rA.1) :
    ¬ Separates A B axis ∧ d ≤ |axisOverlap A B axis| ∧
      (d < rA.2 - rB.1 → d < rB.2 - rA.1 → d < |axisOverlap A B axis|) := by
  refine ⟨?_, ?_, ?_⟩
  · unfold Separates SAT.isSeparatingAxis
    simp only [hr]
    rw [if_neg]
    · simp
    · rintro (h | h) <;> linarith
  · unfold axisOverlap
    rw [hr]
    rcases overlapOfRanges_cases rA rB {} with h | h
    · rw [h]
      exact le_trans h1 (le_abs_self _)
    · rw [h, ← abs_neg]
      exact le_trans (by linarith) (le_abs_self _)
  · intro h1' h2'
    unfold axisOverlap
    rw [hr]
    rcases overlapOfRanges_cases rA rB {} with h | h
    · rw [h]
      exact lt_of_lt_of_le h1' (le_abs_self _)
    · rw [h, ← abs_neg]
      exact lt_of_lt_of_le (by linarith) (le_abs_self _)

end SAT

namespace ArcadeSlopes

open SAT

/-- C14: for a `FULL` tile of size `T x T` at world `(0, 0)` as `createFull`
builds it (every edge `SOLID`; its friction may have been set), with no
callbacks, and an enabled `w x h` body with zero pull coefficients at
`(-w + d, y)`, where `0 < d < min(w, T)` and `d` is smaller than both depths
`y + h` and `T - y` of the overlap on the vertical axis (sizes being finite
doubles): `collide`, with the default restrainers and any options, returns
true; the body is moved to `(-w, y)`; `touching.right` and `blocked.right` are
true; and the velocity `(vx, vy)` becomes
`(-bounce.x * vx, vy * (1 - friction.y - tileFriction.y))`. -/
theorem collide_full_tile (options : SolverOptions) (i : Int) (body : Body) (tile : Tile)
    (slopes : BodySlopes) (origin friction : Vector) (T w h d y vx vy : ℚ)
    (henable : body.enable = true)
    (hpolygon : body.polygon = some (Box.toPolygon { pos := origin, w := w, h := h }))
    (hslopes : body.slopes = some slopes)
    (hpull : slopes.pullUp = 0 ∧ slopes.pullDown = 0 ∧ slopes.pullLeft = 0 ∧
      slopes.pullRight = 0)
    (hposition : body.position = { x := -w + d, y := y })
    (hvelocity : body.velocity = { x := vx, y := vy })
    (htx : tile.worldX = 0) (hty : tile.worldY = 0) (htw : tile.width = T)
    (hth : tile.height = T)
    (hslope : tile.slope = some { createFull FULL tile with friction := friction })
    (hd : 0 < d) (hdw : d < w) (hdT : d < T) (hh : 0 < h)
    (hdown : d < y + h) (hup : d < T - y)
    (hw : w ≤ MAX_VALUE) (hh' : h ≤ MAX_VALUE) (hT : T ≤ MAX_VALUE) :
    ∃ body' tile', collide options defaultRestrainers {} i body tile false =
        some (true, body', tile') ∧
      body'.position = { x := -w, y := y } ∧
      body'.touching.right = true ∧ body'.blocked.right = true ∧
      body'.velocity =
        { x := -body.bounce.x * vx, y := vy * (1 - slopes.friction.y - friction.y) } := by
  have hM : (0 : ℚ) < MAX_VALUE := by linarith [MAX_VALUE_large]
  have hw0 : 0 < w := by linarith
  have hT0 : 0 < T := by linarith
  have hbody : Box.toPolygon { pos := origin, w := w, h := h } = rectPolygon origin 0 0 w h := by
    have := newPolygon_rect origin 0 0 w h hw0 hh
    simpa [Box.toPolygon, rectPoints, Vector.zero] using this
  have htile : (createFull FULL tile).polygon = some (rectPolygon { x := 0, y := 0 } 0 0 T T) := by
    have := newPolygon_rect { x := 0, y := 0 } 0 0 T T hT0 hT0
    simp only [createFull, Box.toPolygon, htx, hty, htw, hth]
    simpa [rectPoints, Vector.zero] using congrArg some this
  obtain ⟨hr1, hr2, hr3, hr4⟩ := axisRanges_rect { x := -w + d, y := y } { x := 0, y := 0 }
    0 0 w h 0 0 T T (le_of_lt hw0) (le_of_lt hh) (le_of_lt hT0) (le_of_lt hT0)
    (by linarith) hw (by linarith) hh' (by linarith) hT (by linarith) hT
  have hA : syncedPolygon body (rectPolygon origin 0 0 w h) =
      rectPolygon { x := -w + d, y := y } 0 0 w h := by
    simp [syncedPolygon, rectPolygon, Body.x, Body.y, hposition]
  have hB : syncedTilePolygon tile (rectPolygon { x := 0, y := 0 } 0 0 T T) =
      rectPolygon { x := 0, y := 0 } 0 0 T T := by
    simp [syncedTilePolygon, rectPolygon, htx, hty]
  obtain ⟨hs1, hm1, hm1'⟩ := axisOverlap_ge (rectPolygon { x := -w + d, y := y } 0 0 w h)
    (rectPolygon { x := 0, y := 0 } 0 0 T T) { x := 0, y := -1 } _ _ d hr1 (le_of_lt hd)
    (by simp only; linarith) (by simp only; linarith)
  obtain ⟨hs2, hm2, -⟩ := axisOverlap_ge (rectPolygon { x := -w + d, y := y } 0 0 w h)
    (rectPolygon { x := 0, y := 0 } 0 0 T T) { x := 1, y := 0 } _ _ d hr2 (le_of_lt hd)
    (by simp only; linarith) (by simp only; linarith)
  obtain ⟨hs3, hm3, -⟩ := axisOverlap_ge (rectPolygon { x := -w + d, y := y } 0 0 w h)
    (rectPolygon { x := 0, y := 0 } 0 0 T T) { x := 0, y := 1 } _ _ d hr3 (le_of_lt hd)
    (by simp only; linarith) (by simp only; linarith)
  obtain ⟨hs4, hm4, -⟩ := axisOverlap_ge (rectPolygon { x := -w + d, y := y } 0 0 w h)
    (rectPolygon { x := 0, y := 0 } 0 0 T T) { x := -1, y := 0 } _ _ d hr4 (le_of_lt hd)
    (by simp only; linarith) (by simp only; linarith)
  have ho : axisOverlap (rectPolygon { x := -w + d, y := y } 0 0 w h)
      (rectPolygon { x := 0, y := 0 } 0 0 T T) { x := 1, y := 0 } = d := by
    unfold axisOverlap
    rw [show (rectPolygon { x := -w + d, y := y } 0 0 w h).calcPoints = rectPoints 0 0 w h from rfl,
      show (rectPolygon { x := 0, y := 0 } 0 0 T T).calcPoints = rectPoints 0 0 T T from rfl]
    simp only [rectPolygon, hr2, overlapOfRanges]
    rw [if_pos (by linarith), if_pos (by linarith)]
    simp only
    ring
  have habs : |axisOverlap (rectPolygon { x := -w + d, y := y } 0 0 w h)
      (rectPolygon { x := 0, y := 0 } 0 0 T T) { x := 1, y := 0 }| = d := by
    rw [ho, abs_of_pos hd]
  obtain ⟨r, hr, hro, hrn, hrv⟩ := testPolygonPolygon_first_min
    (rectPolygon { x := -w + d, y := y } 0 0 w h) (rectPolygon { x := 0, y := 0 } 0 0 T T)
    (by simp [rectPolygon, rectPoints, rectNormals]) (by simp [rectPolygon, rectPoints, rectNormals])
    1 { x := 1, y := 0 } (by simp [rectPolygon, rectNormals])
    (by
      intro other hother
      simp only [rectPolygon, rectNormals, List.cons_append, List.nil_append, List.mem_cons,
        List.mem_singleton, List.not_mem_nil, or_false] at hother
      rcases hother with rfl | rfl | rfl | rfl | rfl | rfl | rfl | rfl
      exacts [hs1, hs2, hs3, hs4, hs1, hs2, hs3, hs4])
    (by rw [habs]; linarith)
    (by
      intro j other hj hother
      have hj0 : j = 0 := by omega
      subst hj0
      simp only [rectPolygon, rectNormals, List.cons_append, List.getElem?_cons_zero,
        Option.some.injEq] at hother
      subst hother
      rw [habs]
      exact hm1' (by simp only; linarith) (by simp only; linarith))
    (by
      intro other hother
      rw [habs]
      simp only [rectPolygon, rectNormals, List.cons_append, List.nil_append, List.mem_cons,
        List.mem_singleton, List.not_mem_nil, or_false] at hother
      rcases hother with rfl | rfl | rfl | rfl | rfl | rfl | rfl | rfl
      exacts [hm1, hm2, hm3, hm4, hm1, hm2, hm3, hm4])
  rw [habs] at hro
  rw [ho, if_neg (not_lt.2 (le_of_lt hd))] at hrn
  rw [hrn, hro] at hrv
  have hres := collide_of_allowed options defaultRestraints i body tile
    (rectPolygon origin 0 0 w h) slopes { createFull FULL tile with friction := friction }
    (rectPolygon { x := 0, y := 0 } 0 0 T T) r henable (by rw [hpolygon, hbody]) hslopes hslope
    (by simpa using htile) (by rw [hA, hB]; exact hr) (by rw [hro]; exact ne_of_gt hd)
    (by simp [EdgesAllow, createFull, SOLID, EMPTY])
    (by
      intro _ neighbours rules _ hrules
      have : defaultRestraints FULL = some rules := hrules
      rw [defaultRestraints_full] at this
      exact absurd this (by simp))
    (Or.inr (by rw [hrv]; simp [Vector.scale])) hpull
  obtain ⟨body', tile', hc, hp, hv, ht, hb⟩ := hres
  refine ⟨body', tile', hc, ?_, ?_, ?_, ?_⟩
  · rw [hp, hrv, hposition]
    simp only [Vector.scale, Vector.mk.injEq]
    constructor <;> ring
  · rw [ht]
    simp [updateFlags, prepareResponse, hrv, Vector.scale, hd]
  · rw [hb]
    simp [updateFlags, prepareResponse, hrv, Vector.scale, hd]
  · rw [hv, hrn, hvelocity]
    simp only [Vector.projectN, Vector.sub, Vector.dot, Vector.scale, Vector.mk.injEq]
    constructor <;> ring

end ArcadeSlopes

namespace ArcadeSlopes

open SAT

/-- C15: for a `HALF_BOTTOM` tile of size `T x T` at world `(0, 0)` as
`createHalfBottom` builds it (its friction may have been set), whose left and
right neighbours have no slope, with no callbacks, and an enabled `w x h` body
with zero pull coefficients at `(px, T / 2 - h + d)`, its bottom `d > 0` below
the tile's mid-height, where `d` is at most every other overlap (`px + w` and
`T - px` horizontally, `T / 2 + h - d` from below; sizes being finite
doubles): `collide`, with the default restrainers and any options, returns
true; `position.y` decreases by exactly `d` and `position.x` stays;
`touching.down` and `blocked.down` are true; and the velocity `(vx, vy)`
becomes `(vx * (1 - friction.x - tileFriction.x), -bounce.y * vy)`, whatever
the sign of `vy`. -/
theorem collide_half_bottom (options : SolverOptions) (i : Int) (body : Body) (tile : Tile)
    (slopes : BodySlopes) (origin friction : Vector) (T w h d px vx vy : ℚ)
    (henable : body.enable = true)
    (hpolygon : body.polygon = some (Box.toPolygon { pos := origin, w := w, h := h }))
    (hslopes : body.slopes = some slopes)
    (hpull : slopes.pullUp = 0 ∧ slopes.pullDown = 0 ∧ slopes.pullLeft = 0 ∧
      slopes.pullRight = 0)
    (hposition : body.position = { x := px, y := T / 2 - h + d })
    (hvelocity : body.velocity = { x := vx, y := vy })
    (htx : tile.worldX = 0) (hty : tile.worldY = 0) (htw : tile.width = T)
    (hth : tile.height = T)
    (hslope : tile.slope = some { createHalfBottom HALF_BOTTOM tile with friction := friction })
    (hneighbours : ∀ neighbours, tile.neighbours = some neighbours →
      (∀ neighbour, neighbours.left = some neighbour → neighbour.slope = none) ∧
      (∀ neighbour, neighbours.right = some neighbour → neighbour.slope = none))
    (hd : 0 < d) (hw0 : 0 < w) (hh : 0 < h) (hT0 : 0 < T)
    (hleft : d ≤ px + w) (hright : d ≤ T - px) (hup : d ≤ T / 2 + h - d)
    (hw : w ≤ MAX_VALUE) (hh' : h ≤ MAX_VALUE) (hT : T ≤ MAX_VALUE) :
    ∃ body' tile', collide options defaultRestrainers {} i body tile false =
        some (true, body', tile') ∧
      body'.position.y = body.position.y - d ∧ body'.position.x = body.position.x ∧
      body'.touching.down = true ∧ body'.blocked.down = true ∧
      body'.velocity =
        { x := vx * (1 - slopes.friction.x - friction.x), y := -body.bounce.y * vy } := by
  have hM : (0 : ℚ) < MAX_VALUE := by linarith [MAX_VALUE_large]
  have hT2 : T / 2 < T := by linarith
  have hbody : Box.toPolygon { pos := origin, w := w, h := h } = rectPolygon origin 0 0 w h := by
    have := newPolygon_rect origin 0 0 w h hw0 hh
    simpa [Box.toPolygon, rectPoints, Vector.zero] using this
  have htile : (createHalfBottom HALF_BOTTOM tile).polygon =
      some (rectPolygon { x := 0, y := 0 } 0 (T / 2) T T) := by
    have := newPolygon_rect { x := 0, y := 0 } 0 (T / 2) T T hT0 hT2
    simp only [createHalfBottom, htx, hty, htw, hth]
    simpa [rectPoints] using congrArg some this
  obtain ⟨hr1, hr2, hr3, hr4⟩ := axisRanges_rect { x := px, y := T / 2 - h + d }
    { x := 0, y := 0 } 0 0 w h 0 (T / 2) T T (le_of_lt hw0) (le_of_lt hh) (le_of_lt hT0)
    (le_of_lt hT2) (by linarith) hw (by linarith) hh' (by linarith) hT (by linarith) hT
  have hA : syncedPolygon body (rectPolygon origin 0 0 w h) =
      rectPolygon { x := px, y := T / 2 - h + d } 0 0 w h := by
    simp [syncedPolygon, rectPolygon, Body.x, Body.y, hposition]
  have hB : syncedTilePolygon tile (rectPolygon { x := 0, y := 0 } 0 (T / 2) T T) =
      rectPolygon { x := 0, y := 0 } 0 (T / 2) T T := by
    simp [syncedTilePolygon, rectPolygon, htx, hty]
  obtain ⟨hs1, hm1, -⟩ := axisOverlap_ge (rectPolygon { x := px, y := T / 2 - h + d } 0 0 w h)
    (rectPolygon { x := 0, y := 0 } 0 (T / 2) T T) { x := 0, y := -1 } _ _ d hr1 (le_of_lt hd)
    (by simp only; linarith) (by simp only; linarith)
  obtain ⟨hs2, hm2, -⟩ := axisOverlap_ge (rectPolygon { x := px, y := T / 2 - h + d } 0 0 w h)
    (rectPolygon { x := 0, y := 0 } 0 (T / 2) T T) { x := 1, y := 0 } _ _ d hr2 (le_of_lt hd)
    (by simp only; linarith) (by simp only; linarith)
  obtain ⟨hs3, hm3, -⟩ := axisOverlap_ge (rectPolygon { x := px, y := T / 2 - h + d } 0 0 w h)
    (rectPolygon { x := 0, y := 0 } 0 (T / 2) T T) { x := 0, y := 1 } _ _ d hr3 (le_of_lt hd)
    (by simp only; linarith) (by simp only; linarith)
  obtain ⟨hs4, hm4, -⟩ := axisOverlap_ge (rectPolygon { x := px, y := T / 2 - h + d } 0 0 w h)
    (rectPolygon { x := 0, y := 0 } 0 (T / 2) T T) { x := -1, y := 0 } _ _ d hr4 (le_of_lt hd)
    (by simp only; linarith) (by simp only; linarith)
  have ho : axisOverlap (rectPolygon { x := px, y := T / 2 - h + d } 0 0 w h)
      (rectPolygon { x := 0, y := 0 } 0 (T / 2) T T) { x := 0, y := -1 } = -d := by
    unfold axisOverlap
    rw [show (rectPolygon { x := px, y := T / 2 - h + d } 0 0 w h).calcPoints =
        rectPoints 0 0 w h from rfl,
      show (rectPolygon { x := 0, y := 0 } 0 (T / 2) T T).calcPoints =
        rectPoints 0 (T / 2) T T from rfl]
    simp only [rectPolygon, hr1, overlapOfRanges]
    split_ifs <;> simp only <;> linarith
  have habs : |axisOverlap (rectPolygon { x := px, y := T / 2 - h + d } 0 0 w h)
      (rectPolygon { x := 0, y := 0 } 0 (T / 2) T T) { x := 0, y := -1 }| = d := by
    rw [ho, abs_neg, abs_of_pos hd]
  obtain ⟨r, hr, hro, hrn, hrv⟩ := testPolygonPolygon_first_min
    (rectPolygon { x := px, y := T / 2 - h + d } 0 0 w h)
    (rectPolygon { x := 0, y := 0 } 0 (T / 2) T T)
    (by simp [rectPolygon, rectPoints, rectNormals])
    (by simp [rectPolygon, rectPoints, rectNormals])
    0 { x := 0, y := -1 } (by simp [rectPolygon, rectNormals])
    (by
      intro other hother
      simp only [rectPolygon, rectNormals, List.cons_append, List.nil_append, List.mem_cons,
        List.mem_singleton, List.not_mem_nil, or_false] at hother
      rcases hother with rfl | rfl | rfl | rfl | rfl | rfl | rfl | rfl
      exacts [hs1, hs2, hs3, hs4, hs1, hs2, hs3, hs4])
    (by rw [habs]; linarith)
    (by
      intro j other hj _
      exact absurd hj (Nat.not_lt_zero j))
    (by
      intro other hother
      rw [habs]
      simp only [rectPolygon, rectNormals, List.cons_append, List.nil_append, List.mem_cons,
        List.mem_singleton, List.not_mem_nil, or_false] at hother
      rcases hother with rfl | rfl | rfl | rfl | rfl | rfl | rfl | rfl
      exacts [hm1, hm2, hm3, hm4, hm1, hm2, hm3, hm4])
  rw [habs] at hro
  rw [ho, if_pos (by linarith)] at hrn
  rw [hrn, hro] at hrv
  have hres := collide_of_allowed options defaultRestraints i body tile
    (rectPolygon origin 0 0 w h) slopes
    { createHalfBottom HALF_BOTTOM tile with friction := friction }
    (rectPolygon { x := 0, y := 0 } 0 (T / 2) T T) r henable (by rw [hpolygon, hbody]) hslopes
    hslope (by simpa using htile) (by rw [hA, hB]; exact hr) (by rw [hro]; exact ne_of_gt hd)
    (by simp [EdgesAllow, createHalfBottom, SOLID, EMPTY, INTERESTING])
    (by
      intro _ neighbours rules hn hrules
      have hrules' : defaultRestraints HALF_BOTTOM = some rules := hrules
      rw [defaultRestraints_halfBottom] at hrules'
      obtain ⟨hl, hr'⟩ := hneighbours neighbours hn
      intro rule hrule
      rw [← Option.some.inj hrules'] at hrule
      simp only [List.mem_cons, List.mem_singleton, List.not_mem_nil, or_false] at hrule
      rintro ⟨neighbour, neighbourSlope, hget, hns, -⟩
      rcases hrule with rfl | rfl
      · have hget' : neighbours.left = some neighbour := by
          simpa [Neighbours.get] using hget
        rw [hl neighbour hget'] at hns
        exact absurd hns (by simp)
      · have hget' : neighbours.right = some neighbour := by
          simpa [Neighbours.get] using hget
        rw [hr' neighbour hget'] at hns
        exact absurd hns (by simp))
    (Or.inl (by rw [hrv]; simp [Vector.scale, Vector.reverse])) hpull
  obtain ⟨body', tile', hc, hp, hv, ht, hb⟩ := hres
  refine ⟨body', tile', hc, ?_, ?_, ?_, ?_, ?_⟩
  · rw [hp, hrv]
    simp only [Vector.scale, Vector.reverse]
    ring
  · rw [hp, hrv]
    simp only [Vector.scale, Vector.reverse]
    ring
  · rw [ht]
    simp [updateFlags, prepareResponse, hrv, Vector.scale, Vector.reverse, hd]
  · rw [hb]
    simp [updateFlags, prepareResponse, hrv, Vector.scale, Vector.reverse, hd]
  · rw [hv, hrn, hvelocity]
    simp only [Vector.projectN, Vector.sub, Vector.dot, Vector.scale, Vector.reverse,
      Vector.mk.injEq]
    constructor <;> ring

end ArcadeSlopes

namespace ArcadeSlopes

open SAT

/-- Ten is a finite double. -/
theorem ten_le_MAX_VALUE : (10 : ℚ) ≤ MAX_VALUE :=
  le_of_lt (lt_trans (by norm_num) MAX_VALUE_large)

/-- Sixteen is a finite double. -/
theorem sixteen_le_MAX_VALUE : (16 : ℚ) ≤ MAX_VALUE :=
  le_of_lt (lt_trans (by norm_num) MAX_VALUE_large)

/-- C14, at the 16 by 16 full tile and the 10 by 10 body at `(-7, 3)`, with
`d = 3`. -/
theorem collide_full_tile_witness :
    ∃ body' tile', collide {} defaultRestrainers {} 0 sampleSideBody sampleSolidTile false =
        some (true, body', tile') ∧
      body'.position = { x := -10, y := 3 } ∧
      body'.touching.right = true ∧ body'.blocked.right = true ∧
      body'.velocity =
        { x := -sampleSideBody.bounce.x * 2
          y := 1 * (1 - ({} : BodySlopes).friction.y - Vector.zero.y) } :=
  collide_full_tile {} 0 sampleSideBody sampleSolidTile {} { x := -7, y := 3 } Vector.zero
    16 10 10 3 3 2 1 rfl rfl rfl ⟨rfl, rfl, rfl, rfl⟩
    (by norm_num [sampleSideBody, enableBody]) rfl rfl rfl rfl rfl rfl
    (by norm_num) (by norm_num) (by norm_num) (by norm_num) (by norm_num) (by norm_num)
    ten_le_MAX_VALUE ten_le_MAX_VALUE sixteen_le_MAX_VALUE

/-- C15, at the 16 by 16 half-bottom tile and the 10 by 10 body at `(3, 0)`,
with `d = 2`. -/
theorem collide_half_bottom_witness :
    ∃ body' tile', collide {} defaultRestrainers {} 0 sampleTopBody sampleHalfBottomTile false =
        some (true, body', tile') ∧
      body'.position.y = sampleTopBody.position.y - 2 ∧
      body'.position.x = sampleTopBody.position.x ∧
      body'.touching.down = true ∧ body'.blocked.down = true ∧
      body'.velocity =
        { x := 2 * (1 - ({} : BodySlopes).friction.x - Vector.zero.x)
          y := -sampleTopBody.bounce.y * 1 } :=
  collide_half_bottom {} 0 sampleTopBody sampleHalfBottomTile {} { x := 3, y := 0 } Vector.zero
    16 10 10 2 3 2 1 rfl rfl rfl ⟨rfl, rfl, rfl, rfl⟩
    (by norm_num [sampleTopBody, enableBody]) rfl rfl rfl rfl rfl rfl
    (by intro neighbours h; exact absurd h (by simp [sampleHalfBottomTile, sampleBase]))
    (by norm_num) (by norm_num) (by norm_num) (by norm_num) (by norm_num) (by norm_num)
    (by norm_num) ten_le_MAX_VALUE ten_le_MAX_VALUE sixteen_le_MAX_VALUE

end ArcadeSlopes

namespace ArcadeSlopes

open SAT

/-- The overlap test `collide` makes on the unit body and the unit tile. -/
theorem sample_unit_overlap (tile : Tile) (hx : tile.worldX = 1 / 2) (hy : tile.worldY = 0) :
    testPolygonPolygon (syncedPolygon sampleUnitBody (unitSquareAt { x := 0, y := 0 }))
      (syncedTilePolygon tile (unitSquareAt { x := 1 / 2, y := 0 })) (some newResponse) =
      some (true, some sampleHalfOverlap) := by
  have h := sample_overlapping
  simpa [syncedPolygon, syncedTilePolygon, hx, hy, unitSquareAt, sampleUnitBody, Body.x, Body.y,
    Vector.zero, newResponse] using h

/-- C16, at the 10 by 10 body three units into the 16 by 16 full tile. -/
theorem collide_overlapOnly_witness :
    ∃ result response body' tile',
      testPolygonPolygon
        { Box.toPolygon { pos := { x := -7, y := 3 }, w := 10, h := 10 } with
          pos := sampleSideBody.position }
        { Box.toPolygon { pos := { x := 0, y := 0 }, w := 16, h := 16 } with
          pos := { x := sampleSolidTile.worldX, y := sampleSolidTile.worldY } }
        (some newResponse) = some (result, some response) ∧
      collide {} defaultRestrainers {} 0 sampleSideBody sampleSolidTile true =
        some (result, body', tile') ∧
      body'.position = sampleSideBody.position ∧ body'.velocity = sampleSideBody.velocity ∧
      body'.touching = sampleSideBody.touching ∧ body'.blocked = sampleSideBody.blocked ∧
      body'.overlapX = sampleSideBody.overlapX ∧ body'.overlapY = sampleSideBody.overlapY ∧
      body'.slopes = sampleSideBody.slopes :=
  match collide_overlapOnly {} defaultRestrainers {} 0 sampleSideBody sampleSolidTile
      (Box.toPolygon { pos := { x := -7, y := 3 }, w := 10, h := 10 }) {}
      (createFull FULL sampleBase)
      (Box.toPolygon { pos := { x := 0, y := 0 }, w := 16, h := 16 }) rfl rfl rfl rfl rfl
      (by simp [Box.toPolygon, newPolygon, Polygon.setPoints, Polygon._recalc])
      (by simp [Box.toPolygon, newPolygon, Polygon.setPoints, Polygon._recalc]) with
  | ⟨result, response, body', tile', h1, h2, h3, h4, h5, h6, h7, h8, h9, _, _⟩ =>
    ⟨result, response, body', tile', h1, h2, h3, h4, h5, h6, h7, h8, h9⟩

/-- C13, at the unit body half a unit into the unit tile, whose callback always
vetoes. -/
theorem collide_callback_veto_witness :
    ∃ body' tile', collide {} [satRestrainer defaultRestraints] sampleVeto 0 sampleUnitBody
        sampleUnitTile false = some (false, body', tile') ∧
      body'.position = sampleUnitBody.position ∧ body'.velocity = sampleUnitBody.velocity ∧
      body'.touching = sampleUnitBody.touching ∧ body'.blocked = sampleUnitBody.blocked :=
  collide_callback_veto {} defaultRestraints sampleVeto 0 sampleUnitBody sampleUnitTile
    (unitSquareAt { x := 0, y := 0 }) {}
    { type := FULL, polygon := some (unitSquareAt { x := 1 / 2, y := 0 }) }
    (unitSquareAt { x := 1 / 2, y := 0 }) sampleHalfOverlap (fun _ _ => false)
    rfl rfl rfl rfl rfl (sample_unit_overlap sampleUnitTile rfl rfl) rfl rfl
    (by
      intro neighbours rules _ hrules
      have h : defaultRestraints FULL = some rules := hrules
      rw [defaultRestraints_full] at h
      exact absurd h (by simp))

/-- The gate `shouldSeparate` on the unit body and the unit tile whose left
edge is `EMPTY`: the response pushes straight left, so the gate is closed. -/
theorem sample_gate_closed :
    shouldSeparate {} [satRestrainer defaultRestraints] (forcedCollision {} {})
      sampleOpenTile.index
      (recordedBody sampleUnitBody (unitSquareAt { x := 0, y := 0 }) {} sampleHalfOverlap)
      (syncedTile sampleOpenTile
        { type := FULL
          polygon := some (unitSquareAt { x := 1 / 2, y := 0 })
          edges := { left := EMPTY } }
        (unitSquareAt { x := 1 / 2, y := 0 }))
      (prepareResponse sampleHalfOverlap)
      (recordedBody sampleUnitBody (unitSquareAt { x := 0, y := 0 }) {} sampleHalfOverlap) =
      some (false,
        recordedBody sampleUnitBody (unitSquareAt { x := 0, y := 0 }) {} sampleHalfOverlap) := by
  norm_num [shouldSeparate, recordedBody, syncedBody, sampleUnitBody, syncedTile, prepareResponse,
    sampleHalfOverlap, Vector.scale, EMPTY, SOLID]

/-- C12, amended, at the unit body half a unit into the unit tile whose left
edge is `EMPTY`. -/
theorem collide_gated_witness :
    collide {} [satRestrainer defaultRestraints] {} 0 sampleUnitBody sampleOpenTile false =
      some (false,
        recordedBody sampleUnitBody (unitSquareAt { x := 0, y := 0 }) {} sampleHalfOverlap,
        syncedTile sampleOpenTile
          { type := FULL
            polygon := some (unitSquareAt { x := 1 / 2, y := 0 })
            edges := { left := EMPTY } }
          (unitSquareAt { x := 1 / 2, y := 0 })) ∧
    (recordedBody sampleUnitBody (unitSquareAt { x := 0, y := 0 }) {}
        sampleHalfOverlap).position = sampleUnitBody.position :=
  have h := collide_gated {} defaultRestraints {} 0 sampleUnitBody
    (recordedBody sampleUnitBody (unitSquareAt { x := 0, y := 0 }) {} sampleHalfOverlap)
    sampleOpenTile (unitSquareAt { x := 0, y := 0 }) {}
    { type := FULL
      polygon := some (unitSquareAt { x := 1 / 2, y := 0 })
      edges := { left := EMPTY } }
    (unitSquareAt { x := 1 / 2, y := 0 }) sampleHalfOverlap rfl rfl rfl rfl rfl
    (sample_unit_overlap sampleOpenTile rfl rfl) sample_gate_closed
  ⟨h.1, (h.2.2 rfl).1⟩

/-- C18, at a forced separation of the unit body with the sample response
pushing straight left by two units. -/
theorem separate_moves_witness :
    ∃ body', separate {} defaultRestrainers {} sampleUnitBody sampleUnitTile sampleLeftResponse
        true = some (true, body') ∧
      body'.position.x = sampleUnitBody.position.x + sampleLeftResponse.overlapV.x ∧
      body'.position.y = sampleUnitBody.position.y + sampleLeftResponse.overlapV.y :=
  match separate_moves {} defaultRestrainers {} sampleUnitBody sampleUnitBody sampleUnitTile
      sampleLeftResponse true {} (Or.inl ⟨rfl, rfl⟩) rfl
      (fun _ h => absurd h (by simp)) (fun _ h => absurd h (by simp)) with
  | ⟨body', h1, _, h3, _⟩ =>
    ⟨body', h1, h3 (by simp [PrefersY, sampleLeftResponse])⟩

/-- C19, at a body moving at `(3, 4)` that bounces fully off a normal pointing
left: the horizontal velocity is reversed. -/
theorem applyVelocity_formula_witness :
    ∃ body', applyVelocity sampleBouncingBody sampleUnitTile sampleLeftResponse = some body' ∧
      body'.velocity = sampleBouncingBody.velocity.sub
        (sampleLeftResponse.overlapN.scale
          (2 * sampleBouncingBody.velocity.dot sampleLeftResponse.overlapN)) :=
  match applyVelocity_formula sampleBouncingBody sampleUnitTile sampleLeftResponse {}
      { type := FULL, polygon := some (unitSquareAt { x := 1 / 2, y := 0 }) } rfl rfl
      ⟨rfl, rfl, rfl, rfl⟩ with
  | ⟨body', h1, _, _, h4, _⟩ => ⟨body', h1, h4 rfl rfl rfl⟩

/-- C20, at a body with no flags set and a response pushing straight left:
`touching.right` and `blocked.right` are set. -/
theorem updateFlags_sets_witness :
    (updateFlags {} sampleLeftResponse).touching.right = true ∧
    (updateFlags {} sampleLeftResponse).blocked.right = true :=
  ⟨(updateFlags_sets {} sampleLeftResponse).2.1.2.2.2 (by norm_num [sampleLeftResponse]),
    (updateFlags_sets {} sampleLeftResponse).2.2.2.1.2.2.2.2
      (Or.inr ⟨by norm_num [sampleLeftResponse], by norm_num [sampleLeftResponse]⟩)⟩

end ArcadeSlopes

namespace ArcadeSlopes

open SAT

/-- The prepared default rules of `HALF_BOTTOM_LEFT`. -/
theorem defaultRestraints_halfBottomLeft :
    defaultRestraints HALF_BOTTOM_LEFT = some
      [ { neighbour := "bottomRight"
          overlapX := some (Constraint.pair 0 1)
          overlapY := some (Constraint.number 0)
          types := some (topLeftVertices.map fun name => resolveType (TypeValue.string name))
          separate := Separate.flag true },
        { neighbour := "topLeft"
          overlapX := some (Constraint.number 0)
          overlapY := some (Constraint.pair (-1) 0)
          types := some (bottomRightVertices.map fun name => resolveType (TypeValue.string name))
          separate := Separate.flag true } ] := by
  rfl

/-- The polygon of the slide tile, as the builder makes it. -/
theorem slideTile_polygon :
    (createHalfBottomLeft HALF_BOTTOM_LEFT slideBase).polygon = some slidePolygon := by
  have e3 : List.range 3 = [0, 1, 2] := rfl
  have hlen : Vector.len { x := 16, y := -12 } = 20 := by
    unfold Vector.len Vector.len2 Vector.dot
    rw [show ((16 : ℚ) * 16 + -12 * -12) = 20 * 20 by norm_num, Rat.sqrt_eq]
    norm_num
  have hlen2 : Vector.len { x := 0, y := 12 } = 12 := by
    rw [Vector.len_vertical]; norm_num
  have hlen3 : Vector.len { x := -16, y := 0 } = 16 := by
    rw [Vector.len_horizontal]; norm_num
  simp only [createHalfBottomLeft, slideBase, newPolygon, Polygon.setPoints, Polygon._recalc,
    slidePolygon, Vector.zero, add_zero, List.map_cons, List.map_nil, List.length_cons,
    List.length_nil, e3, List.getD_cons_zero, List.getD_cons_succ, Vector.sub, Vector.perp,
    Vector.normalize]
  norm_num [hlen, hlen2, hlen3]

end ArcadeSlopes

namespace ArcadeSlopes

open SAT

/-- The polygon `enableBody` gives the slide body. -/
theorem slideBody_polygon :
    slideBody.polygon = some (rectPolygon { x := 10, y := 10 } 0 0 10 10) := by
  have := newPolygon_rect { x := 10, y := 10 } 0 0 10 10 (by norm_num) (by norm_num)
  simp only [slideBody, enableBody, Box.toPolygon, Body.x, Body.y]
  simpa [rectPoints, Vector.zero] using congrArg some this

/-- The overlap test on the slide body and the slide tile. -/
theorem slide_overlap :
    testPolygonPolygon (rectPolygon { x := 10, y := 10 } 0 0 10 10) slidePolygon
      (some newResponse) = some (true, some slideResponse) := by
  have hM := MAX_VALUE_large
  have e4 : List.range 4 = [0, 1, 2, 3] := rfl
  have e3 : List.range 3 = [0, 1, 2] := rfl
  simp only [testPolygonPolygon, rectPolygon, rectPoints, rectNormals, slidePolygon,
    List.length_cons, List.length_nil, e4, e3, testAxes]
  have h0 : (0 : ℚ) < MAX_VALUE := by linarith
  have h1 : (10 : ℚ) < MAX_VALUE := by linarith
  have h2 : -MAX_VALUE < (0 : ℚ) := by linarith
  have h3 : -MAX_VALUE < (10 : ℚ) := by linarith
  have h4 : -MAX_VALUE < (-10 : ℚ) := by linarith
  have h5 : (-10 : ℚ) < MAX_VALUE := by linarith
  have h6 : (2 : ℚ) < MAX_VALUE := by linarith
  have h7 : (16 : ℚ) < MAX_VALUE := by linarith
  have h8 : (-16 : ℚ) < MAX_VALUE := by linarith
  have h9 : -MAX_VALUE < (16 : ℚ) := by linarith
  have h10 : -MAX_VALUE < (-16 : ℚ) := by linarith
  have h11 : (12 : ℚ) < MAX_VALUE := by linarith
  have h12 : (-12 : ℚ) < MAX_VALUE := by linarith
  have h13 : -MAX_VALUE < (12 : ℚ) := by linarith
  have h14 : -MAX_VALUE < (-12 : ℚ) := by linarith
  have h15 : (8 : ℚ) < MAX_VALUE := by linarith
  have h16 : -MAX_VALUE < (8 : ℚ) := by linarith
  have h17 : (-6 : ℚ) < MAX_VALUE := by linarith
  have h18 : -MAX_VALUE < (-6 : ℚ) := by linarith
  have h19 : (-48 / 5 : ℚ) < MAX_VALUE := by linarith
  have h20 : -MAX_VALUE < (-48 / 5 : ℚ) := by linarith
  have h21 : (6 : ℚ) < MAX_VALUE := by linarith
  have h22 : (4 : ℚ) < MAX_VALUE := by linarith
  norm_num [isSeparatingAxis, axisRanges, flattenPointsOn, Vector.dot, Vector.sub,
    overlapOfRanges, recordOverlap, Response.clear, newResponse, slideResponse, rectPolygon,
    rectPoints, rectNormals, slidePolygon,
    Vector.scale, Vector.reverse, Vector.zero, abs_div, abs_neg,
    h0, h1, h2, h3, h4, h5, h6, h7, h8, h9, h10, h11, h12, h13, h14, h15, h16, h17, h18, h19,
    h20, h21, h22]

end ArcadeSlopes

namespace ArcadeSlopes

open SAT

/-- The first `HALF_BOTTOM_LEFT` rule matches the slide tile and the response
turned outwards: the bottom right neighbour is a full tile, and the normal
points straight right. -/
theorem slide_rule_matches :
    RuleMatches
      { neighbour := "bottomRight"
        overlapX := some (Constraint.pair 0 1)
        overlapY := some (Constraint.number 0)
        types := some (topLeftVertices.map fun name => resolveType (TypeValue.string name))
        separate := Separate.flag true }
      { createHalfBottomLeft HALF_BOTTOM_LEFT slideBase with
        polygon := some (syncedTilePolygon slideTile slidePolygon) }
      { bottomRight := some { slope := some { type := FULL } } }
      (prepareResponse slideResponse) := by
  refine ⟨{ slope := some { type := FULL } }, { type := FULL }, by simp [Neighbours.get], rfl,
    ?_, ?_, ?_⟩
  · show TypeValue.number FULL ∈
      topLeftVertices.map fun name => resolveType (TypeValue.string name)
    decide
  · intro c hc
    simp only [Option.some.injEq] at hc
    subst hc
    norm_num [Constraint.Holds, prepareResponse, slideResponse, Vector.scale]
  · intro c hc
    simp only [Option.some.injEq] at hc
    subst hc
    norm_num [Constraint.Holds, prepareResponse, slideResponse, Vector.scale]

/-- On the slide body and the slide tile the gate `shouldSeparate` is closed by
the restrainer, after it has called `collideOnAxis` on the preferred axis of
the tile's slope. -/
theorem slide_gate_closed :
    shouldSeparate {} [satRestrainer defaultRestraints] (forcedCollision {} {}) slideTile.index
      (recordedBody slideBody (rectPolygon { x := 10, y := 10 } 0 0 10 10) {} slideResponse)
      (syncedTile slideTile (createHalfBottomLeft HALF_BOTTOM_LEFT slideBase) slidePolygon)
      (prepareResponse slideResponse)
      (recordedBody slideBody (rectPolygon { x := 10, y := 10 } 0 0 10 10) {} slideResponse) =
      some (false,
        forcedCollision {} {}
          (recordedBody slideBody (rectPolygon { x := 10, y := 10 } 0 0 10 10) {} slideResponse)
          (syncedTile slideTile (createHalfBottomLeft HALF_BOTTOM_LEFT slideBase) slidePolygon)
          { x := 0.7071067811865475, y := -0.7071067811865475 }
          (recordedBody slideBody (rectPolygon { x := 10, y := 10 } 0 0 10 10) {}
            slideResponse)) := by
  have hrules := restrainRules_cons_of_match (forcedCollision {} {})
    (recordedBody slideBody (rectPolygon { x := 10, y := 10 } 0 0 10 10) {} slideResponse)
    (syncedTile slideTile (createHalfBottomLeft HALF_BOTTOM_LEFT slideBase) slidePolygon)
    { createHalfBottomLeft HALF_BOTTOM_LEFT slideBase with
      polygon := some (syncedTilePolygon slideTile slidePolygon) }
    { bottomRight := some { slope := some { type := FULL } } }
    (prepareResponse slideResponse) _
    [{ neighbour := "topLeft"
       overlapX := some (Constraint.number 0)
       overlapY := some (Constraint.pair (-1) 0)
       types := some (bottomRightVertices.map fun name => resolveType (TypeValue.string name))
       separate := Separate.flag true }]
    (recordedBody slideBody (rectPolygon { x := 10, y := 10 } 0 0 10 10) {} slideResponse)
    slide_rule_matches
  have hrestrain : restrain defaultRestraints (forcedCollision {} {})
      (recordedBody slideBody (rectPolygon { x := 10, y := 10 } 0 0 10 10) {} slideResponse)
      (syncedTile slideTile (createHalfBottomLeft HALF_BOTTOM_LEFT slideBase) slidePolygon)
      (prepareResponse slideResponse)
      (recordedBody slideBody (rectPolygon { x := 10, y := 10 } 0 0 10 10) {} slideResponse) =
      some (false,
        forcedCollision {} {}
          (recordedBody slideBody (rectPolygon { x := 10, y := 10 } 0 0 10 10) {} slideResponse)
          (syncedTile slideTile (createHalfBottomLeft HALF_BOTTOM_LEFT slideBase) slidePolygon)
          { x := 0.7071067811865475, y := -0.7071067811865475 }
          (recordedBody slideBody (rectPolygon { x := 10, y := 10 } 0 0 10 10) {}
            slideResponse)) := by
    unfold restrain
    rw [if_neg (by norm_num [prepareResponse, slideResponse])]
    have hn : (syncedTile slideTile (createHalfBottomLeft HALF_BOTTOM_LEFT slideBase)
        slidePolygon).neighbours =
        some { bottomRight := some { slope := some { type := FULL } } } := rfl
    have hs : (syncedTile slideTile (createHalfBottomLeft HALF_BOTTOM_LEFT slideBase)
        slidePolygon).slope =
        some { createHalfBottomLeft HALF_BOTTOM_LEFT slideBase with
          polygon := some (syncedTilePolygon slideTile slidePolygon) } := rfl
    have ht : (createHalfBottomLeft HALF_BOTTOM_LEFT slideBase).type = HALF_BOTTOM_LEFT := rfl
    simp only [hn, hs, ht, defaultRestraints_halfBottomLeft]
    exact congrArg some hrules
  unfold shouldSeparate
  rw [if_neg (by norm_num [recordedBody, syncedBody, slideBody, enableBody, prepareResponse,
    slideResponse])]
  have hs : (syncedTile slideTile (createHalfBottomLeft HALF_BOTTOM_LEFT slideBase)
      slidePolygon).slope =
      some { createHalfBottomLeft HALF_BOTTOM_LEFT slideBase with
        polygon := some (syncedTilePolygon slideTile slidePolygon) } := rfl
  simp only [hs]
  rw [if_neg (by norm_num [createHalfBottomLeft, INTERESTING, EMPTY]),
    if_neg (by norm_num [createHalfBottomLeft, SOLID, EMPTY]),
    if_neg (by norm_num [createHalfBottomLeft, SOLID, EMPTY]),
    if_neg (by norm_num [createHalfBottomLeft, INTERESTING, EMPTY]),
    if_neg (by simp)]
  simp only [runRestrainers, satRestrainer, hrestrain]

end ArcadeSlopes

namespace SAT

/-- A number below a million is below `Number.MAX_VALUE`. -/
theorem lt_MAX_VALUE_of_lt (q : ℚ) (h : q < 1000000) : q < MAX_VALUE :=
  lt_trans h MAX_VALUE_large

/-- A number above minus a million is above `-Number.MAX_VALUE`. -/
theorem neg_MAX_VALUE_lt_of_lt (q : ℚ) (h : -1000000 < q) : -MAX_VALUE < q := by
  have := MAX_VALUE_large
  linarith

end SAT

namespace ArcadeSlopes

open SAT

/-- The call of `collideOnAxis` the restrainer makes on the slide body moves it
up the slope, by about five units on each axis. -/
theorem slide_forced :
    ∃ body', collideOnAxis {} {}
        (recordedBody slideBody (rectPolygon { x := 10, y := 10 } 0 0 10 10) {} slideResponse)
        (syncedTile slideTile (createHalfBottomLeft HALF_BOTTOM_LEFT slideBase) slidePolygon)
        { x := 0.7071067811865475, y := -0.7071067811865475 } none = some (true, body') ∧
      body'.position =
        { x := 10 + 10 * (0.7071067811865475 * 0.7071067811865475)
          y := 10 - 10 * (0.7071067811865475 * 0.7071067811865475) } := by
  norm_num [collideOnAxis, recordedBody, syncedBody, syncedPolygon, syncedTile,
    syncedTilePolygon, slideBody, enableBody, slideTile, slideBase, createHalfBottomLeft,
    rectPolygon, rectPoints, slidePolygon, SatSolver.isSeparatingAxis, SAT.isSeparatingAxis,
    axisRanges, flattenPointsOn, Vector.dot, Vector.sub, overlapOfRanges, recordOverlap,
    newResponse, Response.clear, prepareResponse, Vector.scale, Vector.reverse, Vector.zero,
    separateUngated, shouldPreferY, movingAgainstY, applyVelocity, pull, updateFlags,
    Vector.projectN, Body.x, Body.y, abs_div, abs_neg, lt_MAX_VALUE_of_lt,
    neg_MAX_VALUE_lt_of_lt]

end ArcadeSlopes

namespace ArcadeSlopes

open SAT

/-- C12 fails on a `HALF_BOTTOM_LEFT` tile, 12 wide and 16 high, with a full
tile to its bottom right, and a 10 by 10 body at rest at `(10, 10)`:
`shouldSeparate` returns false during `collide`, and `collide` returns false,
but the restrainer has called `collideOnAxis` on the preferred axis of the
slope, and the body is no longer where it was. -/
theorem collide_gated_counterexample :
    ∃ gated tile',
      shouldSeparate {} defaultRestrainers (forcedCollision {} {}) slideTile.index
        (recordedBody slideBody (rectPolygon { x := 10, y := 10 } 0 0 10 10) {} slideResponse)
        (syncedTile slideTile (createHalfBottomLeft HALF_BOTTOM_LEFT slideBase) slidePolygon)
        (prepareResponse slideResponse)
        (recordedBody slideBody (rectPolygon { x := 10, y := 10 } 0 0 10 10) {} slideResponse) =
        some (false, gated) ∧
      collide {} defaultRestrainers {} 0 slideBody slideTile false = some (false, gated, tile') ∧
      gated.position ≠ slideBody.position := by
  obtain ⟨body', hforced, hposition⟩ := slide_forced
  have hgate := slide_gate_closed
  have hf : forcedCollision {} {}
      (recordedBody slideBody (rectPolygon { x := 10, y := 10 } 0 0 10 10) {} slideResponse)
      (syncedTile slideTile (createHalfBottomLeft HALF_BOTTOM_LEFT slideBase) slidePolygon)
      { x := 0.7071067811865475, y := -0.7071067811865475 }
      (recordedBody slideBody (rectPolygon { x := 10, y := 10 } 0 0 10 10) {} slideResponse) =
      body' := by
    simp only [forcedCollision, hforced]
  rw [hf] at hgate
  have hoverlap : testPolygonPolygon
      (syncedPolygon slideBody (rectPolygon { x := 10, y := 10 } 0 0 10 10))
      (syncedTilePolygon slideTile slidePolygon) (some newResponse) =
      some (true, some slideResponse) := slide_overlap
  have hcollide := collide_of_gate_closed {} defaultRestrainers {} 0 slideBody body' slideTile
    (rectPolygon { x := 10, y := 10 } 0 0 10 10) {}
    (createHalfBottomLeft HALF_BOTTOM_LEFT slideBase) slidePolygon slideResponse rfl
    slideBody_polygon rfl rfl slideTile_polygon hoverlap hgate
  refine ⟨body', _, hgate, hcollide, ?_⟩
  rw [hposition]
  norm_num [slideBody, enableBody]

end ArcadeSlopes

namespace ArcadeSlopes

open SAT

/-- C21 (amended): `pull` serves one direction only, the first in the order up,
down, left, right whose coefficient is non-zero and on whose side the flipped
normal `m = -overlapN` indicates contact: it adds `m` scaled by that
coefficient to the velocity and returns true.  When no direction qualifies, in
particular when all four coefficients are zero, it returns false and leaves the
body as it was. -/
theorem pull_first_side (body : Body) (slopes : BodySlopes) (response : Response)
    (hslopes : body.slopes = some slopes) :
    ∃ pulled body', pull body response = some (pulled, body') ∧
      (∀ d : Direction, PullApplies slopes (response.overlapN.scale (-1)) d →
        (∀ d' : Direction, d'.rank < d.rank →
          ¬ PullApplies slopes (response.overlapN.scale (-1)) d') →
        pulled = true ∧
        body' = { body with
          velocity := body.velocity.add
            ((response.overlapN.scale (-1)).scale (slopes.pullOf d)) }) ∧
      ((∀ d : Direction, ¬ PullApplies slopes (response.overlapN.scale (-1)) d) →
        pulled = false ∧ body' = body) ∧
      (slopes.pullUp = 0 ∧ slopes.pullDown = 0 ∧ slopes.pullLeft = 0 ∧ slopes.pullRight = 0 →
        pulled = false ∧ body' = body) := by
  unfold pull
  simp only [hslopes]
  by_cases hzero : slopes.pullUp = 0 ∧ slopes.pullDown = 0 ∧ slopes.pullLeft = 0 ∧
      slopes.pullRight = 0
  · rw [if_pos hzero]
    refine ⟨false, body, rfl, ?_, fun _ => ⟨rfl, rfl⟩, fun _ => ⟨rfl, rfl⟩⟩
    intro d hd
    exfalso
    cases d
    · exact hd.1 hzero.1
    · exact hd.1 hzero.2.1
    · exact hd.1 hzero.2.2.1
    · exact hd.1 hzero.2.2.2
  · rw [if_neg hzero]
    by_cases hup : PullApplies slopes (response.overlapN.scale (-1)) Direction.up
    · have hup' : slopes.pullUp ≠ 0 ∧ (response.overlapN.scale (-1)).y < 0 := hup
      rw [if_pos hup']
      refine ⟨true, _, rfl, ?_, fun h => absurd hup (h _), fun h => absurd h hzero⟩
      intro d hd hfirst
      cases d
      · exact ⟨rfl, rfl⟩
      · exact absurd hup (hfirst Direction.up (by decide))
      · exact absurd hup (hfirst Direction.up (by decide))
      · exact absurd hup (hfirst Direction.up (by decide))
    · have hup' : ¬ (slopes.pullUp ≠ 0 ∧ (response.overlapN.scale (-1)).y < 0) := hup
      rw [if_neg hup']
      by_cases hdown : PullApplies slopes (response.overlapN.scale (-1)) Direction.down
      · have hdown' : slopes.pullDown ≠ 0 ∧ (response.overlapN.scale (-1)).y > 0 := hdown
        rw [if_pos hdown']
        refine ⟨true, _, rfl, ?_, fun h => absurd hdown (h _), fun h => absurd h hzero⟩
        intro d hd hfirst
        cases d
        · exact absurd hd hup
        · exact ⟨rfl, rfl⟩
        · exact absurd hdown (hfirst Direction.down (by decide))
        · exact absurd hdown (hfirst Direction.down (by decide))
      · have hdown' : ¬ (slopes.pullDown ≠ 0 ∧ (response.overlapN.scale (-1)).y > 0) := hdown
        rw [if_neg hdown']
        by_cases hleft : PullApplies slopes (response.overlapN.scale (-1)) Direction.left
        · have hleft' : slopes.pullLeft ≠ 0 ∧ (response.overlapN.scale (-1)).x < 0 := hleft
          rw [if_pos hleft']
          refine ⟨true, _, rfl, ?_, fun h => absurd hleft (h _), fun h => absurd h hzero⟩
          intro d hd hfirst
          cases d
          · exact absurd hd hup
          · exact absurd hd hdown
          · exact ⟨rfl, rfl⟩
          · exact absurd hleft (hfirst Direction.left (by decide))
        · have hleft' : ¬ (slopes.pullLeft ≠ 0 ∧ (response.overlapN.scale (-1)).x < 0) := hleft
          rw [if_neg hleft']
          by_cases hright : PullApplies slopes (response.overlapN.scale (-1)) Direction.right
          · have hright' : slopes.pullRight ≠ 0 ∧ (response.overlapN.scale (-1)).x > 0 := hright
            rw [if_pos hright']
            refine ⟨true, _, rfl, ?_, fun h => absurd hright (h _), fun h => absurd h hzero⟩
            intro d hd hfirst
            cases d
            · exact absurd hd hup
            · exact absurd hd hdown
            · exact absurd hd hleft
            · exact ⟨rfl, rfl⟩
          · have hright' : ¬ (slopes.pullRight ≠ 0 ∧ (response.overlapN.scale (-1)).x > 0) :=
              hright
            rw [if_neg hright']
            refine ⟨false, body, rfl, ?_, fun _ => ⟨rfl, rfl⟩, fun _ => ⟨rfl, rfl⟩⟩
            intro d hd
            exfalso
            cases d
            · exact hup hd
            · exact hdown hd
            · exact hleft hd
            · exact hright hd

/-- The amended C21 at the sample body, pulled up and to the left, under the
diagonal response: the pull up is served, and the velocity becomes the flipped
normal. -/
theorem pull_first_side_witness :
    samplePulledBody.slopes = some { pullUp := 1, pullLeft := 2 } ∧
    ∃ body', pull samplePulledBody sampleDiagonalResponse = some (true, body') ∧
      body'.velocity = { x := -3 / 5, y := -4 / 5 } := by
  refine ⟨rfl, ?_⟩
  obtain ⟨pulled, body', hpull, hfirst, -, -⟩ :=
    pull_first_side samplePulledBody { pullUp := 1, pullLeft := 2 } sampleDiagonalResponse rfl
  have hup := hfirst Direction.up
    (by norm_num [PullApplies, BodySlopes.pullOf, Direction.Contact, sampleDiagonalResponse,
      Vector.scale])
    (by intro d' hd'; cases d' <;> simp [Direction.rank] at hd')
  refine ⟨body', ?_, ?_⟩
  · rw [hpull, hup.1]
  · rw [hup.2]
    norm_num [samplePulledBody, sampleDiagonalResponse, Vector.scale, Vector.add, Vector.zero,
      BodySlopes.pullOf]

/-- C21 fails on a body with `pullUp = 1` and `pullLeft = 2` and a normal
`(3/5, 4/5)`: the flipped normal `m = (-3/5, -4/5)` indicates contact on the
left, and the left coefficient is non-zero, but `pull` returns after the pull
up, and the velocity it leaves is `m`, not `m` scaled by the left
coefficient. -/
theorem pull_first_side_counterexample :
    PullApplies { pullUp := 1, pullLeft := 2 } (sampleDiagonalResponse.overlapN.scale (-1))
      Direction.left ∧
    ∃ body', pull samplePulledBody sampleDiagonalResponse = some (true, body') ∧
      body'.velocity = { x := -3 / 5, y := -4 / 5 } ∧
      body'.velocity ≠ samplePulledBody.velocity.add
        ((sampleDiagonalResponse.overlapN.scale (-1)).scale 2) := by
  refine ⟨?_, ?_⟩
  · norm_num [PullApplies, BodySlopes.pullOf, Direction.Contact, sampleDiagonalResponse,
      Vector.scale]
  · norm_num [pull, samplePulledBody, sampleDiagonalResponse, Vector.scale, Vector.add,
      Vector.zero]

end ArcadeSlopes

namespace ArcadeSlopes

open SAT

/-- Below the gate, `separate` reads the tile only through the callbacks. -/
theorem separateUngated_congr (options : SolverOptions) (callbacks : Callbacks)
    (body : Body) (tile other : Tile) (response : Response)
    (hcallbacks : ∀ callback,
      callbacks.collisionCallback = some callback ∨ callbacks.layerCallback = some callback →
      callback body other = callback body tile) :
    separateUngated options callbacks body other response =
      separateUngated options callbacks body tile response := by
  unfold separateUngated
  cases ht : callbacks.collisionCallback with
  | none =>
    cases hl : callbacks.layerCallback with
    | none => rfl
    | some l => simp only [hcallbacks l (Or.inr hl)]
  | some t =>
    cases hl : callbacks.layerCallback with
    | none => simp only [hcallbacks t (Or.inl ht)]
    | some l => simp only [hcallbacks t (Or.inl ht), hcallbacks l (Or.inr hl)]

/-- `applyVelocity` reads neither the edge flags nor the neighbours of the
tile. -/
theorem applyVelocity_regated (body : Body) (tile : Tile) (edges : Edges)
    (neighbours : Option Neighbours) (response : Response) :
    applyVelocity body (regated tile edges neighbours) response =
      applyVelocity body tile response := by
  unfold applyVelocity regated
  cases body.slopes <;> cases tile.slope <;> rfl

/-- Below the gate, `separate` returns true exactly when `shouldPreferY`
returns and no callback vetoes. -/
theorem separateUngated_true_iff (options : SolverOptions) (callbacks : Callbacks)
    (body : Body) (tile : Tile) (response : Response) (p : Bool)
    (hp : shouldPreferY options body response = some p) :
    (∃ body', separateUngated options callbacks body tile response = some (true, body')) ↔
      NoVeto callbacks body tile := by
  unfold separateUngated NoVeto
  simp only [hp]
  cases ht : callbacks.collisionCallback with
  | none =>
    cases hl : callbacks.layerCallback with
    | none => cases p <;> simp
    | some l => cases hv : l body tile <;> cases p <;> simp [hv]
  | some t =>
    cases hl : callbacks.layerCallback with
    | none => cases hv : t body tile <;> cases p <;> simp [hv]
    | some l =>
      cases hv : t body tile <;> cases hw : l body tile <;> cases p <;> simp [hv, hw]

/-- C22: `collideOnAxis` is not gated.  On a tile that differs from another
only in the edge flags of its slope and in its neighbours, and on which the
callbacks answer as on the other, it returns the same boolean and leaves the
body in the same state; `separate` called with `force` does the same, whatever
the restrainers are.  `collideOnAxis` always returns, and it returns true
exactly when the body is enabled and has its polygon and `slopes`, the tile
has a slope with a polygon, the axis is not a separating axis of the two
polygons, and no callback vetoes. -/
theorem collideOnAxis_ungated (options : SolverOptions) (callbacks : Callbacks)
    (body : Body) (tile : Tile) (edges : Edges) (neighbours : Option Neighbours)
    (axis : Vector) (response : Option Response)
    (hcallbacks : ∀ callback,
      callbacks.collisionCallback = some callback ∨ callbacks.layerCallback = some callback →
      callback body (regated tile edges neighbours) = callback body tile) :
    collideOnAxis options callbacks body (regated tile edges neighbours) axis response =
      collideOnAxis options callbacks body tile axis response ∧
    (∀ (restrainers restrainers' : List (Restrainer Body)) (forced : Response),
      separate options restrainers callbacks body (regated tile edges neighbours) forced true =
        separate options restrainers' callbacks body tile forced true) ∧
    (∃ result body', collideOnAxis options callbacks body tile axis response =
      some (result, body')) ∧
    ((∃ body', collideOnAxis options callbacks body tile axis response = some (true, body')) ↔
      ∃ polygon slopes slope tilePolygon,
        body.enable = true ∧ body.polygon = some polygon ∧ body.slopes = some slopes ∧
        tile.slope = some slope ∧ slope.polygon = some tilePolygon ∧
        (SatSolver.isSeparatingAxis polygon tilePolygon axis
          (some (response.getD newResponse))).1 = false ∧
        NoVeto callbacks body tile) := by
  refine ⟨?_, ?_, collideOnAxis_total options callbacks body tile axis response, ?_⟩
  · have hslope : (regated tile edges neighbours).slope =
        tile.slope.map fun slope => { slope with edges := edges } := rfl
    have happly : ∀ (moved : Body) (r : Response),
        applyVelocity moved (regated tile edges neighbours) r = applyVelocity moved tile r :=
      fun moved r => applyVelocity_regated moved tile edges neighbours r
    have hsep : ∀ r : Response,
        separateUngated options callbacks body (regated tile edges neighbours) r =
          separateUngated options callbacks body tile r :=
      fun r => separateUngated_congr options callbacks body tile _ r hcallbacks
    generalize regated tile edges neighbours = other at hslope happly hsep
    unfold collideOnAxis
    by_cases he : body.enable = false
    · simp only [he, if_true]
    · simp only [he, if_false]
      cases hp : body.polygon with
      | none => rfl
      | some polygon =>
        cases hs : body.slopes with
        | none => rfl
        | some slopes =>
          cases ht : tile.slope with
          | none =>
            rw [ht] at hslope
            simp only [hslope, Option.map_none']
          | some slope =>
            rw [ht] at hslope
            simp only [hslope, Option.map_some']
            cases htp : slope.polygon with
            | none => rfl
            | some tilePolygon =>
              simp only
              obtain ⟨b, r', hr⟩ := SatSolver.isSeparatingAxis_some polygon tilePolygon axis
                (response.getD newResponse)
              rw [hr]
              cases b with
              | true => rfl
              | false =>
                simp only
                rw [hsep]
                cases hres : separateUngated options callbacks body tile (prepareResponse r') with
                | none => rfl
                | some res =>
                  obtain ⟨g, moved⟩ := res
                  cases g with
                  | false => rfl
                  | true =>
                    simp only
                    rw [happly]
  · intro restrainers restrainers' forced
    simp only [separate, if_true]
    exact separateUngated_congr options callbacks body tile _ forced hcallbacks
  · unfold collideOnAxis
    constructor
    · rintro ⟨body', h⟩
      by_cases he : body.enable = false
      · simp [he] at h
      · rw [if_neg he] at h
        cases hp : body.polygon with
        | none => simp [hp] at h
        | some polygon =>
          cases hs : body.slopes with
          | none => simp [hp, hs] at h
          | some slopes =>
            cases ht : tile.slope with
            | none => simp [hp, hs, ht] at h
            | some slope =>
              cases htp : slope.polygon with
              | none => simp [hp, hs, ht, htp] at h
              | some tilePolygon =>
                simp only [hp, hs, ht, htp] at h
                obtain ⟨b, r', hr⟩ := SatSolver.isSeparatingAxis_some polygon tilePolygon axis
                  (response.getD newResponse)
                rw [hr] at h
                cases b with
                | true => simp at h
                | false =>
                  simp only at h
                  have hpref : ∃ p, shouldPreferY options body (prepareResponse r') = some p := by
                    unfold shouldPreferY
                    cases options.preferY <;> simp [hs]
                  obtain ⟨p, hp'⟩ := hpref
                  refine ⟨polygon, slopes, slope, tilePolygon, by simpa using he, rfl, rfl, rfl,
                    htp, by rw [hr], ?_⟩
                  rw [← separateUngated_true_iff options callbacks body tile (prepareResponse r')
                    p hp']
                  cases hres : separateUngated options callbacks body tile (prepareResponse r') with
                  | none => simp [hres] at h
                  | some res =>
                    obtain ⟨g, moved⟩ := res
                    cases g with
                    | false => simp [hres] at h
                    | true => exact ⟨moved, rfl⟩
    · rintro ⟨polygon, slopes, slope, tilePolygon, he, hp, hs, ht, htp, hsep, hveto⟩
      rw [if_neg (by simp [he])]
      simp only [hp, hs, ht, htp]
      obtain ⟨b, r', hr⟩ := SatSolver.isSeparatingAxis_some polygon tilePolygon axis
        (response.getD newResponse)
      rw [hr] at hsep ⊢
      simp only at hsep
      subst hsep
      simp only
      have hpref : ∃ p, shouldPreferY options body (prepareResponse r') = some p := by
        unfold shouldPreferY
        cases options.preferY <;> simp [hs]
      obtain ⟨p, hp'⟩ := hpref
      obtain ⟨moved, hmoved⟩ :=
        (separateUngated_true_iff options callbacks body tile (prepareResponse r') p hp').2 hveto
      rw [hmoved]
      simp only
      obtain ⟨g, moved', hm, hslopes', -⟩ :=
        separateUngated_total options callbacks body tile (prepareResponse r') p hp'
      rw [hmoved] at hm
      simp only [Option.some.injEq, Prod.mk.injEq] at hm
      obtain ⟨-, rfl⟩ := hm
      obtain ⟨final, hfinal⟩ := applyVelocity_total moved tile (prepareResponse r') slopes slope
        (by rw [hslopes', hs]) ht
      rw [hfinal]
      exact ⟨_, rfl⟩

/-- C22 on the unit body and the unit tile half a unit to its right, against
the same tile with its left edge flagged `EMPTY`: on the X axis `collideOnAxis`
returns true on both, with the same body. -/
theorem collideOnAxis_ungated_witness :
    (∀ callback,
      samplePermit.collisionCallback = some callback ∨
        samplePermit.layerCallback = some callback →
      callback sampleUnitBody (regated sampleUnitTile { left := EMPTY } none) =
        callback sampleUnitBody sampleUnitTile) ∧
    collideOnAxis {} samplePermit sampleUnitBody (regated sampleUnitTile { left := EMPTY } none)
        { x := 1, y := 0 } none =
      collideOnAxis {} samplePermit sampleUnitBody sampleUnitTile { x := 1, y := 0 } none ∧
    ∃ body', collideOnAxis {} samplePermit sampleUnitBody sampleUnitTile { x := 1, y := 0 } none =
      some (true, body') := by
  have hcallbacks : ∀ callback,
      samplePermit.collisionCallback = some callback ∨
        samplePermit.layerCallback = some callback →
      callback sampleUnitBody (regated sampleUnitTile { left := EMPTY } none) =
        callback sampleUnitBody sampleUnitTile := by
    intro callback h
    rcases h with h | h
    · simp only [samplePermit, Option.some.injEq] at h
      subst h
      rfl
    · exact Option.noConfusion h
  obtain ⟨hsame, -, -, htrue⟩ := collideOnAxis_ungated {} samplePermit sampleUnitBody
    sampleUnitTile { left := EMPTY } none { x := 1, y := 0 } none hcallbacks
  refine ⟨hcallbacks, hsame, htrue.2 ?_⟩
  refine ⟨unitSquareAt { x := 0, y := 0 }, {}, _, unitSquareAt { x := 1 / 2, y := 0 }, rfl, rfl,
    rfl, rfl, rfl, ?_, ?_⟩
  · norm_num [SatSolver.isSeparatingAxis, SAT.isSeparatingAxis, axisRanges, flattenPointsOn,
      unitSquareAt, Vector.dot, Vector.sub, lt_MAX_VALUE_of_lt, neg_MAX_VALUE_lt_of_lt]
  · refine ⟨?_, ?_⟩
    · intro callback h
      simp only [samplePermit, Option.some.injEq] at h
      subst h
      rfl
    · intro callback h
      exact Option.noConfusion h

end ArcadeSlopes

namespace ArcadeSlopes

open SAT

/-- A rational of square one is one or minus one. -/
theorem unit_axis_cases (v : ℚ) (h : 0 * 0 + v * v = 1) : v = 1 ∨ v = -1 := by
  have h' : v * v = 1 := by linarith
  exact mul_self_eq_one_iff.mp h'

/-- C28: for each of the directions up, down, left and right, `resolveOverlaps`
gives an `overlapX` and an `overlapY`, which a rule written with that direction
is prepared with, and the tests `restrain` makes with them accept a unit vector
`n` if and only if `n` is the axis unit vector of the direction.  So no unit
normal with two non-zero components is accepted for any direction, and a unit
normal is accepted for one direction at most. -/
theorem resolveOverlaps_unit (d : Direction) (n : Vector) (hunit : n.len2 = 1) :
    (∃ overlapX overlapY, resolveOverlaps d.name = some (overlapX, overlapY) ∧
      (∀ informal : InformalRule, informal.direction = some d.name →
        ∃ rule, prepareRule informal = some rule ∧ rule.overlapX = some overlapX ∧
          rule.overlapY = some overlapY) ∧
      (directionAccepts d n = (overlapX.test n.x && overlapY.test n.y))) ∧
    (directionAccepts d n = true ↔ n = d.unit) ∧
    (n.x ≠ 0 → n.y ≠ 0 → ∀ d' : Direction, directionAccepts d' n = false) ∧
    (∀ d' : Direction, directionAccepts d n = true → directionAccepts d' n = true → d' = d) := by
  have hiff : ∀ d' : Direction, directionAccepts d' n = true ↔ n = d'.unit := by
    intro d'
    obtain ⟨x, y⟩ := n
    simp only [Vector.len2, Vector.dot] at hunit
    cases d'
    · have hr : resolveOverlaps Direction.up.name =
          some (Constraint.number 0, Constraint.pair (-1) 0) := rfl
      simp only [directionAccepts, hr, Constraint.test, Direction.unit, Bool.and_eq_true,
        decide_eq_true_eq, Vector.mk.injEq]
      constructor
      · rintro ⟨hx, hy1, hy2⟩
        subst hx
        rcases unit_axis_cases y hunit with h | h
        · subst h; norm_num at hy2
        · exact ⟨rfl, h⟩
      · rintro ⟨hx, hy⟩
        subst hx hy
        norm_num
    · have hr : resolveOverlaps Direction.down.name =
          some (Constraint.number 0, Constraint.pair 0 1) := rfl
      simp only [directionAccepts, hr, Constraint.test, Direction.unit, Bool.and_eq_true,
        decide_eq_true_eq, Vector.mk.injEq]
      constructor
      · rintro ⟨hx, hy1, hy2⟩
        subst hx
        rcases unit_axis_cases y hunit with h | h
        · exact ⟨rfl, h⟩
        · subst h; norm_num at hy1
      · rintro ⟨hx, hy⟩
        subst hx hy
        norm_num
    · have hr : resolveOverlaps Direction.left.name =
          some (Constraint.pair (-1) 0, Constraint.number 0) := rfl
      simp only [directionAccepts, hr, Constraint.test, Direction.unit, Bool.and_eq_true,
        decide_eq_true_eq, Vector.mk.injEq]
      constructor
      · rintro ⟨⟨hx1, hx2⟩, hy⟩
        subst hy
        rcases unit_axis_cases x (by linarith) with h | h
        · subst h; norm_num at hx2
        · exact ⟨h, rfl⟩
      · rintro ⟨hx, hy⟩
        subst hx hy
        norm_num
    · have hr : resolveOverlaps Direction.right.name =
          some (Constraint.pair 0 1, Constraint.number 0) := rfl
      simp only [directionAccepts, hr, Constraint.test, Direction.unit, Bool.and_eq_true,
        decide_eq_true_eq, Vector.mk.injEq]
      constructor
      · rintro ⟨⟨hx1, hx2⟩, hy⟩
        subst hy
        rcases unit_axis_cases x (by linarith) with h | h
        · exact ⟨h, rfl⟩
        · subst h; norm_num at hx1
      · rintro ⟨hx, hy⟩
        subst hx hy
        norm_num
  refine ⟨?_, hiff d, ?_, ?_⟩
  · have hprep : ∀ (overlaps : Constraint × Constraint),
        resolveOverlaps d.name = some overlaps → d.name ≠ "" →
        ∀ informal : InformalRule, informal.direction = some d.name →
          ∃ rule, prepareRule informal = some rule ∧ rule.overlapX = some overlaps.1 ∧
            rule.overlapY = some overlaps.2 := by
      intro overlaps hr hne informal hdir
      unfold prepareRule
      simp only [hdir, hr, if_neg hne]
      exact ⟨_, rfl, rfl, rfl⟩
    cases d
    · exact ⟨_, _, rfl, hprep _ rfl (by decide), rfl⟩
    · exact ⟨_, _, rfl, hprep _ rfl (by decide), rfl⟩
    · exact ⟨_, _, rfl, hprep _ rfl (by decide), rfl⟩
    · exact ⟨_, _, rfl, hprep _ rfl (by decide), rfl⟩
  · intro hx hy d'
    cases h : directionAccepts d' n with
    | false => rfl
    | true =>
      exfalso
      have := (hiff d').1 h
      subst this
      cases d'
      · exact hx rfl
      · exact hx rfl
      · exact hy rfl
      · exact hy rfl
  · intro d' h h'
    have h1 := (hiff d).1 h
    have h2 := (hiff d').1 h'
    rw [h1] at h2
    cases d <;> cases d' <;> first | rfl | (exfalso; revert h2; norm_num [Direction.unit])

/-- C28 at the unit vector pointing straight left: only the direction `left`
accepts it. -/
theorem resolveOverlaps_unit_witness :
    Vector.len2 { x := -1, y := 0 } = 1 ∧
    directionAccepts Direction.left { x := -1, y := 0 } = true ∧
    directionAccepts Direction.up { x := -1, y := 0 } = false := by
  have hunit : Vector.len2 { x := -1, y := 0 } = 1 := by norm_num [Vector.len2, Vector.dot]
  obtain ⟨-, hleft, -, hone⟩ := resolveOverlaps_unit Direction.left { x := -1, y := 0 } hunit
  have hl : directionAccepts Direction.left { x := -1, y := 0 } = true := hleft.2 rfl
  refine ⟨hunit, hl, ?_⟩
  cases h : directionAccepts Direction.up { x := -1, y := 0 } with
  | false => rfl
  | true => exact absurd (hone Direction.up hl h) (by decide)

/-- C26 fails on the string `SOLID`: it does not parse to a number and is not
the name of a slope type, but `TileSlope` holds the edge flag `SOLID = 1` under
that name, and `resolveType` returns it, the constant of `HALF_BOTTOM_LEFT`,
not `UNKNOWN`.  The same goes for `EMPTY`, `INTERESTING` and `length`. -/
theorem resolveType_edge_constant :
    parseInt "SOLID" = none ∧ ¬ IsTypeName "SOLID" ∧
    resolveType (TypeValue.string "SOLID") = TypeValue.number HALF_BOTTOM_LEFT ∧
    resolveType (TypeValue.string "EMPTY") = TypeValue.number FULL ∧
    resolveType (TypeValue.string "INTERESTING") = TypeValue.number 2 ∧
    resolveType (TypeValue.string "length") = TypeValue.number 6 ∧
    HALF_BOTTOM_LEFT ≠ UNKNOWN := by
  refine ⟨by rfl, ?_, by rfl, by rfl, by rfl, by rfl, by decide⟩
  unfold IsTypeName
  decide

/-- For the name of an own property of `TileSlope` that holds no number,
`resolveType` returns what the property holds: the empty string for `name`,
`null` for `caller`, the object for `prototype` and for `typeNames`, and the
function for `resolveType`; none of them has a builder. -/
theorem resolveType_own_property :
    resolveType (TypeValue.string "name") = TypeValue.string "" ∧
    resolveType (TypeValue.string "caller") = TypeValue.null ∧
    resolveType (TypeValue.string "prototype") =
      TypeValue.object "prototype" (some "[object Object]") ∧
    resolveType (TypeValue.string "typeNames") =
      TypeValue.object "typeNames" (some "[object Object]") ∧
    resolveType (TypeValue.string "resolveType") = TypeValue.object "resolveType" none ∧
    (∀ name ∈ ["name", "caller", "arguments", "prototype", "typeNames", "resolveType",
        "resolveTypeName"],
      (newTileSlopeFactory.definition (resolveType (TypeValue.string name))).isNone = true) := by
  refine ⟨by rfl, by rfl, by rfl, by rfl, by rfl, ?_⟩
  intro name hname
  simp only [List.mem_cons, List.mem_singleton, List.not_mem_nil, or_false] at hname
  rcases hname with h | h | h | h | h | h | h <;> subst h <;> rfl

end ArcadeSlopes

namespace SAT

namespace InPlace

/-- The first loop of `_recalc` returns on an array of the right length, and
overwrites exactly the entries it is run on. -/
theorem recalcPoints_spec {K : Type} [LinearOrderedField K] (points : List (Vector K))
    (offset : Vector K) :
    ∀ (indices : List Nat) (calcPoints : List (Vector K)),
      (∀ i ∈ indices, i < points.length) → calcPoints.length = points.length →
      ∃ out, recalcPoints points offset indices calcPoints = some out ∧
        out.length = points.length ∧
        ∀ j, out[j]? =
          if j ∈ indices then
            points[j]?.map fun p => ({ x := p.x + offset.x, y := p.y + offset.y } : Vector K)
          else calcPoints[j]? := by
  intro indices
  induction indices with
  | nil =>
    intro calcPoints _ hlen
    exact ⟨calcPoints, rfl, hlen, by simp⟩
  | cons i rest ih =>
    intro calcPoints hin hlen
    have hi : i < points.length := hin i (List.mem_cons_self _ _)
    have hc : calcPoints[i]? = some calcPoints[i] := List.getElem?_eq_getElem (by omega)
    have hp : points[i]? = some points[i] := List.getElem?_eq_getElem hi
    obtain ⟨out, hout, hlen', hget⟩ :=
      ih (calcPoints.set i { x := points[i].x + offset.x, y := points[i].y + offset.y })
        (fun k hk => hin k (List.mem_cons_of_mem _ hk))
        (by rw [List.length_set]; exact hlen)
    refine ⟨out, ?_, hlen', ?_⟩
    · simp only [recalcPoints, hc, hp]
      exact hout
    · intro j
      rw [hget j]
      by_cases hj : j ∈ rest
      · simp [hj]
      · simp only [hj, if_false, List.mem_cons, or_false]
        rw [List.getElem?_set]
        by_cases hij : i = j
        · subst hij
          simp [hlen, hi, hp]
        · have hji : ¬ j = i := fun h => hij h.symm
          simp [hij, hji]

/-- The second loop of `_recalc` returns on arrays of the right length, and
overwrites exactly the entries it is run on. -/
theorem recalcEdges_spec {K : Type} [LinearOrderedField K] (sqrt : K → K)
    (calcPoints : List (Vector K)) :
    ∀ (indices : List Nat) (arrays : List (Vector K) × List (Vector K)),
      (∀ i ∈ indices, i < calcPoints.length) → arrays.1.length = calcPoints.length →
      arrays.2.length = calcPoints.length →
      ∃ out, recalcEdges sqrt calcPoints calcPoints.length indices arrays = some out ∧
        out.1.length = calcPoints.length ∧ out.2.length = calcPoints.length ∧
        ∀ j,
          out.1[j]? =
            (if j ∈ indices then some (edgeFrom calcPoints calcPoints.length j)
              else arrays.1[j]?) ∧
          out.2[j]? =
            (if j ∈ indices then
                some ((edgeFrom calcPoints calcPoints.length j).perp.normalize sqrt)
              else arrays.2[j]?) := by
  intro indices
  induction indices with
  | nil =>
    intro arrays _ h1 h2
    exact ⟨arrays, rfl, h1, h2, by simp⟩
  | cons i rest ih =>
    intro arrays hin h1 h2
    have hi : i < calcPoints.length := hin i (List.mem_cons_self _ _)
    have hc : calcPoints[i]? = some (calcPoints.getD i Vector.zero) := by
      rw [List.getD_eq_getElem?_getD, List.getElem?_eq_getElem hi]; rfl
    have hnext : (if (i : Int) < (calcPoints.length : Int) - 1 then calcPoints[i + 1]?
        else calcPoints[0]?) =
        some (if (i : Int) < (calcPoints.length : Int) - 1 then
          calcPoints.getD (i + 1) Vector.zero else calcPoints.getD 0 Vector.zero) := by
      split_ifs with h
      · have : i + 1 < calcPoints.length := by omega
        rw [List.getD_eq_getElem?_getD, List.getElem?_eq_getElem this]; rfl
      · have : 0 < calcPoints.length := by omega
        rw [List.getD_eq_getElem?_getD, List.getElem?_eq_getElem this]; rfl
    have he : arrays.1[i]? = some arrays.1[i] := List.getElem?_eq_getElem (by omega)
    have hn : arrays.2[i]? = some arrays.2[i] := List.getElem?_eq_getElem (by omega)
    obtain ⟨out, hout, hl1, hl2, hget⟩ :=
      ih (arrays.1.set i (edgeFrom calcPoints calcPoints.length i),
          arrays.2.set i ((edgeFrom calcPoints calcPoints.length i).perp.normalize sqrt))
        (fun k hk => hin k (List.mem_cons_of_mem _ hk))
        (by simp only [List.length_set]; exact h1)
        (by simp only [List.length_set]; exact h2)
    refine ⟨out, ?_, hl1, hl2, ?_⟩
    · simp only [recalcEdges, hc, hnext, he, hn]
      exact hout
    · intro j
      rw [(hget j).1, (hget j).2]
      by_cases hj : j ∈ rest
      · simp [hj]
      · simp only [hj, if_false, List.mem_cons, or_false]
        rw [List.getElem?_set, List.getElem?_set]
        by_cases hij : i = j
        · subst hij
          simp [h1, h2, hi]
        · have hji : ¬ j = i := fun h => hij h.symm
          simp [hij, hji]

/-- On arrays that have the length of `points`, `_recalc` returns: it leaves
the position, the points and the offset, and writes every entry of the three
arrays, the calculated points from the points, the edges from the calculated
points, and the normals from the edges. -/
theorem recalc_spec {K : Type} [LinearOrderedField K] (sqrt : K → K) (P : Polygon K)
    (h1 : P.calcPoints.length = P.points.length) (h2 : P.edges.length = P.points.length)
    (h3 : P.normals.length = P.points.length) :
    ∃ Q, _recalc sqrt P = some Q ∧ Q.pos = P.pos ∧ Q.points = P.points ∧
      Q.offset = P.offset ∧
      Q.calcPoints = (P.points.map fun p =>
        ({ x := p.x + P.offset.x, y := p.y + P.offset.y } : Vector K)) ∧
      Q.edges = ((List.range P.points.length).map fun i =>
        edgeFrom Q.calcPoints P.points.length i) ∧
      Q.normals = Q.edges.map fun e => e.perp.normalize sqrt := by
  obtain ⟨derived, hcalc, hclen, hcget⟩ := recalcPoints_spec P.points P.offset
    (List.range P.points.length) P.calcPoints (fun i hi => List.mem_range.mp hi) h1
  have hcalc' : derived = P.points.map fun p =>
      ({ x := p.x + P.offset.x, y := p.y + P.offset.y } : Vector K) := by
    apply List.ext_getElem?
    intro j
    rw [hcget j, List.getElem?_map]
    by_cases hj : j < P.points.length
    · simp [hj]
    · have e1 : P.calcPoints[j]? = none := List.getElem?_eq_none (by omega)
      have e2 : P.points[j]? = none := List.getElem?_eq_none (by omega)
      simp only [List.mem_range, hj, if_false, e1, e2, Option.map_none']
  obtain ⟨out, hout, hl1, hl2, hget⟩ := recalcEdges_spec sqrt derived
    (List.range derived.length) (P.edges, P.normals) (fun i hi => List.mem_range.mp hi)
    (by rw [hclen]; exact h2) (by rw [hclen]; exact h3)
  have hedges : out.1 = (List.range derived.length).map fun i =>
      edgeFrom derived derived.length i := by
    apply List.ext_getElem?
    intro j
    rw [(hget j).1, List.getElem?_map]
    by_cases hj : j < derived.length
    · simp [hj, List.getElem?_range hj]
    · have e1 : P.edges[j]? = none := List.getElem?_eq_none (by omega)
      have e2 : (List.range derived.length)[j]? = none :=
        List.getElem?_eq_none (by rw [List.length_range]; omega)
      simp only [List.mem_range, hj, if_false, e1, e2, Option.map_none']
  have hnormals : out.2 = out.1.map fun e => e.perp.normalize sqrt := by
    apply List.ext_getElem?
    intro j
    rw [(hget j).2, List.getElem?_map, (hget j).1]
    by_cases hj : j < derived.length
    · simp [hj]
    · have e1 : P.edges[j]? = none := List.getElem?_eq_none (by omega)
      have e2 : P.normals[j]? = none := List.getElem?_eq_none (by omega)
      simp only [List.mem_range, hj, if_false, e1, e2, Option.map_none']
  refine ⟨{ P with calcPoints := derived, edges := out.1, normals := out.2 }, ?_, rfl, rfl, rfl,
    hcalc', ?_, hnormals⟩
  · unfold _recalc
    simp only [hcalc]
    rw [← hclen, hout]
  · show out.1 = _
    rw [hedges, hclen]

/-- The perpendicular of the zero vector is normalized to the zero vector. -/
theorem normalize_perp_zero {K : Type} [LinearOrderedField K] (sqrt : K → K)
    (hsqrt : IsSqrt sqrt) :
    (Vector.zero : Vector K).perp.normalize sqrt = Vector.zero := by
  obtain ⟨h0, hsq⟩ := hsqrt 0 le_rfl
  have hz : sqrt 0 = 0 := by
    rcases mul_self_eq_zero.mp hsq with h
    exact h
  simp [Vector.normalize, Vector.len, Vector.len2, Vector.dot, Vector.perp, Vector.zero, hz]

/-- The perpendicular of a vector that is not zero is normalized to a positive
multiple of it, the perpendicular divided by the length, whose squared length
is one. -/
theorem normalize_perp_unit {K : Type} [LinearOrderedField K] (sqrt : K → K)
    (hsqrt : IsSqrt sqrt) (e : Vector K) (he : e ≠ Vector.zero) :
    0 < sqrt e.len2 ∧ sqrt e.len2 * sqrt e.len2 = e.len2 ∧
    e.perp.normalize sqrt = e.perp.scale (1 / sqrt e.len2) ∧
    (e.perp.normalize sqrt).len2 = 1 := by
  have hlen2 : e.perp.len2 = e.len2 := by
    simp only [Vector.len2, Vector.dot, Vector.perp]
    ring
  have hpos : 0 < e.len2 := by
    have hne : e.x ≠ 0 ∨ e.y ≠ 0 := by
      by_contra hcon
      push_neg at hcon
      apply he
      cases e with
      | mk x y =>
        simp only at hcon
        simp only [Vector.zero, Vector.mk.injEq]
        exact hcon
    simp only [Vector.len2, Vector.dot]
    rcases hne with h | h
    · have := mul_self_pos.mpr h
      nlinarith [mul_self_nonneg e.y]
    · have := mul_self_pos.mpr h
      nlinarith [mul_self_nonneg e.x]
  obtain ⟨h0, hsq⟩ := hsqrt e.len2 (le_of_lt hpos)
  have hd : 0 < sqrt e.len2 := by
    rcases lt_or_eq_of_le h0 with h | h
    · exact h
    · rw [← h] at hsq
      simp only [mul_zero] at hsq
      exact absurd hsq.symm (ne_of_gt hpos)
  have hne : sqrt e.len2 ≠ 0 := ne_of_gt hd
  have hnorm : e.perp.normalize sqrt = e.perp.scale (1 / sqrt e.len2) := by
    simp only [Vector.normalize, Vector.len, hlen2, hd, if_true]
    simp only [Vector.scale, Vector.perp, Vector.mk.injEq]
    constructor <;> ring
  refine ⟨hd, hsq, hnorm, ?_⟩
  rw [hnorm]
  have hsq' : sqrt e.len2 * sqrt e.len2 = e.x * e.x + e.y * e.y := by
    rw [hsq]
    rfl
  generalize sqrt e.len2 = d at hd hne hsq'
  simp only [Vector.len2, Vector.dot, Vector.scale, Vector.perp]
  field_simp
  linarith

/-- What `_recalc` leaves on arrays of the right length is consistent with the
points, when `sqrt` is the square root. -/
theorem recalc_consistent_of_sqrt {K : Type} [LinearOrderedField K] (sqrt : K → K)
    (hsqrt : IsSqrt sqrt) (P : Polygon K)
    (h1 : P.calcPoints.length = P.points.length) (h2 : P.edges.length = P.points.length)
    (h3 : P.normals.length = P.points.length) :
    ∃ Q, _recalc sqrt P = some Q ∧ Q.pos = P.pos ∧ Q.points = P.points ∧
      Q.offset = P.offset ∧ Q.Consistent := by
  obtain ⟨Q, hQ, hpos, hpoints, hoffset, hcalc, hedges, hnormals⟩ := recalc_spec sqrt P h1 h2 h3
  refine ⟨Q, hQ, hpos, hpoints, hoffset, ?_⟩
  have hclen : Q.calcPoints.length = P.points.length := by
    rw [hcalc, List.length_map]
  have helen : Q.edges.length = P.points.length := by
    rw [hedges, List.length_map, List.length_range]
  have hnlen : Q.normals.length = P.points.length := by
    rw [hnormals, List.length_map, helen]
  refine ⟨by rw [hclen, hpoints], by rw [helen, hpoints], by rw [hnlen, hpoints], ?_⟩
  intro i hi
  rw [hpoints] at hi
  have hc : Q.calcPoints.getD i Vector.zero =
      (P.points.getD i Vector.zero).add P.offset := by
    rw [hcalc, List.getD_eq_getElem?_getD, List.getD_eq_getElem?_getD, List.getElem?_map,
      List.getElem?_eq_getElem hi]
    rfl
  have he : Q.edges.getD i Vector.zero = edgeFrom Q.calcPoints P.points.length i := by
    rw [hedges, List.getD_eq_getElem?_getD, List.getElem?_map,
      List.getElem?_range hi]
    rfl
  have hn : Q.normals.getD i Vector.zero =
      (Q.edges.getD i Vector.zero).perp.normalize sqrt := by
    rw [hnormals, List.getD_eq_getElem?_getD, List.getD_eq_getElem?_getD, List.getElem?_map,
      List.getElem?_eq_getElem (by rw [helen]; exact hi)]
    rfl
  refine ⟨by rw [hc, hoffset, hpoints], ?_, ?_, ?_⟩
  · rw [he, hpoints]
    unfold edgeFrom
    by_cases hlast : i + 1 < P.points.length
    · rw [if_pos (by omega), Nat.mod_eq_of_lt hlast]
    · have hi' : i + 1 = P.points.length := by omega
      rw [if_neg (by omega), hi', Nat.mod_self]
  · intro hz
    rw [hn, hz]
    exact normalize_perp_zero sqrt hsqrt
  · intro hne
    obtain ⟨hd, -, hnorm, hunit⟩ := normalize_perp_unit sqrt hsqrt _ hne
    refine ⟨1 / sqrt (Q.edges.getD i Vector.zero).len2, by positivity, ?_, ?_⟩
    · rw [hn, hnorm]
    · rw [hn]
      exact hunit

/-- `setPoints` returns on a polygon whose arrays have the length of its
points, whatever the new points are, and leaves consistent arrays. -/
theorem setPoints_consistent {K : Type} [LinearOrderedField K] (sqrt : K → K)
    (hsqrt : IsSqrt sqrt) (P : Polygon K)
    (h1 : P.calcPoints.length = P.points.length) (h2 : P.edges.length = P.points.length)
    (h3 : P.normals.length = P.points.length) (points : List (Vector K)) :
    ∃ Q, setPoints sqrt P points = some Q ∧ Q.pos = P.pos ∧ Q.points = points ∧
      Q.offset = P.offset ∧ Q.Consistent := by
  unfold setPoints
  by_cases hlen : P.points.length = points.length
  · simp only [hlen, ne_eq, not_true_eq_false, decide_False, Bool.false_eq_true, if_false]
    exact recalc_consistent_of_sqrt sqrt hsqrt { P with points := points } (by rw [h1, hlen])
      (by rw [h2, hlen]) (by rw [h3, hlen])
  · simp only [hlen, ne_eq, not_false_eq_true, decide_True, if_true]
    exact recalc_consistent_of_sqrt sqrt hsqrt _ (List.length_replicate _ _)
      (List.length_replicate _ _) (List.length_replicate _ _)

/-- C30: over any ordered field of numbers on which `sqrt` is the square root,
the real numbers with `Math.sqrt` read as the real root among them, a new
polygon has derived arrays consistent with its points, and `setPoints`,
`setOffset` and `translate` (at angle `0`) take a polygon with consistent
arrays to one with consistent arrays, without a `TypeError`: `calcPoints`,
`edges` and `normals` have the length of `points`, and for every index `i`,
`calcPoints[i] = points[i] + offset`,
`edges[i] = calcPoints[(i + 1) mod n] - calcPoints[i]`, and `normals[i]` is
`perp(edges[i])` scaled to unit length: the zero vector for a zero edge, and
otherwise a positive multiple of `perp(edges[i])` whose squared length is one. -/
theorem recalc_invariant {K : Type} [LinearOrderedField K] (sqrt : K → K)
    (hsqrt : IsSqrt sqrt) (P : Polygon K) (hP : P.Consistent) (pos : Vector K)
    (points : List (Vector K)) (offset : Vector K) (x y : K) :
    (∃ Q, newPolygon sqrt pos points = some Q ∧ Q.pos = pos ∧ Q.points = points ∧
      Q.offset = Vector.zero ∧ Q.Consistent) ∧
    (∃ Q, setPoints sqrt P points = some Q ∧ Q.pos = P.pos ∧ Q.points = points ∧
      Q.offset = P.offset ∧ Q.Consistent) ∧
    (∃ Q, setOffset sqrt P offset = some Q ∧ Q.pos = P.pos ∧ Q.points = P.points ∧
      Q.offset = offset ∧ Q.Consistent) ∧
    (∃ Q, translate sqrt P x y = some Q ∧ Q.pos = P.pos ∧
      Q.points = (P.points.map fun point => { x := point.x + x, y := point.y + y }) ∧
      Q.offset = P.offset ∧ Q.Consistent) := by
  obtain ⟨h1, h2, h3, -⟩ := hP
  refine ⟨?_, setPoints_consistent sqrt hsqrt P h1 h2 h3 points, ?_, ?_⟩
  · exact setPoints_consistent sqrt hsqrt _ rfl rfl rfl points
  · exact recalc_consistent_of_sqrt sqrt hsqrt { P with offset := offset } h1 h2 h3
  · exact recalc_consistent_of_sqrt sqrt hsqrt
      { P with points := P.points.map fun point => { x := point.x + x, y := point.y + y } }
      (by rw [h1, List.length_map]) (by rw [h2, List.length_map])
      (by rw [h3, List.length_map])

end InPlace

end SAT

namespace SAT

namespace InPlace

/-- The arrays of the unit square are consistent with its points. -/
theorem sampleSquare_consistent (K : Type) [LinearOrderedField K] :
    (sampleSquare K).Consistent := by
  refine ⟨rfl, rfl, rfl, ?_⟩
  intro i hi
  have hi4 : i < 4 := hi
  interval_cases i
  all_goals
    refine ⟨?_, ?_, ?_, ?_⟩
    · simp [sampleSquare, Vector.add, Vector.zero]
    · simp [sampleSquare, Vector.sub]
    · simp [sampleSquare, Vector.zero]
    · intro _
      refine ⟨1, one_pos, ?_, ?_⟩
      · simp [sampleSquare, Vector.perp, Vector.scale]
      · simp [sampleSquare, Vector.len2, Vector.dot]

/-- C30 over the real numbers with the real square root, on the unit square
given the three points of a right triangle with legs of length one: the arrays
are consistent again, the second edge is `(-1, 1)`, of length `√2`, and its
normal is `(c, c)` with `c` positive and of squared length one. -/
theorem recalc_invariant_witness :
    IsSqrt Real.sqrt ∧ (sampleSquare ℝ).Consistent ∧
    ∃ Q, setPoints Real.sqrt (sampleSquare ℝ) (sampleTriangle ℝ) = some Q ∧ Q.Consistent ∧
      Q.edges.getD 1 Vector.zero = { x := -1, y := 1 } ∧
      ∃ c : ℝ, 0 < c ∧ Q.normals.getD 1 Vector.zero = { x := c, y := c } ∧
        (Q.normals.getD 1 Vector.zero).len2 = 1 := by
  have hsqrt : IsSqrt Real.sqrt := fun x hx => ⟨Real.sqrt_nonneg x, Real.mul_self_sqrt hx⟩
  have hP := sampleSquare_consistent ℝ
  obtain ⟨-, ⟨Q, hQ, -, hpoints, hoffset, hcons⟩, -, -⟩ :=
    recalc_invariant Real.sqrt hsqrt (sampleSquare ℝ) hP Vector.zero (sampleTriangle ℝ)
      Vector.zero 0 0
  refine ⟨hsqrt, hP, Q, hQ, hcons, ?_⟩
  obtain ⟨-, -, -, hall⟩ := hcons
  have h3 : Q.points.length = 3 := by rw [hpoints]; rfl
  obtain ⟨hc1, he1, -, hn1⟩ := hall 1 (by rw [h3]; decide)
  obtain ⟨hc2, -, -, -⟩ := hall 2 (by rw [h3]; decide)
  have hedge : Q.edges.getD 1 Vector.zero = { x := -1, y := 1 } := by
    rw [he1, h3]
    show (Q.calcPoints.getD 2 Vector.zero).sub (Q.calcPoints.getD 1 Vector.zero) = _
    rw [hc1, hc2, hpoints, hoffset]
    simp [sampleTriangle, sampleSquare, Vector.add, Vector.sub, Vector.zero]
  refine ⟨hedge, ?_⟩
  have hne : Q.edges.getD 1 Vector.zero ≠ Vector.zero := by
    rw [hedge]
    simp [Vector.zero]
  obtain ⟨c, hc, hnormal, hunit⟩ := hn1 hne
  refine ⟨c, hc, ?_, hunit⟩
  rw [hnormal, hedge]
  simp [Vector.perp, Vector.scale]

/-- Reading a vector over `ℚ` goes through the entry read of a list. -/
theorem getD_map_ofVector (l : List SAT.Vector) (i : Nat) :
    (l.map ofVector).getD i Vector.zero = ofVector (l.getD i SAT.Vector.zero) := by
  rw [List.getD_eq_getElem?_getD, List.getD_eq_getElem?_getD, List.getElem?_map]
  cases l[i]? with
  | none => rfl
  | some v => rfl

/-- Normalizing with the rational root is `normalize` of the rational model. -/
theorem normalize_ofVector (v : SAT.Vector) :
    (ofVector v).normalize Rat.sqrt = ofVector v.normalize := by
  unfold Vector.normalize SAT.Vector.normalize
  have hlen : (ofVector v).len Rat.sqrt = v.len := rfl
  simp only [hlen]
  split_ifs <;> rfl

/-- With `Math.sqrt` read as the rational root, `_recalc` on arrays that have
the length of `points` returns the polygon the closed form `Polygon._recalc` of
the rational model describes. -/
theorem recalc_ofPolygon (P : SAT.Polygon) (h1 : P.calcPoints.length = P.points.length)
    (h2 : P.edges.length = P.points.length) (h3 : P.normals.length = P.points.length) :
    _recalc Rat.sqrt (ofPolygon P) = some (ofPolygon P._recalc) := by
  obtain ⟨Q, hQ, hpos, hpoints, hoffset, hcalc, hedges, hnormals⟩ :=
    recalc_spec Rat.sqrt (ofPolygon P)
      (by simp only [ofPolygon, List.length_map]; exact h1)
      (by simp only [ofPolygon, List.length_map]; exact h2)
      (by simp only [ofPolygon, List.length_map]; exact h3)
  rw [hQ]
  have hcalc' : Q.calcPoints = (ofPolygon P._recalc).calcPoints := by
    rw [hcalc]
    simp only [ofPolygon, SAT.Polygon._recalc, List.map_map]
    rfl
  have hedges' : Q.edges = (ofPolygon P._recalc).edges := by
    have he : P._recalc.edges = (List.range P.points.length).map fun (i : Nat) =>
        (if (i : Int) < (P.points.length : Int) - 1 then
            P._recalc.calcPoints.getD (i + 1) SAT.Vector.zero
          else P._recalc.calcPoints.getD 0 SAT.Vector.zero).sub
          (P._recalc.calcPoints.getD i SAT.Vector.zero) := rfl
    rw [hedges, hcalc']
    show (List.range (P.points.map ofVector).length).map
        (fun i => edgeFrom (P._recalc.calcPoints.map ofVector) (P.points.map ofVector).length i) =
      P._recalc.edges.map ofVector
    rw [he, List.map_map, List.length_map]
    apply List.map_congr_left
    intro i _
    simp only [edgeFrom, Function.comp, getD_map_ofVector]
    split_ifs <;> rfl
  have hnormals' : Q.normals = (ofPolygon P._recalc).normals := by
    have hn : P._recalc.normals = P._recalc.edges.map fun e => e.perp.normalize := rfl
    rw [hnormals, hedges']
    show (P._recalc.edges.map ofVector).map (fun e => e.perp.normalize Rat.sqrt) =
      P._recalc.normals.map ofVector
    rw [hn, List.map_map, List.map_map]
    apply List.map_congr_left
    intro e _
    exact normalize_ofVector e.perp
  cases Q with
  | mk pos points offset calcPoints edges normals =>
    simp only at hpos hpoints hoffset hcalc' hedges' hnormals'
    subst hpos hpoints hoffset hcalc' hedges' hnormals'
    rfl

/-- With `Math.sqrt` read as the rational root, the constructor builds the
polygon the closed form `newPolygon` of the rational model describes. -/
theorem newPolygon_ofPolygon (pos : SAT.Vector) (points : List SAT.Vector) :
    newPolygon Rat.sqrt (ofVector pos) (points.map ofVector) =
      some (ofPolygon (SAT.newPolygon pos points)) := by
  have h := recalc_ofPolygon
    { pos := pos, points := points, offset := SAT.Vector.zero,
      calcPoints := List.replicate points.length SAT.Vector.zero,
      edges := List.replicate points.length SAT.Vector.zero,
      normals := List.replicate points.length SAT.Vector.zero }
    (List.length_replicate _ _) (List.length_replicate _ _) (List.length_replicate _ _)
  unfold newPolygon setPoints
  by_cases hlen : ([] : List (Vector ℚ)).length = (points.map ofVector).length
  · have hnil : points = [] := by
      simp only [List.length_nil, List.length_map] at hlen
      exact List.length_eq_zero.mp hlen.symm
    subst hnil
    rfl
  · simp only [hlen, ne_eq, not_false_eq_true, decide_True, if_true]
    simp only [ofPolygon, List.map_replicate, List.length_map] at h ⊢
    exact h

end InPlace

end SAT

namespace ArcadeSlopes

open SAT

/-- The constructor of a polygon keeps the points it is given. -/
theorem newPolygon_points (pos : Vector) (points : List Vector) :
    (newPolygon pos points).points = points := rfl

/-- The polygon of a box has the four corners of the box as its points. -/
theorem toPolygon_points (box : Box) :
    (Box.toPolygon box).points =
      [Vector.zero, { x := box.w, y := 0 }, { x := box.w, y := box.h }, { x := 0, y := box.h }] :=
  rfl

/-- C23: every slope type constant of `TileSlope` other than `UNKNOWN`, that
is every name of `typeNames` but that of `-1`, is one of the integers 0 to 24,
and for each of these a new `TileSlopeFactory` has a builder registered, which
`create` calls; for every tile the builder returns a slope of that type whose
polygon has at least three points, and whose `edges` record has each of `top`,
`bottom`, `left` and `right` set to `SOLID` or `INTERESTING`. -/
theorem factory_builders :
    (∀ entry ∈ typeNames, entry.1 ≠ UNKNOWN → 0 ≤ entry.1 ∧ entry.1 ≤ 24) ∧
    ∀ type : Int, 0 ≤ type → type ≤ 24 →
      (∃ name, typeNames.lookup type = some name) ∧
      ∃ builder, newTileSlopeFactory.definition (TypeValue.number type) = some (type, builder) ∧
        ∀ tile : Tile,
          newTileSlopeFactory.create (TypeValue.number type) tile = some (builder type tile) ∧
          (builder type tile).type = type ∧
          (∃ polygon, (builder type tile).polygon = some polygon ∧ 3 ≤ polygon.points.length) ∧
          (builder type tile).edges.AllSet := by
  refine ⟨by decide, ?_⟩
  intro type h0 h24
  have hall : ∀ side : Side, ∀ e : Edges,
      (e.top = SOLID ∨ e.top = INTERESTING) → (e.bottom = SOLID ∨ e.bottom = INTERESTING) →
      (e.left = SOLID ∨ e.left = INTERESTING) → (e.right = SOLID ∨ e.right = INTERESTING) →
      (e.flag side = SOLID ∨ e.flag side = INTERESTING) := by
    intro side e h1 h2 h3 h4
    cases side
    · exact h1
    · exact h2
    · exact h3
    · exact h4
  interval_cases type <;>
    refine ⟨⟨_, rfl⟩, _, rfl, fun tile => ⟨rfl, rfl,
      ⟨_, rfl, by first | exact Nat.le_refl 3 | exact Nat.le_succ 3⟩, fun side =>
      hall side _ (by first | exact Or.inl rfl | exact Or.inr rfl)
        (by first | exact Or.inl rfl | exact Or.inr rfl)
        (by first | exact Or.inl rfl | exact Or.inr rfl)
        (by first | exact Or.inl rfl | exact Or.inr rfl)⟩⟩

/-- C23 at the type `QUARTER_RIGHT_TOP_LOW` and the 16 by 16 sample tile: the
builder registered for it returns a slope of that type with a polygon of three
points. -/
theorem factory_builders_witness :
    (0 : Int) ≤ QUARTER_RIGHT_TOP_LOW ∧ QUARTER_RIGHT_TOP_LOW ≤ 24 ∧
    ∃ slope polygon,
      newTileSlopeFactory.create (TypeValue.number QUARTER_RIGHT_TOP_LOW) sampleBase =
        some slope ∧
      slope.type = QUARTER_RIGHT_TOP_LOW ∧ slope.polygon = some polygon ∧
      3 ≤ polygon.points.length ∧ slope.edges.AllSet := by
  obtain ⟨-, builder, -, hbuilder⟩ :=
    factory_builders.2 QUARTER_RIGHT_TOP_LOW (by decide) (by decide)
  obtain ⟨hcreate, htype, ⟨polygon, hpolygon, hlen⟩, hflags⟩ := hbuilder sampleBase
  exact ⟨by decide, by decide, _, polygon, hcreate, htype, hpolygon, hlen, hflags⟩

end ArcadeSlopes

namespace ArcadeSlopes

open SAT

/-- On every tile of positive width and height, the builders of all slope types
but `QUARTER_RIGHT_TOP_LOW` and `QUARTER_RIGHT_TOP_HIGH` flag a side
`INTERESTING` exactly when their polygon does not cover it, and leave it
`SOLID` exactly when it does. -/
theorem builders_flags_follow_cover (type : Int) (h0 : 0 ≤ type) (h24 : type ≤ 24)
    (hlow : type ≠ QUARTER_RIGHT_TOP_LOW) (hhigh : type ≠ QUARTER_RIGHT_TOP_HIGH)
    (tile : Tile) (hw : 0 < tile.width) (hh : 0 < tile.height) :
    ∃ builder, newTileSlopeFactory.definition (TypeValue.number type) = some (type, builder) ∧
      FlagsFollowCover (builder type tile) tile := by
  have w1 : tile.width ≠ 0 := ne_of_gt hw
  have w2 : ¬ (0 = tile.width) := fun h => w1 h.symm
  have w3 : ¬ (tile.width / 2 = tile.width) := by intro h; linarith
  have w4 : ¬ (tile.width = tile.width / 2) := by intro h; linarith
  have w5 : ¬ (0 = tile.width / 2) := by intro h; linarith
  have w6 : ¬ (tile.width / 2 = 0) := by intro h; linarith
  have g1 : tile.height ≠ 0 := ne_of_gt hh
  have g2 : ¬ (0 = tile.height) := fun h => g1 h.symm
  have g3 : ¬ (tile.height / 2 = tile.height) := by intro h; linarith
  have g4 : ¬ (tile.height = tile.height / 2) := by intro h; linarith
  have g5 : ¬ (0 = tile.height / 2) := by intro h; linarith
  have g6 : ¬ (tile.height / 2 = 0) := by intro h; linarith
  interval_cases type
  all_goals first
    | exact absurd rfl hlow
    | exact absurd rfl hhigh
    | (refine ⟨_, rfl, _, rfl, ?_⟩
       intro side
       cases side <;>
         simp [createFull, createHalfBottom, createHalfTop, createHalfLeft, createHalfRight,
           createHalfBottomLeft, createHalfBottomRight, createHalfTopLeft, createHalfTopRight,
           createQuarterBottomLeftLow, createQuarterBottomLeftHigh,
           createQuarterBottomRightLow, createQuarterBottomRightHigh,
           createQuarterLeftBottomLow, createQuarterLeftBottomHigh,
           createQuarterRightBottomLow, createQuarterRightBottomHigh, createQuarterLeftTopLow,
           createQuarterLeftTopHigh, createQuarterRightTopLow, createQuarterRightTopHigh,
           createQuarterTopLeftLow, createQuarterTopLeftHigh, createQuarterTopRightLow,
           createQuarterTopRightHigh,
           Edges.flag, CoversSide, Side.corners, newPolygon_points, toPolygon_points,
           Vector.zero, INTERESTING, SOLID, w1, w2, w3, w4, w5, w6, g1, g2, g3, g4, g5, g6])

end ArcadeSlopes

namespace ArcadeSlopes

open SAT

/-- C24 fails for `QUARTER_RIGHT_TOP_LOW` and `QUARTER_RIGHT_TOP_HIGH` on the
16 by 16 sample tile: the polygon of either builder has both right corners of
the tile among its points and lacks a left corner, yet the builder flags the
right side `INTERESTING` and leaves the left side `SOLID`. -/
theorem quarterRightTop_flags :
    newTileSlopeFactory.definition (TypeValue.number QUARTER_RIGHT_TOP_LOW) =
      some (QUARTER_RIGHT_TOP_LOW, createQuarterRightTopLow) ∧
    newTileSlopeFactory.definition (TypeValue.number QUARTER_RIGHT_TOP_HIGH) =
      some (QUARTER_RIGHT_TOP_HIGH, createQuarterRightTopHigh) ∧
    (∃ polygon,
      (createQuarterRightTopLow QUARTER_RIGHT_TOP_LOW sampleBase).polygon = some polygon ∧
      polygon.points = [{ x := 8, y := 0 }, { x := 16, y := 0 }, { x := 16, y := 16 }] ∧
      (createQuarterRightTopLow QUARTER_RIGHT_TOP_LOW sampleBase).edges.flag Side.right =
        INTERESTING ∧
      CoversSide polygon sampleBase Side.right ∧
      (createQuarterRightTopLow QUARTER_RIGHT_TOP_LOW sampleBase).edges.flag Side.left = SOLID ∧
      ¬ CoversSide polygon sampleBase Side.left) ∧
    (∃ polygon,
      (createQuarterRightTopHigh QUARTER_RIGHT_TOP_HIGH sampleBase).polygon = some polygon ∧
      polygon.points =
        [{ x := 0, y := 0 }, { x := 16, y := 0 }, { x := 16, y := 16 }, { x := 8, y := 16 }] ∧
      (createQuarterRightTopHigh QUARTER_RIGHT_TOP_HIGH sampleBase).edges.flag Side.right =
        INTERESTING ∧
      CoversSide polygon sampleBase Side.right ∧
      (createQuarterRightTopHigh QUARTER_RIGHT_TOP_HIGH sampleBase).edges.flag Side.left =
        SOLID ∧
      ¬ CoversSide polygon sampleBase Side.left) ∧
    ¬ FlagsFollowCover (createQuarterRightTopLow QUARTER_RIGHT_TOP_LOW sampleBase) sampleBase ∧
    ¬ FlagsFollowCover (createQuarterRightTopHigh QUARTER_RIGHT_TOP_HIGH sampleBase)
      sampleBase := by
  have hlow : CoversSide
      (newPolygon { x := sampleBase.worldX, y := sampleBase.worldY }
        [{ x := sampleBase.width / 2, y := 0 }, { x := sampleBase.width, y := 0 },
          { x := sampleBase.width, y := sampleBase.height }]) sampleBase Side.right := by
    norm_num [CoversSide, Side.corners, newPolygon_points, sampleBase]
  have hhigh : CoversSide
      (newPolygon { x := sampleBase.worldX, y := sampleBase.worldY }
        [{ x := 0, y := 0 }, { x := sampleBase.width, y := 0 },
          { x := sampleBase.width, y := sampleBase.height },
          { x := sampleBase.width / 2, y := sampleBase.height }]) sampleBase Side.right := by
    norm_num [CoversSide, Side.corners, newPolygon_points, sampleBase]
  refine ⟨rfl, rfl, ⟨_, rfl, ?_, rfl, hlow, rfl, ?_⟩, ⟨_, rfl, ?_, rfl, hhigh, rfl, ?_⟩, ?_, ?_⟩
  · norm_num [newPolygon_points, sampleBase]
  · norm_num [CoversSide, Side.corners, newPolygon_points, sampleBase]
  · norm_num [newPolygon_points, sampleBase]
  · norm_num [CoversSide, Side.corners, newPolygon_points, sampleBase]
  · rintro ⟨polygon, hpolygon, hflags⟩
    have hp : polygon = newPolygon { x := sampleBase.worldX, y := sampleBase.worldY }
        [{ x := sampleBase.width / 2, y := 0 }, { x := sampleBase.width, y := 0 },
          { x := sampleBase.width, y := sampleBase.height }] :=
      (Option.some.inj hpolygon).symm
    subst hp
    exact ((hflags Side.right).1.1 rfl) hlow
  · rintro ⟨polygon, hpolygon, hflags⟩
    have hp : polygon = newPolygon { x := sampleBase.worldX, y := sampleBase.worldY }
        [{ x := 0, y := 0 }, { x := sampleBase.width, y := 0 },
          { x := sampleBase.width, y := sampleBase.height },
          { x := sampleBase.width / 2, y := sampleBase.height }] :=
      (Option.some.inj hpolygon).symm
    subst hp
    exact ((hflags Side.right).1.1 rfl) hhigh

end ArcadeSlopes

namespace ArcadeSlopes

open SAT

/-- The edges `_recalc` derives for a polygon of three points. -/
theorem newPolygon_edges_three (pos a b c : Vector) :
    (newPolygon pos [a, b, c]).edges =
      [{ x := b.x - a.x, y := b.y - a.y }, { x := c.x - b.x, y := c.y - b.y },
        { x := a.x - c.x, y := a.y - c.y }] := by
  have e3 : List.range 3 = [0, 1, 2] := rfl
  simp [newPolygon, Polygon.setPoints, Polygon._recalc, e3, Vector.sub, Vector.zero]

/-- The edges `_recalc` derives for a polygon of four points. -/
theorem newPolygon_edges_four (pos a b c d : Vector) :
    (newPolygon pos [a, b, c, d]).edges =
      [{ x := b.x - a.x, y := b.y - a.y }, { x := c.x - b.x, y := c.y - b.y },
        { x := d.x - c.x, y := d.y - c.y }, { x := a.x - d.x, y := a.y - d.y }] := by
  have e4 : List.range 4 = [0, 1, 2, 3] := rfl
  simp [newPolygon, Polygon.setPoints, Polygon._recalc, e4, Vector.sub, Vector.zero]

/-- A non-negative ratio `p / r`, with `r * r = s`, lies within `e` of `c` when
its square lies between the squares of `c - e` and `c + e`. -/
theorem ratio_close (c p s r e : ℝ) (hr : 0 < r) (hrr : r * r = s) (hp : 0 ≤ p) (hc : e ≤ c)
    (he : 0 ≤ e) (h1 : (c - e) ^ 2 * s ≤ p ^ 2) (h2 : p ^ 2 ≤ (c + e) ^ 2 * s) :
    |c - p / r| ≤ e := by
  have hA : p ≤ (c + e) * r := by
    by_contra hcon
    push_neg at hcon
    have h0 : 0 ≤ (c + e) * r := mul_nonneg (by linarith) hr.le
    have hlt := mul_self_lt_mul_self h0 hcon
    have hX : (c + e) * r * ((c + e) * r) = (c + e) ^ 2 * s := by rw [← hrr]; ring
    nlinarith
  have hB : (c - e) * r ≤ p := by
    by_contra hcon
    push_neg at hcon
    have hlt := mul_self_lt_mul_self hp hcon
    have hX : (c - e) * r * ((c - e) * r) = (c - e) ^ 2 * s := by rw [← hrr]; ring
    nlinarith
  have h3 : p / r ≤ c + e := by
    rw [div_le_iff₀ hr]
    exact hA
  have h4 : c - e ≤ p / r := by
    rw [le_div_iff₀ hr]
    exact hB
  rw [abs_le]
  constructor <;> linarith

/-- A number with a certificate `NearRatio` is within `10^-9` of the ratio. -/
theorem nearRatio_close (c p s : ℚ) (hs : 0 < s) (h : NearRatio c p s) :
    |(c : ℝ) - (p : ℝ) / Real.sqrt (s : ℝ)| ≤ 1 / 1000000000 := by
  have hs' : (0 : ℝ) < (s : ℝ) := by exact_mod_cast hs
  have hr : 0 < Real.sqrt (s : ℝ) := Real.sqrt_pos.mpr hs'
  have hrr : Real.sqrt (s : ℝ) * Real.sqrt (s : ℝ) = (s : ℝ) := Real.mul_self_sqrt hs'.le
  rcases h with ⟨hp, hc, h1, h2⟩ | ⟨hp, hc, h1, h2⟩
  · have hp' : (0 : ℝ) ≤ (p : ℝ) := by exact_mod_cast hp
    have hc' : ((1 / 1000000000 : ℚ) : ℝ) ≤ (c : ℝ) := Rat.cast_le.mpr hc
    have h1' : (((c - 1 / 1000000000) ^ 2 * s : ℚ) : ℝ) ≤ ((p ^ 2 : ℚ) : ℝ) :=
      Rat.cast_le.mpr h1
    have h2' : ((p ^ 2 : ℚ) : ℝ) ≤ (((c + 1 / 1000000000) ^ 2 * s : ℚ) : ℝ) :=
      Rat.cast_le.mpr h2
    push_cast at hc' h1' h2'
    exact ratio_close c p s _ (1 / 1000000000) hr hrr hp' hc' (by norm_num) h1' h2'
  · have hp0 : (p : ℝ) ≤ 0 := by exact_mod_cast hp
    have hc0 : (c : ℝ) ≤ ((-(1 / 1000000000) : ℚ) : ℝ) := Rat.cast_le.mpr hc
    have h1' : (((c + 1 / 1000000000) ^ 2 * s : ℚ) : ℝ) ≤ ((p ^ 2 : ℚ) : ℝ) :=
      Rat.cast_le.mpr h1
    have h2' : ((p ^ 2 : ℚ) : ℝ) ≤ (((c - 1 / 1000000000) ^ 2 * s : ℚ) : ℝ) :=
      Rat.cast_le.mpr h2
    push_cast at hc0 h1' h2'
    have key := ratio_close (-(c : ℝ)) (-(p : ℝ)) s _ (1 / 1000000000) hr hrr (by linarith)
      (by linarith) (by norm_num) (by nlinarith) (by nlinarith)
    have heq : -(c : ℝ) - -(p : ℝ) / Real.sqrt (s : ℝ) =
        -((c : ℝ) - (p : ℝ) / Real.sqrt (s : ℝ)) := by ring
    rw [heq, abs_neg] at key
    exact key

/-- From a direction `(p, q)` with rational components that is perpendicular
to the edge `i` of a polygon and points away from all its points, the unit
normal of that edge pointing out of the polygon, and the preferred axis that
lies within `10^-9` of it in each component. -/
theorem outward_normal_close (polygon : Polygon) (axis : Vector) (i : Nat) (p q : ℚ)
    (hs : 0 < p * p + q * q)
    (hperp : p * (polygon.edges.getD i Vector.zero).x +
      q * (polygon.edges.getD i Vector.zero).y = 0)
    (hout : ∀ point ∈ polygon.points,
      p * (point.x - (polygon.points.getD i Vector.zero).x) +
        q * (point.y - (polygon.points.getD i Vector.zero).y) ≤ 0)
    (hx : NearRatio axis.x p (p * p + q * q)) (hy : NearRatio axis.y q (p * p + q * q)) :
    ∃ n : ℝ × ℝ, IsOutwardUnitNormal polygon i n ∧
      |(axis.x : ℝ) - n.1| ≤ 1 / 1000000000 ∧ |(axis.y : ℝ) - n.2| ≤ 1 / 1000000000 := by
  have hs' : (0 : ℝ) < ((p * p + q * q : ℚ) : ℝ) := by exact_mod_cast hs
  have hr : 0 < Real.sqrt ((p * p + q * q : ℚ) : ℝ) := Real.sqrt_pos.mpr hs'
  have hrr : Real.sqrt ((p * p + q * q : ℚ) : ℝ) * Real.sqrt ((p * p + q * q : ℚ) : ℝ) =
      (p : ℝ) * p + q * q := by
    rw [Real.mul_self_sqrt hs'.le]
    push_cast
    ring
  refine ⟨((p : ℝ) / Real.sqrt ((p * p + q * q : ℚ) : ℝ),
    (q : ℝ) / Real.sqrt ((p * p + q * q : ℚ) : ℝ)), ⟨?_, ?_, ?_⟩,
    nearRatio_close _ _ _ hs hx, nearRatio_close _ _ _ hs hy⟩
  · show (p : ℝ) / _ * ((p : ℝ) / _) + (q : ℝ) / _ * ((q : ℝ) / _) = 1
    rw [div_mul_div_comm, div_mul_div_comm, ← add_div, hrr]
    exact div_self (by rw [← hrr]; exact (mul_pos hr hr).ne')
  · show (p : ℝ) / _ * _ + (q : ℝ) / _ * _ = 0
    have h : (p : ℝ) * ((polygon.edges.getD i Vector.zero).x : ℝ) +
        q * ((polygon.edges.getD i Vector.zero).y : ℝ) = 0 := by exact_mod_cast hperp
    rw [div_mul_eq_mul_div, div_mul_eq_mul_div, ← add_div, h, zero_div]
  · intro point hpoint
    show (p : ℝ) / _ * _ + (q : ℝ) / _ * _ ≤ 0
    have h : (p : ℝ) * ((point.x - (polygon.points.getD i Vector.zero).x : ℚ) : ℝ) +
        q * ((point.y - (polygon.points.getD i Vector.zero).y : ℚ) : ℝ) ≤ 0 := by
      exact_mod_cast hout point hpoint
    rw [div_mul_eq_mul_div, div_mul_eq_mul_div, ← add_div]
    exact div_nonpos_of_nonpos_of_nonneg h hr.le

end ArcadeSlopes

namespace ArcadeSlopes

open SAT

/-- C25: on a square tile, each of the five rectangular types `FULL`,
`HALF_BOTTOM`, `HALF_TOP`, `HALF_LEFT` and `HALF_RIGHT` is built with no
preferred axis, and each of the twenty sloped types, 1 to 20, is built with a
preferred axis that lies within `10^-9`, in each component, of the unit normal
of the one sloped edge of its polygon that points out of the polygon; the
squared length of the axis is within `10^-9` of one. -/
theorem builders_axis (tile : Tile) (hw : 0 < tile.width) (hsquare : tile.height = tile.width) :
    (∀ type ∈ [FULL, HALF_BOTTOM, HALF_TOP, HALF_LEFT, HALF_RIGHT],
      ∃ builder, newTileSlopeFactory.definition (TypeValue.number type) = some (type, builder) ∧
        (builder type tile).axis = none) ∧
    ∀ type : Int, 1 ≤ type → type ≤ 20 →
      ∃ builder polygon axis i,
        newTileSlopeFactory.definition (TypeValue.number type) = some (type, builder) ∧
        (builder type tile).polygon = some polygon ∧ (builder type tile).axis = some axis ∧
        IsSlopedEdge polygon i ∧
        (∃ n : ℝ × ℝ, IsOutwardUnitNormal polygon i n ∧
          |(axis.x : ℝ) - n.1| ≤ 1 / 1000000000 ∧ |(axis.y : ℝ) - n.2| ≤ 1 / 1000000000) ∧
        |axis.len2 - 1| ≤ 1 / 1000000000 := by
  have w1 : tile.width ≠ 0 := ne_of_gt hw
  refine ⟨?_, ?_⟩
  · intro type htype
    simp only [List.mem_cons, List.mem_singleton, List.not_mem_nil, or_false] at htype
    rcases htype with rfl | rfl | rfl | rfl | rfl <;> exact ⟨_, rfl, rfl⟩
  · intro type h1 h20
    interval_cases type <;>
      [refine ⟨_, _, _, 0, rfl, rfl, rfl, ?_,
        outward_normal_close _ _ 0 1 (-1) (by norm_num) ?_ ?_ ?_ ?_, ?_⟩;
       refine ⟨_, _, _, 2, rfl, rfl, rfl, ?_,
        outward_normal_close _ _ 2 (-1) (-1) (by norm_num) ?_ ?_ ?_ ?_, ?_⟩;
       refine ⟨_, _, _, 1, rfl, rfl, rfl, ?_,
        outward_normal_close _ _ 1 1 1 (by norm_num) ?_ ?_ ?_ ?_, ?_⟩;
       refine ⟨_, _, _, 2, rfl, rfl, rfl, ?_,
        outward_normal_close _ _ 2 (-1) 1 (by norm_num) ?_ ?_ ?_ ?_, ?_⟩;
       refine ⟨_, _, _, 0, rfl, rfl, rfl, ?_,
        outward_normal_close _ _ 0 1 (-2) (by norm_num) ?_ ?_ ?_ ?_, ?_⟩;
       refine ⟨_, _, _, 0, rfl, rfl, rfl, ?_,
        outward_normal_close _ _ 0 1 (-2) (by norm_num) ?_ ?_ ?_ ?_, ?_⟩;
       refine ⟨_, _, _, 2, rfl, rfl, rfl, ?_,
        outward_normal_close _ _ 2 (-1) (-2) (by norm_num) ?_ ?_ ?_ ?_, ?_⟩;
       refine ⟨_, _, _, 0, rfl, rfl, rfl, ?_,
        outward_normal_close _ _ 0 (-1) (-2) (by norm_num) ?_ ?_ ?_ ?_, ?_⟩;
       refine ⟨_, _, _, 1, rfl, rfl, rfl, ?_,
        outward_normal_close _ _ 1 2 (-1) (by norm_num) ?_ ?_ ?_ ?_, ?_⟩;
       refine ⟨_, _, _, 0, rfl, rfl, rfl, ?_,
        outward_normal_close _ _ 0 2 (-1) (by norm_num) ?_ ?_ ?_ ?_, ?_⟩;
       refine ⟨_, _, _, 3, rfl, rfl, rfl, ?_,
        outward_normal_close _ _ 3 (-2) (-1) (by norm_num) ?_ ?_ ?_ ?_, ?_⟩;
       refine ⟨_, _, _, 2, rfl, rfl, rfl, ?_,
        outward_normal_close _ _ 2 (-2) (-1) (by norm_num) ?_ ?_ ?_ ?_, ?_⟩;
       refine ⟨_, _, _, 1, rfl, rfl, rfl, ?_,
        outward_normal_close _ _ 1 2 1 (by norm_num) ?_ ?_ ?_ ?_, ?_⟩;
       refine ⟨_, _, _, 1, rfl, rfl, rfl, ?_,
        outward_normal_close _ _ 1 2 1 (by norm_num) ?_ ?_ ?_ ?_, ?_⟩;
       refine ⟨_, _, _, 2, rfl, rfl, rfl, ?_,
        outward_normal_close _ _ 2 (-2) 1 (by norm_num) ?_ ?_ ?_ ?_, ?_⟩;
       refine ⟨_, _, _, 3, rfl, rfl, rfl, ?_,
        outward_normal_close _ _ 3 (-2) 1 (by norm_num) ?_ ?_ ?_ ?_, ?_⟩;
       refine ⟨_, _, _, 1, rfl, rfl, rfl, ?_,
        outward_normal_close _ _ 1 1 2 (by norm_num) ?_ ?_ ?_ ?_, ?_⟩;
       refine ⟨_, _, _, 2, rfl, rfl, rfl, ?_,
        outward_normal_close _ _ 2 1 2 (by norm_num) ?_ ?_ ?_ ?_, ?_⟩;
       refine ⟨_, _, _, 2, rfl, rfl, rfl, ?_,
        outward_normal_close _ _ 2 (-1) 2 (by norm_num) ?_ ?_ ?_ ?_, ?_⟩;
       refine ⟨_, _, _, 2, rfl, rfl, rfl, ?_,
        outward_normal_close _ _ 2 (-1) 2 (by norm_num) ?_ ?_ ?_ ?_, ?_⟩]
    all_goals first
      | (simp only [IsSlopedEdge, newPolygon_edges_three, newPolygon_edges_four, hsquare,
          List.length_cons, List.length_nil, List.getD_cons_zero, List.getD_cons_succ]
         refine ⟨by norm_num, by intro h; linarith, by intro h; linarith, ?_⟩
         intro j hj hne
         interval_cases j <;> simp_all)
      | (simp only [newPolygon_edges_three, newPolygon_edges_four, hsquare,
          List.getD_cons_zero, List.getD_cons_succ]
         ring1)
      | (simp only [newPolygon_points, hsquare, List.mem_cons, List.mem_singleton,
          List.getD_cons_zero, List.getD_cons_succ, List.not_mem_nil, or_false,
          forall_eq_or_imp, forall_eq]
         first
           | (refine ⟨?_, ?_, ?_, ?_⟩ <;> linarith)
           | (refine ⟨?_, ?_, ?_⟩ <;> linarith))
      | (norm_num [NearRatio]; done)
      | norm_num [Vector.len2, Vector.dot, abs_le]

/-- C25 on the 16 by 16 sample tile: `FULL` is built with no preferred axis,
and `QUARTER_BOTTOM_RIGHT_HIGH` with an axis whose squared length is within
`10^-9` of one. -/
theorem builders_axis_witness :
    (0 : ℚ) < sampleBase.width ∧ sampleBase.height = sampleBase.width ∧
    (createFull FULL sampleBase).axis = none ∧
    ∃ axis, (createQuarterBottomRightHigh QUARTER_BOTTOM_RIGHT_HIGH sampleBase).axis =
        some axis ∧ |axis.len2 - 1| ≤ 1 / 1000000000 := by
  have hw : (0 : ℚ) < sampleBase.width := by norm_num [sampleBase]
  obtain ⟨hrect, hsloped⟩ := builders_axis sampleBase hw rfl
  obtain ⟨builder, hbuilder, haxis⟩ := hrect FULL (by simp)
  have hb : builder = createFull := by
    have h : newTileSlopeFactory.definition (TypeValue.number FULL) =
        some (FULL, createFull) := rfl
    rw [h] at hbuilder
    exact (Prod.mk.inj (Option.some.inj hbuilder)).2.symm
  subst hb
  obtain ⟨builder', polygon, axis, i, hbuilder', -, haxis', -, -, hlen⟩ :=
    hsloped 8 (by norm_num) (by norm_num)
  have hb' : builder' = createQuarterBottomRightHigh := by
    have h : newTileSlopeFactory.definition (TypeValue.number 8) =
        some (8, createQuarterBottomRightHigh) := rfl
    rw [h] at hbuilder'
    exact (Prod.mk.inj (Option.some.inj hbuilder')).2.symm
  subst hb'
  exact ⟨hw, rfl, haxis, axis, haxis', hlen⟩

end ArcadeSlopes

namespace ArcadeSlopes

open SAT

/-- The shoelace sum of three points. -/
theorem shoelace_three (a b c : Vector) :
    shoelace [a, b, c] =
      (a.x * b.y - b.x * a.y) + ((b.x * c.y - c.x * b.y) + (c.x * a.y - a.x * c.y)) := by
  have e3 : List.range 3 = [0, 1, 2] := rfl
  simp [shoelace, e3]

/-- The shoelace sum of four points. -/
theorem shoelace_four (a b c d : Vector) :
    shoelace [a, b, c, d] =
      (a.x * b.y - b.x * a.y) + ((b.x * c.y - c.x * b.y) +
        ((c.x * d.y - d.x * c.y) + (d.x * a.y - a.x * d.y))) := by
  have e4 : List.range 4 = [0, 1, 2, 3] := rfl
  simp [shoelace, e4]

/-- On every tile of positive width and height, the builders of all slope types
but `QUARTER_BOTTOM_RIGHT_HIGH` list the points of their polygon in the
rotational order of `Box.toPolygon`: the shoelace sum is positive, as that of
the box is. -/
theorem builders_winding (type : Int) (h0 : 0 ≤ type) (h24 : type ≤ 24)
    (hne : type ≠ QUARTER_BOTTOM_RIGHT_HIGH)
    (tile : Tile) (hw : 0 < tile.width) (hh : 0 < tile.height) :
    ∃ builder polygon,
      newTileSlopeFactory.definition (TypeValue.number type) = some (type, builder) ∧
      (builder type tile).polygon = some polygon ∧ 0 < shoelace polygon.points := by
  have hwh : 0 < tile.width * tile.height := mul_pos hw hh
  interval_cases type
  all_goals first
    | exact absurd rfl hne
    | (refine ⟨_, _, rfl, rfl, ?_⟩
       simp only [createFull, createHalfBottom, createHalfTop, createHalfLeft, createHalfRight,
           createHalfBottomLeft, createHalfBottomRight, createHalfTopLeft, createHalfTopRight,
           createQuarterBottomLeftLow, createQuarterBottomLeftHigh,
           createQuarterBottomRightLow, createQuarterBottomRightHigh,
           createQuarterLeftBottomLow, createQuarterLeftBottomHigh,
           createQuarterRightBottomLow, createQuarterRightBottomHigh, createQuarterLeftTopLow,
           createQuarterLeftTopHigh, createQuarterRightTopLow, createQuarterRightTopHigh,
           createQuarterTopLeftLow, createQuarterTopLeftHigh, createQuarterTopRightLow,
           createQuarterTopRightHigh,
           newPolygon_points, toPolygon_points, shoelace_three, shoelace_four, Vector.zero]
       ring_nf
       nlinarith [hwh])

end ArcadeSlopes

namespace ArcadeSlopes

open SAT

/-- C29 fails for `QUARTER_BOTTOM_RIGHT_HIGH` on the 16 by 16 sample tile: the
builder lists the points top right, centre left, bottom left, bottom right,
the other way round than `Box.toPolygon` lists the corners of the box: the
shoelace sum of its polygon is `-384`, that of the box is `512`. -/
theorem quarterBottomRightHigh_winding :
    newTileSlopeFactory.definition (TypeValue.number QUARTER_BOTTOM_RIGHT_HIGH) =
      some (QUARTER_BOTTOM_RIGHT_HIGH, createQuarterBottomRightHigh) ∧
    (∃ polygon,
      (createQuarterBottomRightHigh QUARTER_BOTTOM_RIGHT_HIGH sampleBase).polygon =
        some polygon ∧
      polygon.points =
        [{ x := 16, y := 0 }, { x := 0, y := 8 }, { x := 0, y := 16 }, { x := 16, y := 16 }] ∧
      shoelace polygon.points = -384) ∧
    (Box.toPolygon { w := 16, h := 16 }).points =
      [{ x := 0, y := 0 }, { x := 16, y := 0 }, { x := 16, y := 16 }, { x := 0, y := 16 }] ∧
    shoelace (Box.toPolygon { w := 16, h := 16 }).points = 512 := by
  refine ⟨rfl, ⟨_, rfl, ?_, ?_⟩, rfl, ?_⟩
  · norm_num [newPolygon_points, sampleBase]
  · norm_num [newPolygon_points, sampleBase, shoelace_four]
  · norm_num [toPolygon_points, shoelace_four, Vector.zero]

end ArcadeSlopes

namespace ArcadeSlopes

open SAT

/-- Whatever the tile's own callback answers, a layer callback that answers
false makes `separate` return false below the gate, with the body as it
was. -/
theorem separateUngated_layer_veto (options : SolverOptions) (callbacks : Callbacks)
    (body : Body) (tile : Tile) (response : Response) (callback : Body → Tile → Bool)
    (hlayer : callbacks.layerCallback = some callback) (hveto : callback body tile = false) :
    separateUngated options callbacks body tile response = some (false, body) := by
  unfold separateUngated
  simp only [hlayer, hveto, Bool.not_false, if_true]
  split_ifs <;> rfl

/-- C31 fails on a tile whose own callback answers true and whose layer
callback answers false: `separate`, even when forced, returns false and leaves
the body where it was, although without the layer callback the same call
moves the body.  The `else if` of the source is reached whenever its first
condition is false, which it is when the tile's own callback returns a truthy
value. -/
theorem separate_layer_veto :
    (∃ callback, sampleLayerVeto.collisionCallback = some callback ∧
      callback sampleUnitBody sampleUnitTile = true) ∧
    separate {} [] sampleLayerVeto sampleUnitBody sampleUnitTile sampleHalfOverlap true =
      some (false, sampleUnitBody) ∧
    (∃ moved, moved ≠ sampleUnitBody ∧
      separate {} [] { sampleLayerVeto with layerCallback := none } sampleUnitBody
        sampleUnitTile sampleHalfOverlap true = some (true, moved)) := by
  refine ⟨⟨_, rfl, rfl⟩, ?_, ?_⟩
  · simp only [separate, if_true]
    exact separateUngated_layer_veto _ _ _ _ _ (fun _ _ => false) rfl rfl
  · refine ⟨{ sampleUnitBody with position := { x := 1 / 2, y := 0 } }, ?_, ?_⟩
    · intro h
      have := congrArg (fun b => b.position.x) h
      norm_num [sampleUnitBody, Vector.zero] at this
    · norm_num [separate, separateUngated, sampleLayerVeto, shouldPreferY, sampleUnitBody, Vector.zero,
        sampleHalfOverlap]

end ArcadeSlopes

namespace ArcadeSlopes

/-- C32 fails on the locations `top`, `left`, `bottom`: no slope type is in all
three vertex maps (none is in both `topVertices` and `leftVertices`), yet
`resolve` returns the six types of `bottomVertices`.  The loop takes an empty
running intersection for "no types yet" and starts again from the next
map. -/
theorem resolve_restarts :
    vertexMap "top" = some topVertices ∧ vertexMap "left" = some leftVertices ∧
    vertexMap "bottom" = some bottomVertices ∧
    intersectArrays topVertices leftVertices = [] ∧
    (∀ type, ¬ (type ∈ topVertices ∧ type ∈ leftVertices ∧ type ∈ bottomVertices)) ∧
    resolve ["top", "left", "bottom"] = bottomVertices ∧
    "HALF_LEFT" ∈ resolve ["top", "left", "bottom"] ∧ "HALF_LEFT" ∉ leftVertices := by
  refine ⟨by rfl, by rfl, by rfl, by rfl, ?_, by rfl, by decide, by decide⟩
  intro type h
  have hall : ∀ t ∈ topVertices, t ∉ leftVertices := by decide
  exact hall type h.1 h.2.1

end ArcadeSlopes

namespace ArcadeSlopes

/-- `resolveType` returns a number above `-1` as it is. -/
theorem resolveType_number (n : Int) (hn : 0 ≤ n) :
    resolveType (TypeValue.number n) = TypeValue.number n := by
  have h : n > -1 := by omega
  simp [resolveType, h]

/-- `resolveTypeName` of a value that is no key of `typeNames` is the name
under `-1`. -/
theorem resolveTypeName_unlisted (value : TypeValue)
    (hvalue : ∀ entry ∈ typeNames, value.isKeyOf entry.1 = false) :
    resolveTypeName value = "UNKNOWN" := by
  have hfind : (typeNames.find? fun entry => value.isKeyOf entry.1) = none := by
    rw [List.find?_eq_none]
    intro entry hentry
    simp [hvalue entry hentry]
  unfold resolveTypeName
  rw [hfind]
  rfl

/-- C33: the table of type names and the type constants agree.  Every entry
`(c, name)` of `typeNames` has `resolveType name = c` and
`resolveTypeName c = name`, so the two resolve each other; no constant and no
name is listed twice; `resolveType` returns every integer `n ≥ 0` unchanged;
and `resolveTypeName` of a value that is no key of the table is
`UNKNOWN`. -/
theorem typeNames_agree :
    (∀ entry ∈ typeNames,
      resolveType (TypeValue.string entry.2) = TypeValue.number entry.1 ∧
      resolveTypeName (TypeValue.number entry.1) = entry.2 ∧
      resolveTypeName (resolveType (TypeValue.string entry.2)) = entry.2) ∧
    (typeNames.map Prod.fst).Nodup ∧ (typeNames.map Prod.snd).Nodup ∧
    (∀ n : Int, 0 ≤ n → resolveType (TypeValue.number n) = TypeValue.number n) ∧
    (∀ value : TypeValue, (∀ entry ∈ typeNames, value.isKeyOf entry.1 = false) →
      resolveTypeName value = "UNKNOWN") := by
  refine ⟨?_, by decide, by decide, resolveType_number, resolveTypeName_unlisted⟩
  intro entry hentry
  simp only [typeNames, List.mem_cons, List.mem_singleton, List.not_mem_nil, or_false] at hentry
  rcases hentry with h | h | h | h | h | h | h | h | h | h | h | h | h | h | h | h | h | h | h |
    h | h | h | h | h | h | h <;> subst h <;> exact ⟨by rfl, by rfl, by rfl⟩

/-- C33 at the entry `(8, QUARTER_BOTTOM_RIGHT_HIGH)`, the number `30`, which
is not a slope type, and the text `slope`. -/
theorem typeNames_agree_witness :
    ((8 : Int), "QUARTER_BOTTOM_RIGHT_HIGH") ∈ typeNames ∧
    resolveType (TypeValue.string "QUARTER_BOTTOM_RIGHT_HIGH") = TypeValue.number 8 ∧
    resolveTypeName (TypeValue.number 8) = "QUARTER_BOTTOM_RIGHT_HIGH" ∧
    resolveType (TypeValue.number 30) = TypeValue.number 30 ∧
    resolveTypeName (TypeValue.number 30) = "UNKNOWN" ∧
    resolveTypeName (TypeValue.string "slope") = "UNKNOWN" := by
  have hentry : ((8 : Int), "QUARTER_BOTTOM_RIGHT_HIGH") ∈ typeNames := by decide
  obtain ⟨hentries, -, -, hnumber, hunlisted⟩ := typeNames_agree
  exact ⟨hentry, (hentries _ hentry).1, (hentries _ hentry).2.1, hnumber 30 (by decide),
    hunlisted (TypeValue.number 30) (by decide), hunlisted (TypeValue.string "slope") (by decide)⟩

end ArcadeSlopes

namespace ArcadeSlopes

open SAT

/-- `shouldPreferY` answers true only for an overlap vector with `y ≠ 0`. -/
theorem shouldPreferY_y_ne (options : SolverOptions) (body : Body) (response : Response)
    (hprefer : shouldPreferY options body response = some true) : response.overlapV.y ≠ 0 := by
  intro hy
  unfold shouldPreferY at hprefer
  simp only [hy, ne_eq, not_true_eq_false, decide_False, Bool.and_false, Bool.false_and] at hprefer
  split at hprefer <;> exact absurd hprefer (by simp)

/-- With an overlap vector of `y = 0`, `separate` below its gate does not take
the branch of `minimumOffsetY`: when it returns true the body has moved by the
overlap vector itself. -/
theorem separateUngated_y_zero (options : SolverOptions) (callbacks : Callbacks)
    (body : Body) (tile : Tile) (response : Response) (moved : Body)
    (hy : response.overlapV.y = 0)
    (hresult : separateUngated options callbacks body tile response = some (true, moved)) :
    moved = { body with
      position := { x := body.position.x + response.overlapV.x
                    y := body.position.y + response.overlapV.y } } := by
  unfold separateUngated at hresult
  simp only at hresult
  split_ifs at hresult
  · exact absurd hresult (by simp)
  · exact absurd hresult (by simp)
  · split at hresult
    · exact absurd hresult (by simp)
    · next hprefer => exact absurd hy (shouldPreferY_y_ne _ _ _ hprefer)
    · simp only [Option.some.injEq, Prod.mk.injEq, true_and] at hresult
      exact hresult.symm

/-- C35: for an overlap vector `v` with `v.y ≠ 0` the displacement
`(0, minimumOffsetY v)` has the same projection onto `v` as `v` has:
`minimumOffsetY v * v.y = v.x² + v.y²`; likewise
`minimumOffsetX v * v.x = v.x² + v.y²` when `v.x ≠ 0`; and `separate` moves the
body by `minimumOffsetY` only when `shouldPreferY` answers true, which it does
only for an overlap vector with `y ≠ 0`: with `y = 0` a call that returns true
has moved the body it was left with by its gate (the body it was given, when
forced) by the overlap vector itself. -/
theorem minimumOffset_projection (v : Vector) :
    (v.y ≠ 0 → minimumOffsetY v * v.y = v.x ^ 2 + v.y ^ 2 ∧
      Vector.dot { x := 0, y := minimumOffsetY v } v = Vector.dot v v) ∧
    (v.x ≠ 0 → minimumOffsetX v * v.x = v.x ^ 2 + v.y ^ 2 ∧
      Vector.dot { x := minimumOffsetX v, y := 0 } v = Vector.dot v v) ∧
    (∀ (options : SolverOptions) (restrainers : List (Restrainer Body)) (callbacks : Callbacks)
      (body : Body) (tile : Tile) (response : Response) (force : Bool),
      (shouldPreferY options body response = some true → response.overlapV.y ≠ 0) ∧
      (response.overlapV = v → v.y = 0 → ∀ moved,
        separate options restrainers callbacks body tile response force = some (true, moved) →
        ∃ gated, (force = true → gated = body) ∧
          moved = { gated with
            position := { x := gated.position.x + v.x, y := gated.position.y + v.y } })) := by
  refine ⟨?_, ?_, ?_⟩
  · intro hy
    have h : minimumOffsetY v * v.y = v.x ^ 2 + v.y ^ 2 := by
      unfold minimumOffsetY
      field_simp
      ring
    refine ⟨h, ?_⟩
    simp only [Vector.dot, zero_mul, zero_add]
    rw [h]
    ring
  · intro hx
    have h : minimumOffsetX v * v.x = v.x ^ 2 + v.y ^ 2 := by
      unfold minimumOffsetX
      field_simp
      ring
    refine ⟨h, ?_⟩
    simp only [Vector.dot, zero_mul, add_zero]
    rw [h]
    ring
  · intro options restrainers callbacks body tile response force
    refine ⟨shouldPreferY_y_ne options body response, ?_⟩
    intro hv hy moved hresult
    subst hv
    unfold separate at hresult
    simp only at hresult
    split at hresult
    · exact absurd hresult (by simp)
    · exact absurd hresult (by simp)
    · next gated hgate =>
      refine ⟨gated, ?_, separateUngated_y_zero _ _ _ _ _ _ hy hresult⟩
      intro hforce
      subst hforce
      simp only [if_true, Option.some.injEq, Prod.mk.injEq, true_and] at hgate
      exact hgate.symm

/-- C35 at the overlap vectors `(3, 4)` and `(1/2, 0)`: the vertical
displacement for the first is `25/4`, and with the second the forced `separate`
of the sample body moves it by `(1/2, 0)`. -/
theorem minimumOffset_projection_witness :
    minimumOffsetY { x := 3, y := 4 } = 25 / 4 ∧
    minimumOffsetY { x := 3, y := 4 } * 4 = 3 ^ 2 + 4 ^ 2 ∧
    sampleHalfOverlap.overlapV.y = 0 ∧
    ∃ moved gated, separate {} [] {} sampleUnitBody sampleUnitTile sampleHalfOverlap true =
        some (true, moved) ∧ gated = sampleUnitBody ∧
      moved = { gated with
        position := { x := gated.position.x + 1 / 2, y := gated.position.y + 0 } } := by
  have hfirst := (minimumOffset_projection { x := 3, y := 4 }).1 (by norm_num)
  have hsep : separate {} [] {} sampleUnitBody sampleUnitTile sampleHalfOverlap true =
      some (true, { sampleUnitBody with position := { x := 1 / 2, y := 0 } }) := by
    norm_num [separate, separateUngated, shouldPreferY, sampleUnitBody, sampleHalfOverlap,
      Vector.zero]
  obtain ⟨gated, hgated, hmoved⟩ :=
    ((minimumOffset_projection { x := 1 / 2, y := 0 }).2.2 {} [] {} sampleUnitBody
      sampleUnitTile sampleHalfOverlap true).2 rfl rfl _ hsep
  refine ⟨by norm_num [minimumOffsetY], hfirst.1, rfl, _, gated, hsep, hgated rfl, hmoved⟩

end ArcadeSlopes

namespace ArcadeSlopes

open SAT

/-- On every tile of positive width and height, and for every slope type and
location but three pairs, the vertex map of the location lists the type exactly
when the polygon its builder makes has a vertex there.  The three pairs are
`QUARTER_TOP_RIGHT_LOW` at the top left, `QUARTER_LEFT_TOP_LOW` at the bottom
left and `QUARTER_RIGHT_TOP_LOW` at the bottom right. -/
theorem vertexMaps_follow_builders (type : Int) (h0 : 0 ≤ type) (h24 : type ≤ 24)
    (location : Location)
    (h1 : ¬ (type = QUARTER_TOP_RIGHT_LOW ∧ location = Location.topLeft))
    (h2 : ¬ (type = QUARTER_LEFT_TOP_LOW ∧ location = Location.bottomLeft))
    (h3 : ¬ (type = QUARTER_RIGHT_TOP_LOW ∧ location = Location.bottomRight))
    (tile : Tile) (hw : 0 < tile.width) (hh : 0 < tile.height) :
    ∃ builder, newTileSlopeFactory.definition (TypeValue.number type) = some (type, builder) ∧
      (listedAt type location = true ↔ HasVertexAt (builder type tile) tile location) := by
  have w1 : tile.width ≠ 0 := ne_of_gt hw
  have w2 : ¬ (0 = tile.width) := fun h => w1 h.symm
  have w3 : ¬ (tile.width / 2 = tile.width) := by intro h; linarith
  have w4 : ¬ (tile.width = tile.width / 2) := by intro h; linarith
  have w5 : ¬ (0 = tile.width / 2) := by intro h; linarith
  have w6 : ¬ (tile.width / 2 = 0) := by intro h; linarith
  have g1 : tile.height ≠ 0 := ne_of_gt hh
  have g2 : ¬ (0 = tile.height) := fun h => g1 h.symm
  have g3 : ¬ (tile.height / 2 = tile.height) := by intro h; linarith
  have g4 : ¬ (tile.height = tile.height / 2) := by intro h; linarith
  have g5 : ¬ (0 = tile.height / 2) := by intro h; linarith
  have g6 : ¬ (tile.height / 2 = 0) := by intro h; linarith
  interval_cases type <;> cases location
  all_goals first
    | (exfalso; apply h1; constructor <;> rfl)
    | (exfalso; apply h2; constructor <;> rfl)
    | (exfalso; apply h3; constructor <;> rfl)
    | (refine ⟨_, rfl, fun _ => ⟨_, rfl, ?_⟩, fun _ => by decide⟩
       simp [Location.point, newPolygon_points, toPolygon_points, Vector.zero])
    | (refine ⟨_, rfl, fun h => absurd h (by decide), fun h => ?_⟩
       exfalso
       obtain ⟨polygon, hpolygon, hmem⟩ := h
       simp only [createFull, createHalfBottom, createHalfTop, createHalfLeft, createHalfRight,
           createHalfBottomLeft, createHalfBottomRight, createHalfTopLeft, createHalfTopRight,
           createQuarterBottomLeftLow, createQuarterBottomLeftHigh,
           createQuarterBottomRightLow, createQuarterBottomRightHigh,
           createQuarterLeftBottomLow, createQuarterLeftBottomHigh,
           createQuarterRightBottomLow, createQuarterRightBottomHigh, createQuarterLeftTopLow,
           createQuarterLeftTopHigh, createQuarterRightTopLow, createQuarterRightTopHigh,
           createQuarterTopLeftLow, createQuarterTopLeftHigh, createQuarterTopRightLow,
           createQuarterTopRightHigh, Option.some.injEq] at hpolygon
       subst hpolygon
       simp [Location.point, newPolygon_points, toPolygon_points, Vector.zero,
         w1, w2, w3, w4, w5, w6, g1, g2, g3, g4, g5, g6] at hmem)

/-- C34 fails for three slope types on the 16 by 16 sample tile: the polygon of
`QUARTER_TOP_RIGHT_LOW` has a vertex at the top left corner and
`topLeftVertices` does not list the type; that of `QUARTER_LEFT_TOP_LOW` has one
at the bottom left corner and `bottomLeftVertices` does not list it; that of
`QUARTER_RIGHT_TOP_LOW` has one at the bottom right corner and
`bottomRightVertices` does not list it. -/
theorem vertexMaps_omissions :
    newTileSlopeFactory.definition (TypeValue.number QUARTER_TOP_RIGHT_LOW) =
      some (QUARTER_TOP_RIGHT_LOW, createQuarterTopRightLow) ∧
    newTileSlopeFactory.definition (TypeValue.number QUARTER_LEFT_TOP_LOW) =
      some (QUARTER_LEFT_TOP_LOW, createQuarterLeftTopLow) ∧
    newTileSlopeFactory.definition (TypeValue.number QUARTER_RIGHT_TOP_LOW) =
      some (QUARTER_RIGHT_TOP_LOW, createQuarterRightTopLow) ∧
    HasVertexAt (createQuarterTopRightLow QUARTER_TOP_RIGHT_LOW sampleBase) sampleBase
      Location.topLeft ∧
    "QUARTER_TOP_RIGHT_LOW" ∉ topLeftVertices ∧
    listedAt QUARTER_TOP_RIGHT_LOW Location.topLeft = false ∧
    HasVertexAt (createQuarterLeftTopLow QUARTER_LEFT_TOP_LOW sampleBase) sampleBase
      Location.bottomLeft ∧
    "QUARTER_LEFT_TOP_LOW" ∉ bottomLeftVertices ∧
    listedAt QUARTER_LEFT_TOP_LOW Location.bottomLeft = false ∧
    HasVertexAt (createQuarterRightTopLow QUARTER_RIGHT_TOP_LOW sampleBase) sampleBase
      Location.bottomRight ∧
    "QUARTER_RIGHT_TOP_LOW" ∉ bottomRightVertices ∧
    listedAt QUARTER_RIGHT_TOP_LOW Location.bottomRight = false := by
  refine ⟨rfl, rfl, rfl, ⟨_, rfl, ?_⟩, by decide, by decide, ⟨_, rfl, ?_⟩, by decide, by decide,
    ⟨_, rfl, ?_⟩, by decide, by decide⟩
  · simp [Location.point, newPolygon_points]
  · simp [Location.point, newPolygon_points]
  · simp [Location.point, newPolygon_points]

end ArcadeSlopes

namespace ArcadeSlopes

open SAT

/-- The cross products of consecutive edges, for three edges. -/
theorem edgeTurns_three (a b c : Vector) :
    edgeTurns [a, b, c] = [cross a b, cross b c, cross c a] := by
  have e3 : List.range 3 = [0, 1, 2] := rfl
  simp [edgeTurns, e3]

/-- The cross products of consecutive edges, for four edges. -/
theorem edgeTurns_four (a b c d : Vector) :
    edgeTurns [a, b, c, d] = [cross a b, cross b c, cross c d, cross d a] := by
  have e4 : List.range 4 = [0, 1, 2, 3] := rfl
  simp [edgeTurns, e4]

/-- The edges of the polygon of a box. -/
theorem toPolygon_edges (box : Box) :
    (Box.toPolygon box).edges =
      [{ x := box.w, y := 0 }, { x := 0, y := box.h }, { x := -box.w, y := 0 },
        { x := 0, y := -box.h }] := by
  unfold Box.toPolygon
  rw [newPolygon_edges_four]
  simp [Vector.zero]

/-- The polygons of the builders of the slope types 0 to 6 are strictly convex
and lie within the tile. -/
theorem builders_convex_low (type : Int) (hlo : 0 ≤ type) (hhi : type ≤ 6)
    (tile : Tile) (hw : 0 < tile.width) (hh : 0 < tile.height) :
    ∃ builder polygon,
      newTileSlopeFactory.definition (TypeValue.number type) = some (type, builder) ∧
      (builder type tile).polygon = some polygon ∧
      StrictlyConvex polygon ∧ WithinTile polygon tile := by
  have hwh : 0 < tile.width * tile.height := mul_pos hw hh
  interval_cases type <;> (refine ⟨_, _, rfl, rfl, ⟨?_, ?_⟩, ?_⟩ <;> [skip; skip; skip])
  all_goals
    simp only [createFull, createHalfBottom, createHalfTop, createHalfLeft, createHalfRight,
      createHalfBottomLeft, createHalfBottomRight, createHalfTopLeft, createHalfTopRight,
      createQuarterBottomLeftLow, createQuarterBottomLeftHigh,
      createQuarterBottomRightLow, createQuarterBottomRightHigh,
      createQuarterLeftBottomLow, createQuarterLeftBottomHigh,
      createQuarterRightBottomLow, createQuarterRightBottomHigh, createQuarterLeftTopLow,
      createQuarterLeftTopHigh, createQuarterRightTopLow, createQuarterRightTopHigh,
      createQuarterTopLeftLow, createQuarterTopLeftHigh, createQuarterTopRightLow,
      createQuarterTopRightHigh,
      StrictlyConvex, WithinTile, toPolygon_edges, newPolygon_edges_three,
      newPolygon_edges_four, newPolygon_points, toPolygon_points, edgeTurns_three,
      edgeTurns_four, cross, Vector.zero, List.length_cons, List.length_nil,
      List.forall_mem_cons, List.not_mem_nil, IsEmpty.forall_iff, implies_true, and_true]
  all_goals first
    | (norm_num; done)
    | (left; split_ands <;> nlinarith [hwh])
    | (split_ands <;> linarith)

/-- The polygons of the builders of the slope types 7 to 12 are strictly convex
and lie within the tile. -/
theorem builders_convex_mid (type : Int) (hlo : 7 ≤ type) (hhi : type ≤ 12)
    (tile : Tile) (hw : 0 < tile.width) (hh : 0 < tile.height) :
    ∃ builder polygon,
      newTileSlopeFactory.definition (TypeValue.number type) = some (type, builder) ∧
      (builder type tile).polygon = some polygon ∧
      StrictlyConvex polygon ∧ WithinTile polygon tile := by
  have hwh : 0 < tile.width * tile.height := mul_pos hw hh
  interval_cases type <;> (refine ⟨_, _, rfl, rfl, ⟨?_, ?_⟩, ?_⟩ <;> [skip; skip; skip])
  all_goals
    simp only [createFull, createHalfBottom, createHalfTop, createHalfLeft, createHalfRight,
      createHalfBottomLeft, createHalfBottomRight, createHalfTopLeft, createHalfTopRight,
      createQuarterBottomLeftLow, createQuarterBottomLeftHigh,
      createQuarterBottomRightLow, createQuarterBottomRightHigh,
      createQuarterLeftBottomLow, createQuarterLeftBottomHigh,
      createQuarterRightBottomLow, createQuarterRightBottomHigh, createQuarterLeftTopLow,
      createQuarterLeftTopHigh, createQuarterRightTopLow, createQuarterRightTopHigh,
      createQuarterTopLeftLow, createQuarterTopLeftHigh, createQuarterTopRightLow,
      createQuarterTopRightHigh,
      StrictlyConvex, WithinTile, toPolygon_edges, newPolygon_edges_three,
      newPolygon_edges_four, newPolygon_points, toPolygon_points, edgeTurns_three,
      edgeTurns_four, cross, Vector.zero, List.length_cons, List.length_nil,
      List.forall_mem_cons, List.not_mem_nil, IsEmpty.forall_iff, implies_true, and_true]
  all_goals first
    | (norm_num; done)
    | (left; split_ands <;> nlinarith [hwh])
    | (right; split_ands <;> nlinarith [hwh])
    | (split_ands <;> linarith)

/-- The polygons of the builders of the slope types 13 to 18 are strictly convex
and lie within the tile. -/
theorem builders_convex_high (type : Int) (hlo : 13 ≤ type) (hhi : type ≤ 18)
    (tile : Tile) (hw : 0 < tile.width) (hh : 0 < tile.height) :
    ∃ builder polygon,
      newTileSlopeFactory.definition (TypeValue.number type) = some (type, builder) ∧
      (builder type tile).polygon = some polygon ∧
      StrictlyConvex polygon ∧ WithinTile polygon tile := by
  have hwh : 0 < tile.width * tile.height := mul_pos hw hh
  interval_cases type <;> (refine ⟨_, _, rfl, rfl, ⟨?_, ?_⟩, ?_⟩ <;> [skip; skip; skip])
  all_goals
    simp only [createFull, createHalfBottom, createHalfTop, createHalfLeft, createHalfRight,
      createHalfBottomLeft, createHalfBottomRight, createHalfTopLeft, createHalfTopRight,
      createQuarterBottomLeftLow, createQuarterBottomLeftHigh,
      createQuarterBottomRightLow, createQuarterBottomRightHigh,
      createQuarterLeftBottomLow, createQuarterLeftBottomHigh,
      createQuarterRightBottomLow, createQuarterRightBottomHigh, createQuarterLeftTopLow,
      createQuarterLeftTopHigh, createQuarterRightTopLow, createQuarterRightTopHigh,
      createQuarterTopLeftLow, createQuarterTopLeftHigh, createQuarterTopRightLow,
      createQuarterTopRightHigh,
      StrictlyConvex, WithinTile, toPolygon_edges, newPolygon_edges_three,
      newPolygon_edges_four, newPolygon_points, toPolygon_points, edgeTurns_three,
      edgeTurns_four, cross, Vector.zero, List.length_cons, List.length_nil,
      List.forall_mem_cons, List.not_mem_nil, IsEmpty.forall_iff, implies_true, and_true]
  all_goals first
    | (norm_num; done)
    | (left; split_ands <;> nlinarith [hwh])
    | (split_ands <;> linarith)

/-- The polygons of the builders of the slope types 19 to 24 are strictly convex
and lie within the tile. -/
theorem builders_convex_top (type : Int) (hlo : 19 ≤ type) (hhi : type ≤ 24)
    (tile : Tile) (hw : 0 < tile.width) (hh : 0 < tile.height) :
    ∃ builder polygon,
      newTileSlopeFactory.definition (TypeValue.number type) = some (type, builder) ∧
      (builder type tile).polygon = some polygon ∧
      StrictlyConvex polygon ∧ WithinTile polygon tile := by
  have hwh : 0 < tile.width * tile.height := mul_pos hw hh
  interval_cases type <;> (refine ⟨_, _, rfl, rfl, ⟨?_, ?_⟩, ?_⟩ <;> [skip; skip; skip])
  all_goals
    simp only [createFull, createHalfBottom, createHalfTop, createHalfLeft, createHalfRight,
      createHalfBottomLeft, createHalfBottomRight, createHalfTopLeft, createHalfTopRight,
      createQuarterBottomLeftLow, createQuarterBottomLeftHigh,
      createQuarterBottomRightLow, createQuarterBottomRightHigh,
      createQuarterLeftBottomLow, createQuarterLeftBottomHigh,
      createQuarterRightBottomLow, createQuarterRightBottomHigh, createQuarterLeftTopLow,
      createQuarterLeftTopHigh, createQuarterRightTopLow, createQuarterRightTopHigh,
      createQuarterTopLeftLow, createQuarterTopLeftHigh, createQuarterTopRightLow,
      createQuarterTopRightHigh,
      StrictlyConvex, WithinTile, toPolygon_edges, newPolygon_edges_three,
      newPolygon_edges_four, newPolygon_points, toPolygon_points, edgeTurns_three,
      edgeTurns_four, cross, Vector.zero, List.length_cons, List.length_nil,
      List.forall_mem_cons, List.not_mem_nil, IsEmpty.forall_iff, implies_true, and_true]
  all_goals first
    | (norm_num; done)
    | (left; split_ands <;> nlinarith [hwh])
    | (split_ands <;> linarith)

/-- C37: for every slope type and every tile of positive width and height, the
polygon the registered builder makes is strictly convex and not degenerate, the
cross products of all pairs of consecutive edges being non-zero and of one
sign, and every one of its points lies within the rectangle of the tile. -/
theorem builders_convex (type : Int) (h0 : 0 ≤ type) (h24 : type ≤ 24)
    (tile : Tile) (hw : 0 < tile.width) (hh : 0 < tile.height) :
    ∃ builder polygon,
      newTileSlopeFactory.definition (TypeValue.number type) = some (type, builder) ∧
      (builder type tile).polygon = some polygon ∧
      StrictlyConvex polygon ∧ (∀ turn ∈ edgeTurns polygon.edges, turn ≠ 0) ∧
      WithinTile polygon tile := by
  have hmain : ∃ builder polygon,
      newTileSlopeFactory.definition (TypeValue.number type) = some (type, builder) ∧
      (builder type tile).polygon = some polygon ∧
      StrictlyConvex polygon ∧ WithinTile polygon tile := by
    rcases le_or_lt type 6 with h6 | h6
    · exact builders_convex_low type h0 h6 tile hw hh
    rcases le_or_lt type 12 with h12 | h12
    · exact builders_convex_mid type (by omega) h12 tile hw hh
    rcases le_or_lt type 18 with h18 | h18
    · exact builders_convex_high type (by omega) h18 tile hw hh
    · exact builders_convex_top type (by omega) h24 tile hw hh
  obtain ⟨builder, polygon, hdef, hpolygon, hconvex, hwithin⟩ := hmain
  refine ⟨builder, polygon, hdef, hpolygon, hconvex, ?_, hwithin⟩
  intro turn hturn
  rcases hconvex.2 with h | h
  · exact ne_of_gt (h turn hturn)
  · exact ne_of_lt (h turn hturn)

/-- C37 at `QUARTER_BOTTOM_RIGHT_HIGH` on the 16 by 16 sample tile: the four
cross products are `-128`, `-128`, `-256` and `-256`. -/
theorem builders_convex_witness :
    (0 : Int) ≤ QUARTER_BOTTOM_RIGHT_HIGH ∧ QUARTER_BOTTOM_RIGHT_HIGH ≤ 24 ∧
    0 < sampleBase.width ∧ 0 < sampleBase.height ∧
    ∃ polygon,
      (createQuarterBottomRightHigh QUARTER_BOTTOM_RIGHT_HIGH sampleBase).polygon =
        some polygon ∧
      edgeTurns polygon.edges = [-128, -128, -256, -256] ∧
      StrictlyConvex polygon ∧ WithinTile polygon sampleBase := by
  have hw : 0 < sampleBase.width := by norm_num [sampleBase]
  have hh : 0 < sampleBase.height := by norm_num [sampleBase]
  obtain ⟨builder, polygon, hdef, hpolygon, hconvex, -, hwithin⟩ :=
    builders_convex QUARTER_BOTTOM_RIGHT_HIGH (by decide) (by decide) sampleBase hw hh
  have hbuilder : builder = createQuarterBottomRightHigh := by
    have h : newTileSlopeFactory.definition (TypeValue.number QUARTER_BOTTOM_RIGHT_HIGH) =
        some (QUARTER_BOTTOM_RIGHT_HIGH, createQuarterBottomRightHigh) := rfl
    rw [h] at hdef
    simp only [Option.some.injEq, Prod.mk.injEq, true_and] at hdef
    exact hdef.symm
  subst hbuilder
  refine ⟨by decide, by decide, hw, hh, polygon, hpolygon, ?_, hconvex, hwithin⟩
  simp only [createQuarterBottomRightHigh, Option.some.injEq] at hpolygon
  subst hpolygon
  norm_num [newPolygon_edges_four, edgeTurns_four, cross, sampleBase]

end ArcadeSlopes

namespace ArcadeSlopes

open SAT

/-- What `mapM` into `Option` returns: a list as long as the one given, each
entry the result on an entry of the list given. -/
theorem mapM_some {α β : Type} (f : α → Option β) :
    ∀ (l : List α) (out : List β), l.mapM f = some out →
      out.length = l.length ∧ ∀ b ∈ out, ∃ a ∈ l, f a = some b := by
  intro l
  induction l with
  | nil =>
    intro out h
    simp only [List.mapM_nil, Option.pure_def, Option.some.injEq] at h
    subst h
    simp
  | cons a l ih =>
    intro out h
    rw [List.mapM_cons] at h
    cases ha : f a with
    | none =>
      rw [ha] at h
      exact absurd h (by simp)
    | some b =>
      cases hl : l.mapM f with
      | none =>
        rw [ha, hl] at h
        exact absurd h (by simp)
      | some bs =>
        rw [ha, hl] at h
        simp only [Option.pure_def, Option.bind_eq_bind, Option.some_bind,
          Option.some.injEq] at h
        subst h
        obtain ⟨hlen, hmem⟩ := ih bs hl
        refine ⟨by simp [hlen], ?_⟩
        intro b' hb'
        rcases List.mem_cons.mp hb' with h | h
        · exact ⟨a, List.mem_cons_self _ _, by rw [h]; exact ha⟩
        · obtain ⟨a', ha', hfa'⟩ := hmem b' h
          exact ⟨a', List.mem_cons_of_mem _ ha', hfa'⟩

/-- Both overlap entries of a direction are well formed. -/
theorem resolveOverlaps_wellFormed (direction : String) (overlaps : Constraint × Constraint)
    (h : resolveOverlaps direction = some overlaps) :
    overlaps.1.WellFormed ∧ overlaps.2.WellFormed := by
  unfold resolveOverlaps at h
  split_ifs at h <;> simp only [Option.some.injEq] at h <;> subst h <;>
    norm_num [Constraint.WellFormed]

/-- A checked rule is prepared into a well-formed rule, whose `separate` is
`true` when the rule has none. -/
theorem prepareRule_wellFormed (rule : InformalRule) (hcheck : rule.check = true) :
    ∃ prepared, prepareRule rule = some prepared ∧ prepared.WellFormed ∧
      (rule.separate = none → prepared.separate = Separate.flag true) := by
  unfold InformalRule.check at hcheck
  simp only [Bool.and_eq_true, decide_eq_true_eq] at hcheck
  obtain ⟨⟨hdir, hneighbour⟩, htypes⟩ := hcheck
  obtain ⟨d, hd, hne, hknown⟩ : ∃ d, rule.direction = some d ∧ d ≠ "" ∧
      (resolveOverlaps d).isSome = true := by
    simp only [List.mem_cons, List.mem_singleton, List.not_mem_nil, or_false] at hdir
    rcases hdir with h | h | h | h <;> exact ⟨_, h, by decide, rfl⟩
  cases hres : resolveOverlaps d with
  | none =>
    rw [hres] at hknown
    exact absurd hknown (by simp)
  | some resolved =>
    obtain ⟨h1, h2⟩ := resolveOverlaps_wellFormed d resolved hres
    have hprep : ∃ prepared, prepareRule rule = some prepared ∧
        prepared.neighbour = rule.neighbour ∧ prepared.overlapX = some resolved.1 ∧
        prepared.overlapY = some resolved.2 ∧
        prepared.types = rule.types.map (fun types => types.map resolveType) ∧
        (rule.separate = none → prepared.separate = Separate.flag true) := by
      unfold prepareRule
      simp only [hd, hne, if_false, hres]
      exact ⟨_, rfl, rfl, rfl, rfl, rfl, fun h => by simp only [h]⟩
    obtain ⟨prepared, hprepared, hn, hx, hy, ht, hseparate⟩ := hprep
    refine ⟨prepared, hprepared, ⟨by rw [hn]; exact hneighbour, ⟨_, hx, h1⟩, ⟨_, hy, h2⟩, ?_⟩,
      hseparate⟩
    cases htypes' : rule.types with
    | none =>
      rw [htypes'] at htypes
      exact absurd htypes (by simp)
    | some types =>
      rw [htypes'] at htypes ht
      simp only [Bool.and_eq_true, Bool.not_eq_true', List.all_eq_true] at htypes
      refine ⟨types.map resolveType, ht, ?_, ?_⟩
      · intro hnil
        have hempty : types = [] := List.map_eq_nil_iff.mp hnil
        rw [hempty] at htypes
        exact absurd htypes.1 (by simp)
      · intro type htype
        obtain ⟨written, hwritten, hresolved⟩ := List.mem_map.mp htype
        rw [← hresolved]
        exact htypes.2 written hwritten

/-- Every rule `setDefaultRestraints` writes passes the check, and no slope
type is given an empty list of rules. -/
theorem informalRestraints_check :
    (informalRestraints.all fun entry =>
      !entry.2.isEmpty && entry.2.all InformalRule.check) = true := by
  rfl

/-- The rule list the prepared object holds under a slope type is the prepared
form of a rule list of the object given. -/
theorem lookupRestraints_prepared (restraints : List (String × List InformalRule))
    (prepared : List (TypeValue × List Rule)) (type : Int) (rules : List Rule)
    (hprepared : prepareRestraints restraints = some prepared)
    (hrules : lookupRestraints prepared type = some rules) :
    ∃ entry ∈ restraints, entry.2.mapM prepareRule = some rules := by
  unfold lookupRestraints at hrules
  obtain ⟨found, hfound, hsnd⟩ := Option.map_eq_some'.mp hrules
  have hmem : found ∈ prepared := List.mem_reverse.mp (List.mem_of_find?_eq_some hfound)
  obtain ⟨entry, hentry, hmade⟩ := (mapM_some _ restraints prepared hprepared).2 found hmem
  refine ⟨entry, hentry, ?_⟩
  cases hinner : entry.2.mapM prepareRule with
  | none =>
    simp only [hinner] at hmade
    exact absurd hmade (by simp)
  | some restraint =>
    simp only [hinner, Option.some.injEq] at hmade
    rw [← hsnd, ← hmade]

/-- C40: the prepared default restraint table is well formed.  It holds a
non-empty list of rules for every slope type from 1 to 24 and none for `FULL`;
every rule in it has a neighbour key among the eight neighbour names, an
`overlapX` and an `overlapY` that are each a number or a pair `[lo, hi]` with
`lo ≤ hi`, and a non-empty list of accepted types that are all constants of
slope types; every rule `setDefaultRestraints` writes has a prepared form,
with `separate` true where the written rule has none; and with this table
`restrain` returns for every tile that has a slope. -/
theorem defaultRestraints_wellFormed :
    (∀ type : Int, 0 ≤ type → type ≤ 24 → type ≠ FULL →
      ∃ rules, defaultRestraints type = some rules ∧ rules ≠ [] ∧
        ∀ rule ∈ rules, rule.WellFormed) ∧
    defaultRestraints FULL = none ∧
    (∀ entry ∈ informalRestraints, ∀ written ∈ entry.2,
      ∃ rule, prepareRule written = some rule ∧ rule.WellFormed ∧
        (written.separate = none → rule.separate = Separate.flag true)) ∧
    (∀ (σ : Type) (collideOnAxis : Body → Tile → Vector → σ → σ) (body : Body) (tile : Tile)
      (response : Response) (s : σ), tile.slope ≠ none →
      ∃ result, restrain defaultRestraints collideOnAxis body tile response s = some result) := by
  have hchecked : ∀ entry ∈ informalRestraints,
      entry.2 ≠ [] ∧ ∀ written ∈ entry.2, written.check = true := by
    have h := informalRestraints_check
    simp only [List.all_eq_true, Bool.and_eq_true, Bool.not_eq_true', List.isEmpty_eq_false] at h
    intro entry hentry
    exact ⟨(h entry hentry).1, (h entry hentry).2⟩
  refine ⟨?_, rfl, ?_, ?_⟩
  · intro type h0 h24 hfull
    have hsome : (defaultRestraints type).isSome = true := by
      interval_cases type
      · exact absurd rfl hfull
      all_goals rfl
    obtain ⟨rules, hrules⟩ := Option.isSome_iff_exists.mp hsome
    refine ⟨rules, hrules, ?_⟩
    unfold defaultRestraints at hrules
    cases hprepared : prepareRestraints informalRestraints with
    | none =>
      rw [hprepared] at hrules
      exact absurd hrules (by simp)
    | some prepared =>
      rw [hprepared] at hrules
      obtain ⟨entry, hentry, hmade⟩ :=
        lookupRestraints_prepared informalRestraints prepared type rules hprepared hrules
      obtain ⟨hlen, hfrom⟩ := mapM_some prepareRule entry.2 rules hmade
      obtain ⟨hne, hcheck⟩ := hchecked entry hentry
      refine ⟨?_, ?_⟩
      · intro hnil
        rw [hnil] at hlen
        exact hne (List.length_eq_zero.mp hlen.symm)
      · intro rule hrule
        obtain ⟨written, hwritten, hrule'⟩ := hfrom rule hrule
        obtain ⟨rule', hprep, hwell, -⟩ := prepareRule_wellFormed written (hcheck written hwritten)
        rw [hprep, Option.some.injEq] at hrule'
        rw [← hrule']
        exact hwell
  · intro entry hentry written hwritten
    exact prepareRule_wellFormed written ((hchecked entry hentry).2 written hwritten)
  · intro σ collideOnAxis body tile response s hslope
    unfold restrain
    split_ifs
    · exact ⟨_, rfl⟩
    · cases hn : tile.neighbours with
      | none => exact ⟨_, rfl⟩
      | some neighbours =>
        cases hs : tile.slope with
        | none => exact absurd hs hslope
        | some slope =>
          cases hr : defaultRestraints slope.type with
          | none =>
            simp only [hr]
            exact ⟨_, rfl⟩
          | some rules =>
            simp only [hr]
            exact ⟨_, rfl⟩

/-- C40 at `QUARTER_BOTTOM_LEFT_LOW`: the table holds three rules for it, each
well formed. -/
theorem defaultRestraints_wellFormed_witness :
    (0 : Int) ≤ QUARTER_BOTTOM_LEFT_LOW ∧ QUARTER_BOTTOM_LEFT_LOW ≤ 24 ∧
    QUARTER_BOTTOM_LEFT_LOW ≠ FULL ∧
    ∃ rules, defaultRestraints QUARTER_BOTTOM_LEFT_LOW = some rules ∧ rules.length = 3 ∧
      ∀ rule ∈ rules, rule.WellFormed := by
  obtain ⟨rules, hrules, -, hwell⟩ :=
    defaultRestraints_wellFormed.1 QUARTER_BOTTOM_LEFT_LOW (by decide) (by decide) (by decide)
  refine ⟨by decide, by decide, by decide, rules, hrules, ?_, hwell⟩
  have hlen : ((defaultRestraints QUARTER_BOTTOM_LEFT_LOW).map List.length) = some 3 := rfl
  rw [hrules] at hlen
  simpa using hlen

end ArcadeSlopes

namespace ArcadeSlopes

/-- The mirror of a type name is a type name, and mirroring twice gives the
name back. -/
theorem mirrorName_typeNames :
    mirrorName "HALF_TOP" = "HALF_TOP" ∧
    mirrorName "QUARTER_BOTTOM_LEFT_LOW" = "QUARTER_BOTTOM_RIGHT_LOW" ∧
    mirrorName "QUARTER_RIGHT_TOP_HIGH" = "QUARTER_LEFT_TOP_HIGH" ∧
    (∀ entry ∈ typeNames, mirrorName entry.2 ∈ typeNames.map Prod.snd ∧
      mirrorName (mirrorName entry.2) = entry.2) := by
  decide

/-- C39 as stated fails at the first rule of `HALF_TOP`, a type that is its own
mirror: the rule has the neighbour `left` and the direction `left`, and the
rule at the same position of the same list cannot have the neighbour `right`.
So the table is not mirrored position by position. -/
theorem restraints_mirror_counterexample :
    mirrorName "HALF_TOP" = "HALF_TOP" ∧
    (∃ rule ∈ informalRuleAt "HALF_TOP" 0,
      rule.neighbour = "left" ∧ rule.direction = some "left" ∧
      mirrorKey rule.neighbour = "right" ∧
      ∃ mirrored ∈ informalRuleAt (mirrorName "HALF_TOP") 0,
        mirrored.neighbour = "left" ∧ ¬ MirrorsKeys rule mirrored) ∧
    ¬ (∀ entry ∈ informalRestraints, ∀ i, i < entry.2.length → ∀ rule ∈ entry.2[i]?,
        ∃ mirrored ∈ informalRuleAt (mirrorName entry.1) i,
          MirrorsKeys rule mirrored ∧ MirrorsTypes [] rule mirrored) := by
  decide

/-- C39, amended: the table `setDefaultRestraints` writes is mirrored in its
neighbour keys and directions.  For every slope type `T` with rules, the mirror
of `T` has a list of as many rules, and for every rule of `T` the rule of the
mirror at the same position (for `HALF_TOP` and `HALF_BOTTOM`, which are their
own mirrors, at the position counted from the other end) has the mirrored
neighbour and the mirrored direction.  Its types are the mirrors of the rule's
types as far as the names other than `QUARTER_TOP_LEFT_LOW` and
`QUARTER_TOP_RIGHT_LOW` go, but for the first rules of
`QUARTER_LEFT_BOTTOM_LOW` and `QUARTER_RIGHT_BOTTOM_LOW`. -/
theorem restraints_mirror :
    ∀ entry ∈ informalRestraints,
      (∃ rules ∈ informalRestraints.lookup (mirrorName entry.1),
        rules.length = entry.2.length) ∧
      ∀ i, i < entry.2.length → ∀ rule ∈ entry.2[i]?,
        ∃ mirrored ∈ informalRuleAt (mirrorName entry.1) (mirrorIndex entry.1 entry.2.length i),
          MirrorsKeys rule mirrored ∧
          ((entry.1, i) ∉ unmirroredRules → MirrorsTypes unmirroredNames rule mirrored) := by
  decide

/-- C39, amended, at the first rule of `HALF_BOTTOM_LEFT`, which has the
neighbour `bottomRight` and the direction `right`: the first rule of
`HALF_BOTTOM_RIGHT` has the neighbour `bottomLeft` and the direction `left`. -/
theorem restraints_mirror_witness :
    ∃ entry ∈ informalRestraints[4]?, entry ∈ informalRestraints ∧
      entry.1 = "HALF_BOTTOM_LEFT" ∧ 0 < entry.2.length ∧
      ∃ rule ∈ entry.2[0]?, rule.neighbour = "bottomRight" ∧ rule.direction = some "right" ∧
        ∃ mirrored ∈ informalRuleAt "HALF_BOTTOM_RIGHT" 0,
          mirrored.neighbour = "bottomLeft" ∧ mirrored.direction = some "left" ∧
          MirrorsKeys rule mirrored := by
  obtain ⟨entry, h4, hname, hlen, rule, hrule, hneighbour, hdirection⟩ :
      ∃ entry, informalRestraints[4]? = some entry ∧ entry.1 = "HALF_BOTTOM_LEFT" ∧
        0 < entry.2.length ∧ ∃ rule, entry.2[0]? = some rule ∧ rule.neighbour = "bottomRight" ∧
          rule.direction = some "right" :=
    ⟨_, rfl, rfl, by decide, _, rfl, rfl, rfl⟩
  have hmem : entry ∈ informalRestraints := List.mem_iff_getElem?.mpr ⟨4, h4⟩
  obtain ⟨mirrored, hmirrored, hkeys, -⟩ := (restraints_mirror entry hmem).2 0 hlen rule hrule
  have hname' : mirrorName "HALF_BOTTOM_LEFT" = "HALF_BOTTOM_RIGHT" := by decide
  have hindex : mirrorIndex "HALF_BOTTOM_LEFT" entry.2.length 0 = 0 := by
    unfold mirrorIndex
    rw [hname', if_neg (by decide)]
  rw [hname, hname', hindex] at hmirrored
  refine ⟨entry, h4, hmem, hname, hlen, rule, hrule, hneighbour, hdirection, mirrored, hmirrored,
    ?_, ?_, hkeys⟩
  · rw [hkeys.1, hneighbour]
    decide
  · rw [hkeys.2, hdirection]
    decide

end ArcadeSlopes

namespace ArcadeSlopes

/-- Comparing a flag with the facing flag after that one has been compared with
it gives what comparing the two original flags gives. -/
theorem compareEdges_twice (a b : Int) :
    compareEdges a (compareEdges b a) = compareEdges a b := by
  unfold compareEdges
  simp only [SOLID, EMPTY]
  split_ifs <;> simp_all

/-- Two facing flags that have been compared with each other are left as they
are by another comparison. -/
theorem compareEdges_settled (a b : Int) :
    compareEdges (compareEdges a b) (compareEdges b a) = compareEdges a b := by
  unfold compareEdges
  simp only [SOLID, EMPTY]
  split_ifs <;> simp_all

/-- The flags the pass settles are those of the simultaneous version. -/
theorem settledEdges_eq (layer : LayerData) (x y : Nat) (slope : TileSlope) :
    settledEdges layer x y slope = simultaneousEdges layer x y slope := by
  unfold settledEdges simultaneousEdges
  cases slopeOf (getTileAbove layer x y) <;> cases slopeOf (getTileBelow layer x y) <;>
    cases slopeOf (getTileLeft layer x y) <;> cases slopeOf (getTileRight layer x y) <;>
    simp only [compareEdges_twice]

/-- The tile the pass settles is that of the simultaneous version. -/
theorem settledTile_eq (layer : LayerData) (x y : Nat) :
    settledTile layer x y = (layer.tileAt x y).map (simultaneousCell layer x y) := by
  unfold settledTile simultaneousCell
  cases h : layer.tileAt x y with
  | none => rfl
  | some tile =>
    cases hs : tile.slope with
    | none => simp [hs]
    | some slope => simp [hs, settledEdges_eq]

/-- The read of a cell of the simultaneous version. -/
theorem calculateEdgesSimultaneous_tileAt (layer : LayerData) (x y : Nat) :
    (calculateEdgesSimultaneous layer).tileAt x y =
      if x < layer.width ∧ y < layer.height then
        (layer.tileAt x y).map (simultaneousCell layer x y)
      else layer.tileAt x y := by
  unfold calculateEdgesSimultaneous LayerData.tileAt
  simp only [List.getElem?_mapIdx]
  cases hrow : layer.data[y]? with
  | none => simp
  | some row =>
    simp only [Option.map_some', List.getElem?_mapIdx]
    cases hcell : row[x]? with
    | none => simp
    | some cell =>
      simp only [Option.map_some']

/-- Two layers of one shape that read the same in every cell are equal. -/
theorem LayerData.ext_tileAt (a b : LayerData) (hshape : a.shape = b.shape)
    (h : ∀ x y, a.tileAt x y = b.tileAt x y) : a = b := by
  obtain ⟨aw, ah, ad⟩ := a
  obtain ⟨bw, bh, bd⟩ := b
  simp only [LayerData.shape, Prod.mk.injEq] at hshape
  obtain ⟨hw, hh, hlen⟩ := hshape
  subst hw hh
  have hdata : ad = bd := by
    apply List.ext_getElem?
    intro y
    have hy : (ad[y]?).map List.length = (bd[y]?).map List.length := by
      rw [← List.getElem?_map, ← List.getElem?_map, hlen]
    cases hra : ad[y]? with
    | none =>
      cases hrb : bd[y]? with
      | none => rfl
      | some rb => rw [hra, hrb] at hy; exact absurd hy (by simp)
    | some ra =>
      cases hrb : bd[y]? with
      | none => rw [hra, hrb] at hy; exact absurd hy (by simp)
      | some rb =>
        rw [hra, hrb] at hy
        simp only [Option.map_some', Option.some.injEq] at hy
        congr 1
        apply List.ext_getElem?
        intro x
        have hxy := h x y
        simp only [LayerData.tileAt, hra, hrb] at hxy
        cases hca : ra[x]? with
        | none =>
          cases hcb : rb[x]? with
          | none => rfl
          | some cb =>
            have h1 : x < rb.length := by
              by_contra hc
              rw [List.getElem?_eq_none (by omega)] at hcb
              exact Option.noConfusion hcb
            rw [List.getElem?_eq_none_iff] at hca
            omega
        | some ca =>
          cases hcb : rb[x]? with
          | none =>
            have h1 : x < ra.length := by
              by_contra hc
              rw [List.getElem?_eq_none (by omega)] at hca
              exact Option.noConfusion hca
            rw [List.getElem?_eq_none_iff] at hcb
            omega
          | some cb =>
            rw [hca, hcb] at hxy
            simp only at hxy
            rw [hxy]
  rw [hdata]

/-- A fold of steps that each keep a quantity keeps it. -/
theorem foldl_keeps {α β γ : Type} (f : β → α → β) (g : β → γ) (h : ∀ b a, g (f b a) = g b) :
    ∀ (l : List α) (b : β), g (l.foldl f b) = g b := by
  intro l
  induction l with
  | nil => intro b; rfl
  | cons a l ih => intro b; rw [List.foldl_cons, ih, h]

/-- Replacing a tile keeps the shape of the layer. -/
theorem setTile_shape (layer : LayerData) (x y : Nat) (tile : Tile) :
    (layer.setTile x y tile).shape = layer.shape := by
  unfold LayerData.setTile
  cases hrow : layer.data[y]? with
  | none => rfl
  | some row =>
    simp only [LayerData.shape, Prod.mk.injEq, true_and]
    apply List.ext_getElem?
    intro j
    rw [List.getElem?_map, List.getElem?_map, List.getElem?_set]
    by_cases hj : y = j
    · subst hj
      have hy : y < layer.data.length := by
        by_contra hc
        rw [List.getElem?_eq_none (by omega)] at hrow
        exact Option.noConfusion hrow
      simp [hy, hrow]
    · simp [hj]

/-- The body of the inner loop keeps the shape of the layer. -/
theorem calculateEdgesAt_shape (layer : LayerData) (y x : Nat) :
    (calculateEdgesAt layer y x).shape = layer.shape := by
  unfold calculateEdgesAt
  split
  · rfl
  · split
    · rfl
    · exact setTile_shape _ _ _ _

/-- The pass keeps the shape of the layer. -/
theorem calculateEdges_shape (layer : LayerData) : (calculateEdges layer).shape = layer.shape := by
  unfold calculateEdges
  apply foldl_keeps _ LayerData.shape
  intro cur y
  unfold calculateEdgesRow
  have hcols : ∀ (cols : List Nat) (b : LayerData),
      (cols.foldl (fun l x => calculateEdgesAt l y x) b).shape = b.shape :=
    foldl_keeps _ LayerData.shape (fun b x => calculateEdgesAt_shape b y x)
  exact hcols _ cur

/-- The simultaneous version keeps the shape of the layer. -/
theorem calculateEdgesSimultaneous_shape (layer : LayerData) :
    (calculateEdgesSimultaneous layer).shape = layer.shape := by
  simp only [calculateEdgesSimultaneous, LayerData.shape, Prod.mk.injEq, true_and]
  apply List.ext_getElem?
  intro j
  simp only [List.getElem?_map, List.getElem?_mapIdx, Option.map_map]
  cases layer.data[j]? with
  | none => rfl
  | some row => simp

/-- The slope a neighbour shows after the pass is its slope before it, with the
settled flags. -/
theorem slopeOf_calculateEdges (layer : LayerData) (x y : Nat)
    (hx : x < layer.width) (hy : y < layer.height) :
    slopeOf ((calculateEdges layer).tileAt x y) =
      (slopeOf (layer.tileAt x y)).map
        (fun other => { other with edges := simultaneousEdges layer x y other }) := by
  rw [calculateEdges_tileAt, if_pos ⟨hx, hy⟩, slopeOf_settledTile]
  simp only [settledEdges_eq]

/-- The flags the simultaneous version gives a slope are left as they are by
the simultaneous version on the layer after the pass. -/
theorem simultaneousEdges_settled (layer : LayerData) (x y : Nat) (tile : Tile)
    (slope : TileSlope) (hx : x < layer.width) (hy : y < layer.height)
    (htile : layer.tileAt x y = some tile) (hslope : tile.slope = some slope) :
    simultaneousEdges (calculateEdges layer) x y
        { slope with edges := simultaneousEdges layer x y slope } =
      simultaneousEdges layer x y slope := by
  have hshape := calculateEdges_shape layer
  simp only [LayerData.shape, Prod.mk.injEq] at hshape
  obtain ⟨hw, hh, -⟩ := hshape
  have hself : slopeOf (layer.tileAt x y) = some slope := by
    rw [htile]
    exact hslope
  -- the neighbour above
  have habove : slopeOf (getTileAbove (calculateEdges layer) x y) =
      (slopeOf (getTileAbove layer x y)).map
        (fun other => { other with edges := simultaneousEdges layer x (y - 1) other }) := by
    unfold getTileAbove
    by_cases h0 : y > 0
    · rw [if_pos h0, if_pos h0]
      exact slopeOf_calculateEdges layer x (y - 1) hx (by omega)
    · rw [if_neg h0, if_neg h0]
      rfl
  have haboveBack : ∀ other, slopeOf (getTileAbove layer x y) = some other →
      slopeOf (getTileBelow layer x (y - 1)) = some slope := by
    intro other hother
    have h0 : y > 0 := by
      by_contra hc
      unfold getTileAbove at hother
      rw [if_neg hc] at hother
      exact Option.noConfusion hother
    unfold getTileBelow
    rw [if_pos (by omega), Nat.sub_add_cancel h0]
    exact hself
  -- the neighbour below
  have hbelow : slopeOf (getTileBelow (calculateEdges layer) x y) =
      (slopeOf (getTileBelow layer x y)).map
        (fun other => { other with edges := simultaneousEdges layer x (y + 1) other }) := by
    unfold getTileBelow
    rw [hh]
    by_cases h0 : (y : Int) < (layer.height : Int) - 1
    · rw [if_pos h0, if_pos h0]
      exact slopeOf_calculateEdges layer x (y + 1) hx (by omega)
    · rw [if_neg h0, if_neg h0]
      rfl
  have hbelowBack : ∀ other, slopeOf (getTileBelow layer x y) = some other →
      slopeOf (getTileAbove layer x (y + 1)) = some slope := by
    intro other _
    unfold getTileAbove
    rw [if_pos (by omega), Nat.add_sub_cancel]
    exact hself
  -- the neighbour to the left
  have hleft : slopeOf (getTileLeft (calculateEdges layer) x y) =
      (slopeOf (getTileLeft layer x y)).map
        (fun other => { other with edges := simultaneousEdges layer (x - 1) y other }) := by
    unfold getTileLeft
    by_cases h0 : x > 0
    · rw [if_pos h0, if_pos h0]
      exact slopeOf_calculateEdges layer (x - 1) y (by omega) hy
    · rw [if_neg h0, if_neg h0]
      rfl
  have hleftBack : ∀ other, slopeOf (getTileLeft layer x y) = some other →
      slopeOf (getTileRight layer (x - 1) y) = some slope := by
    intro other hother
    have h0 : x > 0 := by
      by_contra hc
      unfold getTileLeft at hother
      rw [if_neg hc] at hother
      exact Option.noConfusion hother
    unfold getTileRight
    rw [if_pos (by omega), Nat.sub_add_cancel h0]
    exact hself
  -- the neighbour to the right
  have hright : slopeOf (getTileRight (calculateEdges layer) x y) =
      (slopeOf (getTileRight layer x y)).map
        (fun other => { other with edges := simultaneousEdges layer (x + 1) y other }) := by
    unfold getTileRight
    rw [hw]
    by_cases h0 : (x : Int) < (layer.width : Int) - 1
    · rw [if_pos h0, if_pos h0]
      exact slopeOf_calculateEdges layer (x + 1) y (by omega) hy
    · rw [if_neg h0, if_neg h0]
      rfl
  have hrightBack : ∀ other, slopeOf (getTileRight layer x y) = some other →
      slopeOf (getTileLeft layer (x + 1) y) = some slope := by
    intro other _
    unfold getTileLeft
    rw [if_pos (by omega), Nat.add_sub_cancel]
    exact hself
  have htop : (simultaneousEdges (calculateEdges layer) x y
      { slope with edges := simultaneousEdges layer x y slope }).top =
      (simultaneousEdges layer x y slope).top := by
    simp only [simultaneousEdges]
    rw [habove]
    cases hother : slopeOf (getTileAbove layer x y) with
    | none => rfl
    | some other =>
      have hfacing : (simultaneousEdges layer x (y - 1) other).bottom =
          compareEdges other.edges.bottom slope.edges.top := by
        simp only [simultaneousEdges, haboveBack other hother]
      simp only [Option.map_some']
      rw [hfacing]
      exact compareEdges_settled _ _
  have hbottom : (simultaneousEdges (calculateEdges layer) x y
      { slope with edges := simultaneousEdges layer x y slope }).bottom =
      (simultaneousEdges layer x y slope).bottom := by
    simp only [simultaneousEdges]
    rw [hbelow]
    cases hother : slopeOf (getTileBelow layer x y) with
    | none => rfl
    | some other =>
      have hfacing : (simultaneousEdges layer x (y + 1) other).top =
          compareEdges other.edges.top slope.edges.bottom := by
        simp only [simultaneousEdges, hbelowBack other hother]
      simp only [Option.map_some']
      rw [hfacing]
      exact compareEdges_settled _ _
  have hl : (simultaneousEdges (calculateEdges layer) x y
      { slope with edges := simultaneousEdges layer x y slope }).left =
      (simultaneousEdges layer x y slope).left := by
    simp only [simultaneousEdges]
    rw [hleft]
    cases hother : slopeOf (getTileLeft layer x y) with
    | none => rfl
    | some other =>
      have hfacing : (simultaneousEdges layer (x - 1) y other).right =
          compareEdges other.edges.right slope.edges.left := by
        simp only [simultaneousEdges, hleftBack other hother]
      simp only [Option.map_some']
      rw [hfacing]
      exact compareEdges_settled _ _
  have hr : (simultaneousEdges (calculateEdges layer) x y
      { slope with edges := simultaneousEdges layer x y slope }).right =
      (simultaneousEdges layer x y slope).right := by
    simp only [simultaneousEdges]
    rw [hright]
    cases hother : slopeOf (getTileRight layer x y) with
    | none => rfl
    | some other =>
      have hfacing : (simultaneousEdges layer (x + 1) y other).left =
          compareEdges other.edges.left slope.edges.right := by
        simp only [simultaneousEdges, hrightBack other hother]
      simp only [Option.map_some']
      rw [hfacing]
      exact compareEdges_settled _ _
  cases hA : simultaneousEdges (calculateEdges layer) x y
      { slope with edges := simultaneousEdges layer x y slope } with
  | mk t b l r =>
    cases hB : simultaneousEdges layer x y slope with
    | mk t' b' l' r' =>
      rw [hA, hB] at htop hbottom hl hr
      simp only at htop hbottom hl hr
      rw [htop, hbottom, hl, hr]

/-- C38: `calculateEdges`, which rewrites the flags in place as it scans the
grid row by row, gives for every layer exactly the layer of the simultaneous
version, in which every flag is compared once with the facing flag of its
neighbour as it is before the pass; and a second run of `calculateEdges`
changes nothing. -/
theorem calculateEdges_simultaneous (layer : LayerData) :
    calculateEdges layer = calculateEdgesSimultaneous layer ∧
    calculateEdges (calculateEdges layer) = calculateEdges layer := by
  have hshape := calculateEdges_shape layer
  have hsize := hshape
  simp only [LayerData.shape, Prod.mk.injEq] at hsize
  obtain ⟨hw, hh, -⟩ := hsize
  constructor
  · apply LayerData.ext_tileAt
    · rw [hshape, calculateEdgesSimultaneous_shape]
    · intro x y
      rw [calculateEdges_tileAt, calculateEdgesSimultaneous_tileAt, settledTile_eq]
  · apply LayerData.ext_tileAt
    · exact calculateEdges_shape _
    · intro x y
      rw [calculateEdges_tileAt (calculateEdges layer), hw, hh]
      by_cases hin : x < layer.width ∧ y < layer.height
      · rw [if_pos hin, settledTile_eq, calculateEdges_tileAt, if_pos hin, settledTile_eq]
        cases htile : layer.tileAt x y with
        | none => rfl
        | some tile =>
          simp only [Option.map_some', Option.some.injEq]
          cases hslope : tile.slope with
          | none => simp [simultaneousCell, hslope]
          | some slope =>
            simp only [simultaneousCell, hslope,
              simultaneousEdges_settled layer x y tile slope hin.1 hin.2 htile hslope]
      · rw [if_neg hin]

end ArcadeSlopes

namespace ArcadeSlopes

/-- The read of a cell of a layer whose tiles have all been rewritten by one
function. -/
theorem tileAt_map (layer : LayerData) (f : Tile → Tile) (x y : Nat) :
    LayerData.tileAt
        { layer with data := layer.data.map fun row => row.map fun cell => cell.map f } x y =
      (layer.tileAt x y).map f := by
  unfold LayerData.tileAt
  simp only [List.getElem?_map]
  cases layer.data[y]? with
  | none => rfl
  | some row =>
    simp only [Option.map_some', List.getElem?_map]
    cases row[x]? with
    | none => rfl
    | some cell => rfl

/-- A cell that is read holds what the data holds. -/
theorem tileAt_mem (layer : LayerData) (x y : Nat) (tile : Tile)
    (h : layer.tileAt x y = some tile) : ∃ row ∈ layer.data, some tile ∈ row := by
  unfold LayerData.tileAt at h
  cases hrow : layer.data[y]? with
  | none => simp [hrow] at h
  | some row =>
    simp only [hrow] at h
    cases hcell : row[x]? with
    | none => simp [hcell] at h
    | some cell =>
      simp only [hcell] at h
      subst h
      exact ⟨row, List.getElem?_mem hrow, List.getElem?_mem hcell⟩

/-- The pass over the edges keeps the index of every tile, whether it has a
slope, and the type of its slope. -/
theorem calculateEdges_keeps (layer : LayerData) (x y : Nat) :
    ((calculateEdges layer).tileAt x y).map
        (fun tile => (tile.index, tile.slope.map fun slope => slope.type)) =
      (layer.tileAt x y).map
        (fun tile => (tile.index, tile.slope.map fun slope => slope.type)) := by
  rw [calculateEdges_tileAt]
  split_ifs
  · unfold settledTile
    cases layer.tileAt x y with
    | none => rfl
    | some tile =>
      cases hs : tile.slope with
      | none => simp [hs]
      | some slope => simp [hs]
  · rfl

/-- Every builder a new factory has registered gives the slope the type it is
called with, whatever value that is, and the registered types are the integers
0 to 24. -/
theorem definitions_types :
    (∀ entry ∈ newTileSlopeFactory.definitions, ∀ (type : TypeValue) (tile : Tile),
      (entry.2 type tile).type = type) ∧
    (∀ n : Int, n ∈ newTileSlopeFactory.definitions.map Prod.fst ↔ 0 ≤ n ∧ n ≤ 24) := by
  constructor
  · intro entry hentry type tile
    simp only [newTileSlopeFactory, List.mem_cons, List.mem_singleton, List.not_mem_nil,
      or_false] at hentry
    rcases hentry with h | h | h | h | h | h | h | h | h | h | h | h | h | h | h | h | h | h |
      h | h | h | h | h | h | h <;> subst h <;> rfl
  · intro n
    have hkeys : newTileSlopeFactory.definitions.map Prod.fst =
        [0, 21, 22, 23, 24, 1, 2, 3, 4, 5, 6, 7, 8, 9, 10, 11, 12, 13, 14, 15, 16, 17, 18, 19,
          20] := rfl
    rw [hkeys]
    constructor
    · intro h
      have hall : ∀ k ∈ ([0, 21, 22, 23, 24, 1, 2, 3, 4, 5, 6, 7, 8, 9, 10, 11, 12, 13, 14, 15,
          16, 17, 18, 19, 20] : List Int), 0 ≤ k ∧ k ≤ 24 := by decide
      exact hall n h
    · rintro ⟨h0, h24⟩
      interval_cases n <;> decide

/-- A new factory has a builder for a value exactly when the value is the key
of one of the integers 0 to 24; the entry found is a registered one, under a
number the value is the key of. -/
theorem definition_spec (type : TypeValue) :
    (newTileSlopeFactory.definition type ≠ none ↔
      ∃ n : Int, 0 ≤ n ∧ n ≤ 24 ∧ type.isKeyOf n = true) ∧
    ∀ entry, newTileSlopeFactory.definition type = some entry →
      entry ∈ newTileSlopeFactory.definitions ∧ type.isKeyOf entry.1 = true := by
  have hfound : ∀ entry, newTileSlopeFactory.definition type = some entry →
      entry ∈ newTileSlopeFactory.definitions ∧ type.isKeyOf entry.1 = true := by
    intro entry h
    unfold TileSlopeFactory.definition at h
    have hp := List.find?_some h
    exact ⟨List.mem_reverse.mp (List.mem_of_find?_eq_some h), hp⟩
  refine ⟨?_, hfound⟩
  constructor
  · intro h
    obtain ⟨entry, hentry⟩ := Option.ne_none_iff_exists'.mp h
    obtain ⟨hmem, hkey⟩ := hfound entry hentry
    have hn := (definitions_types.2 entry.1).mp (List.mem_map_of_mem Prod.fst hmem)
    exact ⟨entry.1, hn.1, hn.2, hkey⟩
  · rintro ⟨n, h0, h24, hkey⟩ hnone
    obtain ⟨entry, hmem, hfst⟩ := List.mem_map.mp ((definitions_types.2 n).mpr ⟨h0, h24⟩)
    unfold TileSlopeFactory.definition at hnone
    rw [List.find?_eq_none] at hnone
    have := hnone entry (List.mem_reverse.mpr hmem)
    rw [hfst] at this
    exact this hkey

/-- What `convertTilemapLayer` leaves in a cell: the tile `attachSlope` makes
of the tile that was there, as far as its index, the presence of a slope and
the type of the slope go. -/
theorem convertTilemapLayer_tileAt (factory : TileSlopeFactory) (layer : LayerData)
    (slopeMap : Int → Option TypeValue)
    (hall : (layer.data.all fun row => row.all Option.isSome) = true) :
    ∃ converted, factory.convertTilemapLayer layer slopeMap = some converted ∧
      ∀ x y, (converted.tileAt x y).map
          (fun tile => (tile.index, tile.slope.map fun slope => slope.type)) =
        (layer.tileAt x y).map
          (fun tile => ((attachSlope factory slopeMap tile).index,
            (attachSlope factory slopeMap tile).slope.map fun slope => slope.type)) := by
  unfold TileSlopeFactory.convertTilemapLayer
  rw [if_pos hall]
  refine ⟨_, rfl, ?_⟩
  intro x y
  rw [tileAt_map, Option.map_map]
  have hkeeps := calculateEdges_keeps (LayerData.mk layer.width layer.height
    (layer.data.map fun row => row.map fun cell => cell.map (attachSlope factory slopeMap))) x y
  have hmap := tileAt_map layer (attachSlope factory slopeMap) x y
  rw [hmap, Option.map_map] at hkeeps
  exact hkeeps

/-- C27: for a layer all of whose cells hold a tile, none with a slope,
`convertTilemapLayer` returns, and afterwards a tile has a slope if and only if
its index is a key of the slope map and a builder is registered for the type the
mapped value resolves to; the type of the attached slope is that resolved
value, what `resolveType` returns for the mapped value (the constant for a
number and for a type name; for a numeric string, which `resolveType` returns
as it is, that string).  `create` returns `null` exactly for the values whose
resolved type has no builder, `UNKNOWN` among them, and the types that have
one are those that name one of the integers 0 to 24. -/
theorem convertTilemapLayer_slopes (layer : LayerData) (slopeMap : Int → Option TypeValue)
    (hcells : ∀ row ∈ layer.data, ∀ cell ∈ row, cell ≠ none)
    (hbare : ∀ x y tile, layer.tileAt x y = some tile → tile.slope = none) :
    (∃ converted, newTileSlopeFactory.convertTilemapLayer layer slopeMap = some converted ∧
      ∀ x y tile, layer.tileAt x y = some tile →
        ∃ tile', converted.tileAt x y = some tile' ∧ tile'.index = tile.index ∧
          (tile'.slope ≠ none ↔
            ∃ value, slopeMap tile.index = some value ∧
              newTileSlopeFactory.definition (resolveType value) ≠ none) ∧
          ∀ slope, tile'.slope = some slope →
            ∃ value, slopeMap tile.index = some value ∧ slope.type = resolveType value) ∧
    (∀ tile, newTileSlopeFactory.create (TypeValue.number UNKNOWN) tile = none) ∧
    (∀ value tile, newTileSlopeFactory.create value tile = none ↔
      newTileSlopeFactory.definition (resolveType value) = none) ∧
    (∀ type, newTileSlopeFactory.definition type ≠ none ↔
      ∃ n : Int, 0 ≤ n ∧ n ≤ 24 ∧ type.isKeyOf n = true) := by
  have hcreate : ∀ value tile, newTileSlopeFactory.create value tile =
      (newTileSlopeFactory.definition (resolveType value)).map
        (fun entry => entry.2 (resolveType value) tile) := by
    intro value tile
    unfold TileSlopeFactory.create
    cases h : newTileSlopeFactory.definition (resolveType value) with
    | none => simp only [h, Option.map_none']
    | some entry => simp only [h, Option.map_some']
  have hattach : ∀ tile : Tile, tile.slope = none →
      (attachSlope newTileSlopeFactory slopeMap tile).index = tile.index ∧
      (attachSlope newTileSlopeFactory slopeMap tile).slope =
        (slopeMap tile.index).bind fun value => newTileSlopeFactory.create value tile := by
    intro tile hslope
    unfold attachSlope
    cases hmap : slopeMap tile.index with
    | none => exact ⟨rfl, hslope⟩
    | some value =>
      cases hc : newTileSlopeFactory.create value tile with
      | none => simp only [Option.some_bind, hc, hslope, and_self]
      | some slope => simp only [Option.some_bind, hc, and_self]
  refine ⟨?_, ?_, ?_, fun type => (definition_spec type).1⟩
  · have hall : (layer.data.all fun row => row.all Option.isSome) = true := by
      simp only [List.all_eq_true]
      intro row hrow cell hcell
      exact Option.ne_none_iff_isSome.mp (hcells row hrow cell hcell)
    obtain ⟨converted, hconverted, hread⟩ :=
      convertTilemapLayer_tileAt newTileSlopeFactory layer slopeMap hall
    refine ⟨converted, hconverted, ?_⟩
    intro x y tile htile
    have hslope := hbare x y tile htile
    obtain ⟨hindex, hattached⟩ := hattach tile hslope
    have hkeeps := hread x y
    rw [htile] at hkeeps
    cases hafter : converted.tileAt x y with
    | none =>
      rw [hafter] at hkeeps
      exact absurd hkeeps (by simp)
    | some after =>
      rw [hafter] at hkeeps
      simp only [Option.map_some', Option.some.injEq, Prod.mk.injEq] at hkeeps
      obtain ⟨hi, hs⟩ := hkeeps
      rw [hindex] at hi
      rw [hattached] at hs
      refine ⟨after, rfl, hi, ?_, ?_⟩
      · constructor
        · intro hne
          cases hmap : slopeMap tile.index with
          | none =>
            rw [hmap] at hs
            simp only [Option.none_bind, Option.map_none', Option.map_eq_none'] at hs
            exact absurd hs hne
          | some value =>
            refine ⟨value, rfl, ?_⟩
            intro hnone
            rw [hmap, Option.some_bind, hcreate, hnone] at hs
            simp only [Option.map_none', Option.map_eq_none'] at hs
            exact hne hs
        · rintro ⟨value, hmap, hdef⟩ hnone
          obtain ⟨entry, hentry⟩ := Option.ne_none_iff_exists'.mp hdef
          rw [hmap, Option.some_bind, hcreate, hentry, hnone] at hs
          simp at hs
      · intro slope hslope'
        rw [hslope'] at hs
        cases hmap : slopeMap tile.index with
        | none =>
          rw [hmap] at hs
          simp at hs
        | some value =>
          refine ⟨value, rfl, ?_⟩
          rw [hmap, Option.some_bind, hcreate] at hs
          cases hdef : newTileSlopeFactory.definition (resolveType value) with
          | none =>
            rw [hdef] at hs
            simp at hs
          | some entry =>
            rw [hdef] at hs
            simp only [Option.map_some', Option.some.injEq] at hs
            obtain ⟨hmem, hkey⟩ := (definition_spec (resolveType value)).2 entry hdef
            rw [hs]
            exact definitions_types.1 entry hmem (resolveType value) tile
  · intro tile
    rw [hcreate]
    rfl
  · intro value tile
    rw [hcreate]
    exact Option.map_eq_none'

/-- C27 on a layer of three tiles with the indices 7, 9 and 3 and the slope
map `{7: 'HALF_TOP', 3: '21'}`: the first tile gets a slope of type 22, the
constant of `HALF_TOP`; the second gets none; the third gets a slope whose type
is the string `21`, the value `resolveType` returns for that string. -/
theorem convertTilemapLayer_slopes_witness :
    (∀ row ∈ sampleBareLayer.data, ∀ cell ∈ row, cell ≠ none) ∧
    (∀ x y tile, sampleBareLayer.tileAt x y = some tile → tile.slope = none) ∧
    ∃ converted,
      newTileSlopeFactory.convertTilemapLayer sampleBareLayer sampleSlopeMap = some converted ∧
      (∃ first slope, converted.tileAt 0 0 = some first ∧ first.slope = some slope ∧
        slope.type = HALF_TOP) ∧
      (∃ second, converted.tileAt 1 0 = some second ∧ second.slope = none) ∧
      ∃ third slope, converted.tileAt 2 0 = some third ∧ third.slope = some slope ∧
        slope.type = TypeValue.string "21" := by
  have hcells : ∀ row ∈ sampleBareLayer.data, ∀ cell ∈ row, cell ≠ none := by
    intro row hrow cell hcell
    simp only [sampleBareLayer, List.mem_singleton] at hrow
    subst hrow
    simp only [List.mem_cons, List.mem_singleton, List.not_mem_nil, or_false] at hcell
    rcases hcell with h | h | h <;> subst h <;> simp
  have hbare : ∀ x y tile, sampleBareLayer.tileAt x y = some tile → tile.slope = none := by
    intro x y tile h
    obtain ⟨row, hrow, hcell⟩ := tileAt_mem sampleBareLayer x y tile h
    simp only [sampleBareLayer, List.mem_singleton] at hrow
    subst hrow
    simp only [List.mem_cons, List.mem_singleton, List.not_mem_nil, or_false,
      Option.some.injEq] at hcell
    rcases hcell with h | h | h <;> subst h <;> rfl
  obtain ⟨⟨converted, hconverted, htiles⟩, -, -, -⟩ :=
    convertTilemapLayer_slopes sampleBareLayer sampleSlopeMap hcells hbare
  refine ⟨hcells, hbare, converted, hconverted, ?_, ?_, ?_⟩
  · obtain ⟨first, hfirst, -, hiff, htype⟩ := htiles 0 0 _ rfl
    have hdef : newTileSlopeFactory.definition (resolveType (TypeValue.string "HALF_TOP")) =
        some (HALF_TOP, createHalfTop) := by rfl
    have hne : first.slope ≠ none :=
      hiff.mpr ⟨TypeValue.string "HALF_TOP", rfl, by rw [hdef]; exact Option.some_ne_none _⟩
    obtain ⟨slope, hslope⟩ := Option.ne_none_iff_exists'.mp hne
    obtain ⟨value, hvalue, hkey⟩ := htype slope hslope
    have hv : value = TypeValue.string "HALF_TOP" := by
      have h : sampleSlopeMap 7 = some (TypeValue.string "HALF_TOP") := rfl
      have hvalue' : sampleSlopeMap 7 = some value := hvalue
      rw [h] at hvalue'
      exact (Option.some.inj hvalue').symm
    subst hv
    have hresolved : resolveType (TypeValue.string "HALF_TOP") = TypeValue.number 22 := by rfl
    rw [hresolved] at hkey
    exact ⟨first, slope, hfirst, hslope, hkey⟩
  · obtain ⟨second, hsecond, -, hiff, -⟩ := htiles 1 0 _ rfl
    refine ⟨second, hsecond, ?_⟩
    by_contra hne
    obtain ⟨value, hvalue, -⟩ := hiff.mp hne
    have h : sampleSlopeMap 9 = none := rfl
    have hvalue' : sampleSlopeMap 9 = some value := hvalue
    rw [h] at hvalue'
    exact Option.noConfusion hvalue'
  · obtain ⟨third, hthird, -, hiff, htype⟩ := htiles 2 0 _ rfl
    have hdef : newTileSlopeFactory.definition (resolveType (TypeValue.string "21")) =
        some (HALF_BOTTOM, createHalfBottom) := by rfl
    have hne : third.slope ≠ none :=
      hiff.mpr ⟨TypeValue.string "21", rfl, by rw [hdef]; exact Option.some_ne_none _⟩
    obtain ⟨slope, hslope⟩ := Option.ne_none_iff_exists'.mp hne
    obtain ⟨value, hvalue, hkey⟩ := htype slope hslope
    have hv : value = TypeValue.string "21" := by
      have h : sampleSlopeMap 3 = some (TypeValue.string "21") := rfl
      have hvalue' : sampleSlopeMap 3 = some value := hvalue
      rw [h] at hvalue'
      exact (Option.some.inj hvalue').symm
    subst hv
    have hresolved : resolveType (TypeValue.string "21") = TypeValue.string "21" := by rfl
    rw [hresolved] at hkey
    exact ⟨third, slope, hthird, hslope, hkey⟩

end ArcadeSlopes

namespace SAT

/-- The flag `aInB` is never raised by `overlapOfRanges`, and it is left true
only when the range of `A` lies within the range of `B`. -/
theorem overlapOfRanges_aInB (rangeA rangeB : ℚ × ℚ) (r : Response)
    (h : (overlapOfRanges rangeA rangeB r).2.aInB = true) :
    r.aInB = true ∧ rangeB.1 ≤ rangeA.1 ∧ rangeA.2 ≤ rangeB.2 := by
  unfold overlapOfRanges at h
  by_cases h1 : rangeA.1 < rangeB.1
  · simp only [h1, if_true] at h
    by_cases h2 : rangeA.2 < rangeB.2
    · simp only [h2, if_true] at h
      exact absurd h (by simp)
    · simp only [h2, if_false] at h
      exact absurd h (by simp)
  · simp only [h1, if_false] at h
    by_cases h3 : rangeA.2 > rangeB.2
    · simp only [h3, if_true] at h
      exact absurd h (by simp)
    · simp only [h3, if_false] at h
      exact ⟨h, not_lt.mp h1, not_lt.mp h3⟩

/-- Recording the overlap leaves the flag `aInB` alone. -/
theorem recordOverlap_aInB (overlap : ℚ) (axis : Vector) (r : Response) :
    (recordOverlap overlap axis r).aInB = r.aInB := by
  unfold recordOverlap
  simp only
  split_ifs <;> rfl

/-- After an axis has been tested without a gap, the flag `aInB` is true only
if it was true before and the range of `A` on the axis lies within that of
`B`. -/
theorem recordAxis_aInB (A B : Polygon) (r : Response) (axis : Vector)
    (h : (recordAxis A B r axis).aInB = true) :
    r.aInB = true ∧
    (axisRanges A.pos B.pos A.calcPoints B.calcPoints axis).2.1 ≤
      (axisRanges A.pos B.pos A.calcPoints B.calcPoints axis).1.1 ∧
    (axisRanges A.pos B.pos A.calcPoints B.calcPoints axis).1.2 ≤
      (axisRanges A.pos B.pos A.calcPoints B.calcPoints axis).2.2 := by
  unfold recordAxis at h
  simp only [recordOverlap_aInB] at h
  exact overlapOfRanges_aInB _ _ _ h

/-- After a run of axes tested without a gap, the flag `aInB` is true only if
it was true before and on every one of the axes the range of `A` lies within
that of `B`. -/
theorem foldl_recordAxis_aInB (A B : Polygon) (axes : List Vector) :
    ∀ r : Response, (axes.foldl (recordAxis A B) r).aInB = true →
      r.aInB = true ∧ ∀ axis ∈ axes,
        (axisRanges A.pos B.pos A.calcPoints B.calcPoints axis).2.1 ≤
          (axisRanges A.pos B.pos A.calcPoints B.calcPoints axis).1.1 ∧
        (axisRanges A.pos B.pos A.calcPoints B.calcPoints axis).1.2 ≤
          (axisRanges A.pos B.pos A.calcPoints B.calcPoints axis).2.2 := by
  induction axes with
  | nil =>
    intro r h
    exact ⟨h, fun axis hax => absurd hax (List.not_mem_nil _)⟩
  | cons axis rest ih =>
    intro r h
    rw [List.foldl_cons] at h
    obtain ⟨hstep, hrest⟩ := ih _ h
    obtain ⟨hr, hrange⟩ := recordAxis_aInB A B r axis hstep
    refine ⟨hr, ?_⟩
    intro other hother
    rcases List.mem_cons.mp hother with heq | hmem
    · rw [heq]
      exact hrange
    · exact hrest other hmem

/-- When `testPolygonPolygon` returns true and leaves `aInB` true, the flag was
true before, and on every edge normal of `B` the range of `A` lies within the
range of `B`. -/
theorem testPolygonPolygon_aInB_ranges (A B : Polygon)
    (hB : B.normals.length = B.calcPoints.length)
    (r0 r : Response) (h : testPolygonPolygon A B (some r0) = some (true, some r))
    (hflag : r.aInB = true) :
    r0.aInB = true ∧ ∀ axis ∈ B.normals,
      (axisRanges A.pos B.pos A.calcPoints B.calcPoints axis).2.1 ≤
        (axisRanges A.pos B.pos A.calcPoints B.calcPoints axis).1.1 ∧
      (axisRanges A.pos B.pos A.calcPoints B.calcPoints axis).1.2 ≤
        (axisRanges A.pos B.pos A.calcPoints B.calcPoints axis).2.2 := by
  unfold testPolygonPolygon at h
  simp only [List.range_eq_range'] at h
  cases h1 : testAxes A.pos B.pos A.calcPoints B.calcPoints A.normals
      (List.range' 0 A.calcPoints.length) (some r0) with
  | none => simp [h1] at h
  | some res1 =>
    obtain ⟨b1, r1⟩ := res1
    cases b1 with
    | true => simp [h1] at h
    | false =>
      simp only [h1] at h
      obtain ⟨_, -, hr1⟩ := testAxes_false A B A.normals _ 0 r0 r1 h1
      rw [List.drop_zero] at hr1
      subst hr1
      cases h2 : testAxes A.pos B.pos A.calcPoints B.calcPoints B.normals
          (List.range' 0 B.calcPoints.length)
          (some (List.foldl (recordAxis A B) r0 (A.normals.take A.calcPoints.length))) with
      | none => simp [h2] at h
      | some res2 =>
        obtain ⟨b2, r2⟩ := res2
        cases b2 with
        | true => simp [h2] at h
        | false =>
          simp only [h2] at h
          obtain ⟨_, -, hr2⟩ := testAxes_false A B B.normals _ 0 _ r2 h2
          rw [List.drop_zero, ← hB, List.take_length] at hr2
          subst hr2
          simp only [Option.map_some', Option.some.injEq, Prod.mk.injEq, true_and] at h
          subst h
          obtain ⟨hmid, hranges⟩ := foldl_recordAxis_aInB A B B.normals _ hflag
          exact ⟨(foldl_recordAxis_aInB A B _ r0 hmid).1, hranges⟩

/-- In a cone spanned by two directions on which a functional has opposite
signs, a vector on which the functional is positive lies strictly to one side
of one of the two directions. -/
theorem cone_point (e1x e1y e2x e2y ux uy dx dy : ℝ)
    (h1 : 0 < ux * e1x + uy * e1y) (h2 : ux * e2x + uy * e2y < 0)
    (h5 : 0 < e1x * e2y - e1y * e2x) (h7 : 0 < ux * dx + uy * dy) :
    e1x * dy - e1y * dx < 0 ∨ e2x * dy - e2y * dx < 0 := by
  by_contra hcon
  push_neg at hcon
  obtain ⟨hc1, hc2⟩ := hcon
  have p1 := mul_pos h7 h5
  have p2 := mul_nonneg hc2 (le_of_lt h1)
  have p3 := mul_nonneg hc1 (le_of_lt (neg_pos.mpr h2))
  nlinarith [p1, p2, p3]

/-- The one vertex of a point polygon. -/
theorem pointPolygon_vertex (A : Polygon) (p : Vector) (i : Nat)
    (hi : i < (pointPolygon A p).calcPoints.length) : (pointPolygon A p).vertex i = p := by
  have h0 : i = 0 := by
    simp only [pointPolygon, List.length_singleton] at hi
    omega
  subst h0
  rfl

/-- A point that a linear functional puts strictly below every vertex of a
convex polygon `B` is cut off from `B` by the normal of one edge of `B`: on that
normal the projection of the point lies outside the projection of `B`. -/
theorem exists_normal_beyond (A B : Polygon) (hB : B.IsConvex) (p : Vector) (ux uy : ℝ)
    (hu : ∀ j < B.calcPoints.length,
      proj ux uy (A.pos.add p) < proj ux uy (B.pos.add (B.vertex j))) :
    ∃ i < B.calcPoints.length,
      ProjectionsDisjoint (pointPolygon A p) B (B.normals.getD i Vector.zero) := by
  have hnB : 0 < B.calcPoints.length := by have := hB.three; omega
  have hnA : 0 < (pointPolygon A p).calcPoints.length := by simp [pointPolygon]
  have hu' : ∀ i < (pointPolygon A p).calcPoints.length, ∀ j < B.calcPoints.length,
      proj ux uy ((pointPolygon A p).pos.add ((pointPolygon A p).vertex i)) <
        proj ux uy (B.pos.add (B.vertex j)) := by
    intro i hi j hj
    rw [pointPolygon_vertex A p i hi]
    exact hu j hj
  by_cases hgB : ∀ i < B.calcPoints.length, proj ux uy (B.edgeAt i) ≠ 0
  swap
  · push_neg at hgB
    obtain ⟨i, hi, hperp⟩ := hgB
    obtain ⟨c, hc, hax⟩ := hB.normal_eq i hi
    exact ⟨i, hi, projectionsDisjoint_of_perp (pointPolygon A p) B _ _ c ux uy hc hax
      (hB.edge_ne i hi) hnA hnB hperp hu'⟩
  have hgB' : ∀ i < B.calcPoints.length, proj (-ux) (-uy) (B.edgeAt i) ≠ 0 := by
    intro i hi h
    apply hgB i hi
    simp only [proj] at h ⊢
    linarith
  obtain ⟨k, hk, i1, hi1, i2, hi2, s, hs, -, hE1, hE2, hE12, hside⟩ :=
    vertex_cone B hB (-ux) (-uy) hgB'
  set E1 := (B.edgeAt i1).scale s with hE1def
  set E2 := (B.edgeAt i2).scale s with hE2def
  set w := B.vertex k with hw
  set d := (A.pos.add p).sub (B.pos.add w) with hd
  have hdpos : 0 < proj (-ux) (-uy) d := by
    rw [hd, proj_sub]
    have h := hu k hk
    simp only [proj] at h ⊢
    linarith
  have hcore := cone_point (E1.x : ℝ) E1.y E2.x E2.y (-ux) (-uy) d.x d.y hE1 hE2
    (by have := hE12; simp only [cross] at this; exact_mod_cast this) hdpos
  have hrelA : ∀ (E : Vector) (i : Nat), i < (pointPolygon A p).calcPoints.length →
      cross E ((pointPolygon A p).pos.add ((pointPolygon A p).vertex i)) =
        cross E (B.pos.add w) + cross E d := by
    intro E i hi
    rw [pointPolygon_vertex A p i hi]
    simp only [hd, pointPolygon, cross, Vector.add, Vector.sub]
    ring
  have hrelB : ∀ (E : Vector) (j : Nat),
      cross E (B.pos.add (B.vertex j)) = cross E (B.pos.add w) + cross E ((B.vertex j).sub w) := by
    intro E j
    simp only [cross, Vector.add, Vector.sub]
    ring
  rcases hcore with h1 | h1
  · have c1 : cross E1 d < 0 := by simp only [cross]; exact_mod_cast h1
    obtain ⟨c, hc, hax⟩ := hB.normal_eq i1 hi1
    refine ⟨i1, hi1, projectionsDisjoint_of_cross (pointPolygon A p) B _ _ c s hc hs hax
      (Or.inr ?_)⟩
    intro i hi j hj
    have hb := (hside j hj).1
    rw [hrelB _ j, hrelA _ i hi]
    linarith
  · have c1 : cross E2 d < 0 := by simp only [cross]; exact_mod_cast h1
    obtain ⟨c, hc, hax⟩ := hB.normal_eq i2 hi2
    refine ⟨i2, hi2, projectionsDisjoint_of_cross (pointPolygon A p) B _ _ c s hc hs hax
      (Or.inr ?_)⟩
    intro i hi j hj
    have hb := (hside j hj).2
    rw [hrelB _ j, hrelA _ i hi]
    linarith

/-- C36: for every polygon `A` and every convex polygon `B` with no edge of
length zero, whose projections on its own edge normals are finite doubles: when
`testPolygonPolygon` returns true and leaves the flag `aInB` of the response
true, every vertex of `A`, placed at the position of `A`, lies in `B`, placed at
the position of `B` (in the closed region, the boundary included). -/
theorem testPolygonPolygon_aInB (A B : Polygon) (hB : B.IsConvex)
    (hfin : ∀ axis ∈ B.normals, ∀ q ∈ B.calcPoints, |q.dot axis| ≤ MAX_VALUE)
    (r0 r : Response) (h : testPolygonPolygon A B (some r0) = some (true, some r))
    (hflag : r.aInB = true) :
    ∀ p ∈ A.calcPoints, B.Contains (worldPoint A.pos p) := by
  intro p hp
  by_contra hout
  have hnB : 0 < B.calcPoints.length := by have := hB.three; omega
  have hBne : B.calcPoints ≠ [] := by
    intro hnil
    rw [hnil] at hnB
    exact absurd hnB (by simp)
  have hdisj : ∀ q, ¬ ((pointPolygon A p).Contains q ∧ B.Contains q) := by
    rintro q ⟨hq1, hq2⟩
    have hset : {w | ∃ p' ∈ (pointPolygon A p).calcPoints,
        w = worldPoint (pointPolygon A p).pos p'} = {worldPoint A.pos p} := by
      ext w
      simp [pointPolygon]
    unfold Polygon.Contains at hq1
    rw [hset, convexHull_singleton, Set.mem_singleton_iff] at hq1
    rw [hq1] at hq2
    exact hout hq2
  obtain ⟨ux, uy, hu⟩ := exists_separating_functional (pointPolygon A p) B hdisj
  have hu' : ∀ j < B.calcPoints.length,
      proj ux uy (A.pos.add p) < proj ux uy (B.pos.add (B.vertex j)) := by
    intro j hj
    exact hu p (by simp [pointPolygon]) (B.vertex j) ((mem_calcPoints_iff B _).mpr ⟨j, hj, rfl⟩)
  obtain ⟨i, hi, hbeyond⟩ := exists_normal_beyond A B hB p ux uy hu'
  have haxis : B.normals.getD i Vector.zero ∈ B.normals :=
    getD_mem B.normals i (by rw [hB.normals_length]; exact hi)
  obtain ⟨-, hranges⟩ := testPolygonPolygon_aInB_ranges A B hB.normals_length r0 r h hflag
  obtain ⟨hlo, hhi⟩ := hranges _ haxis
  obtain ⟨hpLo, hpHi⟩ := flattenPointsOn_bounds A.calcPoints (B.normals.getD i Vector.zero) p hp
  obtain ⟨⟨q1, hq1, hq1eq⟩, ⟨q2, hq2, hq2eq⟩⟩ :=
    flattenPointsOn_attained B.calcPoints (B.normals.getD i Vector.zero) hBne (hfin _ haxis)
  simp only [axisRanges, dot_sub_eq] at hlo hhi
  rcases hbeyond with hlt | hlt
  · have h1 := hlt p (by simp [pointPolygon]) q1 hq1
    have hpos : (pointPolygon A p).pos = A.pos := rfl
    rw [hpos, dot_add_eq, dot_add_eq] at h1
    linarith
  · have h2 := hlt p (by simp [pointPolygon]) q2 hq2
    have hpos : (pointPolygon A p).pos = A.pos := rfl
    rw [hpos, dot_add_eq, dot_add_eq] at h2
    linarith

/-- The test of the unit square at the origin against itself. -/
theorem sample_coincident :
    testPolygonPolygon (unitSquareAt { x := 0, y := 0 }) (unitSquareAt { x := 0, y := 0 })
      (some ({} : Response).clear) = some (true, some sampleCoincident) := by
  have hM := MAX_VALUE_large
  have e1 : List.range 4 = [0, 1, 2, 3] := rfl
  simp only [testPolygonPolygon, unitSquareAt, List.length_cons, List.length_nil, e1, testAxes]
  have h0 : (0 : ℚ) < MAX_VALUE := by linarith
  have h1 : (1 : ℚ) < MAX_VALUE := by linarith
  have h2 : -MAX_VALUE < (0 : ℚ) := by linarith
  have h3 : -MAX_VALUE < (1 : ℚ) := by linarith
  have h4 : -MAX_VALUE < (-1 : ℚ) := by linarith
  have h5 : (-1 : ℚ) < MAX_VALUE := by linarith
  norm_num [isSeparatingAxis, axisRanges, flattenPointsOn, Vector.dot, Vector.sub,
    overlapOfRanges, recordOverlap, Response.clear, sampleCoincident, unitSquareAt,
    Vector.scale, Vector.reverse, Vector.zero, abs_div, abs_neg,
    h0, h1, h2, h3, h4, h5]

/-- C36 at the unit square at the origin tested against itself: the call
returns true with `aInB` true, and the corner `(1, 1)` of the square lies in the
square. -/
theorem testPolygonPolygon_aInB_witness :
    (unitSquareAt { x := 0, y := 0 }).IsConvex ∧
    testPolygonPolygon (unitSquareAt { x := 0, y := 0 }) (unitSquareAt { x := 0, y := 0 })
      (some ({} : Response).clear) = some (true, some sampleCoincident) ∧
    sampleCoincident.aInB = true ∧
    (unitSquareAt { x := 0, y := 0 }).Contains
      (worldPoint (unitSquareAt { x := 0, y := 0 }).pos { x := 1, y := 1 }) := by
  have hfin : ∀ axis ∈ (unitSquareAt { x := 0, y := 0 }).normals,
      ∀ q ∈ (unitSquareAt { x := 0, y := 0 }).calcPoints, |q.dot axis| ≤ MAX_VALUE := by
    have hM := MAX_VALUE_large
    have h0 : (0 : ℚ) ≤ MAX_VALUE := by linarith
    have h1 : (1 : ℚ) ≤ MAX_VALUE := by linarith
    intro axis hax q hq
    simp only [unitSquareAt, List.mem_cons, List.mem_singleton, List.not_mem_nil,
      or_false] at hax hq
    rcases hax with rfl | rfl | rfl | rfl <;> rcases hq with rfl | rfl | rfl | rfl <;>
      simp [Vector.dot, h0, h1]
  exact ⟨unitSquareAt_isConvex _, sample_coincident, rfl,
    testPolygonPolygon_aInB _ _ (unitSquareAt_isConvex _) hfin _ _ sample_coincident rfl
      { x := 1, y := 1 } (by simp [unitSquareAt])⟩

end SAT
